import Mathlib

/-!
# Terminal portfolio: sound synthesizer, canvas rain animation, terminal

A shallow embedding of `src/utils/audioGenerator.js`, `src/utils/soundEffects.js`,
`src/utils/backgroundAnimation.js`, `src/utils/accessibilityHelper.js`, and of
the command line of `src/App.jsx` with its data in `src/data/userData.js`.

JavaScript numbers are rationals.  A rational stands for the double nearest to
it (`toDouble`), and where the rounding of IEEE 754 arithmetic decides what the
program does (the products and sums of the tone parameters, the bound of the
loop that creates the drops, the recycling of a drop) the operation is
rounded as JavaScript rounds it (`jsMul`, `jsAdd`, `jsSub`); elsewhere the
arithmetic is exact.  The browser is
modelled by explicit host records (which audio constructors exist, which calls
throw, what `Math.random()` returns) and every call made on a host object is
appended to a chronological event log.
-/

/-! ## JavaScript numbers -/

/-- Rounding to the nearest integer, a tie going to the even neighbour. -/
def roundHalfEven (x : ℚ) : ℤ :=
  if x - ⌊x⌋ < 1 / 2 then ⌊x⌋
  else if 1 / 2 < x - ⌊x⌋ then ⌊x⌋ + 1
  else if ⌊x⌋ % 2 = 0 then ⌊x⌋
  else ⌊x⌋ + 1

/-- The double nearest to a positive rational: 53 significant bits, ties to even. -/
def roundPositive (x : ℚ) : ℚ :=
  roundHalfEven (x / 2 ^ (Int.log 2 x - 52)) * 2 ^ (Int.log 2 x - 52)

/-- The IEEE 754 double nearest to a rational. -/
def toDouble (q : ℚ) : ℚ :=
  if 0 < q then roundPositive q else if q < 0 then -roundPositive (-q) else 0

/-- Expression `a * b` on two doubles. -/
def jsMul (a b : ℚ) : ℚ := toDouble (toDouble a * toDouble b)

/-- Expression `a + b` on two doubles. -/
def jsAdd (a b : ℚ) : ℚ := toDouble (toDouble a + toDouble b)

/-- Expression `a - b` on two doubles. -/
def jsSub (a b : ℚ) : ℚ := toDouble (toDouble a - toDouble b)

/-! ## Web Audio host -/

/-- The browser as seen by `audioGenerator.js`. -/
structure AudioHost where
  /-- whether `typeof window !== 'undefined'` -/
  hasWindow : Bool
  /-- whether `window.AudioContext` is truthy -/
  hasAudioContext : Bool
  /-- whether `window.webkitAudioContext` is truthy -/
  hasWebkitAudioContext : Bool
  /-- whether `new AudioContext()` throws -/
  constructorThrows : Bool
  /-- the Web Audio call attempted when the log holds `n` events throws -/
  nodeThrows : Nat → Bool
  /-- the successive values returned by `Math.random()` -/
  random : Nat → ℚ

/-- Everything observable that the audio code does, in chronological order. -/
inductive AudioEvent where
  | consoleError (msg : String)
  | consoleWarn (msg : String)
  | newAudioContext (ctx : Nat)
  /-- the body of `generateSound` is entered with these destructured options -/
  | generateSound (type : String) (frequency duration volume attack decay detune : ℚ)
  | createOscillator (ctx osc : Nat)
  | setType (osc : Nat) (type : String)
  | setFrequency (osc : Nat) (value : ℚ)
  | setDetune (osc : Nat) (value : ℚ)
  | createGain (ctx gain : Nat)
  | setGainValue (gain : Nat) (value : ℚ)
  | connect (osc gain : Nat)
  | connectDestination (gain ctx : Nat)
  | setValueAtTime (gain : Nat) (value time : ℚ)
  | linearRampToValueAtTime (gain : Nat) (value time : ℚ)
  | exponentialRampToValueAtTime (gain : Nat) (value time : ℚ)
  | start (osc : Nat) (time : ℚ)
  | stop (osc : Nat) (time : ℚ)
  /-- the host fired `oscillator.onended` and the handler ran -/
  | onended (osc : Nat)
  | disconnectOscillator (osc : Nat)
  | disconnectGain (gain : Nat)
  deriving DecidableEq, Repr

/-- The `options` object handed to `generateSound`; an omitted property is `none`. -/
structure SoundOptions where
  type : Option String := none
  frequency : Option ℚ := none
  duration : Option ℚ := none
  volume : Option ℚ := none
  attack : Option ℚ := none
  decay : Option ℚ := none
  detune : Option ℚ := none
  deriving DecidableEq, Repr

/-- The values bound by the destructuring at the top of `generateSound`. -/
structure ToneSpec where
  type : String
  frequency : ℚ
  duration : ℚ
  volume : ℚ
  attack : ℚ
  decay : ℚ
  detune : ℚ
  deriving DecidableEq, Repr

/-- Destructuring with defaults (`audioGenerator.js` lines 162-171). -/
def SoundOptions.destructure (o : SoundOptions) : ToneSpec :=
  { type := o.type.getD "sine"
    frequency := o.frequency.getD 440
    duration := o.duration.getD 0.1
    volume := o.volume.getD 0.2
    attack := o.attack.getD 0.01
    decay := o.decay.getD 0.1
    detune := o.detune.getD 0 }

/-- Fields of the `AudioGenerator` instance. -/
structure AudioGenerator where
  context : Option Nat
  initialized : Bool
  deriving DecidableEq, Repr

/-- Fields of the `SoundEffects` instance. -/
structure SoundEffects where
  enabled : Bool
  initialized : Bool
  deriving DecidableEq, Repr

/-- A promise created by `generateSound` that is still waiting for
`oscillator.onended`, together with the `.then` callbacks chained on it
(the options of the tones still to be generated). -/
structure PendingTone where
  osc : Nat
  gain : Nat
  next : List SoundOptions
  deriving DecidableEq, Repr

/-- The two module singletons and the part of the browser they act on. -/
structure AudioWorld where
  gen : AudioGenerator
  sfx : SoundEffects
  /-- next fresh object identity (contexts, oscillators, gain nodes) -/
  nextId : Nat
  /-- value of `context.currentTime` -/
  currentTime : ℚ
  /-- number of `Math.random()` calls made so far -/
  draws : Nat
  log : List AudioEvent
  /-- promises waiting for an `onended` event -/
  waiting : List PendingTone
  /-- reactions of already resolved promises, not yet run -/
  microtasks : List (List SoundOptions)

/-- What a method returning a promise hands back, as far as the caller can tell
at the moment of the return. -/
inductive PromiseState where
  | fulfilled
  | pending
  deriving DecidableEq, Repr

/-- State of the module right after it is loaded: both constructors have run. -/
def AudioWorld.initial : AudioWorld :=
  { gen := { context := none, initialized := false }
    sfx := { enabled := false, initialized := false }
    nextId := 0
    currentTime := 0
    draws := 0
    log := []
    waiting := []
    microtasks := [] }

namespace AudioGenerator

/-- Method `init()` (lines 15-30). -/
def init (h : AudioHost) (w : AudioWorld) : AudioWorld × Bool :=
  if !h.hasWindow then (w, false)
  else if !(h.hasAudioContext || h.hasWebkitAudioContext) then (w, false)
  else if h.constructorThrows then
    ({ w with log := w.log ++ [AudioEvent.consoleError "Failed to initialize AudioGenerator:"] },
      false)
  else
    ({ w with
        gen := { context := some w.nextId, initialized := true }
        nextId := w.nextId + 1
        log := w.log ++ [AudioEvent.newAudioContext w.nextId] }, true)

/-- The guard `if (!this.initialized && !this.init()) return Promise.resolve();`:
the world after it, and whether the method goes on. -/
def ensureInit (h : AudioHost) (w : AudioWorld) : AudioWorld × Bool :=
  if w.gen.initialized then (w, true) else init h w

/-- The host calls of the `try` block of `generateSound`, in order. -/
def toneCalls (ctx osc gain : Nat) (now : ℚ) (t : ToneSpec) : List AudioEvent :=
  [ AudioEvent.createOscillator ctx osc,
    AudioEvent.setType osc t.type,
    AudioEvent.setFrequency osc t.frequency,
    AudioEvent.setDetune osc t.detune,
    AudioEvent.createGain ctx gain,
    AudioEvent.setGainValue gain 0,
    AudioEvent.connect osc gain,
    AudioEvent.connectDestination gain ctx,
    AudioEvent.setValueAtTime gain 0 now,
    AudioEvent.linearRampToValueAtTime gain t.volume (now + t.attack),
    AudioEvent.exponentialRampToValueAtTime gain 0.001 (now + t.attack + t.decay),
    AudioEvent.start osc now,
    AudioEvent.stop osc (now + t.duration) ]

/-- Runs host calls one after the other until one throws: the log reached and
whether all of them returned. -/
def attempt (throws : Nat → Bool) : List AudioEvent → List AudioEvent → List AudioEvent × Bool
  | log, [] => (log, true)
  | log, e :: es => if throws log.length then (log, false) else attempt throws (log ++ [e]) es

/-- Resolving a promise queues the callbacks chained on it with `.then`; the
promise handed back to the caller is settled only when nothing is chained. -/
def resolveNow (w : AudioWorld) (next : List SoundOptions) : AudioWorld × PromiseState :=
  if next.isEmpty then (w, PromiseState.fulfilled)
  else ({ w with microtasks := w.microtasks ++ [next] }, PromiseState.pending)

/-- The promise executor of `generateSound` (lines 173-209), with the options of
the `.then(() => this.generateSound(...))` callbacks `next` that the caller
chains on the returned promise.  When the `try` block completes, the promise
waits for `onended`; when a call throws, the error is logged and the promise is
resolved at once. -/
def schedule (h : AudioHost) (w : AudioWorld) (t : ToneSpec) (next : List SoundOptions) :
    AudioWorld × PromiseState :=
  let entered := w.log ++
    [AudioEvent.generateSound t.type t.frequency t.duration t.volume t.attack t.decay t.detune]
  let osc := w.nextId
  let gain := w.nextId + 1
  let caught (log : List AudioEvent) : AudioWorld × PromiseState :=
    resolveNow
      { w with
        nextId := w.nextId + 2
        log := log ++ [AudioEvent.consoleError "Error generating sound:"] } next
  match w.gen.context with
  | none => caught entered
  | some ctx =>
    match attempt h.nodeThrows entered (toneCalls ctx osc gain w.currentTime t) with
    | (log, true) =>
      ({ w with
          nextId := w.nextId + 2
          log := log
          waiting := w.waiting ++ [{ osc := osc, gain := gain, next := next }] },
        PromiseState.pending)
    | (log, false) => caught log

/-- Method `generateSound(options)` (lines 159-210), followed by the `.then` callbacks
`next` chained on its result. -/
def generateSound (h : AudioHost) (w : AudioWorld) (options : SoundOptions)
    (next : List SoundOptions) : AudioWorld × PromiseState :=
  match ensureInit h w with
  | (w1, false) => resolveNow w1 next
  | (w1, true) => schedule h w1 options.destructure next

/-- Method `typing()` (lines 36-48); the sum, the difference and the products
of the two draws are those of doubles. -/
def typing (h : AudioHost) (w : AudioWorld) : AudioWorld × PromiseState :=
  match ensureInit h w with
  | (w1, false) => (w1, PromiseState.fulfilled)
  | (w1, true) =>
    generateSound h { w1 with draws := w1.draws + 2 }
      { type := some "sine"
        frequency := some (jsAdd 600 (jsMul (h.random w1.draws) 200))
        duration := some 0.015
        volume := some 0.05
        attack := some 0.001
        decay := some 0.02
        detune := some (jsSub (jsMul (h.random (w1.draws + 1)) 30) 15) } []

/-- Method `enter()` (lines 54-66). -/
def enter (h : AudioHost) (w : AudioWorld) : AudioWorld × PromiseState :=
  match ensureInit h w with
  | (w1, false) => (w1, PromiseState.fulfilled)
  | (w1, true) =>
    generateSound h w1
      { type := some "triangle"
        frequency := some 400
        duration := some 0.08
        volume := some 0.15
        attack := some 0.001
        decay := some 0.1
        detune := some (-10) } []

/-- Method `error()` (lines 72-95); the product is that of doubles. -/
def error (h : AudioHost) (w : AudioWorld) : AudioWorld × PromiseState :=
  match ensureInit h w with
  | (w1, false) => (w1, PromiseState.fulfilled)
  | (w1, true) =>
    let baseFreq : ℚ := 200
    generateSound h w1
      { type := some "sawtooth"
        frequency := some (jsMul baseFreq 1.5)
        duration := some 0.1
        volume := some 0.2
        attack := some 0.001
        decay := some 0.1 }
      [ { type := some "sawtooth"
          frequency := some baseFreq
          duration := some 0.15
          volume := some 0.2
          attack := some 0.001
          decay := some 0.15 } ]

/-- Method `startup()` (lines 101-134); the products are those of doubles. -/
def startup (h : AudioHost) (w : AudioWorld) : AudioWorld × PromiseState :=
  match ensureInit h w with
  | (w1, false) => (w1, PromiseState.fulfilled)
  | (w1, true) =>
    let baseFreq : ℚ := 440
    let duration : ℚ := 0.15
    generateSound h w1
      { type := some "sine"
        frequency := some baseFreq
        duration := some duration
        volume := some 0.2
        attack := some 0.01
        decay := some duration }
      [ { type := some "sine"
          frequency := some (jsMul baseFreq 1.5)
          duration := some duration
          volume := some 0.2
          attack := some 0.01
          decay := some duration },
        { type := some "sine"
          frequency := some (jsMul baseFreq 2)
          duration := some (jsMul duration 1.5)
          volume := some 0.2
          attack := some 0.01
          decay := some (jsMul duration 1.5) } ]

/-- Method `click()` (lines 140-152); the sum, the difference and the products
of the two draws are those of doubles. -/
def click (h : AudioHost) (w : AudioWorld) : AudioWorld × PromiseState :=
  match ensureInit h w with
  | (w1, false) => (w1, PromiseState.fulfilled)
  | (w1, true) =>
    generateSound h { w1 with draws := w1.draws + 2 }
      { type := some "sine"
        frequency := some (jsAdd 800 (jsMul (h.random w1.draws) 300))
        duration := some 0.03
        volume := some 0.1
        attack := some 0.001
        decay := some 0.03
        detune := some (jsSub (jsMul (h.random (w1.draws + 1)) 20) 10) } []

end AudioGenerator

/-! ## Events delivered by the browser -/

namespace AudioWorld

/-- The browser fires `onended` on oscillator `osc`: the handler installed at
lines 200-204 disconnects both nodes and resolves the promise.  An oscillator
without a waiting promise has no handler. -/
def onended (w : AudioWorld) (osc : Nat) : AudioWorld :=
  match w.waiting.find? (fun p => p.osc == osc) with
  | none => w
  | some p =>
    (AudioGenerator.resolveNow
      { w with
        log := w.log ++ [AudioEvent.onended osc, AudioEvent.disconnectOscillator osc,
          AudioEvent.disconnectGain p.gain]
        waiting := w.waiting.filter (fun q => q.osc != osc) } p.next).1

/-- The browser runs the oldest queued promise reaction: the next
`() => this.generateSound(...)` callback of a chain. -/
def runMicrotask (h : AudioHost) (w : AudioWorld) : AudioWorld :=
  match w.microtasks with
  | [] => w
  | [] :: later => { w with microtasks := later }
  | (o :: next) :: later =>
    (AudioGenerator.generateSound h { w with microtasks := later } o next).1

/-- The audio clock moves on by `dt`. -/
def advance (w : AudioWorld) (dt : ℚ) : AudioWorld :=
  { w with currentTime := w.currentTime + dt }

end AudioWorld

namespace SoundEffects

/-- Method `init()` (`soundEffects.js` lines 15-22). -/
def init (h : AudioHost) (w : AudioWorld) : AudioWorld :=
  if !h.hasWindow || w.sfx.initialized then w
  else (AudioGenerator.init h { w with sfx := { w.sfx with initialized := true } }).1

/-- Method `enable()` (lines 29-32). -/
def enable (h : AudioHost) (w : AudioWorld) : AudioWorld :=
  init h { w with sfx := { w.sfx with enabled := true } }

/-- Method `disable()` (lines 37-39). -/
def disable (w : AudioWorld) : AudioWorld :=
  { w with sfx := { w.sfx with enabled := false } }

/-- Method `toggle()` (lines 44-48). -/
def toggle (h : AudioHost) (w : AudioWorld) : AudioWorld × Bool :=
  let w1 := { w with sfx := { w.sfx with enabled := !w.sfx.enabled } }
  let w2 := if w1.sfx.enabled then init h w1 else w1
  (w2, w2.sfx.enabled)

/-- Method `play(name)` (lines 53-76). -/
def play (h : AudioHost) (w : AudioWorld) (name : String) : AudioWorld :=
  if !w.sfx.enabled || !w.sfx.initialized then w
  else if name = "typing" then (AudioGenerator.typing h w).1
  else if name = "enter" then (AudioGenerator.enter h w).1
  else if name = "error" then (AudioGenerator.error h w).1
  else if name = "startup" then (AudioGenerator.startup h w).1
  else if name = "click" then (AudioGenerator.click h w).1
  else { w with log := w.log ++ [AudioEvent.consoleWarn ("Sound '" ++ name ++ "' not found")] }

end SoundEffects

/-! ## Reading the event log -/

/-- A host on which `init()` succeeds: a window, one of the two constructors,
and a constructor call that returns. -/
def AudioHost.capable (h : AudioHost) : Bool :=
  h.hasWindow && (h.hasAudioContext || h.hasWebkitAudioContext) && !h.constructorThrows

/-- A desktop browser: Web Audio present, nothing throws, `Math.random()`
returning `1/2`. -/
def AudioHost.browser : AudioHost :=
  { hasWindow := true
    hasAudioContext := true
    hasWebkitAudioContext := false
    constructorThrows := false
    nodeThrows := fun _ => false
    random := fun _ => 1 / 2 }

/-- Server-side rendering: no `window`. -/
def AudioHost.server : AudioHost :=
  { AudioHost.browser with hasWindow := false }

/-- The tones for which the body of `generateSound` was entered, oldest first. -/
def tonesGenerated : List AudioEvent → List ToneSpec
  | [] => []
  | AudioEvent.generateSound ty f d v a dc dt :: es =>
    ⟨ty, f, d, v, a, dc, dt⟩ :: tonesGenerated es
  | _ :: es => tonesGenerated es

/-- Number of audio output contexts constructed. -/
def contextsCreated : List AudioEvent → Nat
  | [] => 0
  | AudioEvent.newAudioContext _ :: es => contextsCreated es + 1
  | _ :: es => contextsCreated es

/-- Number of oscillator and gain nodes created. -/
def nodesCreated : List AudioEvent → Nat
  | [] => 0
  | AudioEvent.createOscillator _ _ :: es => nodesCreated es + 1
  | AudioEvent.createGain _ _ :: es => nodesCreated es + 1
  | _ :: es => nodesCreated es

/-- The gain automation events: `(target value, event time)`, oldest first. -/
def envelope : List AudioEvent → List (ℚ × ℚ)
  | [] => []
  | AudioEvent.setValueAtTime _ v t :: es => (v, t) :: envelope es
  | AudioEvent.linearRampToValueAtTime _ v t :: es => (v, t) :: envelope es
  | AudioEvent.exponentialRampToValueAtTime _ v t :: es => (v, t) :: envelope es
  | _ :: es => envelope es

/-- The two kinds of log entry that order the tones of an effect. -/
inductive ToneStep where
  | invoked (t : ToneSpec)
  | ended (osc : Nat)
  deriving DecidableEq, Repr

/-- The invocations of `generateSound` and the `onended` callbacks, oldest first. -/
def toneSteps : List AudioEvent → List ToneStep
  | [] => []
  | AudioEvent.generateSound ty f d v a dc dt :: es =>
    ToneStep.invoked ⟨ty, f, d, v, a, dc, dt⟩ :: toneSteps es
  | AudioEvent.onended osc :: es => ToneStep.ended osc :: toneSteps es
  | _ :: es => toneSteps es

/-- The module after a successful `audioGenerator.init()` in a browser. -/
def AudioWorld.ready : AudioWorld :=
  (AudioGenerator.init AudioHost.browser AudioWorld.initial).1

/-- The gain automation events that one call `generateSound(o)` adds. -/
def AudioGenerator.scheduledEnvelope (h : AudioHost) (w : AudioWorld) (o : SoundOptions) :
    List (ℚ × ℚ) :=
  (envelope (AudioGenerator.generateSound h w o []).1.log).drop (envelope w.log).length

/-- What "completes normally having created no node" means for a method result:
a fulfilled promise, the generator untouched, nothing waiting or queued that was
not there before, no oscillator or gain node created, no tone generated. -/
def AudioGenerator.SilentNoOp (w : AudioWorld) (r : AudioWorld × PromiseState) : Prop :=
  r.2 = PromiseState.fulfilled ∧ r.1.gen = w.gen ∧ r.1.waiting = w.waiting ∧
    r.1.microtasks = w.microtasks ∧ nodesCreated r.1.log = nodesCreated w.log ∧
    tonesGenerated r.1.log = tonesGenerated w.log

/-! ## Running an effect to its end -/

/-- What the browser can deliver to the audio code between two calls. -/
inductive HostEvent where
  | ended (osc : Nat)
  | microtask
  | advance (dt : ℚ)
  deriving DecidableEq, Repr

namespace AudioWorld

/-- One event delivered by the browser. -/
def deliver (h : AudioHost) (w : AudioWorld) : HostEvent → AudioWorld
  | HostEvent.ended osc => w.onended osc
  | HostEvent.microtask => w.runMicrotask h
  | HostEvent.advance dt => w.advance dt

/-- A sequence of events delivered by the browser, oldest first. -/
def run (h : AudioHost) (w : AudioWorld) (es : List HostEvent) : AudioWorld :=
  es.foldl (deliver h) w

/-- An initialised generator on the context `ctx` in which the oscillator of
every waiting promise is older than the next fresh identity. -/
def Fresh (w : AudioWorld) (ctx : Nat) : Prop :=
  w.gen.initialized = true ∧ w.gen.context = some ctx ∧ ∀ p ∈ w.waiting, p.osc < w.nextId

end AudioWorld

/-! ## A chain of tones followed through the browser's events -/

/-- A tone for which `generateSound` ran: the options of the call, the
oscillator created for it (its gain node is the next object created) and the
value of `context.currentTime` at the call. -/
structure PlayedTone where
  options : SoundOptions
  osc : Nat
  now : ℚ
  deriving DecidableEq, Repr

/-- The log entries of one completed body of `generateSound`: its entry and the
thirteen host calls of the `try` block, with the destructured options. -/
def PlayedTone.invoked (ctx : Nat) (p : PlayedTone) : List AudioEvent :=
  AudioEvent.generateSound p.options.destructure.type p.options.destructure.frequency
      p.options.destructure.duration p.options.destructure.volume
      p.options.destructure.attack p.options.destructure.decay p.options.destructure.detune ::
    AudioGenerator.toneCalls ctx p.osc (p.osc + 1) p.now p.options.destructure

/-- The log entries of the `onended` handler of a tone. -/
def PlayedTone.ended (p : PlayedTone) : List AudioEvent :=
  [AudioEvent.onended p.osc, AudioEvent.disconnectOscillator p.osc,
    AudioEvent.disconnectGain (p.osc + 1)]

/-- Where a chain `generateSound(o1).then(() => generateSound(o2))...` stands:
its current tone is sounding and the options `rest` of the later tones are
chained on its promise; or its last tone has ended and the reaction that will
call `generateSound` for `rest` is at place `place` of the queue; or all its
tones have ended. -/
inductive ChainPhase where
  | sounding (p : PlayedTone) (rest : List SoundOptions)
  | queued (place : Nat) (rest : List SoundOptions)
  | finished
  deriving DecidableEq, Repr

/-- The options for which `generateSound` is still to be called or whose tone
is still sounding. -/
def ChainPhase.remaining : ChainPhase → List SoundOptions
  | ChainPhase.sounding p rest => p.options :: rest
  | ChainPhase.queued _ rest => rest
  | ChainPhase.finished => []

/-- The log entries of the tones that have ended: for each its invocation, then
its `onended` handler. -/
def pastBlocks (ctx : Nat) : List PlayedTone → List (List AudioEvent)
  | [] => []
  | q :: qs => q.invoked ctx :: q.ended :: pastBlocks ctx qs

/-- The invocation of the tone that is sounding, if one is. -/
def ChainPhase.current (ctx : Nat) : ChainPhase → List (List AudioEvent)
  | ChainPhase.sounding p _ => [p.invoked ctx]
  | _ => []

/-- The log entries of a chain, block by block: the tones that have ended, then
the invocation of the tone that is sounding. -/
def chainBlocks (ctx : Nat) (past : List PlayedTone) (ph : ChainPhase) :
    List (List AudioEvent) :=
  pastBlocks ctx past ++ ph.current ctx

/-- The blocks stand in the log in this order, each of them unbroken; entries of
other chains may stand between two blocks. -/
def InOrder : List (List AudioEvent) → List AudioEvent → Prop
  | [], _ => True
  | blk :: blks, log => ∃ pre post, log = pre ++ blk ++ post ∧ InOrder blks post

/-- What a phase says about the promises and the reaction queue of a world: in
phase `sounding p rest` exactly one promise waits on the oscillator of `p`, with
the options `rest` of the later tones chained on it; in phase
`queued place rest` the options `rest` stand at `place` in the reaction queue. -/
def AudioWorld.Holds (w : AudioWorld) : ChainPhase → Prop
  | ChainPhase.sounding p rest =>
    w.waiting.filter (fun x => x.osc == p.osc) =
      [{ osc := p.osc, gain := p.osc + 1, next := rest }]
  | ChainPhase.queued place rest => w.microtasks[place]? = some rest ∧ rest ≠ []
  | ChainPhase.finished => True

/-- The phase of a chain after the oldest reaction ran, when that reaction was
not its own: a queued chain is one place nearer to the head. -/
def ChainPhase.shift : ChainPhase → ChainPhase
  | ChainPhase.queued (place + 1) rest => ChainPhase.queued place rest
  | ph => ph

/-- The state of a chain started when the log held `base` entries, in the world
`w`: the tones `past` have been invoked and have ended one after the other, and
the chain is in phase `ph`.
* The log since the start holds, in this order and each unbroken, the
  invocation and the `onended` handler of every past tone and then the
  invocation of the sounding tone.
* No promise of a past tone is waiting any more.
* The phase holds in `w`: the options of the tones still to come are chained on
  the one waiting promise of the sounding tone, or stand in the reaction queue.
-/
def AudioWorld.ChainedAt (w : AudioWorld) (ctx base : Nat) (past : List PlayedTone)
    (ph : ChainPhase) : Prop :=
  base ≤ w.log.length ∧
    InOrder (chainBlocks ctx past ph) (w.log.drop base) ∧
    (∀ q ∈ past, q.osc < w.nextId ∧ ∀ x ∈ w.waiting, x.osc ≠ q.osc) ∧
    w.Holds ph

/-- The fixed effect table as the specification prints it, with `r1` and `r2`
the two random draws of `typing` and `click`. -/
def effectTable (name : String) (r1 r2 : ℚ) : List ToneSpec :=
  if name = "typing" then
    [⟨"sine", 600 + 200 * r1, 0.015, 0.05, 0.001, 0.02, 30 * r2 - 15⟩]
  else if name = "enter" then
    [⟨"triangle", 400, 0.08, 0.15, 0.001, 0.1, -10⟩]
  else if name = "error" then
    [⟨"sawtooth", 300, 0.1, 0.2, 0.001, 0.1, 0⟩, ⟨"sawtooth", 200, 0.15, 0.2, 0.001, 0.15, 0⟩]
  else if name = "startup" then
    [⟨"sine", 440, 0.15, 0.2, 0.01, 0.15, 0⟩, ⟨"sine", 660, 0.15, 0.2, 0.01, 0.15, 0⟩,
      ⟨"sine", 880, 0.225, 0.2, 0.01, 0.225, 0⟩]
  else if name = "click" then
    [⟨"sine", 800 + 300 * r1, 0.03, 0.1, 0.001, 0.03, 20 * r2 - 10⟩]
  else []

/-- The generator can get past its initialisation guard: it is initialised, or
the host lets `init()` succeed. -/
def AudioWorld.CanInit (h : AudioHost) (w : AudioWorld) : Prop :=
  (w.gen.initialized = true ∧ ∃ ctx, w.gen.context = some ctx) ∨
    (w.gen.initialized = false ∧ h.capable = true)

/-- The effect table as the program computes it, with `r1` and `r2` the two
draws of `typing` and `click`: the sums and products are those of doubles. The
duration and the decay of the third start-up tone are the double product
`0.15 * 1.5`, which is `8106479329266892 / 2^55 = 0.22499999999999998`, one
unit in the last place below the double written `0.225`. -/
def effectTones (name : String) (r1 r2 : ℚ) : List ToneSpec :=
  if name = "typing" then
    [⟨"sine", jsAdd 600 (jsMul r1 200), 0.015, 0.05, 0.001, 0.02, jsSub (jsMul r2 30) 15⟩]
  else if name = "enter" then
    [⟨"triangle", 400, 0.08, 0.15, 0.001, 0.1, -10⟩]
  else if name = "error" then
    [⟨"sawtooth", 300, 0.1, 0.2, 0.001, 0.1, 0⟩, ⟨"sawtooth", 200, 0.15, 0.2, 0.001, 0.15, 0⟩]
  else if name = "startup" then
    [⟨"sine", 440, 0.15, 0.2, 0.01, 0.15, 0⟩, ⟨"sine", 660, 0.15, 0.2, 0.01, 0.15, 0⟩,
      ⟨"sine", 880, 8106479329266892 / 36028797018963968, 0.2, 0.01,
        8106479329266892 / 36028797018963968, 0⟩]
  else if name = "click" then
    [⟨"sine", jsAdd 800 (jsMul r1 300), 0.03, 0.1, 0.001, 0.03, jsSub (jsMul r2 20) 10⟩]
  else []

/-- The oscillator of the tone that is sounding, if one is. -/
def ChainPhase.oscillators : ChainPhase → List Nat
  | ChainPhase.sounding p _ => [p.osc]
  | _ => []

/-- The waiting promises that belong to a chain: those on the oscillator of one
of its past tones or of its sounding tone. -/
def AudioWorld.scheduledOf (w : AudioWorld) (past : List PlayedTone) (ph : ChainPhase) :
    List PendingTone :=
  w.waiting.filter (fun x => decide (x.osc ∈ past.map PlayedTone.osc ++ ph.oscillators))

/-- The tones of `table` are being played one after the other in the world `w`,
by a chain started when the log held `base` entries: the chain has played some
of them, each invoked and then ended, and stands in a phase whose remaining
tones are the rest of the table; at most one promise of the chain is waiting. -/
def AudioWorld.Sequenced (w : AudioWorld) (ctx base : Nat) (table : List ToneSpec) : Prop :=
  ∃ (past : List PlayedTone) (ph : ChainPhase),
    (past.map PlayedTone.options ++ ph.remaining).map SoundOptions.destructure = table ∧
      w.ChainedAt ctx base past ph ∧ (w.scheduledOf past ph).length ≤ 1

/-- All the tones of `table` have been played in the world `w`, one after the
other, by a chain started when the log held `base` entries. -/
def AudioWorld.Completed (w : AudioWorld) (ctx base : Nat) (table : List ToneSpec) : Prop :=
  ∃ past : List PlayedTone,
    (past.map PlayedTone.options).map SoundOptions.destructure = table ∧
      w.ChainedAt ctx base past ChainPhase.finished

/-- A browser in which the Web Audio call attempted when the log holds two
entries throws: the first call made by the first tone after `init()`. -/
def AudioHost.faulty : AudioHost :=
  { AudioHost.browser with nodeThrows := fun n => n == 2 }

/-- A browser whose `Math.random()` keeps returning the largest double below 1. -/
def AudioHost.edge : AudioHost :=
  { AudioHost.browser with random := fun _ => 1 - 1 / 2 ^ 53 }

/-- The sound manager switched on in a browser, right after the module loaded. -/
def AudioWorld.enabled : AudioWorld :=
  SoundEffects.enable AudioHost.browser AudioWorld.initial

/-- The manager switched on, with the `enter` tone of a submitted command in
flight (`onSubmit` in `App.jsx` plays `enter` and then runs the command, which
may play `error`). -/
def AudioWorld.submitted : AudioWorld :=
  SoundEffects.play AudioHost.browser AudioWorld.enabled "enter"

/-! ## Canvas host -/

/-- The kinds of rendering context the animation asks a canvas for. -/
inductive ContextKind where
  | twoD
  | webgl
  | webgl2
  deriving DecidableEq, Repr

/-- The canvas element handed to the constructor. -/
structure Canvas where
  id : String
  width : ℚ
  height : ℚ
  /-- the rendering context already bound to the canvas, if any -/
  bound : Option ContextKind
  /-- kinds of context the browser is able to create for this canvas -/
  supports : ContextKind → Bool
  /-- whether `getContext(kind)` throws -/
  throws : ContextKind → Bool

/-- Why a call does not return a value. -/
inductive Fault where
  /-- an exception reaches the caller -/
  | thrown
  /-- the call never returns -/
  | diverges
  deriving DecidableEq, Repr

/-- Expression `canvas.getContext(kind)` under the HTML rule: a canvas without a context
binds and returns one of the requested kind when the browser can create it; a
canvas with a context returns it for the same kind and `null` for another. -/
def Canvas.getContext (c : Canvas) (kind : ContextKind) :
    Except Fault (Option ContextKind × Canvas) :=
  if c.throws kind then Except.error Fault.thrown
  else
    match c.bound with
    | none =>
      if c.supports kind then Except.ok (some kind, { c with bound := some kind })
      else Except.ok (none, c)
    | some k => if k = kind then Except.ok (some kind, c) else Except.ok (none, c)

/-- A call made on the 2D rendering context. -/
inductive DrawCall where
  | fillStyle (style : String)
  | font (font : String)
  | fillRect (x y w h : ℚ)
  | fillText (text : String) (x y : ℚ)
  | save
  | restore
  | translate (x y : ℚ)
  | rotate (angle : ℚ)
  deriving DecidableEq, Repr

/-- The window and everything else of the browser that the animation touches. -/
structure Browser where
  innerWidth : ℚ
  innerHeight : ℚ
  /-- the successive values returned by `Math.random()` -/
  random : Nat → ℚ
  /-- number of `Math.random()` calls made so far -/
  draws : Nat
  /-- how a number prints inside a template string -/
  numberToString : ℚ → String
  /-- the `resize` listeners registered on the window -/
  resizeListeners : Nat
  /-- identities of the frame callbacks requested and neither run nor cancelled -/
  pendingFrames : List Nat
  /-- number of frame callbacks requested so far; identities start at 1 -/
  framesRequested : Nat
  /-- calls made on the 2D context, oldest first -/
  drawLog : List DrawCall
  /-- the `console.warn` messages, oldest first -/
  warnings : List String

/-- Expression `Math.random()`. -/
def Browser.rand (b : Browser) : ℚ × Browser :=
  (b.random b.draws, { b with draws := b.draws + 1 })

/-- The `options` argument of the constructor; an omitted property is `none`. -/
structure AnimationOptions where
  color : Option String := none
  backgroundColor : Option String := none
  fontSize : Option ℚ := none
  speed : Option ℚ := none
  density : Option ℚ := none
  glitchFrequency : Option ℚ := none
  deriving DecidableEq, Repr

/-- Field `this.options` of the engine. -/
structure Options where
  color : String
  backgroundColor : String
  fontSize : ℚ
  speed : ℚ
  density : ℚ
  glitchFrequency : ℚ
  deriving DecidableEq, Repr

/-- Expression `value || fallback` for a string property. -/
def orString (value : Option String) (fallback : String) : String :=
  match value with
  | some s => if s = "" then fallback else s
  | none => fallback

/-- Expression `value || fallback` for a numeric property. -/
def orNumber (value : Option ℚ) (fallback : ℚ) : ℚ :=
  match value with
  | some q => if q = 0 then fallback else q
  | none => fallback

/-- The object literal of lines 50-58: the six `||` defaults first, then the
spread `...options`, which overwrites every property that was supplied. -/
def Options.merge (o : AnimationOptions) : Options :=
  { color := o.color.getD (orString o.color "#00FF00")
    backgroundColor := o.backgroundColor.getD (orString o.backgroundColor "rgba(0, 0, 0, 0.95)")
    fontSize := o.fontSize.getD (orNumber o.fontSize 14)
    speed := o.speed.getD (orNumber o.speed 1.5)
    density := o.density.getD (orNumber o.density 0.8)
    glitchFrequency := o.glitchFrequency.getD (orNumber o.glitchFrequency 0.03) }

/-- One falling column of characters. -/
structure Drop where
  x : ℚ
  y : ℚ
  speed : ℚ
  length : ℤ
  opacity : ℚ
  chars : List String
  deriving DecidableEq, Repr

/-- Fields of a `BackgroundAnimation` instance. -/
structure BackgroundAnimation where
  canvas : Canvas
  ctx : Option ContextKind
  disabled : Bool
  animationId : Option Nat
  isRunning : Bool
  options : Options
  chars : List Char
  drops : List Drop

namespace BackgroundAnimation

/-- The glyph set of line 61. -/
def glyphs : List Char :=
  ("01アァカサタナハマヤャラワガザダバパイィキシチニヒミリヰギジヂビピウゥクスツヌフムユュルグズブヅプ" ++
    "エェケセテネヘメレヱゲゼデベペオォコソトノホモヨョロヲゴゾドボポヴッン").toList

/-- Expression `this.chars.charAt(Math.floor(r * this.chars.length))` for a draw `r`; an
index outside the string gives the empty string. -/
def charAt (chars : List Char) (r : ℚ) : String :=
  let i : ℤ := ⌊r * chars.length⌋
  if i < 0 then "" else
    match chars.get? i.toNat with
    | some c => c.toString
    | none => ""

/-- Method `getRandomChar()` (lines 102-104). -/
def getRandomChar (e : BackgroundAnimation) (b : Browser) : String × Browser :=
  (charAt e.chars (b.random b.draws), { b with draws := b.draws + 1 })

/-- The inner loop of `initDrops` (lines 96-98): `count` glyphs drawn one after
the other, starting at draw number `draws`. -/
def randomChars (chars : List Char) (random : Nat → ℚ) : Nat → Nat → List String
  | 0, _ => []
  | count + 1, draws => charAt chars (random draws) :: randomChars chars random count (draws + 1)

/-- The drop pushed at lines 86-93, with its glyphs (lines 96-98), for the draws
starting at number `draws`. -/
def newDrop (o : Options) (chars : List Char) (columns : ℤ) (random : Nat → ℚ)
    (draws : Nat) : Drop :=
  let length : ℤ := ⌊random (draws + 3) * 15⌋ + 5
  { x := ⌊random draws * columns⌋ * o.fontSize
    y := random (draws + 1) * -100
    speed := random (draws + 2) * 2 + o.speed
    length := length
    opacity := random (draws + 4) * 0.5 + 0.5
    chars := randomChars chars random length.toNat (draws + 5) }

/-- The loop `for (let i = 0; i < columns * this.options.density; i++)` of
`initDrops` (lines 85-99), from the value `i` of the counter on: the drops and
the number of draws at the exit. The counter is compared with the double that
the product `columns * this.options.density` evaluates to. -/
def initDropsLoop (o : Options) (chars : List Char) (columns : ℤ) (random : Nat → ℚ)
    (i : Nat) (draws : Nat) (drops : List Drop) : List Drop × Nat :=
  if (i : ℚ) < jsMul columns o.density then
    let d := newDrop o chars columns random draws
    initDropsLoop o chars columns random (i + 1) (draws + 5 + d.length.toNat) (drops ++ [d])
  else (drops, draws)
termination_by ⌈jsMul columns o.density⌉.toNat - i
decreasing_by
  have h1 : (i : ℤ) < ⌈jsMul columns o.density⌉ := by
    rw [Int.lt_ceil]
    exact_mod_cast ‹(i : ℚ) < jsMul columns o.density›
  omega

/-- Method `initDrops()` (lines 80-100). With a zero font size the number of columns
is not a rational any more: when width and density have the same sign the loop
bound is `Infinity` and the loop never ends, otherwise the body never runs. -/
def initDrops (e : BackgroundAnimation) (b : Browser) :
    Except Fault (BackgroundAnimation × Browser) :=
  if e.options.fontSize = 0 then
    if 0 < e.canvas.width * e.options.density then Except.error Fault.diverges
    else Except.ok ({ e with drops := [] }, b)
  else
    let columns : ℤ := ⌊e.canvas.width / e.options.fontSize⌋
    let r := initDropsLoop e.options e.chars columns b.random 0 b.draws []
    Except.ok ({ e with drops := r.1 }, { b with draws := r.2 })

/-- Method `resize()` (lines 71-78). -/
def resize (e : BackgroundAnimation) (b : Browser) :
    Except Fault (BackgroundAnimation × Browser) :=
  initDrops { e with canvas := { e.canvas with width := b.innerWidth, height := b.innerHeight } }
    b

/-- Expression `s.replace(pattern, replacement)` with a string pattern: the first
occurrence only. -/
def replaceFirst (pattern replacement : List Char) : List Char → List Char
  | [] => if pattern = [] then replacement else []
  | c :: cs =>
    if pattern.isPrefixOf (c :: cs) then replacement ++ (c :: cs).drop pattern.length
    else c :: replaceFirst pattern replacement cs

/-- Expression `String.prototype.replace` on strings. -/
def jsReplace (s pattern replacement : String) : String :=
  String.mk (replaceFirst pattern.toList replacement.toList s.toList)

/-- The opacity of trail position `j` (line 144); `none` when the division by a
zero length leaves the rationals. -/
def trailOpacity (d : Drop) (j : Nat) : Option ℚ :=
  if j = 0 then some 1 else if d.length = 0 then none else some (1 - j / d.length)

/-- The fill style of line 147 for an opacity. -/
def trailStyle (color : String) (numberToString : ℚ → String) (opacity : Option ℚ) : String :=
  let shown := match opacity with
    | some q => numberToString q
    | none => "-Infinity"
  jsReplace (jsReplace color ")" (", " ++ shown ++ ")")) "rgb" "rgba"

/-- Expression `chars[j] = c` for an index inside the array; `chars[0] = c` on an empty
array creates the element. -/
def setChar (chars : List String) (j : Nat) (c : String) : List String :=
  if j = 0 ∧ chars = [] then [c] else chars.set j c

/-- One turn of the loop over the trail (lines 142-159), for position `j`. -/
def trailStep (e : BackgroundAnimation) (d : Drop) (st : List String × Browser) (j : Nat) :
    List String × Browser :=
  let style := trailStyle e.options.color st.2.numberToString (trailOpacity d j)
  let b1 := { st.2 with drawLog := st.2.drawLog ++ [DrawCall.fillStyle style] }
  let y := d.y - j * e.options.fontSize
  let b2 :=
    if 0 < y ∧ y < e.canvas.height then
      { b1 with drawLog := b1.drawLog ++ [DrawCall.fillText (st.1.getD j "") d.x y] }
    else b1
  if j = 0 then (st.1, b2)
  else
    let r := b2.rand
    if r.1 > 0.98 then
      let c := getRandomChar e r.2
      (setChar st.1 j c.1, c.2)
    else (st.1, r.2)

/-- The body of the loop over the drops (lines 139-171) for one drop. The sum of
line 164, the test of line 167 and the two assignments of lines 168-169 are
evaluated in doubles. -/
def stepDrop (e : BackgroundAnimation) (d : Drop) (b : Browser) : Drop × Browser :=
  let trail := (List.range d.chars.length).foldl (trailStep e d) (d.chars, b)
  let head := getRandomChar e trail.2
  let chars := setChar trail.1 0 head.1
  let y := jsAdd d.y d.speed
  if toDouble e.canvas.height < jsSub y (jsMul d.length e.options.fontSize) then
    let r1 := head.2.rand
    let r2 := r1.2.rand
    ({ d with
        chars := chars
        y := jsMul r1.1 (-100)
        speed := jsAdd (jsMul r2.1 2) e.options.speed }, r2.2)
  else ({ d with chars := chars, y := y }, head.2)

/-- The loop over the drops, in array order. -/
def stepDrops (e : BackgroundAnimation) : List Drop → Browser → List Drop × Browser
  | [], b => ([], b)
  | d :: ds, b =>
    let r := stepDrop e d b
    let rest := stepDrops e ds r.2
    (r.1 :: rest.1, rest.2)

/-- Method `addGlitch()` (lines 185-209). -/
def addGlitch (e : BackgroundAnimation) (b : Browser) : Browser :=
  if e.disabled || e.ctx.isNone then b
  else
    let x := b.random b.draws * e.canvas.width
    let y := b.random (b.draws + 1) * e.canvas.height
    let width := b.random (b.draws + 2) * 100 + 50
    let height := b.random (b.draws + 3) * 10 + 5
    let turned := b.random (b.draws + 4) > 0.5
    let n := if turned then b.draws + 6 else b.draws + 5
    let transform :=
      if turned then
        [DrawCall.translate x y, DrawCall.rotate (b.random (b.draws + 5) * 0.1),
          DrawCall.translate (-x) (-y)]
      else []
    let style := "rgba(" ++ b.numberToString (b.random n * 255) ++ ", " ++
      b.numberToString (b.random (n + 1) * 255) ++ ", " ++
      b.numberToString (b.random (n + 2) * 255) ++ ", 0.1)"
    { b with
      draws := n + 3
      drawLog := b.drawLog ++ [DrawCall.save] ++ transform ++
        [DrawCall.fillStyle style, DrawCall.fillRect x y width height, DrawCall.restore] }

/-- Expression `requestAnimationFrame(callback)`: the identity handed back, never 0. -/
def requestAnimationFrame (b : Browser) : Nat × Browser :=
  (b.framesRequested + 1,
    { b with
      framesRequested := b.framesRequested + 1
      pendingFrames := b.pendingFrames ++ [b.framesRequested + 1] })

/-- The translucent fill and the font of lines 131-135. -/
def paintBackground (e : BackgroundAnimation) (b : Browser) : Browser :=
  { b with
    drawLog := b.drawLog ++
      [DrawCall.fillStyle e.options.backgroundColor,
        DrawCall.fillRect 0 0 e.canvas.width e.canvas.height,
        DrawCall.font (b.numberToString e.options.fontSize ++ "px monospace")] }

/-- Method `animate()` (lines 128-183). -/
def animate (e : BackgroundAnimation) (b : Browser) : BackgroundAnimation × Browser :=
  if e.disabled || e.ctx.isNone then (e, b)
  else
    let b1 := paintBackground e b
    let stepped := stepDrops e e.drops b1
    let e1 := { e with drops := stepped.1 }
    let r := stepped.2.rand
    let b2 := if r.1 < e.options.glitchFrequency then addGlitch e1 r.2 else r.2
    if e1.isRunning then
      let f := requestAnimationFrame b2
      ({ e1 with animationId := some f.1 }, f.2)
    else (e1, b2)

/-- Method `start()` (lines 106-112). -/
def start (e : BackgroundAnimation) (b : Browser) : BackgroundAnimation × Browser :=
  if e.disabled || e.ctx.isNone then (e, b)
  else if e.isRunning then (e, b)
  else animate { e with isRunning := true } b

/-- Method `stop()` (lines 114-126). -/
def stop (e : BackgroundAnimation) (b : Browser) : BackgroundAnimation × Browser :=
  let cancelled : BackgroundAnimation × Browser :=
    match e.animationId with
    | some id =>
      if id = 0 then (e, b)
      else ({ e with animationId := none },
        { b with pendingFrames := b.pendingFrames.filter (fun f => f != id) })
    | none => (e, b)
  let e1 := { cancelled.1 with isRunning := false }
  if e1.ctx.isSome then
    (e1, { cancelled.2 with
      drawLog := cancelled.2.drawLog ++
        [DrawCall.fillStyle "black", DrawCall.fillRect 0 0 e1.canvas.width e1.canvas.height] })
  else (e1, cancelled.2)

/-- The browser runs the frame callback `id`, if it is still pending. -/
def frame (e : BackgroundAnimation) (b : Browser) (id : Nat) : BackgroundAnimation × Browser :=
  if id ∈ b.pendingFrames then
    animate e { b with pendingFrames := b.pendingFrames.filter (fun f => f != id) }
  else (e, b)

/-- The probe `hasGLContext` of lines 17-26: its value and the canvas after it. -/
def probeGL (c : Canvas) : Bool × Canvas :=
  match c.getContext ContextKind.webgl with
  | Except.error _ => (false, c)
  | Except.ok (some _, c1) => (true, c1)
  | Except.ok (none, c1) =>
    match c1.getContext ContextKind.webgl2 with
    | Except.error _ => (false, c1)
    | Except.ok (r, c2) => (r.isSome, c2)

/-- The fields the constructor assigns before it calls `resize()`. -/
def built (options : AnimationOptions) (canvas : Canvas) (ctx : Option ContextKind)
    (disabled : Bool) : BackgroundAnimation :=
  { canvas := canvas, ctx := ctx, disabled := disabled, animationId := none,
    isRunning := false, options := Options.merge options, chars := glyphs, drops := [] }

/-- The constructor (lines 7-69). A `null` canvas makes line 37 throw. -/
def construct (canvasElement : Option Canvas) (options : AnimationOptions) (b : Browser) :
    Except Fault (BackgroundAnimation × Browser) :=
  match canvasElement with
  | none => Except.error Fault.thrown
  | some c0 =>
    let c1 := if c0.id = "" then { c0 with id := "bg-canvas" } else c0
    let probe := probeGL c1
    let built := built options
    if probe.1 then
      Except.ok (built probe.2 none true,
        { b with warnings := b.warnings ++
            ["[BackgroundAnimation] Aborting: target canvas already has a WebGL context"] })
    else
      match probe.2.getContext ContextKind.twoD with
      | Except.error f => Except.error f
      | Except.ok (none, c2) =>
        Except.ok (built c2 none true,
          { b with warnings := b.warnings ++
              ["[BackgroundAnimation] Aborting: failed to acquire 2D context"] })
      | Except.ok (some k, c2) =>
        match resize (built c2 (some k) false) b with
        | Except.error f => Except.error f
        | Except.ok (e, b1) =>
          Except.ok (e, { b1 with resizeListeners := b1.resizeListeners + 1 })

end BackgroundAnimation

/-! ## Concrete hosts for the animation -/

/-- The options the application passes (`App.jsx` lines 136-143). -/
def BackgroundAnimation.appOptions : AnimationOptions :=
  { color := some "rgba(0, 255, 0, 1)"
    backgroundColor := some "rgba(0, 0, 0, 0.9)"
    fontSize := some 16
    speed := some 1.2
    density := some 0.7
    glitchFrequency := some 0.02 }

/-- A canvas of the default size on which nothing throws, with the given bound
context, in a browser that can create every kind of context. -/
def Canvas.withContext (bound : Option ContextKind) : Canvas :=
  { id := ""
    width := 300
    height := 150
    bound := bound
    supports := fun _ => true
    throws := fun _ => false }

/-- A 1000 by 800 window whose `Math.random()` keeps returning `r`; numbers
print as fractions. -/
def Browser.desktop (r : ℚ) : Browser :=
  { innerWidth := 1000
    innerHeight := 800
    random := fun _ => r
    draws := 0
    numberToString := fun q => toString q.num ++ "/" ++ toString q.den
    resizeListeners := 0
    pendingFrames := []
    framesRequested := 0
    drawLog := []
    warnings := [] }

/-- The application's engine on a canvas bound to its 2D context, before the
first `resize()`. -/
def BackgroundAnimation.appEngine : BackgroundAnimation :=
  BackgroundAnimation.built BackgroundAnimation.appOptions
    (Canvas.withContext (some ContextKind.twoD)) (some ContextKind.twoD) false

/-- An engine with font size 10 and density 0.55 on a canvas bound to its 2D
context, before the first `resize()`. -/
def BackgroundAnimation.denseEngine : BackgroundAnimation :=
  BackgroundAnimation.built { fontSize := some 10, density := some 0.55 }
    (Canvas.withContext (some ContextKind.twoD)) (some ContextKind.twoD) false

/-- A drop with its head at 900: five glyphs, speed 2. -/
def BackgroundAnimation.fallenDrop : Drop :=
  { x := 32, y := 900, speed := 2, length := 5, opacity := 3 / 4,
    chars := ["0", "1", "0", "1", "0"] }

/-- The application's engine in the 1000 by 800 window with one drop whose tail
has left the surface. -/
def BackgroundAnimation.fallenEngine : BackgroundAnimation :=
  { BackgroundAnimation.appEngine with
    canvas := { Canvas.withContext (some ContextKind.twoD) with width := 1000, height := 800 }
    drops := [BackgroundAnimation.fallenDrop] }

/-- The engine with the default options (font size 14, speed 1.5) in the 1000
by 800 window with one drop whose tail has left the surface. -/
def BackgroundAnimation.defaultFallenEngine : BackgroundAnimation :=
  { BackgroundAnimation.built {} (Canvas.withContext (some ContextKind.twoD))
      (some ContextKind.twoD) false with
    canvas := { Canvas.withContext (some ContextKind.twoD) with width := 1000, height := 800 }
    drops := [BackgroundAnimation.fallenDrop] }

/-- The relation between a drop `d` and its successor `d'` after one frame, on
a surface of the given height, for the draws `random` of `Math.random()`; all
values are doubles. When the advanced position `y + speed` minus
`length * fontSize` exceeds the height, two successive draws `r`, `r'` give the
new position `r * -100` and the new speed `r' * 2 + options.speed`: the
position lies in `(-100, 0]` and is 0 exactly when the draw `r` is 0, the speed
lies between `options.speed` and `options.speed + 2`, both ends included.
Otherwise the drop has the advanced position and its old speed. -/
def BackgroundAnimation.Recycled (o : Options) (height : ℚ) (random : Nat → ℚ)
    (d d' : Drop) : Prop :=
  if toDouble height < jsSub (jsAdd d.y d.speed) (jsMul d.length o.fontSize) then
    ∃ k, d'.y = jsMul (random k) (-100) ∧
      d'.speed = jsAdd (jsMul (random (k + 1)) 2) o.speed ∧
      -100 < d'.y ∧ d'.y ≤ 0 ∧ (d'.y = 0 ↔ random k = 0) ∧ (0 < random k → d'.y < 0) ∧
      toDouble o.speed ≤ d'.speed ∧ d'.speed ≤ jsAdd o.speed 2
  else d'.y = jsAdd d.y d.speed ∧ d'.speed = d.speed

/-! ## The engine driven through its public surface -/

/-- What can happen to a constructed engine: a call of one of its three public
methods, the browser running a frame callback, or the window changing size. -/
inductive EngineAction where
  | start
  | stop
  | resize
  | frame (id : Nat)
  | window (width height : ℚ)
  deriving DecidableEq, Repr

namespace BackgroundAnimation

/-- One action on an engine and its browser. A window that changes size runs the
`resize` listener when the constructor registered it. -/
def act (s : BackgroundAnimation × Browser) : EngineAction →
    Except Fault (BackgroundAnimation × Browser)
  | EngineAction.start => Except.ok (start s.1 s.2)
  | EngineAction.stop => Except.ok (stop s.1 s.2)
  | EngineAction.resize => resize s.1 s.2
  | EngineAction.frame id => Except.ok (frame s.1 s.2 id)
  | EngineAction.window width height =>
    if s.2.resizeListeners = 0 then
      Except.ok (s.1, { s.2 with innerWidth := width, innerHeight := height })
    else resize s.1 { s.2 with innerWidth := width, innerHeight := height }

/-- A sequence of actions, oldest first; it stops at the first one that does
not return. -/
def actAll (s : BackgroundAnimation × Browser) :
    List EngineAction → Except Fault (BackgroundAnimation × Browser)
  | [] => Except.ok s
  | a :: as =>
    match act s a with
    | Except.error f => Except.error f
    | Except.ok t => actAll t as

/-- The states an engine and its browser can be in: after the constructor has
returned in a browser with no frame callback pending, and after any action that
returns. -/
inductive Reachable : BackgroundAnimation × Browser → Prop where
  | constructed (c : Option Canvas) (o : AnimationOptions) (b : Browser)
      (s : BackgroundAnimation × Browser) (hb : b.pendingFrames = [])
      (hc : construct c o b = Except.ok s) : Reachable s
  | acted (s t : BackgroundAnimation × Browser) (a : EngineAction) (hs : Reachable s)
      (ha : act s a = Except.ok t) : Reachable t

/-- The loop is at rest: not running, no frame identity held, no frame callback
pending. -/
def Idle (s : BackgroundAnimation × Browser) : Prop :=
  s.1.isRunning = false ∧ s.1.animationId = none ∧ s.2.pendingFrames = []

/-- The loop is running: the engine is enabled and holds the identity of the
one frame callback that is pending. -/
def Looping (s : BackgroundAnimation × Browser) : Prop :=
  s.1.isRunning = true ∧ s.1.disabled = false ∧
    ∃ id, id ≠ 0 ∧ s.1.animationId = some id ∧ s.2.pendingFrames = [id]

/-- The solid clear that `stop()` paints (lines 123-124). -/
def IsClear (c : DrawCall) : Prop :=
  c = DrawCall.fillStyle "black" ∨ ∃ w h, c = DrawCall.fillRect 0 0 w h

/-- Browser `b'` differs from `b` by painting only: the same frame callbacks
and listeners, and a draw log that extends the old one. -/
def Painted (b b' : Browser) : Prop :=
  b'.pendingFrames = b.pendingFrames ∧ b'.framesRequested = b.framesRequested ∧
    b'.resizeListeners = b.resizeListeners ∧ ∃ rest, b'.drawLog = b.drawLog ++ rest

/-- A canvas without a rendering context in a browser that can create 2D
contexts only. -/
def plainCanvas : Canvas :=
  { Canvas.withContext none with supports := fun k => k == ContextKind.twoD }

end BackgroundAnimation

/-- The invariant of the reachable states: an enabled engine holds its 2D
context, and the loop is either at rest or running with exactly one frame
callback pending. -/
def BackgroundAnimation.Sound (s : BackgroundAnimation × Browser) : Prop :=
  (s.1.disabled = false → s.1.ctx.isSome = true) ∧
    (BackgroundAnimation.Idle s ∨ BackgroundAnimation.Looping s)

/-- The application's engine as the constructor leaves it on a canvas that a 3D
renderer has bound to WebGL2, with the browser after the warning. -/
def BackgroundAnimation.refused : BackgroundAnimation × Browser :=
  (BackgroundAnimation.built BackgroundAnimation.appOptions
      { Canvas.withContext (some ContextKind.webgl2) with id := "bg-canvas" } none true,
    { Browser.desktop 0 with
      warnings := ["[BackgroundAnimation] Aborting: target canvas already has a WebGL context"] })

/-! ## Accessibility helpers (`accessibilityHelper.js`) -/

/-- Value of a character matched by the class `[a-f\d]` under the flag `i`. -/
def hexDigit (c : Char) : Option Nat :=
  if '0' ≤ c ∧ c ≤ '9' then some (c.toNat - 48)
  else if 'a' ≤ c ∧ c ≤ 'f' then some (c.toNat - 87)
  else if 'A' ≤ c ∧ c ≤ 'F' then some (c.toNat - 55)
  else none

/-- An `{ r, g, b }` object. -/
structure Rgb where
  r : Nat
  g : Nat
  b : Nat
  deriving DecidableEq, Repr

/-- Two hexadecimal digits read by `parseInt(_, 16)`. -/
def parseHexPair (hi lo : Char) : Option Nat :=
  match hexDigit hi, hexDigit lo with
  | some h, some l => some (16 * h + l)
  | _, _ => none

/-- The helper `hexToRgb` (lines 95-102): the regular expression accepts an
optional `#` followed by exactly six hexadecimal digits. -/
def hexToRgb (hex : String) : Option Rgb :=
  let body := match hex.toList with
    | '#' :: rest => rest
    | cs => cs
  match body with
  | [r1, r2, g1, g2, b1, b2] =>
    match parseHexPair r1 r2, parseHexPair g1 g2, parseHexPair b1 b2 with
    | some r, some g, some b => some { r := r, g := g, b := b }
    | _, _, _ => none
  | _ => none

/-- One channel of `calculateLuminance` (lines 111-117); `pow` is the host's
`Math.pow`. -/
def linearize (pow : ℚ → ℚ → ℚ) (channel : Nat) : ℚ :=
  let srgb : ℚ := channel / 255
  if srgb ≤ 0.03928 then srgb / 12.92 else pow ((srgb + 0.055) / 1.055) 2.4

/-- The helper `calculateLuminance` (lines 105-120). -/
def calculateLuminance (pow : ℚ → ℚ → ℚ) (color : String) : ℚ :=
  match hexToRgb color with
  | none => 0
  | some rgb =>
    0.2126 * linearize pow rgb.r + 0.7152 * linearize pow rgb.g + 0.0722 * linearize pow rgb.b

/-- Two decimal digits, with a leading zero. -/
def twoDigits (n : Nat) : String :=
  (if n < 10 then "0" else "") ++ toString n

/-- Method `toFixed(2)` on a number of magnitude below `10^21`: the nearest
multiple of `1/100`, the larger one on a tie, printed with two decimals. -/
def toFixed2 (q : ℚ) : String :=
  let shown (x : ℚ) : String :=
    let n := ⌊x * 100 + 1 / 2⌋.toNat
    toString (n / 100) ++ "." ++ twoDigits (n % 100)
  if q < 0 then "-" ++ shown (-q) else shown q

/-- The object `checkColorContrast` returns. -/
structure ContrastResult where
  ratio : String
  passesAA : Bool
  passesAAA : Bool
  deriving DecidableEq, Repr

/-- The quotient of line 126 for two luminances. -/
def contrastRatio (l1 l2 : ℚ) : ℚ :=
  (max l1 l2 + 0.05) / (min l1 l2 + 0.05)

/-- The function `checkColorContrast` (lines 93-133). A zero denominator leaves
the rationals: the quotient is then `Infinity`, `-Infinity` or `NaN`. -/
def checkColorContrast (pow : ℚ → ℚ → ℚ) (foreground background : String) : ContrastResult :=
  let l1 := calculateLuminance pow foreground
  let l2 := calculateLuminance pow background
  if min l1 l2 + 0.05 = 0 then
    if 0 < max l1 l2 + 0.05 then { ratio := "Infinity", passesAA := true, passesAAA := true }
    else if max l1 l2 + 0.05 < 0 then
      { ratio := "-Infinity", passesAA := false, passesAAA := false }
    else { ratio := "NaN", passesAA := false, passesAAA := false }
  else
    { ratio := toFixed2 (contrastRatio l1 l2)
      passesAA := decide (contrastRatio l1 l2 ≥ 4.5)
      passesAAA := decide (contrastRatio l1 l2 ≥ 7) }

/-- A rational stand-in for `Math.pow`, used to instantiate the host: the
square of the base. It agrees with `Math.pow(x, 2.4)` at the bases 0 and 1. -/
def powStandIn (base _exponent : ℚ) : ℚ :=
  base * base

/-- The linearisation of a channel value `c / 255` in the words of WCAG. -/
def wcagLinear (pow : ℚ → ℚ → ℚ) (c : ℚ) : ℚ :=
  if c ≤ 0.03928 then c / 12.92 else pow ((c + 0.055) / 1.055) 2.4

/-- The relative luminance `0.2126 R' + 0.7152 G' + 0.0722 B'` of WCAG. -/
def wcagLuminance (pow : ℚ → ℚ → ℚ) (rgb : Rgb) : ℚ :=
  0.2126 * wcagLinear pow (rgb.r / 255) + 0.7152 * wcagLinear pow (rgb.g / 255) +
    0.0722 * wcagLinear pow (rgb.b / 255)

/-- An element of the document. -/
structure DomElement where
  uid : Nat
  tag : String
  id : String
  className : String
  attributes : List (String × String)
  textContent : String
  deriving DecidableEq, Repr

/-- The document: the children of `head` and of `body` in order, and the
callbacks handed to `setTimeout` that have not run yet (delay in milliseconds,
element whose text they clear). -/
structure Document where
  head : List DomElement
  body : List DomElement
  nextUid : Nat
  timers : List (Nat × Nat)
  deriving DecidableEq, Repr

namespace Document

/-- An empty document. -/
def empty : Document :=
  { head := [], body := [], nextUid := 0, timers := [] }

/-- Method `document.getElementById(id)`: the first element in document order. -/
def getElementById (d : Document) (id : String) : Option DomElement :=
  (d.head ++ d.body).find? (fun el => el.id == id)

/-- Assignment `element.textContent = text` on the element of identity `uid`. -/
def setTextContent (d : Document) (uid : Nat) (text : String) : Document :=
  let set (els : List DomElement) : List DomElement :=
    els.map (fun el => if el.uid = uid then { el with textContent := text } else el)
  { d with head := set d.head, body := set d.body }

/-- The browser runs the oldest pending timer callback (lines 28-30). -/
def fireTimer (d : Document) : Document :=
  match d.timers with
  | [] => d
  | (_, uid) :: rest => { setTextContent d uid "" with timers := rest }

end Document

/-- Method `element.getAttribute(name)`. -/
def DomElement.getAttribute (el : DomElement) (name : String) : Option String :=
  (el.attributes.find? (fun a => a.1 == name)).map Prod.snd

/-- The function `announceToScreenReader(message, priority = 'polite')`
(lines 11-31); an omitted priority is `none`. -/
def announceToScreenReader (d : Document) (message : String) (priority : Option String) :
    Document :=
  let p := priority.getD "polite"
  match d.getElementById "screen-reader-announce" with
  | some liveRegion =>
    { d.setTextContent liveRegion.uid message with
      timers := d.timers ++ [(1000, liveRegion.uid)] }
  | none =>
    let liveRegion : DomElement :=
      { uid := d.nextUid, tag := "div", id := "screen-reader-announce", className := "sr-only",
        attributes := [("aria-live", p), ("aria-atomic", "true")], textContent := "" }
    let d1 := { d with body := d.body ++ [liveRegion], nextUid := d.nextUid + 1 }
    { d1.setTextContent liveRegion.uid message with
      timers := d.timers ++ [(1000, liveRegion.uid)] }

/-- A `KeyboardEvent`, as far as the helper looks at it. -/
structure KeyboardEvent where
  key : String
  defaultPrevented : Bool
  deriving DecidableEq, Repr

/-- The four handler properties the helper reads from its options. -/
inductive HandlerName where
  | onEnter
  | onEscape
  | onArrowUp
  | onArrowDown
  deriving DecidableEq, Repr

/-- The `options` object of `addKeyboardNavigation`: for each property, whether
a handler function was supplied. -/
structure KeyOptions where
  onEnter : Bool := false
  onEscape : Bool := false
  onArrowUp : Bool := false
  onArrowDown : Bool := false
  deriving DecidableEq, Repr

/-- A handler invoked with an event, as the event is at that moment. -/
structure HandlerCall where
  handler : HandlerName
  event : KeyboardEvent
  deriving DecidableEq, Repr

/-- The listener `handleKeyDown` (lines 46-75): the event afterwards and the
handlers it called. -/
def handleKeyDown (o : KeyOptions) (event : KeyboardEvent) : KeyboardEvent × List HandlerCall :=
  let fire (supplied : Bool) (name : HandlerName) : KeyboardEvent × List HandlerCall :=
    if supplied then
      ({ event with defaultPrevented := true },
        [{ handler := name, event := { event with defaultPrevented := true } }])
    else (event, [])
  if event.key = "Enter" then fire o.onEnter HandlerName.onEnter
  else if event.key = "Escape" then fire o.onEscape HandlerName.onEscape
  else if event.key = "ArrowUp" then fire o.onArrowUp HandlerName.onArrowUp
  else if event.key = "ArrowDown" then fire o.onArrowDown HandlerName.onArrowDown
  else (event, [])

/-- A listener registered with `addEventListener`. -/
structure Listener where
  uid : Nat
  element : Nat
  type : String
  options : KeyOptions
  deriving DecidableEq, Repr

/-- The listeners registered on the elements of the page. -/
structure EventTargets where
  listeners : List Listener
  nextListener : Nat
  deriving DecidableEq, Repr

/-- The function `addKeyboardNavigation(ref, options)` (lines 42-85), `current`
being `ref.current` at the call and `options` `none` for a missing or `null`
object: the page afterwards, and the listener the returned cleanup function
holds (`none` for `undefined`). -/
def addKeyboardNavigation (t : EventTargets) (current : Option Nat)
    (options : Option KeyOptions) : EventTargets × Option Nat :=
  match current with
  | none => (t, none)
  | some element =>
    ({ listeners := t.listeners ++
          [{ uid := t.nextListener, element := element, type := "keydown",
             options := options.getD {} }]
       nextListener := t.nextListener + 1 },
      some t.nextListener)

/-- The cleanup function returned at lines 80-84, run when `ref.current` is
`current`. -/
def runCleanup (t : EventTargets) (current : Option Nat) (listener : Nat) : EventTargets :=
  match current with
  | none => t
  | some element =>
    { t with
      listeners := t.listeners.filter
        (fun l => !(l.element == element && l.type == "keydown" && l.uid == listener)) }

/-- The browser dispatches a `keydown` event on an element: every listener
registered there runs, in registration order. -/
def dispatchKeydown (t : EventTargets) (element : Nat) (event : KeyboardEvent) :
    KeyboardEvent × List HandlerCall :=
  (t.listeners.filter (fun l => l.element == element && l.type == "keydown")).foldl
    (fun acc l =>
      let r := handleKeyDown l.options acc.1
      (r.1, acc.2 ++ r.2))
    (event, [])

/-! ## The terminal (`App.jsx`) -/

/-- The `data` object of the contact form. -/
structure ContactData where
  name : String := ""
  email : String := ""
  message : String := ""
  deriving DecidableEq, Repr

/-- The state `contactForm`. -/
structure ContactForm where
  active : Bool := false
  step : Nat := 0
  data : ContactData := {}
  deriving DecidableEq, Repr

/-- The `content` of an output entry: a string, an object `{ type, content }`
handed to `print` inside its array, or a rendered element. -/
inductive OutputContent where
  | text (value : String)
  | object (type content : String)
  | element (description : String)
  /-- a value inherited from `Object.prototype`: a built-in function, or the
  prototype object itself -/
  | builtin (name : String)
  deriving DecidableEq, Repr

/-- One entry of the state `output`; `animated` is absent on the entries that
`printCommand` writes. -/
structure OutputEntry where
  type : String
  content : OutputContent
  animated : Option Bool := none
  deriving DecidableEq, Repr

/-- A call the component makes on one of its collaborators. -/
inductive AppEffect where
  | preventDefault
  | soundPlay (name : String)
  | announce (message priority : String)
  | soundInit
  | soundEnable
  | soundDisable
  /-- the `setTimeout` of line 402, whose callback plays the video -/
  | videoPlayTimer
  deriving DecidableEq, Repr

/-- The state of the `App` component that the command line uses, with the
initial values of its `useState` calls, and the calls made on collaborators so
far. -/
structure AppState where
  cwd : String := "/"
  input : String := ""
  history : List String := []
  historyIndex : ℤ := -1
  output : List OutputEntry := []
  contactForm : ContactForm := {}
  typewriterActive : Bool := true
  soundEnabled : Bool := false
  glitchActive : Bool := true
  effects : List AppEffect := []
  showPdfModal : Bool := false
  pdfNumPages : Option ℤ := none
  pdfPageNumber : ℤ := 1
  showProjectsModal : Bool := false
  showHelpSidebar : Bool := true
  useCanvasBackground : Bool := false
  deriving DecidableEq, Repr

/-- A key press on the input, as far as `onKeyDown` looks at it. -/
structure KeyPress where
  key : String
  ctrlKey : Bool := false
  deriving DecidableEq, Repr

/-- The characters that `String.prototype.trim` removes: white space and line
terminators. -/
def isJsWhitespace (c : Char) : Bool :=
  c.toNat ∈ [0x09, 0x0A, 0x0B, 0x0C, 0x0D, 0x20, 0xA0, 0x1680, 0x2028, 0x2029, 0x202F,
    0x205F, 0x3000, 0xFEFF] || (0x2000 ≤ c.toNat && c.toNat ≤ 0x200A)

/-- Method `String.prototype.trim`. -/
def jsTrim (s : String) : String :=
  String.mk ((s.toList.dropWhile isJsWhitespace).reverse.dropWhile isJsWhitespace).reverse

namespace App

/-- Function `print(lines, type)` (lines 273-296) for an array of strings:
`render` is the state of the render whose closure runs, `s` the state with the
updates queued so far. -/
def print (render s : AppState) (lines : List String) (type : String) : AppState :=
  let announced :=
    if type = "error" then [AppEffect.announce (" ".intercalate lines) "assertive"] else []
  { s with
    effects := s.effects ++ announced
    output := s.output ++ lines.map (fun l =>
      { type := type, content := OutputContent.text l,
        animated := some (render.typewriterActive && decide (type = "line")) }) }

/-- Handler `onKeyDown` (lines 651-672). An index outside the history reads
`undefined`, shown as the empty input. -/
def onKeyDown (s : AppState) (e : KeyPress) : AppState :=
  if e.ctrlKey && e.key = "c" && s.contactForm.active then
    { print s s ["Operation canceled."] "line" with contactForm := {} }
  else if e.key = "ArrowUp" then
    let s1 := { s with effects := s.effects ++ [AppEffect.preventDefault] }
    if s.history.length = 0 || s.contactForm.active then s1
    else
      let nextIndex : ℤ :=
        if s.historyIndex < 0 then s.history.length - 1 else max 0 (s.historyIndex - 1)
      { s1 with
        historyIndex := nextIndex
        input := if nextIndex < 0 then "" else s.history.getD nextIndex.toNat "" }
  else if e.key = "ArrowDown" then
    let s1 := { s with effects := s.effects ++ [AppEffect.preventDefault] }
    if s.history.length = 0 || s.contactForm.active then s1
    else
      let nextIndex : ℤ :=
        if s.historyIndex < 0 then -1 else min (s.history.length - 1) (s.historyIndex + 1)
      { s1 with
        historyIndex := nextIndex
        input := if nextIndex = -1 then ""
          else if nextIndex < 0 then "" else s.history.getD nextIndex.toNat "" }
  else s

/-- Handler `onSubmit` (lines 636-649); `handleCommand` is the function of
lines 313-558, applied to the state with the updates queued so far. -/
def onSubmit (handleCommand : AppState → String → AppState) (s : AppState) : AppState :=
  let s1 := { s with effects := s.effects ++ [AppEffect.preventDefault] }
  if jsTrim s.input = "" then s1
  else
    let s2 :=
      if s.soundEnabled then { s1 with effects := s1.effects ++ [AppEffect.soundPlay "enter"] }
      else s1
    let s3 := handleCommand s2 s.input
    { s3 with history := s3.history ++ [s.input], historyIndex := -1, input := "" }

/-- The key press `ArrowUp`. -/
def arrowUp : KeyPress :=
  { key := "ArrowUp" }

/-- A number of consecutive `ArrowUp` presses. -/
def pressUp (k : Nat) (s : AppState) : AppState :=
  (fun t => onKeyDown t arrowUp)^[k] s

end App

/-! ## The commands of the terminal (`App.jsx`, `userData.js`) -/

/-- Method `String.prototype.split` with the separator `/\s+/`, read from the left:
`cur` holds the characters of the piece being read, newest first, and `inGap`
says that the last character was white space. -/
def splitWhitespaceAux : List Char → List Char → Bool → List String
  | [], cur, _ => [String.mk cur.reverse]
  | c :: cs, cur, inGap =>
    if isJsWhitespace c then
      if inGap then splitWhitespaceAux cs [] true
      else String.mk cur.reverse :: splitWhitespaceAux cs [] true
    else splitWhitespaceAux cs (c :: cur) false

/-- Expression `s.split(/\s+/)`. -/
def jsSplitWhitespace (s : String) : List String :=
  splitWhitespaceAux s.toList [] false

/-- Method `String.prototype.startsWith`. -/
def jsStartsWith (s start : String) : Bool :=
  start.toList.isPrefixOf s.toList

/-- The names of the properties that an object literal inherits from
`Object.prototype`; each holds a function, `__proto__` the prototype object, so
all of them are truthy. -/
def objectPrototypeKeys : List String :=
  ["constructor", "__defineGetter__", "__defineSetter__", "hasOwnProperty",
    "__lookupGetter__", "__lookupSetter__", "isPrototypeOf", "propertyIsEnumerable",
    "toString", "valueOf", "__proto__", "toLocaleString"]

/-- What a property access `object[key]` on an object literal finds. -/
inductive Property (α : Type) where
  | own (value : α)
  | inherited
  | undefined
  deriving DecidableEq, Repr

/-- Expression `object[key]` for an object literal with the given own
properties. -/
def getProperty {α : Type} (object : List (String × α)) (key : String) : Property α :=
  match object.find? (fun p => p.1 == key) with
  | some p => Property.own p.2
  | none => if key ∈ objectPrototypeKeys then Property.inherited else Property.undefined

/-- The object `FILE_SYSTEM` of `userData.js` (lines 19-23): its own properties. -/
def FILE_SYSTEM : List (String × List String) :=
  [("/", ["projects", "about_me", "resume.pdf", "gallery", "contact", "about.txt",
      "skills.txt"]),
    ("/projects", ["project-alpha", "project-beta", "project-gamma", "project-delta",
      "project-epsilon"]),
    ("/skills", ["frontend", "backend", "devops", "tools"])]

/-- The constant `HELP_TEXT` of `userData.js` (lines 204-224), line by line: the
value of `HELP_TEXT.split('\n')`. -/
def HELP_TEXT : List String :=
  ["",
    "Available commands:",
    "",
    "help                    Show this help message",
    "clear                   Clear the terminal screen",
    "ls                      List files in current directory",
    "cd [directory]          Change directory",
    "cat [file]              Display file contents",
    "open resume.pdf         Open resume in PDF viewer",
    "projects                List all projects",
    "projects [project-id]   Show project details",
    "artifacts               Show gallery of work/artifacts",
    "contact                 Open contact form",
    "sound [on|off]          Toggle sound effects",
    "typewriter [on|off]     Toggle typewriter effect",
    "glitch [on|off]         Toggle glitch effects",
    "about                   Display about information",
    "skills                  Display skills information",
    "",
    "Try exploring the file system with ls and cd commands!",
    ""]

/-- The constant `ABOUT_TEXT` of `userData.js` (lines 105-125), line by line: the
value of `ABOUT_TEXT.split('\n')`. -/
def ABOUT_TEXT : List String :=
  ["",
    "Hi, I’m Gabriel Pellegrini — a Creative Technologist working at the intersection of ",
    "immersive media, artificial intelligence, and culinary innovation.",
    "",
    ("I design AR/VR experiences, interactive data visualizations, and " ++
      "creative coding projects "),
    ("that merge technical depth with sensory storytelling. My work in " ++
      "computational gastronomy "),
    ("centers on **FoodAI** — a modular AI platform that uses deep semantic " ++
      "embeddings, chemical "),
    ("and sensory data, and context-aware machine learning to generate " ++
      "entirely new ingredient "),
    "pairings, recipes, and food concepts.",
    "",
    ("These systems don’t just suggest flavors — they simulate texture, " ++
      "balance nutrition, and "),
    ("optimize for creativity, producing edible concepts that could only " ++
      "exist through computation.  "),
    ("From **algorithmically generated flavor wheels** to **AI-driven " ++
      "culinary installations** that "),
    "respond to audience input, I treat AI as both a collaborator and a creative provocateur.",
    "",
    ("When I’m not building, you’ll find me experimenting with neural " ++
      "network–driven art, prototyping "),
    ("new interaction models, or crafting experiences where the boundaries " ++
      "between the physical and "),
    "digital worlds dissolve.",
    "",
    "Type 'help' to see available commands and start exploring this terminal portfolio.",
    ""]

/-- The list `SKILLS.frontend` of `userData.js`. -/
def SKILLS.frontend : List String :=
  ["JavaScript/TypeScript",
    "React",
    "Vue.js",
    "HTML5/CSS3",
    "SASS/SCSS",
    "Responsive Design",
    "Accessibility (WCAG)",
    "D3.js",
    "WebGL"]

/-- The list `SKILLS.backend` of `userData.js`. -/
def SKILLS.backend : List String :=
  ["Node.js",
    "Express",
    "Python",
    "Flask",
    "Django",
    "RESTful APIs",
    "GraphQL",
    "MongoDB",
    "PostgreSQL",
    "Redis"]

/-- The list `SKILLS.devops` of `userData.js`. -/
def SKILLS.devops : List String :=
  ["Docker",
    "Kubernetes",
    "AWS",
    "CI/CD",
    "GitHub Actions",
    "Terraform",
    "Linux"]

/-- The list `SKILLS.tools` of `userData.js`. -/
def SKILLS.tools : List String :=
  ["Git",
    "Jest",
    "React Testing Library",
    "Webpack",
    "Vite",
    "Figma",
    "Adobe Creative Suite",
    "VS Code",
    "Bash/Shell"]

/-- The names of the entries of `ARTIFACTS` (`userData.js` lines 71-102), in order. -/
def ARTIFACTS : List String :=
  ["Neural Recipe Generator",
    "Climate Viz Dashboard",
    "AR Art Experience",
    "Tech Blog",
    "Open Source Contributions"]

/-- The object `EASTER_EGGS` of `userData.js` (lines 193-201): its own properties. -/
def EASTER_EGGS : List (String × String) :=
  [("sudo make me a sandwich", "Okay, here's your sandwich 🥪"),
    ("do a barrel roll", "🔄 Wheeeee! *terminal spins*"),
    ("konami code", "⬆️⬆️⬇️⬇️⬅️➡️⬅️➡️🅱️🅰️ - Cheat mode activated!"),
    ("hello world", "Hello to you too! 👋 Welcome to my terminal."),
    ("exit", "Nice try! This is a browser, not a real terminal. 😉"),
    ("rm -rf /", "Nice try! 😅 System files are protected."),
    ("help me", "I'm here to help! Try typing 'help' for a list of commands.")]

/-- The array `fortunes` of the case `fortune` (`App.jsx` lines 501-509). -/
def fortunes : List String :=
  ["The best way to predict the future is to create it.",
    "Code is like humor. When you have to explain it, it's bad.",
    "The only constant in software development is change.",
    "It's not a bug â€“ it's an undocumented feature.",
    "Documentation is like a rare PokÃ©mon. Hard to find but worth it.",
    "The best error message is the one that never shows up.",
    ("If debugging is the process of removing software bugs, then " ++
      "programming is the process of putting them in.")]

/-- The words that have a `case` of their own in the `switch` of `handleCommand`. -/
def builtinCommands : List String :=
  ["help", "ls", "cd", "cat", "open", "video", "projects", "contact", "artifacts", "history",
    "clear", "toggle-sound", "toggle-typewriter", "toggle-glitch", "sudo", "fortune", "about",
    "skills"]

namespace App

/-- The memoised `prompt` of line 268. -/
def prompt (cwd : String) : String :=
  "Ch3fC0d3" ++ "@" ++ "terminal-portfolio" ++ ":" ++ cwd ++ "$"

/-- Function `printCommand(command)` (lines 302-307). -/
def printCommand (render s : AppState) (command : String) : AppState :=
  { s with
    output := s.output ++
      [{ type := "line", content := OutputContent.text (prompt render.cwd ++ " " ++ command) }] }

/-- Function `printInteractive(content)` (lines 298-300); the element is
described by the text it shows. -/
def printInteractive (s : AppState) (content : String) : AppState :=
  { s with
    output := s.output ++ [{ type := "interactive", content := OutputContent.element content }] }

/-- Function `clearScreen()` (lines 309-311). -/
def clearScreen (s : AppState) : AppState :=
  { s with output := [] }

/-- Function `print(lines)` (lines 273-296) for an array of arbitrary values and
the default type `'line'`: an array is never announced with that type. -/
def printValues (render s : AppState) (lines : List OutputContent) : AppState :=
  { s with
    output := s.output ++ lines.map (fun l =>
      { type := "line", content := l, animated := some render.typewriterActive }) }

/-- Function `handleContactInput(value)` (lines 560-602). -/
def handleContactInput (render s : AppState) (value : String) : AppState :=
  let data := render.contactForm.data
  let s1 := { s with
    input := ""
    output := s.output ++ [{ type := "line", content := OutputContent.text ("> " ++ value) }] }
  match render.contactForm.step with
  | 0 =>
    { print render s1 ["What is your email address?"] "line" with
      contactForm := { active := true, step := 1, data := { data with name := value } } }
  | 1 =>
    if !(value.toList.contains '@') || !(value.toList.contains '.') then
      print render (print render s1 ["Please enter a valid email address."] "line")
        ["What is your email address?"] "line"
    else
      { print render s1 ["Please enter your message:"] "line" with
        contactForm := { active := true, step := 2, data := { data with email := value } } }
  | 2 =>
    let s2 := print render s1
      ["Thank you! Your message has been received. We will get back to you soon."] "line"
    let s3 := print render s2 ["Summary of your submission:"] "line"
    let s4 := print render s3 ["Name: " ++ data.name] "line"
    let s5 := print render s4 ["Email: " ++ data.email] "line"
    let s6 := print render s5 ["Message: " ++ value] "line"
    { s6 with contactForm := { active := false, step := 0, data := {} } }
  | step => { s1 with contactForm := { active := true, step := step, data := data } }

/-- The case `ls` (lines 330-354). A current directory that names an inherited
property makes `items.join` throw. -/
def ls (render s : AppState) : Except Fault AppState :=
  match getProperty FILE_SYSTEM render.cwd with
  | Property.inherited => Except.error Fault.thrown
  | found =>
    let items := match found with
      | Property.own value => value
      | _ => []
    if render.cwd = "/projects" then
      Except.ok (items.foldl printInteractive (print render s ["Available projects:"] "line"))
    else Except.ok (print render s ["  ".intercalate items] "line")

/-- The case `cd` (lines 355-372). -/
def cd (render s : AppState) (args : List String) : AppState :=
  match args.head? with
  | none => print render s ["Usage: cd <dir>"] "line"
  | some target =>
    if target = "" then print render s ["Usage: cd <dir>"] "line"
    else if target = "/" ∨ target = "~" then { s with cwd := "/" }
    else
      let newPath :=
        if jsStartsWith target "/" then target
        else (if render.cwd = "/" then "" else render.cwd) ++ "/" ++ target
      match getProperty FILE_SYSTEM newPath with
      | Property.undefined => print render s ["cd: no such file or directory: " ++ target] "line"
      | _ => { s with cwd := newPath }

/-- The case `cat` (lines 373-385). -/
def cat (render s : AppState) (args : List String) : AppState :=
  match args.head? with
  | none => print render s ["Usage: cat <file>"] "line"
  | some file =>
    if file = "" then print render s ["Usage: cat <file>"] "line"
    else if file = "about.txt" then print render s ABOUT_TEXT "line"
    else print render s ["cat: " ++ file ++ ": No such file"] "line"

/-- The case `open` (lines 386-396). The comparison is made on the lower-cased
word; `String.toLower` agrees with `toLowerCase` on every word that
`toLowerCase` maps to one of the two targets. -/
def openTarget (render s : AppState) (args : List String) : AppState :=
  let target := (args.headD "").toLower
  if target = "resume" ∨ target = "resume.pdf" then
    { print render s ["Opening resume in less-like viewer. Use j/k to navigate, q to close."]
        "line" with showPdfModal := true }
  else print render s ["open: unsupported target"] "line"

/-- The case `video` (lines 397-419). -/
def video (render s : AppState) (args : List String) : AppState :=
  let mode := (args.headD "").toLower
  if mode = "on" then
    let s1 := print render { s with useCanvasBackground := false }
      ["Attempting to enable video backgroundâ€¦"] "line"
    { s1 with effects := s1.effects ++ [AppEffect.videoPlayTimer] }
  else if mode = "off" then
    print render { s with useCanvasBackground := true } ["Using canvas background."] "line"
  else print render s ["Usage: video [on|off]"] "line"

/-- The case `contact` (lines 426-439). -/
def contact (render s : AppState) (args : List String) : AppState :=
  if args.head? = some "--form" then
    let s1 := print render s ["Starting contact form. Press Ctrl+C at any time to cancel."]
      "line"
    { print render s1 ["What is your name?"] "line" with
      contactForm := { active := true, step := 0, data := {} } }
  else print render s ["Usage: contact --form"] "line"

/-- The case `history` (lines 460-464). -/
def showHistory (render s : AppState) : AppState :=
  if render.history.length = 0 then print render s ["(empty)"] "line"
  else
    (render.history.drop (render.history.length - 20)).foldl
      (fun t h => print render t [h] "line") s

/-- The case `toggle-sound` (lines 469-481). -/
def toggleSound (render s : AppState) : AppState :=
  let newSoundState := !render.soundEnabled
  let s1 := { s with soundEnabled := newSoundState }
  let s2 :=
    if newSoundState then
      { s1 with
        effects := s1.effects ++
          [AppEffect.soundInit, AppEffect.soundEnable, AppEffect.soundPlay "startup"] }
    else { s1 with effects := s1.effects ++ [AppEffect.soundDisable] }
  print render s2
    ["Sound effects " ++ (if newSoundState then "enabled" else "disabled") ++ "."] "line"

/-- The case `toggle-typewriter` (lines 482-486). -/
def toggleTypewriter (render s : AppState) : AppState :=
  print render { s with typewriterActive := !render.typewriterActive }
    ["Typewriter effect " ++ (if !render.typewriterActive then "enabled" else "disabled") ++ "."]
    "line"

/-- The case `toggle-glitch` (lines 487-491). -/
def toggleGlitch (render s : AppState) : AppState :=
  print render { s with glitchActive := !render.glitchActive }
    ["Glitch effect " ++ (if !render.glitchActive then "enabled" else "disabled") ++ "."]
    "line"

/-- The case `sudo` (lines 492-499). -/
def sudoCase (render s : AppState) (args : List String) : AppState :=
  if " ".intercalate args = "make me a sandwich" then
    print render s ["Okay. You are now a sandwich. ðŸ¥ª"] "line"
  else print render s ["sudo: permission denied"] "line"

/-- The case `fortune` (lines 500-513) when `Math.random()` returns `random`; an
index outside the array reads `undefined`, shown as the empty text. -/
def fortune (random : ℚ) (render s : AppState) : AppState :=
  let index : ℤ := ⌊random * fortunes.length⌋
  print render s [if index < 0 then "" else fortunes.getD index.toNat ""] "line"

/-- The case `skills` (lines 518-546). -/
def skills (render s : AppState) : AppState :=
  let bullets (t : AppState) (items : List String) : AppState :=
    items.foldl (fun u skill => print render u ["  â€¢ " ++ skill] "line") t
  let s1 := print render s ["My Skills:"] "line"
  let s2 := bullets (print render s1 ["\nFrontend:"] "line") SKILLS.frontend
  let s3 := bullets (print render s2 ["\nBackend:"] "line") SKILLS.backend
  let s4 := bullets (print render s3 ["\nDevOps:"] "line") SKILLS.devops
  bullets (print render s4 ["\nTools:"] "line") SKILLS.tools

/-- The lines 552-555: the object `{ type: 'error', content }` is handed to
`print` inside the array, and `print` is called without a type. -/
def commandNotFound (render s : AppState) (command : String) : AppState :=
  let s1 := printValues render s
    [OutputContent.object "error" ("Command not found: " ++ command)]
  if render.soundEnabled then { s1 with effects := s1.effects ++ [AppEffect.soundPlay "error"] }
  else s1

/-- The `default` case (lines 547-556). -/
def fallback (render s : AppState) (command : String) : AppState :=
  match getProperty EASTER_EGGS command with
  | Property.own text =>
    if text = "" then commandNotFound render s command else print render s [text] "line"
  | Property.inherited => printValues render s [OutputContent.builtin command]
  | Property.undefined => commandNotFound render s command

/-- The `switch (cmd)` of `handleCommand` (lines 326-557) for the trimmed
input `command`, its first word `cmd` and the remaining words `args`, when
`Math.random()` would return `random`; `s` holds the echo of the command. -/
def switchCommand (random : ℚ) (render s : AppState) (command cmd : String)
    (args : List String) : Except Fault AppState :=
  if cmd = "help" then Except.ok (print render s HELP_TEXT "line")
  else if cmd = "ls" then ls render s
  else if cmd = "cd" then Except.ok (cd render s args)
  else if cmd = "cat" then Except.ok (cat render s args)
  else if cmd = "open" then Except.ok (openTarget render s args)
  else if cmd = "video" then Except.ok (video render s args)
  else if cmd = "projects" then
    Except.ok (print render { s with showProjectsModal := true }
      ["Opening projects galleryâ€¦ Hover to brighten; click to visit. [Esc] to close."]
      "line")
  else if cmd = "contact" then Except.ok (contact render s args)
  else if cmd = "artifacts" then
    Except.ok (ARTIFACTS.foldl printInteractive
      (print render s ["Artifacts and creative work:"] "line"))
  else if cmd = "history" then Except.ok (showHistory render s)
  else if cmd = "clear" then Except.ok (clearScreen s)
  else if cmd = "toggle-sound" then Except.ok (toggleSound render s)
  else if cmd = "toggle-typewriter" then Except.ok (toggleTypewriter render s)
  else if cmd = "toggle-glitch" then Except.ok (toggleGlitch render s)
  else if cmd = "sudo" then Except.ok (sudoCase render s args)
  else if cmd = "fortune" then Except.ok (fortune random render s)
  else if cmd = "about" then Except.ok (print render s ABOUT_TEXT "line")
  else if cmd = "skills" then Except.ok (skills render s)
  else Except.ok (fallback render s command)

/-- Function `handleCommand(raw)` (lines 313-558) when `Math.random()` would
return `random`; `render` is the state of the render whose closure runs, `s` the
state with the updates queued so far. -/
def handleCommand (random : ℚ) (render s : AppState) (raw : String) : Except Fault AppState :=
  if jsTrim raw = "" then Except.ok s
  else if render.contactForm.active then
    Except.ok (handleContactInput render s (jsTrim raw))
  else
    switchCommand random render (printCommand render s (jsTrim raw)) (jsTrim raw)
      ((jsSplitWhitespace (jsTrim raw)).headD "") (jsSplitWhitespace (jsTrim raw)).tail

/-- A sequence of commands, each handled in the render that follows the
previous one, with the draw `Math.random()` would return at that time; it stops
at the first call that throws. -/
def runCommands (s : AppState) : List (ℚ × String) → Except Fault AppState
  | [] => Except.ok s
  | c :: cs =>
    match handleCommand c.1 s s c.2 with
    | Except.error f => Except.error f
    | Except.ok t => runCommands t cs

/-- A call returns and leaves the working directory among the own keys of
`FILE_SYSTEM`. -/
def KeepsCwd (r : Except Fault AppState) : Prop :=
  ∃ t, r = Except.ok t ∧ t.cwd ∈ FILE_SYSTEM.map Prod.fst

/-- The key press `ArrowDown`. -/
def arrowDown : KeyPress :=
  { key := "ArrowDown" }

end App

/-! ## Keyboard handling of the PDF modal (`App.jsx` lines 206-266) -/

/-- The three functions the component hands to `addKeyboardNavigation` for the
PDF modal, which are also the `onClick` handlers of its buttons. -/
inductive PdfHandler where
  | close
  | previousPage
  | nextPage
  deriving DecidableEq, Repr

/-- Expression `pdfNumPages || 1`. -/
def orPages (pdfNumPages : Option ℤ) : ℤ :=
  match pdfNumPages with
  | some n => if n = 0 then 1 else n
  | none => 1

/-- What a handler does (lines 216-218 and 811-830): `render` is the state of
the render that created it, `s` the state it updates. -/
def PdfHandler.run (render s : AppState) : PdfHandler → AppState
  | PdfHandler.close => { s with showPdfModal := false }
  | PdfHandler.previousPage => { s with pdfPageNumber := max 1 (s.pdfPageNumber - 1) }
  | PdfHandler.nextPage =>
    { s with pdfPageNumber := min (orPages render.pdfNumPages) (s.pdfPageNumber + 1) }

/-- The name of the property of the options object that holds a handler. -/
def HandlerName.property : HandlerName → String
  | HandlerName.onEnter => "onEnter"
  | HandlerName.onEscape => "onEscape"
  | HandlerName.onArrowUp => "onArrowUp"
  | HandlerName.onArrowDown => "onArrowDown"

/-- The destructuring `const { onEnter, onEscape, onArrowUp, onArrowDown } = options`
of `addKeyboardNavigation` (line 43) for an options object with the given
properties: no other property is read. -/
def readKeyOptions (options : List (String × PdfHandler)) : KeyOptions :=
  { onEnter := (options.lookup "onEnter").isSome
    onEscape := (options.lookup "onEscape").isSome
    onArrowUp := (options.lookup "onArrowUp").isSome
    onArrowDown := (options.lookup "onArrowDown").isSome }

namespace App

/-- The options object of lines 215-219. -/
def pdfModalOptions : List (String × PdfHandler) :=
  [("onEscape", PdfHandler.close), ("onArrowLeft", PdfHandler.previousPage),
    ("onArrowRight", PdfHandler.nextPage)]

/-- The effect of lines 207-225, with `modal` the element that
`document.querySelector('.pdf-modal')` finds: the state, the listeners of the
page and the listener held by the cleanup function it returns. -/
def pdfModalEffect (s : AppState) (t : EventTargets) (modal : Option Nat) :
    AppState × EventTargets × Option Nat :=
  if !s.showPdfModal then (s, t, none)
  else
    match modal with
    | none => (s, t, none)
    | some element =>
      let r := addKeyboardNavigation t (some element) (some (readKeyOptions pdfModalOptions))
      ({ s with
          effects := s.effects ++
            [AppEffect.announce
              "Resume PDF opened. Use arrow keys to navigate pages and Escape to close."
              "polite"] },
        r.1, r.2)

/-- The effect of lines 227-266: the object of handlers is passed in the place
of the ref, so `ref.current` is `undefined` and no options are passed. -/
def globalKeyboardEffect (t : EventTargets) : EventTargets × Option Nat :=
  addKeyboardNavigation t none none

/-- The browser dispatches a `keydown` on `element`; every handler of the PDF
modal's options object that a listener calls then runs. -/
def keydown (s : AppState) (t : EventTargets) (element : Nat) (key : String) : AppState :=
  (dispatchKeydown t element { key := key, defaultPrevented := false }).2.foldl
    (fun u call =>
      match pdfModalOptions.lookup call.handler.property with
      | some handler => handler.run s u
      | none => u)
    s

/-- The open PDF modal, element `modal` of a page without listeners: both
effects run, then the key is pressed on the modal. -/
def pdfModalKey (s : AppState) (modal : Nat) (key : String) : AppState :=
  let opened := pdfModalEffect s { listeners := [], nextListener := 0 } (some modal)
  keydown opened.1 (globalKeyboardEffect opened.2.1).1 modal key

end App

/-! ## The draw calls of one trail, as the specification words them -/

namespace BackgroundAnimation

/-- The calls the specification prescribes for trail position `j` of a drop:
the fill style for the opacity `1` at the head and `1 - j / length` behind it,
then the glyph at `y - j * fontSize` when that position is strictly inside the
surface. -/
def trailDraws (e : BackgroundAnimation) (numberToString : ℚ → String) (d : Drop) (j : Nat) :
    List DrawCall :=
  let opacity : ℚ := if j = 0 then 1 else 1 - j / d.length
  let y := d.y - j * e.options.fontSize
  DrawCall.fillStyle (trailStyle e.options.color numberToString (some opacity)) ::
    (if 0 < y ∧ y < e.canvas.height then [DrawCall.fillText (d.chars.getD j "") d.x y] else [])

/-- The calls for a whole drop, head first. -/
def dropDraws (e : BackgroundAnimation) (numberToString : ℚ → String) (d : Drop) :
    List DrawCall :=
  (List.range d.chars.length).flatMap (trailDraws e numberToString d)

/-- A call that paints a glyph. -/
def IsFillText : DrawCall → Bool
  | DrawCall.fillText _ _ _ => true
  | _ => false

/-- The shape of a drop that `initDrops` creates on a surface with the given
number of columns: between 5 and 19 glyphs, as many as its length says, in one
of the columns. -/
def Shaped (o : Options) (columns : ℤ) (d : Drop) : Prop :=
  5 ≤ d.length ∧ d.length ≤ 19 ∧ (d.chars.length : ℤ) = d.length ∧
    ∃ k : ℤ, 0 ≤ k ∧ k < columns ∧ d.x = k * o.fontSize

/-- The relation between a drop and its successor after one frame: the same
column, length, opacity base and number of glyphs. -/
def Kept (d d' : Drop) : Prop :=
  d'.x = d.x ∧ d'.length = d.length ∧ d'.opacity = d.opacity ∧
    d'.chars.length = d.chars.length

/-- A drop with its head 40 pixels below the top edge: five glyphs, speed 2. -/
def headDrop : Drop :=
  { x := 32, y := 40, speed := 2, length := 5, opacity := 3 / 4,
    chars := ["0", "1", "0", "1", "0"] }

/-- The application's engine in the 1000 by 800 window with that one drop. -/
def topEngine : BackgroundAnimation :=
  { appEngine with
    canvas := { Canvas.withContext (some ContextKind.twoD) with width := 1000, height := 800 }
    drops := [headDrop] }

end BackgroundAnimation

/-! ## The sound manager driven from outside -/

/-- A call of one of the five methods of `SoundEffects`, or an event that the
browser delivers to the audio code. -/
inductive SoundCall where
  | init
  | enable
  | disable
  | toggle
  | play (name : String)
  | host (event : HostEvent)
  deriving DecidableEq, Repr

namespace AudioWorld

/-- One call or event, on the host as it is at that moment. -/
def call (w : AudioWorld) (c : AudioHost × SoundCall) : AudioWorld :=
  match c.2 with
  | SoundCall.init => SoundEffects.init c.1 w
  | SoundCall.enable => SoundEffects.enable c.1 w
  | SoundCall.disable => SoundEffects.disable w
  | SoundCall.toggle => (SoundEffects.toggle c.1 w).1
  | SoundCall.play name => SoundEffects.play c.1 w name
  | SoundCall.host event => deliver c.1 w event

/-- A sequence of calls and events, oldest first. -/
def calls (w : AudioWorld) (cs : List (AudioHost × SoundCall)) : AudioWorld :=
  cs.foldl call w

/-- World `w'` is `w` after code of the generator ran: the sound manager is
untouched, and either the generator is untouched and no context was created, or
the generator was not initialised, is now, and exactly one context was
created. -/
def Grows (w w' : AudioWorld) : Prop :=
  w'.sfx = w.sfx ∧
    ((w'.gen = w.gen ∧ contextsCreated w'.log = contextsCreated w.log) ∨
      (w.gen.initialized = false ∧ w'.gen.initialized = true ∧ w'.gen.context.isSome = true ∧
        contextsCreated w'.log = contextsCreated w.log + 1))

/-- The invariant of the sound manager: before `SoundEffects.init()` has run
nothing of the generator has; the contexts created are none while the generator
is not initialised and exactly one, still held, once it is. -/
def OneContext (w : AudioWorld) : Prop :=
  (w.sfx.initialized = false →
      w.gen.initialized = false ∧ w.waiting = [] ∧ w.microtasks = []) ∧
    (w.gen.initialized = false → contextsCreated w.log = 0) ∧
    (w.gen.initialized = true → contextsCreated w.log = 1 ∧ w.gen.context.isSome = true)

end AudioWorld

/-! # Properties -/

/-! ## Rounding to doubles -/

lemma roundHalfEven_floor_le (x : ℚ) : ⌊x⌋ ≤ roundHalfEven x := by
  unfold roundHalfEven
  split_ifs <;> omega

lemma roundHalfEven_le_floor_add_one (x : ℚ) : roundHalfEven x ≤ ⌊x⌋ + 1 := by
  unfold roundHalfEven
  split_ifs <;> omega

lemma roundHalfEven_intCast (n : ℤ) : roundHalfEven (n : ℚ) = n := by
  unfold roundHalfEven
  simp

lemma roundHalfEven_mono {x y : ℚ} (h : x ≤ y) : roundHalfEven x ≤ roundHalfEven y := by
  have hf : ⌊x⌋ ≤ ⌊y⌋ := Int.floor_mono h
  rcases lt_or_eq_of_le hf with hlt | heq
  · calc roundHalfEven x ≤ ⌊x⌋ + 1 := roundHalfEven_le_floor_add_one x
      _ ≤ ⌊y⌋ := hlt
      _ ≤ roundHalfEven y := roundHalfEven_floor_le y
  · have hfr : x - ⌊x⌋ ≤ y - ⌊y⌋ := by
      rw [heq]
      linarith
    unfold roundHalfEven
    rw [heq]
    split_ifs <;> first | omega | (exfalso; linarith)

lemma log_two_eq (x : ℚ) (e : ℤ) (hx : 0 < x) (h1 : (2 : ℚ) ^ e ≤ x) (h2 : x < (2 : ℚ) ^ (e + 1)) :
    Int.log 2 x = e := by
  have h1c : ((2 : ℕ) : ℚ) ^ e ≤ x := by exact_mod_cast h1
  have h2c : x < ((2 : ℕ) : ℚ) ^ (e + 1) := by exact_mod_cast h2
  have ha : e ≤ Int.log 2 x := (Int.zpow_le_iff_le_log (by norm_num) hx).mp h1c
  have hb : Int.log 2 x < e + 1 := (Int.lt_zpow_iff_log_lt (by norm_num) hx).mp h2c
  omega

lemma log_two_bounds (x : ℚ) (hx : 0 < x) :
    (2 : ℚ) ^ Int.log 2 x ≤ x ∧ x < (2 : ℚ) ^ (Int.log 2 x + 1) := by
  have h1 := Int.zpow_log_le_self (show 1 < 2 by norm_num) hx
  have h2 := Int.lt_zpow_succ_log_self (show 1 < 2 by norm_num) x
  constructor
  · exact_mod_cast h1
  · exact_mod_cast h2

lemma roundPositive_eval (x : ℚ) (e m : ℤ) (hx : 0 < x) (h1 : (2 : ℚ) ^ e ≤ x)
    (h2 : x < (2 : ℚ) ^ (e + 1)) (hm : roundHalfEven (x / 2 ^ (e - 52)) = m) :
    roundPositive x = m * 2 ^ (e - 52) := by
  unfold roundPositive
  rw [log_two_eq x e hx h1 h2, hm]

lemma two_zpow_pos (e : ℤ) : (0 : ℚ) < 2 ^ e := zpow_pos (by norm_num) e

lemma two_zpow_split (e : ℤ) (n : ℤ) : (2 : ℚ) ^ n * 2 ^ (e - 52) = 2 ^ (e - 52 + n) := by
  rw [← zpow_add₀ (by norm_num : (2 : ℚ) ≠ 0)]
  congr 1
  ring

/-- The significand of a positive rational lies between 2^52 and 2^53. -/
lemma significand_bounds (x : ℚ) (hx : 0 < x) :
    (2 : ℤ) ^ 52 ≤ roundHalfEven (x / 2 ^ (Int.log 2 x - 52)) ∧
      roundHalfEven (x / 2 ^ (Int.log 2 x - 52)) ≤ (2 : ℤ) ^ 53 := by
  obtain ⟨h1, h2⟩ := log_two_bounds x hx
  have hu := two_zpow_pos (Int.log 2 x - 52)
  have e1 : (2 : ℚ) ^ Int.log 2 x = 2 ^ (52 : ℤ) * 2 ^ (Int.log 2 x - 52) := by
    rw [two_zpow_split]
    congr 1
    ring
  have e2 : (2 : ℚ) ^ (Int.log 2 x + 1) = 2 ^ (53 : ℤ) * 2 ^ (Int.log 2 x - 52) := by
    rw [two_zpow_split]
    congr 1
    ring
  have l1 : (((2 : ℤ) ^ 52 : ℤ) : ℚ) ≤ x / 2 ^ (Int.log 2 x - 52) := by
    rw [le_div_iff₀ hu]
    have : (((2 : ℤ) ^ 52 : ℤ) : ℚ) = 2 ^ (52 : ℤ) := by norm_num
    rw [this, ← e1]
    exact h1
  have l2 : x / 2 ^ (Int.log 2 x - 52) ≤ (((2 : ℤ) ^ 53 : ℤ) : ℚ) := by
    rw [div_le_iff₀ hu]
    have : (((2 : ℤ) ^ 53 : ℤ) : ℚ) = 2 ^ (53 : ℤ) := by norm_num
    rw [this, ← e2]
    exact le_of_lt h2
  constructor
  · have := roundHalfEven_mono l1
    rwa [roundHalfEven_intCast] at this
  · have := roundHalfEven_mono l2
    rwa [roundHalfEven_intCast] at this

lemma roundPositive_bounds (x : ℚ) (hx : 0 < x) :
    (2 : ℚ) ^ Int.log 2 x ≤ roundPositive x ∧ roundPositive x ≤ (2 : ℚ) ^ (Int.log 2 x + 1) := by
  obtain ⟨h1, h2⟩ := significand_bounds x hx
  have hu := two_zpow_pos (Int.log 2 x - 52)
  have e1 : (2 : ℚ) ^ Int.log 2 x = (((2 : ℤ) ^ 52 : ℤ) : ℚ) * 2 ^ (Int.log 2 x - 52) := by
    have : (((2 : ℤ) ^ 52 : ℤ) : ℚ) = 2 ^ (52 : ℤ) := by norm_num
    rw [this, two_zpow_split]
    congr 1
    ring
  have e2 : (2 : ℚ) ^ (Int.log 2 x + 1) = (((2 : ℤ) ^ 53 : ℤ) : ℚ) * 2 ^ (Int.log 2 x - 52) := by
    have : (((2 : ℤ) ^ 53 : ℤ) : ℚ) = 2 ^ (53 : ℤ) := by norm_num
    rw [this, two_zpow_split]
    congr 1
    ring
  unfold roundPositive
  rw [e1, e2]
  constructor
  · exact mul_le_mul_of_nonneg_right (by exact_mod_cast h1) (le_of_lt hu)
  · exact mul_le_mul_of_nonneg_right (by exact_mod_cast h2) (le_of_lt hu)

lemma roundPositive_pos (x : ℚ) (hx : 0 < x) : 0 < roundPositive x :=
  lt_of_lt_of_le (two_zpow_pos _) (roundPositive_bounds x hx).1

lemma roundPositive_mono {x y : ℚ} (hx : 0 < x) (h : x ≤ y) : roundPositive x ≤ roundPositive y := by
  have hy : 0 < y := lt_of_lt_of_le hx h
  have hl : Int.log 2 x ≤ Int.log 2 y := Int.log_mono_right hx h
  rcases lt_or_eq_of_le hl with hlt | heq
  · calc roundPositive x ≤ (2 : ℚ) ^ (Int.log 2 x + 1) := (roundPositive_bounds x hx).2
      _ ≤ (2 : ℚ) ^ Int.log 2 y := zpow_le_zpow_right₀ (by norm_num) (by omega)
      _ ≤ roundPositive y := (roundPositive_bounds y hy).1
  · unfold roundPositive
    rw [heq]
    have hu := two_zpow_pos (Int.log 2 y - 52)
    apply mul_le_mul_of_nonneg_right _ (le_of_lt hu)
    have : x / 2 ^ (Int.log 2 y - 52) ≤ y / 2 ^ (Int.log 2 y - 52) :=
      div_le_div_of_nonneg_right h (le_of_lt hu)
    exact_mod_cast roundHalfEven_mono this

lemma toDouble_zero : toDouble 0 = 0 := by
  simp [toDouble]

lemma toDouble_of_pos {x : ℚ} (hx : 0 < x) : toDouble x = roundPositive x := by
  simp [toDouble, hx]

lemma toDouble_neg (x : ℚ) : toDouble (-x) = -toDouble x := by
  rcases lt_trichotomy x 0 with h | h | h
  · have h1 : 0 < -x := by linarith
    have h2 : ¬ 0 < x := by linarith
    simp [toDouble, h, h1, h2]
  · subst h
    simp [toDouble]
  · have h1 : ¬ 0 < -x := by linarith
    have h2 : ¬ x < 0 := by linarith
    simp [toDouble, h, h1, h2]

lemma toDouble_pos {x : ℚ} (hx : 0 < x) : 0 < toDouble x := by
  rw [toDouble_of_pos hx]
  exact roundPositive_pos x hx

lemma toDouble_nonneg {x : ℚ} (hx : 0 ≤ x) : 0 ≤ toDouble x := by
  rcases lt_or_eq_of_le hx with h | h
  · exact le_of_lt (toDouble_pos h)
  · rw [← h, toDouble_zero]

lemma toDouble_mono {x y : ℚ} (h : x ≤ y) : toDouble x ≤ toDouble y := by
  rcases lt_trichotomy x 0 with hx | hx | hx
  · rcases lt_or_le y 0 with hy | hy
    · have e1 : toDouble x = -toDouble (-x) := by rw [toDouble_neg, neg_neg]
      have e2 : toDouble y = -toDouble (-y) := by rw [toDouble_neg, neg_neg]
      have hy1 : 0 < -y := by linarith
      have hx1 : 0 < -x := by linarith
      rw [e1, e2, toDouble_of_pos hy1, toDouble_of_pos hx1]
      have := roundPositive_mono hy1 (show -y ≤ -x by linarith)
      linarith
    · have e1 : toDouble x = -toDouble (-x) := by rw [toDouble_neg, neg_neg]
      have hx1 : 0 < -x := by linarith
      have := toDouble_pos hx1
      have := toDouble_nonneg hy
      linarith
  · subst hx
    rw [toDouble_zero]
    exact toDouble_nonneg h
  · rw [toDouble_of_pos hx, toDouble_of_pos (lt_of_lt_of_le hx h)]
    exact roundPositive_mono hx h

/-- A value with at most 53 significant bits is a double. -/
lemma roundPositive_dyadic (m : ℤ) (k : ℤ) (h0 : 0 < m) (hm : m ≤ 2 ^ 53) :
    roundPositive ((m : ℚ) * 2 ^ k) = (m : ℚ) * 2 ^ k := by
  have hk := two_zpow_pos k
  have hx : (0 : ℚ) < (m : ℚ) * 2 ^ k := mul_pos (by exact_mod_cast h0) hk
  obtain ⟨h1, h2⟩ := log_two_bounds _ hx
  set e := Int.log 2 ((m : ℚ) * 2 ^ k) with he
  have hmq : (m : ℚ) ≤ 2 ^ (53 : ℤ) := by
    have : ((m : ℤ) : ℚ) ≤ (((2 : ℤ) ^ 53 : ℤ) : ℚ) := by exact_mod_cast hm
    have e : (((2 : ℤ) ^ 53 : ℤ) : ℚ) = 2 ^ (53 : ℤ) := by norm_num
    rwa [e] at this
  have hle : e ≤ 53 + k := by
    by_contra hc
    have hc1 : 53 + k + 1 ≤ e := by omega
    have : (2 : ℚ) ^ (53 + k + 1) ≤ 2 ^ e := zpow_le_zpow_right₀ (by norm_num) hc1
    have h3 : (m : ℚ) * 2 ^ k ≤ 2 ^ (53 : ℤ) * 2 ^ k := mul_le_mul_of_nonneg_right hmq (le_of_lt hk)
    rw [← zpow_add₀ (by norm_num : (2 : ℚ) ≠ 0)] at h3
    have h4 : (2 : ℚ) ^ (53 + k) < 2 ^ (53 + k + 1) := zpow_lt_zpow_right₀ (by norm_num) (by omega)
    linarith
  have hu := two_zpow_pos (e - 52)
  have key : ∃ N : ℤ, (m : ℚ) * 2 ^ k / 2 ^ (e - 52) = (N : ℚ) := by
    rcases lt_or_eq_of_le hle with hlt | heq
    · have hn : 0 ≤ k - e + 52 := by omega
      refine ⟨m * 2 ^ (k - e + 52).toNat, ?_⟩
      rw [div_eq_iff (ne_of_gt hu)]
      push_cast
      rw [mul_assoc, ← zpow_natCast, Int.toNat_of_nonneg hn,
        ← zpow_add₀ (by norm_num : (2 : ℚ) ≠ 0)]
      congr 2
      ring
    · refine ⟨2 ^ 52, ?_⟩
      rw [div_eq_iff (ne_of_gt hu)]
      have hm2 : (2 : ℚ) ^ (53 : ℤ) * 2 ^ k ≤ (m : ℚ) * 2 ^ k := by
        rw [← zpow_add₀ (by norm_num : (2 : ℚ) ≠ 0), ← heq]
        exact h1
      have hm3 : (2 : ℚ) ^ (53 : ℤ) ≤ (m : ℚ) := le_of_mul_le_mul_right hm2 hk
      have hm4 : (m : ℚ) = 2 ^ (53 : ℤ) := le_antisymm hmq hm3
      rw [hm4, heq, ← zpow_add₀ (by norm_num : (2 : ℚ) ≠ 0)]
      have : (((2 : ℤ) ^ 52 : ℤ) : ℚ) = 2 ^ (52 : ℤ) := by norm_num
      rw [this, ← zpow_add₀ (by norm_num : (2 : ℚ) ≠ 0)]
      congr 1
      ring
  obtain ⟨N, hN⟩ := key
  unfold roundPositive
  rw [← he, hN, roundHalfEven_intCast, ← hN]
  field_simp

lemma toDouble_dyadic (m : ℤ) (k : ℤ) (hm : |m| ≤ 2 ^ 53) :
    toDouble ((m : ℚ) * 2 ^ k) = (m : ℚ) * 2 ^ k := by
  have hk := two_zpow_pos k
  rcases lt_trichotomy m 0 with h | h | h
  · have h1 : 0 < -m := by omega
    have h2 : -m ≤ 2 ^ 53 := by
      have := neg_abs_le m
      have := neg_le_abs m
      omega
    have hx : (0 : ℚ) < ((-m : ℤ) : ℚ) * 2 ^ k := mul_pos (by exact_mod_cast h1) hk
    have e : (m : ℚ) * 2 ^ k = -(((-m : ℤ) : ℚ) * 2 ^ k) := by push_cast; ring
    rw [e, toDouble_neg, toDouble_of_pos hx, roundPositive_dyadic (-m) k h1 h2]
  · subst h
    simp [toDouble_zero]
  · have h2 : m ≤ 2 ^ 53 := le_trans (le_abs_self m) hm
    have hx : (0 : ℚ) < (m : ℚ) * 2 ^ k := mul_pos (by exact_mod_cast h) hk
    rw [toDouble_of_pos hx, roundPositive_dyadic m k h h2]

lemma toDouble_intCast (n : ℤ) (hn : |n| ≤ 2 ^ 53) : toDouble (n : ℚ) = n := by
  have := toDouble_dyadic n 0 hn
  simpa using this

lemma toDouble_idem (x : ℚ) : toDouble (toDouble x) = toDouble x := by
  rcases lt_trichotomy x 0 with h | h | h
  · have h1 : 0 < -x := by linarith
    have e1 : toDouble x = -toDouble (-x) := by rw [toDouble_neg, neg_neg]
    obtain ⟨s1, s2⟩ := significand_bounds (-x) h1
    rw [e1, toDouble_neg, toDouble_of_pos h1]
    congr 1
    unfold roundPositive
    exact toDouble_dyadic _ _ (by rw [abs_of_nonneg (by omega)]; exact s2)
  · subst h
    simp [toDouble_zero]
  · obtain ⟨s1, s2⟩ := significand_bounds x h
    rw [toDouble_of_pos h]
    unfold roundPositive
    exact toDouble_dyadic _ _ (by rw [abs_of_nonneg (by omega)]; exact s2)

lemma roundHalfEven_down (x : ℚ) (f : ℤ) (h0 : (f : ℚ) ≤ x) (h1 : x - f < 1 / 2) :
    roundHalfEven x = f := by
  have hf : ⌊x⌋ = f := Int.floor_eq_iff.mpr ⟨h0, by linarith⟩
  unfold roundHalfEven
  rw [hf, if_pos h1]

lemma roundHalfEven_up (x : ℚ) (f : ℤ) (h0 : (f : ℚ) ≤ x) (h1 : 1 / 2 < x - f) (h2 : x < f + 1) :
    roundHalfEven x = f + 1 := by
  have hf : ⌊x⌋ = f := Int.floor_eq_iff.mpr ⟨h0, h2⟩
  unfold roundHalfEven
  rw [hf, if_neg (by linarith), if_pos h1]

lemma roundHalfEven_tie_even (x : ℚ) (f : ℤ) (h0 : x = f + 1 / 2) (h1 : f % 2 = 0) :
    roundHalfEven x = f := by
  have hf : ⌊x⌋ = f := Int.floor_eq_iff.mpr ⟨by linarith, by linarith⟩
  unfold roundHalfEven
  rw [hf, if_neg (by linarith), if_neg (by linarith), if_pos h1]

lemma roundHalfEven_tie_odd (x : ℚ) (f : ℤ) (h0 : x = f + 1 / 2) (h1 : f % 2 = 1) :
    roundHalfEven x = f + 1 := by
  have hf : ⌊x⌋ = f := Int.floor_eq_iff.mpr ⟨by linarith, by linarith⟩
  unfold roundHalfEven
  rw [hf, if_neg (by linarith), if_neg (by linarith), if_neg (by omega)]

lemma toDouble_eval (x : ℚ) (e m : ℤ) (hx : 0 < x) (h1 : (2 : ℚ) ^ e ≤ x)
    (h2 : x < (2 : ℚ) ^ (e + 1)) (hm : roundHalfEven (x / 2 ^ (e - 52)) = m) :
    toDouble x = m * 2 ^ (e - 52) := by
  rw [toDouble_of_pos hx, roundPositive_eval x e m hx h1 h2 hm]

/-- The number 1 is a double. -/
lemma toDouble_one : toDouble 1 = 1 := by
  rw [toDouble_eval 1 (0) (4503599627370496) (by norm_num) (by norm_num) (by norm_num)
    (roundHalfEven_down _ (4503599627370496) (by norm_num) (by norm_num))]
  norm_num

/-- The number 2 is a double. -/
lemma toDouble_two : toDouble 2 = 2 := by
  rw [toDouble_eval 2 (1) (4503599627370496) (by norm_num) (by norm_num) (by norm_num)
    (roundHalfEven_down _ (4503599627370496) (by norm_num) (by norm_num))]
  norm_num

/-- The number 100 is a double. -/
lemma toDouble_hundred : toDouble 100 = 100 := by
  rw [toDouble_eval 100 (6) (7036874417766400) (by norm_num) (by norm_num) (by norm_num)
    (roundHalfEven_down _ (7036874417766400) (by norm_num) (by norm_num))]
  norm_num

/-- The largest double below 1, `1 - 2^-53`. -/
lemma toDouble_below_one : toDouble (9007199254740991 / 9007199254740992) = (9007199254740991 / 9007199254740992) := by
  rw [toDouble_eval (9007199254740991 / 9007199254740992) (-1) (9007199254740991) (by norm_num) (by norm_num) (by norm_num)
    (roundHalfEven_down _ (9007199254740991) (by norm_num) (by norm_num))]
  norm_num

/-- The product of the largest double below 1 and 100 is rounded to `100 - 2^-46`. -/
lemma toDouble_below_hundred : toDouble (225179981368524775 / 2251799813685248) = (7036874417766399 / 70368744177664) := by
  rw [toDouble_eval (225179981368524775 / 2251799813685248) (6) (7036874417766399) (by norm_num) (by norm_num) (by norm_num)
    (roundHalfEven_down _ (7036874417766399) (by norm_num) (by norm_num))]
  norm_num

/-- The product of the largest double below 1 and 2 is the double `2 - 2^-52`. -/
lemma toDouble_below_two : toDouble (9007199254740991 / 4503599627370496) = (9007199254740991 / 4503599627370496) := by
  rw [toDouble_eval (9007199254740991 / 4503599627370496) (0) (9007199254740991) (by norm_num) (by norm_num) (by norm_num)
    (roundHalfEven_down _ (9007199254740991) (by norm_num) (by norm_num))]
  norm_num

lemma toDouble_eq_zero_iff (x : ℚ) : toDouble x = 0 ↔ x = 0 := by
  constructor
  · intro h
    rcases lt_trichotomy x 0 with hx | hx | hx
    · have h1 : 0 < toDouble (-x) := toDouble_pos (by linarith)
      rw [toDouble_neg] at h1
      linarith
    · exact hx
    · have h1 := toDouble_pos hx
      linarith
  · intro h
    rw [h, toDouble_zero]

/-- A draw of `Math.random()`, which lies in `[0, 1 - 2^-53]`, as a double. -/
lemma toDouble_random_bounds (r : ℚ) (h0 : 0 ≤ r) (h1 : r ≤ 1 - 1 / 2 ^ 53) :
    0 ≤ toDouble r ∧ toDouble r ≤ (9007199254740991 / 9007199254740992) := by
  refine ⟨toDouble_nonneg h0, ?_⟩
  have e : (1 - 1 / 2 ^ 53 : ℚ) = (9007199254740991 / 9007199254740992) := by norm_num
  rw [e] at h1
  rw [← toDouble_below_one]
  exact toDouble_mono h1

lemma jsMul_zero_left (b : ℚ) : jsMul 0 b = 0 := by
  rw [jsMul, toDouble_zero, zero_mul, toDouble_zero]

lemma jsAdd_comm (a b : ℚ) : jsAdd a b = jsAdd b a := by
  rw [jsAdd, jsAdd, add_comm]

/-- Expression `r * -100` for a draw `r` of `Math.random()`: in `(-100, 0]`, and
0 only for the draw 0. -/
lemma jsMul_neg_hundred (r : ℚ) (h0 : 0 ≤ r) (h1 : r ≤ 1 - 1 / 2 ^ 53) :
    -100 < jsMul r (-100) ∧ jsMul r (-100) ≤ 0 ∧ (jsMul r (-100) = 0 ↔ r = 0) := by
  obtain ⟨ha, hb⟩ := toDouble_random_bounds r h0 h1
  have e : jsMul r (-100) = -toDouble (toDouble r * 100) := by
    rw [jsMul, toDouble_neg, toDouble_hundred, mul_neg, toDouble_neg]
  have hup : toDouble (toDouble r * 100) ≤ (7036874417766399 / 70368744177664) := by
    rw [← toDouble_below_hundred]
    exact toDouble_mono (by linarith)
  have hlo : 0 ≤ toDouble (toDouble r * 100) := toDouble_nonneg (by linarith)
  rw [e]
  refine ⟨by linarith, by linarith, ?_⟩
  rw [neg_eq_zero, toDouble_eq_zero_iff]
  constructor
  · intro h
    have h2 : toDouble r = 0 := by linarith
    exact (toDouble_eq_zero_iff r).mp h2
  · intro h
    rw [h, toDouble_zero, zero_mul]

/-- Expression `r * 2 + speed` for a draw `r` of `Math.random()`: between the
speed and the double `speed + 2`. -/
lemma jsAdd_twice (r speed : ℚ) (h0 : 0 ≤ r) (h1 : r ≤ 1 - 1 / 2 ^ 53) :
    toDouble speed ≤ jsAdd (jsMul r 2) speed ∧ jsAdd (jsMul r 2) speed ≤ jsAdd speed 2 := by
  obtain ⟨ha, hb⟩ := toDouble_random_bounds r h0 h1
  have hm0 : 0 ≤ jsMul r 2 := by
    rw [jsMul, toDouble_two]
    exact toDouble_nonneg (by linarith)
  have hm2 : jsMul r 2 ≤ 2 := by
    rw [jsMul, toDouble_two]
    calc toDouble (toDouble r * 2) ≤ toDouble 2 := toDouble_mono (by linarith)
      _ = 2 := toDouble_two
  have hi : toDouble (jsMul r 2) = jsMul r 2 := by
    rw [jsMul, toDouble_idem]
  constructor
  · rw [jsAdd, hi]
    calc toDouble speed = toDouble (toDouble speed) := (toDouble_idem speed).symm
      _ ≤ toDouble (jsMul r 2 + toDouble speed) := toDouble_mono (by linarith)
  · rw [jsAdd, jsAdd, hi, toDouble_two]
    exact toDouble_mono (by linarith)

/-- The number 600 is a double. -/
lemma toDouble_600 : toDouble 600 = 600 := by
  rw [toDouble_eval 600 (9) (5277655813324800) (by norm_num) (by norm_num) (by norm_num)
    (roundHalfEven_down _ (5277655813324800) (by norm_num) (by norm_num))]
  norm_num

/-- The number 200 is a double. -/
lemma toDouble_200 : toDouble 200 = 200 := by
  rw [toDouble_eval 200 (7) (7036874417766400) (by norm_num) (by norm_num) (by norm_num)
    (roundHalfEven_down _ (7036874417766400) (by norm_num) (by norm_num))]
  norm_num

/-- The number 800 is a double. -/
lemma toDouble_800 : toDouble 800 = 800 := by
  rw [toDouble_eval 800 (9) (7036874417766400) (by norm_num) (by norm_num) (by norm_num)
    (roundHalfEven_down _ (7036874417766400) (by norm_num) (by norm_num))]
  norm_num

/-- The number 300 is a double. -/
lemma toDouble_300 : toDouble 300 = 300 := by
  rw [toDouble_eval 300 (8) (5277655813324800) (by norm_num) (by norm_num) (by norm_num)
    (roundHalfEven_down _ (5277655813324800) (by norm_num) (by norm_num))]
  norm_num

/-- The number 1100 is a double. -/
lemma toDouble_1100 : toDouble 1100 = 1100 := by
  rw [toDouble_eval 1100 (10) (4837851162214400) (by norm_num) (by norm_num) (by norm_num)
    (roundHalfEven_down _ (4837851162214400) (by norm_num) (by norm_num))]
  norm_num

/-- The number 30 is a double. -/
lemma toDouble_30 : toDouble 30 = 30 := by
  rw [toDouble_eval 30 (4) (8444249301319680) (by norm_num) (by norm_num) (by norm_num)
    (roundHalfEven_down _ (8444249301319680) (by norm_num) (by norm_num))]
  norm_num

/-- The number 15 is a double. -/
lemma toDouble_15 : toDouble 15 = 15 := by
  rw [toDouble_eval 15 (3) (8444249301319680) (by norm_num) (by norm_num) (by norm_num)
    (roundHalfEven_down _ (8444249301319680) (by norm_num) (by norm_num))]
  norm_num

/-- The number 20 is a double. -/
lemma toDouble_20 : toDouble 20 = 20 := by
  rw [toDouble_eval 20 (4) (5629499534213120) (by norm_num) (by norm_num) (by norm_num)
    (roundHalfEven_down _ (5629499534213120) (by norm_num) (by norm_num))]
  norm_num

/-- The number 10 is a double. -/
lemma toDouble_10 : toDouble 10 = 10 := by
  rw [toDouble_eval 10 (3) (5629499534213120) (by norm_num) (by norm_num) (by norm_num)
    (roundHalfEven_down _ (5629499534213120) (by norm_num) (by norm_num))]
  norm_num

/-- The product of the largest double below 1 and 30, rounded. -/
lemma toDouble_below_thirty : toDouble (135107988821114865 / 4503599627370496) = (8444249301319679 / 281474976710656) := by
  rw [toDouble_eval (135107988821114865 / 4503599627370496) (4) (8444249301319679) (by norm_num) (by norm_num) (by norm_num)
    (roundHalfEven_down _ (8444249301319679) (by norm_num) (by norm_num))]
  norm_num

/-- The product of the largest double below 1 and 20, rounded. -/
lemma toDouble_below_twenty : toDouble (45035996273704955 / 2251799813685248) = (5629499534213119 / 281474976710656) := by
  rw [toDouble_eval (45035996273704955 / 2251799813685248) (4) (5629499534213119) (by norm_num) (by norm_num) (by norm_num)
    (roundHalfEven_down _ (5629499534213119) (by norm_num) (by norm_num))]
  norm_num

/-- The largest detune of the typing tone is the double `15 - 2^-48`. -/
lemma toDouble_below_fifteen : toDouble (4222124650659839 / 281474976710656) = (4222124650659839 / 281474976710656) := by
  rw [toDouble_eval (4222124650659839 / 281474976710656) (3) (8444249301319678) (by norm_num) (by norm_num) (by norm_num)
    (roundHalfEven_down _ (8444249301319678) (by norm_num) (by norm_num))]
  norm_num

/-- The largest detune of the click tone is the double `10 - 2^-48`. -/
lemma toDouble_below_ten : toDouble (2814749767106559 / 281474976710656) = (2814749767106559 / 281474976710656) := by
  rw [toDouble_eval (2814749767106559 / 281474976710656) (3) (5629499534213118) (by norm_num) (by norm_num) (by norm_num)
    (roundHalfEven_down _ (5629499534213118) (by norm_num) (by norm_num))]
  norm_num

/-- The product `200 * 1.5` of `error()`. -/
lemma jsMul_200_three_halves : jsMul 200 1.5 = 300 := by
  rw [show (1.5 : ℚ) = (3 / 2) by norm_num]
  have ha : toDouble 200 = 200 := by
    rw [toDouble_eval 200 (7) (7036874417766400) (by norm_num) (by norm_num) (by norm_num)
      (roundHalfEven_down _ (7036874417766400) (by norm_num) (by norm_num))]
    norm_num
  have hb : toDouble (3 / 2) = (3 / 2) := by
    rw [toDouble_eval (3 / 2) (0) (6755399441055744) (by norm_num) (by norm_num) (by norm_num)
      (roundHalfEven_down _ (6755399441055744) (by norm_num) (by norm_num))]
    norm_num
  have hx : toDouble 300 = 300 := by
    rw [toDouble_eval 300 (8) (5277655813324800) (by norm_num) (by norm_num) (by norm_num)
      (roundHalfEven_down _ (5277655813324800) (by norm_num) (by norm_num))]
    norm_num
  have hp : (200 : ℚ) * (3 / 2) = 300 := by norm_num
  rw [jsMul, ha, hb, hp, hx]

/-- The product `440 * 1.5` of `startup()`. -/
lemma jsMul_440_three_halves : jsMul 440 1.5 = 660 := by
  rw [show (1.5 : ℚ) = (3 / 2) by norm_num]
  have ha : toDouble 440 = 440 := by
    rw [toDouble_eval 440 (8) (7740561859543040) (by norm_num) (by norm_num) (by norm_num)
      (roundHalfEven_down _ (7740561859543040) (by norm_num) (by norm_num))]
    norm_num
  have hb : toDouble (3 / 2) = (3 / 2) := by
    rw [toDouble_eval (3 / 2) (0) (6755399441055744) (by norm_num) (by norm_num) (by norm_num)
      (roundHalfEven_down _ (6755399441055744) (by norm_num) (by norm_num))]
    norm_num
  have hx : toDouble 660 = 660 := by
    rw [toDouble_eval 660 (9) (5805421394657280) (by norm_num) (by norm_num) (by norm_num)
      (roundHalfEven_down _ (5805421394657280) (by norm_num) (by norm_num))]
    norm_num
  have hp : (440 : ℚ) * (3 / 2) = 660 := by norm_num
  rw [jsMul, ha, hb, hp, hx]

/-- The product `440 * 2` of `startup()`. -/
lemma jsMul_440_two : jsMul 440 2 = 880 := by
  have ha : toDouble 440 = 440 := by
    rw [toDouble_eval 440 (8) (7740561859543040) (by norm_num) (by norm_num) (by norm_num)
      (roundHalfEven_down _ (7740561859543040) (by norm_num) (by norm_num))]
    norm_num
  have hb : toDouble 2 = 2 := by
    rw [toDouble_eval 2 (1) (4503599627370496) (by norm_num) (by norm_num) (by norm_num)
      (roundHalfEven_down _ (4503599627370496) (by norm_num) (by norm_num))]
    norm_num
  have hx : toDouble 880 = 880 := by
    rw [toDouble_eval 880 (9) (7740561859543040) (by norm_num) (by norm_num) (by norm_num)
      (roundHalfEven_down _ (7740561859543040) (by norm_num) (by norm_num))]
    norm_num
  have hp : (440 : ℚ) * 2 = 880 := by norm_num
  rw [jsMul, ha, hb, hp, hx]

/-- The product `0.15 * 1.5` of `startup()` is a tie between two doubles and is rounded down, to `0.22499999999999998`. -/
lemma jsMul_duration : jsMul 0.15 1.5 = (2026619832316723 / 9007199254740992) := by
  rw [show (0.15 : ℚ) = (3 / 20) by norm_num]
  rw [show (1.5 : ℚ) = (3 / 2) by norm_num]
  have ha : toDouble (3 / 20) = (5404319552844595 / 36028797018963968) := by
    rw [toDouble_eval (3 / 20) (-3) (5404319552844595) (by norm_num) (by norm_num) (by norm_num)
      (roundHalfEven_down _ (5404319552844595) (by norm_num) (by norm_num))]
    norm_num
  have hb : toDouble (3 / 2) = (3 / 2) := by
    rw [toDouble_eval (3 / 2) (0) (6755399441055744) (by norm_num) (by norm_num) (by norm_num)
      (roundHalfEven_down _ (6755399441055744) (by norm_num) (by norm_num))]
    norm_num
  have hx : toDouble (16212958658533785 / 72057594037927936) = (2026619832316723 / 9007199254740992) := by
    rw [toDouble_eval (16212958658533785 / 72057594037927936) (-3) (8106479329266892) (by norm_num) (by norm_num) (by norm_num)
      (roundHalfEven_tie_even _ (8106479329266892) (by norm_num) (by decide))]
    norm_num
  have hp : ((5404319552844595 / 36028797018963968) : ℚ) * (3 / 2) = (16212958658533785 / 72057594037927936) := by norm_num
  rw [jsMul, ha, hb, hp, hx]

/-- The double written `0.225`. -/
lemma toDouble_nine_fortieths : toDouble (9 / 40) = (8106479329266893 / 36028797018963968) := by
  rw [toDouble_eval (9 / 40) (-3) (8106479329266893) (by norm_num) (by norm_num) (by norm_num)
    (roundHalfEven_up _ (8106479329266892) (by norm_num) (by norm_num) (by norm_num))]
  norm_num

/-- The largest jitter of the typing frequency, `200 - 2^-45`. -/
lemma jsMul_below_one_200 : jsMul (9007199254740991 / 9007199254740992) 200 = (7036874417766399 / 35184372088832) := by
  have ha : toDouble (9007199254740991 / 9007199254740992) = (9007199254740991 / 9007199254740992) := by
    rw [toDouble_eval (9007199254740991 / 9007199254740992) (-1) (9007199254740991) (by norm_num) (by norm_num) (by norm_num)
      (roundHalfEven_down _ (9007199254740991) (by norm_num) (by norm_num))]
    norm_num
  have hb : toDouble 200 = 200 := by
    rw [toDouble_eval 200 (7) (7036874417766400) (by norm_num) (by norm_num) (by norm_num)
      (roundHalfEven_down _ (7036874417766400) (by norm_num) (by norm_num))]
    norm_num
  have hx : toDouble (225179981368524775 / 1125899906842624) = (7036874417766399 / 35184372088832) := by
    rw [toDouble_eval (225179981368524775 / 1125899906842624) (7) (7036874417766399) (by norm_num) (by norm_num) (by norm_num)
      (roundHalfEven_down _ (7036874417766399) (by norm_num) (by norm_num))]
    norm_num
  have hp : ((9007199254740991 / 9007199254740992) : ℚ) * 200 = (225179981368524775 / 1125899906842624) := by norm_num
  rw [jsMul, ha, hb, hp, hx]

/-- The sum of 600 and `200 - 2^-45` is rounded up to 800. -/
lemma jsAdd_600_below : jsAdd 600 (7036874417766399 / 35184372088832) = 800 := by
  have ha : toDouble 600 = 600 := by
    rw [toDouble_eval 600 (9) (5277655813324800) (by norm_num) (by norm_num) (by norm_num)
      (roundHalfEven_down _ (5277655813324800) (by norm_num) (by norm_num))]
    norm_num
  have hb : toDouble (7036874417766399 / 35184372088832) = (7036874417766399 / 35184372088832) := by
    rw [toDouble_eval (7036874417766399 / 35184372088832) (7) (7036874417766399) (by norm_num) (by norm_num) (by norm_num)
      (roundHalfEven_down _ (7036874417766399) (by norm_num) (by norm_num))]
    norm_num
  have hx : toDouble (28147497671065599 / 35184372088832) = 800 := by
    rw [toDouble_eval (28147497671065599 / 35184372088832) (9) (7036874417766400) (by norm_num) (by norm_num) (by norm_num)
      (roundHalfEven_up _ (7036874417766399) (by norm_num) (by norm_num) (by norm_num))]
    norm_num
  have hp : (600 : ℚ) + (7036874417766399 / 35184372088832) = (28147497671065599 / 35184372088832) := by norm_num
  rw [jsAdd, ha, hb, hp, hx]

/-- The largest jitter of the click frequency, `300 - 2^-44`. -/
lemma jsMul_below_one_300 : jsMul (9007199254740991 / 9007199254740992) 300 = (5277655813324799 / 17592186044416) := by
  have ha : toDouble (9007199254740991 / 9007199254740992) = (9007199254740991 / 9007199254740992) := by
    rw [toDouble_eval (9007199254740991 / 9007199254740992) (-1) (9007199254740991) (by norm_num) (by norm_num) (by norm_num)
      (roundHalfEven_down _ (9007199254740991) (by norm_num) (by norm_num))]
    norm_num
  have hb : toDouble 300 = 300 := by
    rw [toDouble_eval 300 (8) (5277655813324800) (by norm_num) (by norm_num) (by norm_num)
      (roundHalfEven_down _ (5277655813324800) (by norm_num) (by norm_num))]
    norm_num
  have hx : toDouble (675539944105574325 / 2251799813685248) = (5277655813324799 / 17592186044416) := by
    rw [toDouble_eval (675539944105574325 / 2251799813685248) (8) (5277655813324799) (by norm_num) (by norm_num) (by norm_num)
      (roundHalfEven_down _ (5277655813324799) (by norm_num) (by norm_num))]
    norm_num
  have hp : ((9007199254740991 / 9007199254740992) : ℚ) * 300 = (675539944105574325 / 2251799813685248) := by norm_num
  rw [jsMul, ha, hb, hp, hx]

/-- The sum of 800 and `300 - 2^-44` is rounded up to 1100. -/
lemma jsAdd_800_below : jsAdd 800 (5277655813324799 / 17592186044416) = 1100 := by
  have ha : toDouble 800 = 800 := by
    rw [toDouble_eval 800 (9) (7036874417766400) (by norm_num) (by norm_num) (by norm_num)
      (roundHalfEven_down _ (7036874417766400) (by norm_num) (by norm_num))]
    norm_num
  have hb : toDouble (5277655813324799 / 17592186044416) = (5277655813324799 / 17592186044416) := by
    rw [toDouble_eval (5277655813324799 / 17592186044416) (8) (5277655813324799) (by norm_num) (by norm_num) (by norm_num)
      (roundHalfEven_down _ (5277655813324799) (by norm_num) (by norm_num))]
    norm_num
  have hx : toDouble (19351404648857599 / 17592186044416) = 1100 := by
    rw [toDouble_eval (19351404648857599 / 17592186044416) (10) (4837851162214400) (by norm_num) (by norm_num) (by norm_num)
      (roundHalfEven_up _ (4837851162214399) (by norm_num) (by norm_num) (by norm_num))]
    norm_num
  have hp : (800 : ℚ) + (5277655813324799 / 17592186044416) = (19351404648857599 / 17592186044416) := by norm_num
  rw [jsAdd, ha, hb, hp, hx]

namespace AudioGenerator

lemma attempt_of_never_throws (throws : Nat → Bool) (hn : ∀ n, throws n = false)
    (es log : List AudioEvent) : attempt throws log es = (log ++ es, true) := by
  induction es generalizing log with
  | nil => simp [attempt]
  | cons e es ih => simp [attempt, hn, ih]

lemma ensureInit_of_initialized (h : AudioHost) (w : AudioWorld)
    (hi : w.gen.initialized = true) : ensureInit h w = (w, true) := by
  simp [ensureInit, hi]

lemma init_of_not_capable (h : AudioHost) (w : AudioWorld) (hc : h.capable = false) :
    (init h w).2 = false ∧ (init h w).1.gen = w.gen ∧ (init h w).1.sfx = w.sfx ∧
      (init h w).1.waiting = w.waiting ∧ (init h w).1.microtasks = w.microtasks ∧
      (init h w).1.nextId = w.nextId ∧
      ((init h w).1.log = w.log ∨ (init h w).1.log =
        w.log ++ [AudioEvent.consoleError "Failed to initialize AudioGenerator:"]) := by
  unfold init
  rcases hw : h.hasWindow with _ | _
  · simp
  · rcases ha : (h.hasAudioContext || h.hasWebkitAudioContext) with _ | _
    · simp
    · rcases ht : h.constructorThrows with _ | _
      · simp [AudioHost.capable, hw, ha, ht] at hc
      · simp

lemma init_of_capable (h : AudioHost) (w : AudioWorld) (hc : h.capable = true) :
    init h w = ({ w with
        gen := { context := some w.nextId, initialized := true }
        nextId := w.nextId + 1
        log := w.log ++ [AudioEvent.newAudioContext w.nextId] }, true) := by
  simp only [AudioHost.capable, Bool.and_eq_true, Bool.not_eq_true'] at hc
  obtain ⟨⟨hw, ha⟩, ht⟩ := hc
  simp [init, hw, ha, ht]

lemma schedule_of_never_throws (h : AudioHost) (w : AudioWorld) (t : ToneSpec)
    (next : List SoundOptions) (ctx : Nat) (hctx : w.gen.context = some ctx)
    (hn : ∀ n, h.nodeThrows n = false) :
    schedule h w t next =
      ({ w with
          nextId := w.nextId + 2
          log := (w.log ++ [AudioEvent.generateSound t.type t.frequency t.duration t.volume
            t.attack t.decay t.detune]) ++ toneCalls ctx w.nextId (w.nextId + 1) w.currentTime t
          waiting := w.waiting ++ [{ osc := w.nextId, gain := w.nextId + 1, next := next }] },
        PromiseState.pending) := by
  simp only [schedule, hctx, attempt_of_never_throws h.nodeThrows hn]

end AudioGenerator

/-! ### The log readers distribute over concatenation -/

lemma tonesGenerated_append (a b : List AudioEvent) :
    tonesGenerated (a ++ b) = tonesGenerated a ++ tonesGenerated b := by
  induction a with
  | nil => rfl
  | cons e es ih => cases e <;> simp [tonesGenerated, ih]

lemma contextsCreated_append (a b : List AudioEvent) :
    contextsCreated (a ++ b) = contextsCreated a + contextsCreated b := by
  induction a with
  | nil => simp [contextsCreated]
  | cons e es ih =>
    cases e <;> simp [contextsCreated, ih]
    omega

lemma nodesCreated_append (a b : List AudioEvent) :
    nodesCreated (a ++ b) = nodesCreated a + nodesCreated b := by
  induction a with
  | nil => simp [nodesCreated]
  | cons e es ih => cases e <;> simp [nodesCreated, ih] <;> omega

lemma envelope_append (a b : List AudioEvent) :
    envelope (a ++ b) = envelope a ++ envelope b := by
  induction a with
  | nil => rfl
  | cons e es ih => cases e <;> simp [envelope, ih]

lemma toneSteps_append (a b : List AudioEvent) :
    toneSteps (a ++ b) = toneSteps a ++ toneSteps b := by
  induction a with
  | nil => rfl
  | cons e es ih => cases e <;> simp [toneSteps, ih]

namespace AudioGenerator

/-- On an initialised generator whose host calls return, `generateSound` appends
its entry and the thirteen host calls to the log and leaves a waiting promise. -/
lemma generateSound_of_never_throws (h : AudioHost) (w : AudioWorld) (o : SoundOptions)
    (next : List SoundOptions) (ctx : Nat) (hi : w.gen.initialized = true)
    (hctx : w.gen.context = some ctx) (hn : ∀ n, h.nodeThrows n = false) :
    generateSound h w o next =
      ({ w with
          nextId := w.nextId + 2
          log := (w.log ++ [AudioEvent.generateSound o.destructure.type o.destructure.frequency
            o.destructure.duration o.destructure.volume o.destructure.attack
            o.destructure.decay o.destructure.detune]) ++
            toneCalls ctx w.nextId (w.nextId + 1) w.currentTime o.destructure
          waiting := w.waiting ++ [{ osc := w.nextId, gain := w.nextId + 1, next := next }] },
        PromiseState.pending) := by
  simp only [generateSound, ensureInit_of_initialized h w hi]
  exact schedule_of_never_throws h w o.destructure next ctx hctx hn

end AudioGenerator

/-- C3: for every effect name and every state whose sound manager is disabled,
`SoundEffects.play(name)` returns at its first line: the whole world (both
singletons, the event log, the waiting promises and the queued reactions) is
unchanged, so no `AudioGenerator` method ran and no tone was scheduled. -/
theorem SoundEffects.play_disabled (h : AudioHost) (w : AudioWorld) (name : String)
    (hd : w.sfx.enabled = false) :
    SoundEffects.play h w name = w ∧
      tonesGenerated (SoundEffects.play h w name).log = tonesGenerated w.log ∧
      (SoundEffects.play h w name).waiting = w.waiting := by
  have hp : SoundEffects.play h w name = w := by simp [SoundEffects.play, hd]
  simp [hp]

/-- Witness of C3 at the freshly loaded module, where sound is off. -/
theorem SoundEffects.play_disabled_witness :
    AudioWorld.initial.sfx.enabled = false ∧
      (SoundEffects.play AudioHost.browser AudioWorld.initial "startup" = AudioWorld.initial ∧
        tonesGenerated (SoundEffects.play AudioHost.browser AudioWorld.initial "startup").log =
          tonesGenerated AudioWorld.initial.log ∧
        (SoundEffects.play AudioHost.browser AudioWorld.initial "startup").waiting =
          AudioWorld.initial.waiting) :=
  ⟨rfl, SoundEffects.play_disabled AudioHost.browser AudioWorld.initial "startup" rfl⟩

namespace AudioGenerator

/-- When the guard cannot initialise, the method returns `Promise.resolve()`
having at most logged the constructor's failure. -/
lemma ensureInit_of_not_capable (h : AudioHost) (w : AudioWorld) (hc : h.capable = false)
    (hi : w.gen.initialized = false) :
    (ensureInit h w).2 = false ∧ (ensureInit h w).1.gen = w.gen ∧
      (ensureInit h w).1.waiting = w.waiting ∧
      (ensureInit h w).1.microtasks = w.microtasks ∧
      nodesCreated (ensureInit h w).1.log = nodesCreated w.log ∧
      tonesGenerated (ensureInit h w).1.log = tonesGenerated w.log := by
  have hinit := init_of_not_capable h w hc
  simp only [ensureInit, hi, Bool.false_eq_true, if_false]
  obtain ⟨h1, h2, -, h4, h5, -, h7⟩ := hinit
  refine ⟨h1, h2, h4, h5, ?_, ?_⟩
  · rcases h7 with h7 | h7 <;> simp [h7, nodesCreated_append, nodesCreated]
  · rcases h7 with h7 | h7 <;> simp [h7, tonesGenerated_append, tonesGenerated]

lemma silent_of_guard (h : AudioHost) (w : AudioWorld) (hc : h.capable = false)
    (hi : w.gen.initialized = false)
    (body : AudioWorld → AudioWorld × PromiseState) :
    SilentNoOp w (match ensureInit h w with
      | (w1, false) => (w1, PromiseState.fulfilled)
      | (w1, true) => body w1) := by
  obtain ⟨h1, h2, h3, h4, h5, h6⟩ := ensureInit_of_not_capable h w hc hi
  rcases he : ensureInit h w with ⟨w1, b⟩
  rw [he] at h1 h2 h3 h4 h5 h6
  simp only at h1 h2 h3 h4 h5 h6
  subst h1
  exact ⟨rfl, h2, h3, h4, h5, h6⟩

end AudioGenerator

/-- C5: on a host without audio capability (no window, neither constructor, or
a constructor that throws) `AudioGenerator.init()` returns `false` and leaves
the generator's fields as they were, so `initialized = false` and
`context = null` on a generator that was never initialised; and each of
`typing()`, `enter()`, `error()`, `startup()`, `click()` and `generateSound()`
then returns an already fulfilled promise having created no oscillator or gain
node and generated no tone. -/
theorem AudioGenerator.no_capability_silent (h : AudioHost) (w : AudioWorld)
    (o : SoundOptions) (hc : h.capable = false)
    (hg : w.gen = { context := none, initialized := false }) :
    (AudioGenerator.init h w).2 = false ∧
      (AudioGenerator.init h w).1.gen = { context := none, initialized := false } ∧
      nodesCreated (AudioGenerator.init h w).1.log = nodesCreated w.log ∧
      contextsCreated (AudioGenerator.init h w).1.log = contextsCreated w.log ∧
      AudioGenerator.SilentNoOp w (AudioGenerator.typing h w) ∧
      AudioGenerator.SilentNoOp w (AudioGenerator.enter h w) ∧
      AudioGenerator.SilentNoOp w (AudioGenerator.error h w) ∧
      AudioGenerator.SilentNoOp w (AudioGenerator.startup h w) ∧
      AudioGenerator.SilentNoOp w (AudioGenerator.click h w) ∧
      AudioGenerator.SilentNoOp w (AudioGenerator.generateSound h w o []) := by
  have hi : w.gen.initialized = false := by rw [hg]
  obtain ⟨h1, h2, -, -, -, -, h7⟩ := AudioGenerator.init_of_not_capable h w hc
  refine ⟨h1, h2.trans hg, ?_, ?_, ?_, ?_, ?_, ?_, ?_, ?_⟩
  · rcases h7 with h7 | h7 <;> simp [h7, nodesCreated_append, nodesCreated]
  · rcases h7 with h7 | h7 <;> simp [h7, contextsCreated_append, contextsCreated]
  · exact AudioGenerator.silent_of_guard h w hc hi _
  · exact AudioGenerator.silent_of_guard h w hc hi _
  · exact AudioGenerator.silent_of_guard h w hc hi _
  · exact AudioGenerator.silent_of_guard h w hc hi _
  · exact AudioGenerator.silent_of_guard h w hc hi _
  · have hs := AudioGenerator.silent_of_guard h w hc hi
      (fun w1 => AudioGenerator.schedule h w1 o.destructure [])
    simpa [AudioGenerator.generateSound, AudioGenerator.resolveNow] using hs

/-- Witness of C5 during server-side rendering, where there is no `window`. -/
theorem AudioGenerator.no_capability_silent_witness :
    AudioHost.server.capable = false ∧
      (AudioGenerator.init AudioHost.server AudioWorld.initial).2 = false ∧
      AudioGenerator.SilentNoOp AudioWorld.initial
        (AudioGenerator.startup AudioHost.server AudioWorld.initial) :=
  have hall := AudioGenerator.no_capability_silent AudioHost.server AudioWorld.initial {} rfl rfl
  ⟨rfl, hall.1, hall.2.2.2.2.2.2.2.1⟩

namespace AudioGenerator

/-- The envelope of one tone, on an initialised generator whose host calls
return: three events, at `t0`, `t0 + attack` and `t0 + attack + decay`. -/
lemma scheduledEnvelope_eq (h : AudioHost) (w : AudioWorld) (o : SoundOptions) (ctx : Nat)
    (hi : w.gen.initialized = true) (hctx : w.gen.context = some ctx)
    (hn : ∀ n, h.nodeThrows n = false) :
    scheduledEnvelope h w o =
      [ (0, w.currentTime),
        (o.destructure.volume, w.currentTime + o.destructure.attack),
        (0.001, w.currentTime + o.destructure.attack + o.destructure.decay) ] := by
  simp [scheduledEnvelope, generateSound_of_never_throws h w o [] ctx hi hctx hn,
    envelope_append, envelope, toneCalls]

end AudioGenerator

/-- C6: on an initialised generator whose host calls return, `generateSound`
issues exactly this sequence of calls for the destructured options at clock
time `t0`: oscillator created and configured, gain created at 0, both connected,
gain set to 0 at `t0`, linear ramp to `volume` ending at `t0 + attack`,
exponential ramp to 0.001 ending at `t0 + attack + decay`, oscillator start at
`t0` and stop at `t0 + duration`; with `attack ≥ 0` and `decay ≥ 0` the three
envelope times are non-decreasing; omitted options take the defaults sine,
440, 0.1, 0.2, 0.01, 0.1 and detune 0, supplied ones are kept. -/
theorem AudioGenerator.generateSound_schedule (h : AudioHost) (w : AudioWorld)
    (o : SoundOptions) (ctx : Nat) (hi : w.gen.initialized = true)
    (hctx : w.gen.context = some ctx) (hn : ∀ n, h.nodeThrows n = false) :
    (AudioGenerator.generateSound h w o []).1.log =
        w.log ++
          [ AudioEvent.generateSound o.destructure.type o.destructure.frequency
              o.destructure.duration o.destructure.volume o.destructure.attack
              o.destructure.decay o.destructure.detune,
            AudioEvent.createOscillator ctx w.nextId,
            AudioEvent.setType w.nextId o.destructure.type,
            AudioEvent.setFrequency w.nextId o.destructure.frequency,
            AudioEvent.setDetune w.nextId o.destructure.detune,
            AudioEvent.createGain ctx (w.nextId + 1),
            AudioEvent.setGainValue (w.nextId + 1) 0,
            AudioEvent.connect w.nextId (w.nextId + 1),
            AudioEvent.connectDestination (w.nextId + 1) ctx,
            AudioEvent.setValueAtTime (w.nextId + 1) 0 w.currentTime,
            AudioEvent.linearRampToValueAtTime (w.nextId + 1) o.destructure.volume
              (w.currentTime + o.destructure.attack),
            AudioEvent.exponentialRampToValueAtTime (w.nextId + 1) (1 / 1000)
              (w.currentTime + o.destructure.attack + o.destructure.decay),
            AudioEvent.start w.nextId w.currentTime,
            AudioEvent.stop w.nextId (w.currentTime + o.destructure.duration) ] ∧
      (0 ≤ o.destructure.attack → 0 ≤ o.destructure.decay →
        List.Pairwise (fun a b => a ≤ b)
          ((AudioGenerator.scheduledEnvelope h w o).map Prod.snd)) ∧
      SoundOptions.destructure {} =
        { type := "sine", frequency := 440, duration := 1 / 10, volume := 1 / 5,
          attack := 1 / 100, decay := 1 / 10, detune := 0 } ∧
      (∀ ty f d v a dc dt,
        SoundOptions.destructure
            { type := some ty, frequency := some f, duration := some d, volume := some v,
              attack := some a, decay := some dc, detune := some dt } =
          { type := ty, frequency := f, duration := d, volume := v, attack := a, decay := dc,
            detune := dt }) := by
  refine ⟨?_, ?_, ?_, ?_⟩
  · rw [AudioGenerator.generateSound_of_never_throws h w o [] ctx hi hctx hn]
    simp only [AudioGenerator.toneCalls, List.append_assoc, List.singleton_append]
    norm_num
  · intro ha hd
    rw [AudioGenerator.scheduledEnvelope_eq h w o ctx hi hctx hn]
    simp only [List.map, List.pairwise_cons, List.mem_cons, List.mem_singleton,
      List.not_mem_nil, forall_eq_or_imp, forall_eq, IsEmpty.forall_iff, implies_true,
      List.Pairwise.nil, and_true]
    refine ⟨⟨?_, ?_⟩, ?_⟩ <;> linarith
  · simp only [SoundOptions.destructure, Option.getD_none]
    norm_num
  · intro ty f d v a dc dt
    rfl

/-- Witness of C6: a tone with every option omitted, on the initialised browser
module. -/
theorem AudioGenerator.generateSound_schedule_witness :
    AudioWorld.ready.gen.initialized = true ∧ AudioWorld.ready.gen.context = some 0 ∧
      (∀ n, AudioHost.browser.nodeThrows n = false) ∧
      (0 ≤ (SoundOptions.destructure {}).attack → 0 ≤ (SoundOptions.destructure {}).decay →
        List.Pairwise (fun a b => a ≤ b)
          ((AudioGenerator.scheduledEnvelope AudioHost.browser AudioWorld.ready {}).map
            Prod.snd)) :=
  ⟨rfl, rfl, fun _ => rfl,
    (AudioGenerator.generateSound_schedule AudioHost.browser AudioWorld.ready {} 0 rfl rfl
      (fun _ => rfl)).2.1⟩

/-- C7 as stated fails for a peak volume below the floor of the decay ramp: with
`volume = 0` (inside `[0, 1]`, default attack and decay) the exponential ramp
still targets 0.001, which exceeds the peak. -/
theorem AudioGenerator.envelope_within_peak_counterexample :
    0 ≤ (SoundOptions.destructure { volume := some 0 }).volume ∧
      (SoundOptions.destructure { volume := some 0 }).volume ≤ 1 ∧
      0 ≤ (SoundOptions.destructure { volume := some 0 }).attack ∧
      0 ≤ (SoundOptions.destructure { volume := some 0 }).decay ∧
      ¬ ∀ p ∈ AudioGenerator.scheduledEnvelope AudioHost.browser AudioWorld.ready
            { volume := some 0 },
          0 ≤ p.1 ∧ p.1 ≤ (SoundOptions.destructure { volume := some 0 }).volume := by
  rw [AudioGenerator.scheduledEnvelope_eq AudioHost.browser AudioWorld.ready
    { volume := some 0 } 0 rfl rfl (fun _ => rfl)]
  simp only [SoundOptions.destructure, Option.getD_some, Option.getD_none]
  norm_num

/-- C7, amended: for every tone whose peak volume is at least the 0.001 floor of
the decay ramp (and at most 1), with `attack ≥ 0` and `decay ≥ 0`, every gain
target that `generateSound` schedules (0, the peak, 0.001) lies in
`[0, volume]`. -/
theorem AudioGenerator.envelope_within_peak (h : AudioHost) (w : AudioWorld)
    (o : SoundOptions) (ctx : Nat) (hi : w.gen.initialized = true)
    (hctx : w.gen.context = some ctx) (hn : ∀ n, h.nodeThrows n = false)
    (hlo : 1 / 1000 ≤ o.destructure.volume) (_hhi : o.destructure.volume ≤ 1)
    (_ha : 0 ≤ o.destructure.attack) (_hd : 0 ≤ o.destructure.decay) :
    ∀ p ∈ AudioGenerator.scheduledEnvelope h w o, 0 ≤ p.1 ∧ p.1 ≤ o.destructure.volume := by
  rw [AudioGenerator.scheduledEnvelope_eq h w o ctx hi hctx hn]
  intro p hp
  simp only [List.mem_cons, List.mem_singleton, List.not_mem_nil, or_false] at hp
  have hlo' : (0.001 : ℚ) ≤ o.destructure.volume := by
    norm_num
    linarith
  rcases hp with rfl | rfl | rfl
  · exact ⟨le_refl _, show (0 : ℚ) ≤ o.destructure.volume by linarith⟩
  · exact ⟨show (0 : ℚ) ≤ o.destructure.volume by linarith, le_refl _⟩
  · exact ⟨show (0 : ℚ) ≤ 0.001 by norm_num, hlo'⟩

/-- Witness of C7 (amended): the default tone, peak volume 0.2. -/
theorem AudioGenerator.envelope_within_peak_witness :
    AudioWorld.ready.gen.initialized = true ∧ AudioWorld.ready.gen.context = some 0 ∧
      (1 : ℚ) / 1000 ≤ (SoundOptions.destructure {}).volume ∧
      ∀ p ∈ AudioGenerator.scheduledEnvelope AudioHost.browser AudioWorld.ready {},
        0 ≤ p.1 ∧ p.1 ≤ (SoundOptions.destructure {}).volume :=
  have hv : (1 : ℚ) / 1000 ≤ (SoundOptions.destructure {}).volume := by
    simp only [SoundOptions.destructure, Option.getD_none]
    norm_num
  have hv1 : (SoundOptions.destructure {}).volume ≤ 1 := by
    simp only [SoundOptions.destructure, Option.getD_none]
    norm_num
  have ha : 0 ≤ (SoundOptions.destructure {}).attack := by
    simp only [SoundOptions.destructure, Option.getD_none]
    norm_num
  have hd : 0 ≤ (SoundOptions.destructure {}).decay := by
    simp only [SoundOptions.destructure, Option.getD_none]
    norm_num
  ⟨rfl, rfl, hv,
    AudioGenerator.envelope_within_peak AudioHost.browser AudioWorld.ready {} 0 rfl rfl
      (fun _ => rfl) hv hv1 ha hd⟩

/-- C4 as stated fails: `AudioGenerator.init()` has no `initialized` check, so
two calls in a row in a browser construct two contexts and the second replaces
the first. -/
theorem AudioGenerator.init_twice_counterexample :
    AudioHost.browser.capable = true ∧
      contextsCreated
        (AudioGenerator.init AudioHost.browser
          (AudioGenerator.init AudioHost.browser AudioWorld.initial).1).1.log = 2 ∧
      (AudioGenerator.init AudioHost.browser AudioWorld.initial).1.gen.context = some 0 ∧
      (AudioGenerator.init AudioHost.browser
        (AudioGenerator.init AudioHost.browser AudioWorld.initial).1).1.gen.context = some 1 :=
  ⟨rfl, rfl, rfl, rfl⟩

/-- C4, amended: the idempotent initialiser is `SoundEffects.init()`. On a host
with audio capability and a manager not yet initialised, a second call in a row
changes nothing: the two calls construct exactly one context, the one held
after both calls, and the guard of the effect methods then never calls `init()`
again. `AudioGenerator.init()` itself constructs a fresh context at every call
on such a host. -/
theorem SoundEffects.init_idempotent (h : AudioHost) (w : AudioWorld)
    (hc : h.capable = true) (hs : w.sfx.initialized = false) :
    SoundEffects.init h (SoundEffects.init h w) = SoundEffects.init h w ∧
      contextsCreated (SoundEffects.init h (SoundEffects.init h w)).log =
        contextsCreated w.log + 1 ∧
      (SoundEffects.init h w).gen.context = some w.nextId ∧
      (SoundEffects.init h (SoundEffects.init h w)).gen.context = some w.nextId ∧
      AudioGenerator.ensureInit h (SoundEffects.init h w) = (SoundEffects.init h w, true) ∧
      (∀ v : AudioWorld, (AudioGenerator.init h v).1.gen.context = some v.nextId ∧
        contextsCreated (AudioGenerator.init h v).1.log = contextsCreated v.log + 1) := by
  have hw : h.hasWindow = true := by
    simp only [AudioHost.capable, Bool.and_eq_true] at hc
    exact hc.1.1
  have h1 : SoundEffects.init h w =
      { w with
        sfx := { w.sfx with initialized := true }
        gen := { context := some w.nextId, initialized := true }
        nextId := w.nextId + 1
        log := w.log ++ [AudioEvent.newAudioContext w.nextId] } := by
    simp [SoundEffects.init, hw, hs, AudioGenerator.init_of_capable h _ hc]
  have h2 : SoundEffects.init h (SoundEffects.init h w) = SoundEffects.init h w := by
    rw [h1]
    simp [SoundEffects.init, hw]
  refine ⟨h2, ?_, ?_, ?_, ?_, ?_⟩
  · rw [h2, h1]
    simp [contextsCreated_append, contextsCreated]
  · rw [h1]
  · rw [h2, h1]
  · rw [h1]
    simp [AudioGenerator.ensureInit]
  · intro v
    rw [AudioGenerator.init_of_capable h v hc]
    simp [contextsCreated_append, contextsCreated]

/-- Witness of C4 (amended): the freshly loaded module in a browser. -/
theorem SoundEffects.init_idempotent_witness :
    AudioHost.browser.capable = true ∧ AudioWorld.initial.sfx.initialized = false ∧
      contextsCreated (SoundEffects.init AudioHost.browser
        (SoundEffects.init AudioHost.browser AudioWorld.initial)).log =
          contextsCreated AudioWorld.initial.log + 1 :=
  ⟨rfl, rfl, (SoundEffects.init_idempotent AudioHost.browser AudioWorld.initial rfl rfl).2.1⟩

/-! ### A chain of tones, event by event -/

lemma pastBlocks_append (ctx : Nat) (a b : List PlayedTone) :
    pastBlocks ctx (a ++ b) = pastBlocks ctx a ++ pastBlocks ctx b := by
  induction a with
  | nil => rfl
  | cons q qs ih => simp [pastBlocks, ih]

lemma inOrder_append (blks : List (List AudioEvent)) :
    ∀ log more : List AudioEvent, InOrder blks log → InOrder blks (log ++ more) := by
  induction blks with
  | nil => intro _ _ _; trivial
  | cons blk blks ih =>
    intro log more hlog
    obtain ⟨pre, post, he, hrest⟩ := hlog
    exact ⟨pre, post ++ more, by rw [he]; simp, ih post more hrest⟩

lemma inOrder_snoc (blks : List (List AudioEvent)) (blk : List AudioEvent) :
    ∀ log : List AudioEvent, InOrder blks log → InOrder (blks ++ [blk]) (log ++ blk) := by
  induction blks with
  | nil =>
    intro log _
    exact ⟨log, [], by simp, trivial⟩
  | cons b bs ih =>
    intro log hlog
    obtain ⟨pre, post, he, hrest⟩ := hlog
    exact ⟨pre, post ++ blk, by rw [he]; simp, ih post hrest⟩

lemma find?_of_filter_eq_singleton {α : Type} (p : α → Bool) (a : α) :
    ∀ l : List α, l.filter p = [a] → l.find? p = some a := by
  intro l
  induction l with
  | nil => intro h; simp at h
  | cons x xs ih =>
    intro h
    by_cases hx : p x = true
    · rw [List.filter_cons_of_pos hx] at h
      rw [List.find?_cons_of_pos _ hx]
      exact congrArg some (List.cons.inj h).1
    · rw [List.filter_cons_of_neg hx] at h
      rw [List.find?_cons_of_neg _ hx]
      exact ih h

namespace AudioWorld

/-- The world after the `onended` event of an oscillator that has a waiting
promise `q`. -/
lemma onended_of_waiting (w : AudioWorld) (osc : Nat) (q : PendingTone)
    (hq : w.waiting.find? (fun p => p.osc == osc) = some q) :
    (w.onended osc).gen = w.gen ∧ (w.onended osc).nextId = w.nextId ∧
      (w.onended osc).log = w.log ++ [AudioEvent.onended osc,
        AudioEvent.disconnectOscillator osc, AudioEvent.disconnectGain q.gain] ∧
      (w.onended osc).waiting = w.waiting.filter (fun x => x.osc != osc) ∧
      (w.onended osc).microtasks =
        (if q.next = [] then w.microtasks else w.microtasks ++ [q.next]) := by
  rcases hn : q.next with _ | ⟨o, nx⟩
  · simp [onended, hq, AudioGenerator.resolveNow, hn]
  · simp [onended, hq, AudioGenerator.resolveNow, hn]

lemma onended_of_silent (w : AudioWorld) (osc : Nat)
    (hq : w.waiting.find? (fun p => p.osc == osc) = none) : w.onended osc = w := by
  simp [onended, hq]

/-- The world after the oldest reaction ran, on a host whose calls return. -/
lemma runMicrotask_of_tone (h : AudioHost) (hn : ∀ n, h.nodeThrows n = false) (w : AudioWorld)
    (ctx : Nat) (hf : w.Fresh ctx) (o : SoundOptions) (nx : List SoundOptions)
    (later : List (List SoundOptions)) (hm : w.microtasks = (o :: nx) :: later) :
    (w.runMicrotask h).gen = w.gen ∧ (w.runMicrotask h).nextId = w.nextId + 2 ∧
      (w.runMicrotask h).log = w.log ++
        PlayedTone.invoked ctx { options := o, osc := w.nextId, now := w.currentTime } ∧
      (w.runMicrotask h).waiting =
        w.waiting ++ [{ osc := w.nextId, gain := w.nextId + 1, next := nx }] ∧
      (w.runMicrotask h).microtasks = later := by
  obtain ⟨hi, hctx, -⟩ := hf
  simp only [runMicrotask, hm]
  rw [AudioGenerator.generateSound_of_never_throws h { w with microtasks := later } o nx ctx hi
    hctx hn]
  simp [PlayedTone.invoked]

/-- Every event of the browser leaves the generator initialised on the same
context and the waiting oscillators older than the next identity. -/
lemma fresh_deliver (h : AudioHost) (hn : ∀ n, h.nodeThrows n = false) (w : AudioWorld)
    (ctx : Nat) (hf : w.Fresh ctx) (e : HostEvent) : (w.deliver h e).Fresh ctx := by
  obtain ⟨hi, hctx, hw⟩ := hf
  cases e with
  | advance dt => exact ⟨hi, hctx, hw⟩
  | ended osc =>
    cases hq : w.waiting.find? (fun p => p.osc == osc) with
    | none =>
      show (w.onended osc).Fresh ctx
      rw [onended_of_silent w osc hq]
      exact ⟨hi, hctx, hw⟩
    | some q =>
      obtain ⟨h1, h2, -, h4, -⟩ := onended_of_waiting w osc q hq
      refine ⟨?_, ?_, ?_⟩
      · show (w.onended osc).gen.initialized = true
        rw [h1]; exact hi
      · show (w.onended osc).gen.context = some ctx
        rw [h1]; exact hctx
      · show ∀ p ∈ (w.onended osc).waiting, p.osc < (w.onended osc).nextId
        rw [h2, h4]
        intro p hp
        exact hw p (List.mem_of_mem_filter hp)
  | microtask =>
    rcases hm : w.microtasks with _ | ⟨first, later⟩
    · have hd : w.deliver h HostEvent.microtask = w := by simp [deliver, runMicrotask, hm]
      rw [hd]
      exact ⟨hi, hctx, hw⟩
    · rcases first with _ | ⟨o, nx⟩
      · have hd : w.deliver h HostEvent.microtask = { w with microtasks := later } := by
          simp [deliver, runMicrotask, hm]
        rw [hd]
        exact ⟨hi, hctx, hw⟩
      · obtain ⟨h1, h2, -, h4, -⟩ := runMicrotask_of_tone h hn w ctx ⟨hi, hctx, hw⟩ o nx later hm
        refine ⟨?_, ?_, ?_⟩
        · show (w.runMicrotask h).gen.initialized = true
          rw [h1]; exact hi
        · show (w.runMicrotask h).gen.context = some ctx
          rw [h1]; exact hctx
        · show ∀ p ∈ (w.runMicrotask h).waiting, p.osc < (w.runMicrotask h).nextId
          rw [h2, h4]
          intro p hp
          rcases List.mem_append.mp hp with hp | hp
          · have := hw p hp
            omega
          · rw [List.mem_singleton] at hp
            rw [hp]
            show w.nextId < w.nextId + 2
            omega

lemma fresh_run (h : AudioHost) (hn : ∀ n, h.nodeThrows n = false) (ctx : Nat)
    (es : List HostEvent) : ∀ w : AudioWorld, w.Fresh ctx → (w.run h es).Fresh ctx := by
  induction es with
  | nil => intro w hf; exact hf
  | cons e es ih =>
    intro w hf
    exact ih _ (fresh_deliver h hn w ctx hf e)

/-- A world that differs from `w` by more log entries, more identities and other
promises keeps a chain where it is in `w`, when the promise of the sounding tone
and the queued reaction of the chain are kept. -/
lemma chainedAt_of_grown (w w' : AudioWorld) (ctx base : Nat) (past : List PlayedTone)
    (ph : ChainPhase) (hb : base ≤ w.log.length)
    (ho : InOrder (chainBlocks ctx past ph) (w.log.drop base))
    (hp : ∀ q ∈ past, q.osc < w.nextId ∧ ∀ x ∈ w.waiting, x.osc ≠ q.osc)
    (more : List AudioEvent)
    (hlog : w'.log = w.log ++ more) (hid : w.nextId ≤ w'.nextId)
    (hwait : ∀ x ∈ w'.waiting, x ∈ w.waiting ∨ w.nextId ≤ x.osc)
    (hphase : w'.Holds ph) :
    w'.ChainedAt ctx base past ph := by
  refine ⟨?_, ?_, ?_, hphase⟩
  · rw [hlog, List.length_append]
    omega
  · rw [hlog, List.drop_append_of_le_length hb]
    exact inOrder_append _ _ _ ho
  · intro q hq
    obtain ⟨h1, h2⟩ := hp q hq
    refine ⟨by omega, ?_⟩
    intro x hx
    rcases hwait x hx with h | h
    · exact h2 x h
    · omega

/-- The sounding tone of a chain ends: the handler runs, and what is chained on
the promise is queued behind the reactions already waiting. -/
lemma chainedAt_ended (h : AudioHost) (w : AudioWorld) (ctx base : Nat) (hf : w.Fresh ctx)
    (past : List PlayedTone) (p : PlayedTone) (rest : List SoundOptions)
    (hc : w.ChainedAt ctx base past (ChainPhase.sounding p rest)) :
    (w.deliver h (HostEvent.ended p.osc)).ChainedAt ctx base (past ++ [p])
      (if rest = [] then ChainPhase.finished
        else ChainPhase.queued w.microtasks.length rest) := by
  obtain ⟨hb, ho, hp, hs⟩ := hc
  have hs' : w.waiting.filter (fun x => x.osc == p.osc) =
      [{ osc := p.osc, gain := p.osc + 1, next := rest }] := hs
  have hfind := find?_of_filter_eq_singleton _ _ _ hs'
  obtain ⟨-, h2, h3, h4, h5⟩ := onended_of_waiting w p.osc _ hfind
  have hmem : ({ osc := p.osc, gain := p.osc + 1, next := rest } : PendingTone) ∈ w.waiting :=
    List.mem_of_find?_eq_some hfind
  have hold : p.osc < w.nextId := hf.2.2 _ hmem
  have hblocks : ∀ ph : ChainPhase, (∀ q r, ph ≠ ChainPhase.sounding q r) →
      chainBlocks ctx (past ++ [p]) ph =
        chainBlocks ctx past (ChainPhase.sounding p rest) ++ [p.ended] := by
    intro ph hne
    cases ph with
    | sounding q r => exact absurd rfl (hne q r)
    | queued k r => simp [chainBlocks, ChainPhase.current, pastBlocks_append, pastBlocks]
    | finished => simp [chainBlocks, ChainPhase.current, pastBlocks_append, pastBlocks]
  have hne : ∀ q r, (if rest = [] then ChainPhase.finished
      else ChainPhase.queued w.microtasks.length rest) ≠ ChainPhase.sounding q r := by
    intro q r
    split_ifs <;> simp
  refine ⟨?_, ?_, ?_, ?_⟩
  · show base ≤ (w.onended p.osc).log.length
    rw [h3, List.length_append]
    omega
  · show InOrder _ ((w.onended p.osc).log.drop base)
    rw [h3, List.drop_append_of_le_length hb, hblocks _ hne]
    exact inOrder_snoc _ _ _ ho
  · show ∀ q ∈ past ++ [p], q.osc < (w.onended p.osc).nextId ∧
      ∀ x ∈ (w.onended p.osc).waiting, x.osc ≠ q.osc
    rw [h2, h4]
    intro q hq
    rcases List.mem_append.mp hq with hq | hq
    · obtain ⟨a, b⟩ := hp q hq
      exact ⟨a, fun x hx => b x (List.mem_of_mem_filter hx)⟩
    · rw [List.mem_singleton] at hq
      rw [hq]
      refine ⟨hold, ?_⟩
      intro x hx
      have := (List.mem_filter.mp hx).2
      simpa using this
  · by_cases hr : rest = []
    · simp only [hr, if_true]
      exact trivial
    · simp only [hr, if_false]
      show (w.onended p.osc).microtasks[w.microtasks.length]? = some rest ∧ rest ≠ []
      rw [h5]
      simp [hr]

/-- The reaction of a chain is the oldest one and runs: `generateSound` is
called for the next tone, with the rest chained on its promise. -/
lemma chainedAt_invoked (h : AudioHost) (hn : ∀ n, h.nodeThrows n = false) (w : AudioWorld)
    (ctx base : Nat) (hf : w.Fresh ctx) (past : List PlayedTone) (o : SoundOptions)
    (nx : List SoundOptions)
    (hc : w.ChainedAt ctx base past (ChainPhase.queued 0 (o :: nx))) :
    (w.deliver h HostEvent.microtask).ChainedAt ctx base past
      (ChainPhase.sounding { options := o, osc := w.nextId, now := w.currentTime } nx) := by
  obtain ⟨hb, ho, hp, hq⟩ := hc
  have hq' : w.microtasks[0]? = some (o :: nx) := hq.1
  obtain ⟨later, hm⟩ : ∃ later, w.microtasks = (o :: nx) :: later := by
    rcases hw : w.microtasks with _ | ⟨first, later⟩
    · rw [hw] at hq'
      simp at hq'
    · rw [hw] at hq'
      simp at hq'
      exact ⟨later, by rw [hq']⟩
  obtain ⟨-, h2, h3, h4, -⟩ := runMicrotask_of_tone h hn w ctx hf o nx later hm
  refine ⟨?_, ?_, ?_, ?_⟩
  · show base ≤ (w.runMicrotask h).log.length
    rw [h3, List.length_append]
    omega
  · show InOrder _ ((w.runMicrotask h).log.drop base)
    rw [h3, List.drop_append_of_le_length hb]
    have : chainBlocks ctx past
        (ChainPhase.sounding { options := o, osc := w.nextId, now := w.currentTime } nx) =
        chainBlocks ctx past (ChainPhase.queued 0 (o :: nx)) ++
          [PlayedTone.invoked ctx { options := o, osc := w.nextId, now := w.currentTime }] := by
      simp [chainBlocks, ChainPhase.current]
    rw [this]
    exact inOrder_snoc _ _ _ ho
  · show ∀ q ∈ past, q.osc < (w.runMicrotask h).nextId ∧
      ∀ x ∈ (w.runMicrotask h).waiting, x.osc ≠ q.osc
    rw [h2, h4]
    intro q hq
    obtain ⟨a, b⟩ := hp q hq
    refine ⟨by omega, ?_⟩
    intro x hx
    rcases List.mem_append.mp hx with hx | hx
    · exact b x hx
    · rw [List.mem_singleton] at hx
      rw [hx]
      show w.nextId ≠ q.osc
      omega
  · show (w.runMicrotask h).waiting.filter (fun x => x.osc == w.nextId) =
      [{ osc := w.nextId, gain := w.nextId + 1, next := nx }]
    rw [h4, List.filter_append]
    have hnone : w.waiting.filter (fun x => x.osc == w.nextId) = [] := by
      rw [List.filter_eq_nil_iff]
      intro x hx
      have := hf.2.2 x hx
      simp
      omega
    rw [hnone]
    simp

/-- The audio clock moving on leaves a chain where it is. -/
lemma chainedAt_advance (h : AudioHost) (w : AudioWorld) (ctx base : Nat)
    (past : List PlayedTone) (ph : ChainPhase) (hc : w.ChainedAt ctx base past ph) (dt : ℚ) :
    (w.deliver h (HostEvent.advance dt)).ChainedAt ctx base past ph :=
  chainedAt_of_grown w _ ctx base past ph hc.1 hc.2.1 hc.2.2.1 [] (by simp [deliver, advance])
    (le_refl _) (fun x hx => Or.inl hx) hc.2.2.2

/-- The end of an oscillator that is not the sounding one of the chain leaves
the chain where it is. -/
lemma chainedAt_ended_other (h : AudioHost) (w : AudioWorld) (ctx base : Nat)
    (past : List PlayedTone) (ph : ChainPhase) (hc : w.ChainedAt ctx base past ph) (osc : Nat)
    (hend : ∀ p rest, ph = ChainPhase.sounding p rest → osc ≠ p.osc) :
    (w.deliver h (HostEvent.ended osc)).ChainedAt ctx base past ph := by
  cases hq : w.waiting.find? (fun p => p.osc == osc) with
  | none =>
    show (w.onended osc).ChainedAt ctx base past ph
    rw [onended_of_silent w osc hq]
    exact hc
  | some q =>
    obtain ⟨-, h2, h3, h4, h5⟩ := onended_of_waiting w osc q hq
    refine chainedAt_of_grown w (w.onended osc) ctx base past ph hc.1 hc.2.1 hc.2.2.1 _ h3
      (by rw [h2]) ?_ ?_
    · rw [h4]
      intro x hx
      exact Or.inl (List.mem_of_mem_filter hx)
    · cases ph with
      | finished => trivial
      | queued k rest =>
        obtain ⟨a, b⟩ : w.microtasks[k]? = some rest ∧ rest ≠ [] := hc.2.2.2
        refine ⟨?_, b⟩
        rw [h5]
        split_ifs
        · exact a
        · have hk : k < w.microtasks.length := by
            rcases (List.getElem?_eq_some.mp a) with ⟨hk, -⟩
            exact hk
          rw [List.getElem?_append_left hk]
          exact a
      | sounding p rest =>
        have hs : w.waiting.filter (fun x => x.osc == p.osc) =
            [{ osc := p.osc, gain := p.osc + 1, next := rest }] := hc.2.2.2
        have hne : osc ≠ p.osc := hend p rest rfl
        show (w.onended osc).waiting.filter (fun x => x.osc == p.osc) = _
        rw [h4, List.filter_filter, ← hs]
        apply List.filter_congr
        intro x _
        by_cases hx : x.osc = p.osc
        · simp [hx]
          exact fun h => hne h.symm
        · simp [hx]

/-- A reaction that is not the one of the chain runs: the chain stays where it
is, its own reaction one place nearer to the head of the queue. -/
lemma chainedAt_microtask_other (h : AudioHost) (hn : ∀ n, h.nodeThrows n = false)
    (w : AudioWorld) (ctx base : Nat) (hf : w.Fresh ctx) (past : List PlayedTone)
    (ph : ChainPhase) (hc : w.ChainedAt ctx base past ph)
    (hrun : ∀ rest, ph ≠ ChainPhase.queued 0 rest) :
    (w.deliver h HostEvent.microtask).ChainedAt ctx base past ph.shift := by
  rcases hm : w.microtasks with _ | ⟨first, later⟩
  · have hd : w.deliver h HostEvent.microtask = w := by simp [deliver, runMicrotask, hm]
    rw [hd]
    cases ph with
    | finished => exact hc
    | sounding p rest => exact hc
    | queued k rest =>
      obtain ⟨a, -⟩ : w.microtasks[k]? = some rest ∧ rest ≠ [] := hc.2.2.2
      rw [hm] at a
      simp at a
  · have hgrow : ∃ more, (w.deliver h HostEvent.microtask).log = w.log ++ more ∧
        w.nextId ≤ (w.deliver h HostEvent.microtask).nextId ∧
        (∃ extra, (w.deliver h HostEvent.microtask).waiting = w.waiting ++ extra ∧
          ∀ x ∈ extra, x.osc = w.nextId) ∧
        (w.deliver h HostEvent.microtask).microtasks = later := by
      rcases first with _ | ⟨o, nx⟩
      · have hd : w.deliver h HostEvent.microtask = { w with microtasks := later } := by
          simp [deliver, runMicrotask, hm]
        rw [hd]
        exact ⟨[], by simp, le_refl _, ⟨[], by simp, by simp⟩, rfl⟩
      · obtain ⟨-, h2, h3, h4, h5⟩ := runMicrotask_of_tone h hn w ctx hf o nx later hm
        refine ⟨_, h3, ?_, ⟨_, h4, ?_⟩, h5⟩
        · show w.nextId ≤ (w.runMicrotask h).nextId
          omega
        · intro x hx
          rw [List.mem_singleton] at hx
          rw [hx]
    obtain ⟨more, g1, g2, ⟨extra, g3, g4⟩, g5⟩ := hgrow
    have hwait : ∀ x ∈ (w.deliver h HostEvent.microtask).waiting,
        x ∈ w.waiting ∨ w.nextId ≤ x.osc := by
      rw [g3]
      intro x hx
      rcases List.mem_append.mp hx with hx | hx
      · exact Or.inl hx
      · exact Or.inr (le_of_eq (g4 x hx).symm)
    cases ph with
    | finished =>
      exact chainedAt_of_grown w _ ctx base past _ hc.1 hc.2.1 hc.2.2.1 more g1 g2 hwait trivial
    | sounding p rest =>
      have hs : w.waiting.filter (fun x => x.osc == p.osc) =
          [{ osc := p.osc, gain := p.osc + 1, next := rest }] := hc.2.2.2
      have hold : p.osc < w.nextId := by
        have hmem : ({ osc := p.osc, gain := p.osc + 1, next := rest } : PendingTone) ∈
            w.waiting.filter (fun x => x.osc == p.osc) := by
          rw [hs]
          exact List.mem_singleton_self _
        exact hf.2.2 _ (List.mem_of_mem_filter hmem)
      refine chainedAt_of_grown w _ ctx base past _ hc.1 hc.2.1 hc.2.2.1 more g1 g2 hwait ?_
      show (w.deliver h HostEvent.microtask).waiting.filter (fun x => x.osc == p.osc) = _
      rw [g3, List.filter_append, hs]
      have hnone : extra.filter (fun x => x.osc == p.osc) = [] := by
        rw [List.filter_eq_nil_iff]
        intro x hx
        have := g4 x hx
        simp
        omega
      rw [hnone]
      simp
    | queued k rest =>
      obtain ⟨a, b⟩ : w.microtasks[k]? = some rest ∧ rest ≠ [] := hc.2.2.2
      cases k with
      | zero => exact absurd rfl (hrun rest)
      | succ k =>
        refine chainedAt_of_grown w _ ctx base past (ChainPhase.queued k rest) hc.1 hc.2.1
          hc.2.2.1 more g1 g2 hwait ?_
        show (w.deliver h HostEvent.microtask).microtasks[k]? = some rest ∧ rest ≠ []
        rw [g5]
        rw [hm] at a
        have a' : later[k]? = some rest := by simpa using a
        exact ⟨a', b⟩

end AudioWorld

namespace AudioWorld

lemma run_append (h : AudioHost) (w : AudioWorld) (a b : List HostEvent) :
    w.run h (a ++ b) = (w.run h a).run h b := by
  simp [run, List.foldl_append]

/-- One event of the browser moves a chain along its tones or leaves it where it
is; the tones it has played and those still to come stay the same list. -/
lemma chainedAt_deliver (h : AudioHost) (hn : ∀ n, h.nodeThrows n = false) (w : AudioWorld)
    (ctx base : Nat) (hf : w.Fresh ctx) (past : List PlayedTone) (ph : ChainPhase)
    (hc : w.ChainedAt ctx base past ph) (e : HostEvent) :
    ∃ past' ph', (w.deliver h e).ChainedAt ctx base past' ph' ∧
      past'.map PlayedTone.options ++ ph'.remaining =
        past.map PlayedTone.options ++ ph.remaining := by
  cases e with
  | advance dt => exact ⟨past, ph, chainedAt_advance h w ctx base past ph hc dt, rfl⟩
  | ended osc =>
    by_cases hs : ∃ p rest, ph = ChainPhase.sounding p rest ∧ osc = p.osc
    · obtain ⟨p, rest, rfl, rfl⟩ := hs
      refine ⟨_, _, chainedAt_ended h w ctx base hf past p rest hc, ?_⟩
      by_cases hr : rest = []
      · simp [hr, ChainPhase.remaining]
      · simp [hr, ChainPhase.remaining]
    · refine ⟨past, ph, chainedAt_ended_other h w ctx base past ph hc osc ?_, rfl⟩
      intro p rest hph hosc
      exact hs ⟨p, rest, hph, hosc⟩
  | microtask =>
    by_cases hq : ∃ rest, ph = ChainPhase.queued 0 rest
    · obtain ⟨rest, rfl⟩ := hq
      have hne : rest ≠ [] := (hc.2.2.2 : w.microtasks[0]? = some rest ∧ rest ≠ []).2
      obtain ⟨o, nx, rfl⟩ : ∃ o nx, rest = o :: nx := by
        cases rest with
        | nil => exact absurd rfl hne
        | cons o nx => exact ⟨o, nx, rfl⟩
      exact ⟨past, _, chainedAt_invoked h hn w ctx base hf past o nx hc, rfl⟩
    · refine ⟨past, ph.shift, chainedAt_microtask_other h hn w ctx base hf past ph hc ?_, ?_⟩
      · intro rest hph
        exact hq ⟨rest, hph⟩
      · cases ph with
        | sounding p rest => rfl
        | finished => rfl
        | queued k rest =>
          cases k with
          | zero => rfl
          | succ k => rfl

/-- Whatever the browser delivers, a chain goes through its tones one after the
other, in order. -/
lemma chainedAt_run (h : AudioHost) (hn : ∀ n, h.nodeThrows n = false) (ctx base : Nat)
    (es : List HostEvent) :
    ∀ (w : AudioWorld) (past : List PlayedTone) (ph : ChainPhase), w.Fresh ctx →
      w.ChainedAt ctx base past ph →
      ∃ past' ph', (w.run h es).ChainedAt ctx base past' ph' ∧
        past'.map PlayedTone.options ++ ph'.remaining =
          past.map PlayedTone.options ++ ph.remaining := by
  induction es with
  | nil => intro w past ph _ hc; exact ⟨past, ph, hc, rfl⟩
  | cons e es ih =>
    intro w past ph hf hc
    obtain ⟨past1, ph1, hc1, he1⟩ := chainedAt_deliver h hn w ctx base hf past ph hc e
    obtain ⟨past2, ph2, hc2, he2⟩ := ih _ past1 ph1 (fresh_deliver h hn w ctx hf e) hc1
    exact ⟨past2, ph2, hc2, he2.trans he1⟩

/-- A queued chain gets its next tone when the reactions before its own have
run. -/
lemma chainedAt_drain (h : AudioHost) (hn : ∀ n, h.nodeThrows n = false) (ctx base : Nat)
    (past : List PlayedTone) (o : SoundOptions) (nx : List SoundOptions) :
    ∀ (k : Nat) (w : AudioWorld), w.Fresh ctx →
      w.ChainedAt ctx base past (ChainPhase.queued k (o :: nx)) →
      ∃ es p, p.options = o ∧ (w.run h es).Fresh ctx ∧
        (w.run h es).ChainedAt ctx base past (ChainPhase.sounding p nx) := by
  intro k
  induction k with
  | zero =>
    intro w hf hc
    exact ⟨[HostEvent.microtask], _, rfl, fresh_run h hn ctx [HostEvent.microtask] w hf,
      chainedAt_invoked h hn w ctx base hf past o nx hc⟩
  | succ k ih =>
    intro w hf hc
    have h1 := chainedAt_microtask_other h hn w ctx base hf past _ hc (fun rest hr => by
      cases hr)
    obtain ⟨es, p, hp, hf2, hc2⟩ := ih _ (fresh_deliver h hn w ctx hf HostEvent.microtask) h1
    exact ⟨HostEvent.microtask :: es, p, hp, hf2, hc2⟩

/-- A chain whose tone is sounding can be brought to its end: each tone ends,
the reactions queued before the next one run, and the next tone is invoked. -/
lemma chainedAt_finish (h : AudioHost) (hn : ∀ n, h.nodeThrows n = false) (ctx base : Nat)
    (rest : List SoundOptions) :
    ∀ (w : AudioWorld) (past : List PlayedTone) (p : PlayedTone), w.Fresh ctx →
      w.ChainedAt ctx base past (ChainPhase.sounding p rest) →
      ∃ es past', (w.run h es).ChainedAt ctx base past' ChainPhase.finished ∧
        past'.map PlayedTone.options = past.map PlayedTone.options ++ p.options :: rest := by
  induction rest with
  | nil =>
    intro w past p hf hc
    refine ⟨[HostEvent.ended p.osc], past ++ [p], ?_, by simp⟩
    have := chainedAt_ended h w ctx base hf past p [] hc
    simpa using this
  | cons o nx ih =>
    intro w past p hf hc
    have h1 := chainedAt_ended h w ctx base hf past p (o :: nx) hc
    simp only [reduceCtorEq, if_false] at h1
    have hf1 := fresh_deliver h hn w ctx hf (HostEvent.ended p.osc)
    obtain ⟨es2, p2, hp2, hf2, hc2⟩ := chainedAt_drain h hn ctx base (past ++ [p]) o nx _ _ hf1 h1
    obtain ⟨es3, past3, hc3, hp3⟩ := ih _ (past ++ [p]) p2 hf2 hc2
    refine ⟨HostEvent.ended p.osc :: (es2 ++ es3), past3, ?_, ?_⟩
    · have : w.run h (HostEvent.ended p.osc :: (es2 ++ es3)) =
          (((w.deliver h (HostEvent.ended p.osc)).run h es2).run h es3) := by
        rw [← run_append]
        rfl
      rw [this]
      exact hc3
    · rw [hp3, hp2]
      simp

lemma inOrder_prepend (blks : List (List AudioEvent)) (front log : List AudioEvent)
    (ho : InOrder blks log) : InOrder blks (front ++ log) := by
  cases blks with
  | nil => trivial
  | cons blk blks =>
    obtain ⟨pre, post, he, hrest⟩ := ho
    exact ⟨front ++ pre, post, by rw [he]; simp, hrest⟩

/-- A chain counted from a later entry of the log is a chain counted from an
earlier one. -/
lemma chainedAt_of_le (w : AudioWorld) (ctx base base' : Nat) (hle : base ≤ base')
    (past : List PlayedTone) (ph : ChainPhase) (hc : w.ChainedAt ctx base' past ph) :
    w.ChainedAt ctx base past ph := by
  obtain ⟨hb, ho, hp, hs⟩ := hc
  refine ⟨by omega, ?_, hp, hs⟩
  have hsplit : w.log.drop base =
      (w.log.drop base).take (base' - base) ++ w.log.drop base' := by
    have h1 := (List.take_append_drop (base' - base) (w.log.drop base)).symm
    rw [List.drop_drop] at h1
    have h2 : base + (base' - base) = base' := by omega
    rw [h2] at h1
    exact h1
  rw [hsplit]
  exact inOrder_prepend _ _ _ ho

/-- The first call of `generateSound` of a chain. -/
lemma chainedAt_start (h : AudioHost) (hn : ∀ n, h.nodeThrows n = false) (w : AudioWorld)
    (ctx : Nat) (hf : w.Fresh ctx) (o : SoundOptions) (next : List SoundOptions) :
    (AudioGenerator.generateSound h w o next).1.Fresh ctx ∧
      (AudioGenerator.generateSound h w o next).1.ChainedAt ctx w.log.length []
        (ChainPhase.sounding { options := o, osc := w.nextId, now := w.currentTime } next) := by
  obtain ⟨hi, hctx, hw⟩ := hf
  rw [AudioGenerator.generateSound_of_never_throws h w o next ctx hi hctx hn]
  refine ⟨⟨hi, hctx, ?_⟩, ?_, ?_, ?_, ?_⟩
  · intro p hp
    rcases List.mem_append.mp hp with hp | hp
    · have := hw p hp
      show p.osc < w.nextId + 2
      omega
    · rw [List.mem_singleton] at hp
      rw [hp]
      show w.nextId < w.nextId + 2
      omega
  · simp
  · refine ⟨[], [], ?_, trivial⟩
    simp [PlayedTone.invoked]
  · intro q hq
    cases hq
  · show (w.waiting ++ [({ osc := w.nextId, gain := w.nextId + 1, next := next } :
        PendingTone)]).filter (fun x => x.osc == w.nextId) =
      [{ osc := w.nextId, gain := w.nextId + 1, next := next }]
    rw [List.filter_append]
    have hnone : w.waiting.filter (fun x => x.osc == w.nextId) = [] := by
      rw [List.filter_eq_nil_iff]
      intro x hx
      have := hw x hx
      simp
      omega
    rw [hnone]
    simp

/-- The guard of an effect method lets a generator through that is initialised
or can initialise, with the promises that were waiting. -/
lemma ensureInit_fresh (h : AudioHost) (w : AudioWorld) (hcan : w.CanInit h)
    (hfresh : ∀ p ∈ w.waiting, p.osc < w.nextId) :
    ∃ w1 ctx, AudioGenerator.ensureInit h w = (w1, true) ∧ w1.Fresh ctx ∧
      w.log.length ≤ w1.log.length ∧ w1.draws = w.draws := by
  rcases hcan with ⟨hi, ctx, hctx⟩ | ⟨hi, hc⟩
  · exact ⟨w, ctx, AudioGenerator.ensureInit_of_initialized h w hi, ⟨hi, hctx, hfresh⟩,
      le_refl _, rfl⟩
  · refine ⟨{ w with
        gen := { context := some w.nextId, initialized := true }
        nextId := w.nextId + 1
        log := w.log ++ [AudioEvent.newAudioContext w.nextId] },
      w.nextId, ?_, ⟨rfl, rfl, ?_⟩, by simp, rfl⟩
    · simp only [AudioGenerator.ensureInit, hi, Bool.false_eq_true, if_false]
      exact AudioGenerator.init_of_capable h w hc
    · intro p hp
      have := hfresh p hp
      show p.osc < w.nextId + 1
      omega

/-- An effect method: the guard, `k` random draws, then a chain of tones. Under
every sequence of events the chain goes through its tones in order, and some
sequence of events brings it to its end. -/
lemma chainedAt_guarded (h : AudioHost) (hn : ∀ n, h.nodeThrows n = false) (w : AudioWorld)
    (hcan : w.CanInit h) (hfresh : ∀ p ∈ w.waiting, p.osc < w.nextId) (k : Nat)
    (o : Nat → SoundOptions) (next : List SoundOptions) :
    ∃ ctx,
      (∀ es, ∃ past ph,
        past.map PlayedTone.options ++ ph.remaining = o w.draws :: next ∧
        (run h
          (match AudioGenerator.ensureInit h w with
            | (w1, false) => (w1, PromiseState.fulfilled)
            | (w1, true) =>
              AudioGenerator.generateSound h { w1 with draws := w1.draws + k } (o w1.draws)
                next).1 es).ChainedAt ctx w.log.length past ph) ∧
      ∃ es past,
        past.map PlayedTone.options = o w.draws :: next ∧
        (run h
          (match AudioGenerator.ensureInit h w with
            | (w1, false) => (w1, PromiseState.fulfilled)
            | (w1, true) =>
              AudioGenerator.generateSound h { w1 with draws := w1.draws + k } (o w1.draws)
                next).1 es).ChainedAt ctx w.log.length past ChainPhase.finished := by
  obtain ⟨w1, ctx, he, hf, hlen, hd⟩ := ensureInit_fresh h w hcan hfresh
  rw [he, ← hd]
  have hf' : Fresh { w1 with draws := w1.draws + k } ctx := hf
  obtain ⟨hf1, hc1⟩ := chainedAt_start h hn _ ctx hf' (o w1.draws) next
  refine ⟨ctx, ?_, ?_⟩
  · intro es
    obtain ⟨past, ph, hc, hp⟩ := chainedAt_run h hn ctx _ es _ _ _ hf1 hc1
    exact ⟨past, ph, by rw [hp]; rfl, chainedAt_of_le _ ctx _ _ hlen past ph hc⟩
  · obtain ⟨es, past, hc, hp⟩ := chainedAt_finish h hn ctx _ next _ _ _ hf1 hc1
    exact ⟨es, past, by rw [hp]; rfl, chainedAt_of_le _ ctx _ _ hlen past _ hc⟩

end AudioWorld

/-! ### Ranges of the random tone parameters -/

/-- Expression `base + r * span` for a draw `r` of `Math.random()`, in doubles:
between `base` and `base + span`, both ends included. -/
lemma jsAdd_jsMul_bounds (base span top r : ℚ) (hb : toDouble base = base)
    (hs : toDouble span = span) (ht : toDouble top = top) (hsum : base + span = top)
    (hspan : 0 ≤ span) (h0 : 0 ≤ r) (h1 : r ≤ 1 - 1 / 2 ^ 53) :
    base ≤ jsAdd base (jsMul r span) ∧ jsAdd base (jsMul r span) ≤ top := by
  obtain ⟨ha, hb'⟩ := toDouble_random_bounds r h0 h1
  have hone : toDouble r ≤ 1 := by linarith
  have hm0 : 0 ≤ jsMul r span := by
    rw [jsMul, hs]
    exact toDouble_nonneg (mul_nonneg ha hspan)
  have hm1 : jsMul r span ≤ span := by
    rw [jsMul, hs]
    calc toDouble (toDouble r * span) ≤ toDouble span :=
          toDouble_mono (by nlinarith)
      _ = span := hs
  have hi : toDouble (jsMul r span) = jsMul r span := by
    rw [jsMul, toDouble_idem]
  rw [jsAdd, hb, hi]
  constructor
  · calc base = toDouble base := hb.symm
      _ ≤ toDouble (base + jsMul r span) := toDouble_mono (by linarith)
  · calc toDouble (base + jsMul r span) ≤ toDouble top := toDouble_mono (by linarith)
      _ = top := ht

/-- Expression `r * span - half` for a draw `r` of `Math.random()`, in doubles:
at least `-half` and at most the double that the largest draw gives. -/
lemma jsSub_jsMul_bounds (span half most edge r : ℚ) (hs : toDouble span = span)
    (hh : toDouble half = half) (hspan : 0 ≤ span)
    (hmost : toDouble (9007199254740991 / 9007199254740992 * span) = most)
    (hedge : toDouble (most - half) = edge) (h0 : 0 ≤ r) (h1 : r ≤ 1 - 1 / 2 ^ 53) :
    -half ≤ jsSub (jsMul r span) half ∧ jsSub (jsMul r span) half ≤ edge := by
  obtain ⟨ha, hb⟩ := toDouble_random_bounds r h0 h1
  have hm0 : 0 ≤ jsMul r span := by
    rw [jsMul, hs]
    exact toDouble_nonneg (mul_nonneg ha hspan)
  have hm1 : jsMul r span ≤ most := by
    rw [jsMul, hs, ← hmost]
    exact toDouble_mono (mul_le_mul_of_nonneg_right hb hspan)
  have hi : toDouble (jsMul r span) = jsMul r span := by
    rw [jsMul, toDouble_idem]
  rw [jsSub, hh, hi]
  constructor
  · calc -half = -toDouble half := by rw [hh]
      _ = toDouble (-half) := (toDouble_neg half).symm
      _ ≤ toDouble (jsMul r span - half) := toDouble_mono (by linarith)
  · calc toDouble (jsMul r span - half) ≤ toDouble (most - half) :=
          toDouble_mono (by linarith)
      _ = edge := hedge

namespace AudioWorld

/-- At most one promise of a chain is waiting. -/
lemma scheduledOf_length (w : AudioWorld) (ctx base : Nat) (past : List PlayedTone)
    (ph : ChainPhase) (hc : w.ChainedAt ctx base past ph) :
    (w.scheduledOf past ph).length ≤ 1 := by
  obtain ⟨-, -, hp, hs⟩ := hc
  have hcongr : w.scheduledOf past ph =
      w.waiting.filter (fun x => decide (x.osc ∈ ph.oscillators)) := by
    unfold scheduledOf
    apply List.filter_congr
    intro x hx
    have hnot : x.osc ∉ past.map PlayedTone.osc := by
      intro hmem
      obtain ⟨q, hq, hqo⟩ := List.mem_map.mp hmem
      exact (hp q hq).2 x hx hqo.symm
    simp [hnot]
  rw [hcongr]
  cases ph with
  | sounding p rest =>
    have hsame : w.waiting.filter
        (fun x => decide (x.osc ∈ (ChainPhase.sounding p rest).oscillators)) =
        w.waiting.filter (fun x => x.osc == p.osc) := by
      apply List.filter_congr
      intro x _
      by_cases hx : x.osc = p.osc <;> simp [ChainPhase.oscillators, hx]
    have hs' : w.waiting.filter (fun x => x.osc == p.osc) =
        [{ osc := p.osc, gain := p.osc + 1, next := rest }] := hs
    rw [hsame, hs']
    simp
  | queued k rest => simp [ChainPhase.oscillators]
  | finished => simp [ChainPhase.oscillators]

/-- An effect method on a generator that is initialised or can initialise,
whose host calls return: under every sequence of events the tones of the method
are played one after the other, and some sequence of events plays them all. -/
lemma sequenced_guarded (h : AudioHost) (hn : ∀ n, h.nodeThrows n = false) (w : AudioWorld)
    (hcan : w.CanInit h) (hfresh : ∀ p ∈ w.waiting, p.osc < w.nextId) (k : Nat)
    (o : Nat → SoundOptions) (next : List SoundOptions) (r : AudioWorld × PromiseState)
    (hr : r = match AudioGenerator.ensureInit h w with
      | (w1, false) => (w1, PromiseState.fulfilled)
      | (w1, true) =>
        AudioGenerator.generateSound h { w1 with draws := w1.draws + k } (o w1.draws) next)
    (table : List ToneSpec) (ht : (o w.draws :: next).map SoundOptions.destructure = table) :
    ∃ ctx, (∀ es, (run h r.1 es).Sequenced ctx w.log.length table) ∧
      ∃ es, (run h r.1 es).Completed ctx w.log.length table := by
  obtain ⟨ctx, h1, es, past, hp, hc⟩ := chainedAt_guarded h hn w hcan hfresh k o next
  rw [hr]
  refine ⟨ctx, ?_, es, past, ?_, hc⟩
  · intro es'
    obtain ⟨past', ph, hp', hc'⟩ := h1 es'
    exact ⟨past', ph, by rw [hp', ht], hc', scheduledOf_length _ ctx _ past' ph hc'⟩
  · rw [hp, ht]

end AudioWorld

/-- Destructuring options that carry all seven properties. -/
lemma destructure_all (ty : String) (f d v a dc dt : ℚ) :
    SoundOptions.destructure
        { type := some ty, frequency := some f, duration := some d, volume := some v,
          attack := some a, decay := some dc, detune := some dt } =
      { type := ty, frequency := f, duration := d, volume := v, attack := a, decay := dc,
        detune := dt } := by
  simp [SoundOptions.destructure]

/-- Destructuring options without `detune`: the default 0 is taken. -/
lemma destructure_plain (ty : String) (f d v a dc : ℚ) :
    SoundOptions.destructure
        { type := some ty, frequency := some f, duration := some d, volume := some v,
          attack := some a, decay := some dc } =
      { type := ty, frequency := f, duration := d, volume := v, attack := a, decay := dc,
        detune := 0 } := by
  simp [SoundOptions.destructure]

lemma edge_random (n : Nat) : AudioHost.edge.random n = 1 - 1 / 2 ^ 53 := rfl

/-- C2 as stated fails on the catch branch of `generateSound`: in a browser
whose first Web Audio call of the first tone throws, `error()` logs the error,
resolves the promise at once and queues the reaction, and when that reaction
runs `generateSound` is invoked for the second tone although no `onended`
callback has fired. -/
theorem AudioGenerator.multi_tone_sequential_counterexample :
    toneSteps (AudioWorld.run AudioHost.faulty
        (AudioGenerator.error AudioHost.faulty AudioWorld.ready).1
        [HostEvent.microtask]).log =
      [ToneStep.invoked ⟨"sawtooth", 300, 0.1, 0.2, 0.001, 0.1, 0⟩,
        ToneStep.invoked ⟨"sawtooth", 200, 0.15, 0.2, 0.001, 0.15, 0⟩] ∧
      (∀ osc, AudioEvent.onended osc ∉ (AudioWorld.run AudioHost.faulty
        (AudioGenerator.error AudioHost.faulty AudioWorld.ready).1
        [HostEvent.microtask]).log) := by
  have hi : AudioWorld.ready.gen.initialized = true := rfl
  have he : AudioGenerator.error AudioHost.faulty AudioWorld.ready =
      AudioGenerator.generateSound AudioHost.faulty AudioWorld.ready
        { type := some "sawtooth", frequency := some 300, duration := some 0.1,
          volume := some 0.2, attack := some 0.001, decay := some 0.1 }
        [ { type := some "sawtooth", frequency := some 200, duration := some 0.15,
            volume := some 0.2, attack := some 0.001, decay := some 0.15 } ] := by
    simp only [AudioGenerator.error,
      AudioGenerator.ensureInit_of_initialized AudioHost.faulty AudioWorld.ready hi,
      jsMul_200_three_halves]
  have hlog : (AudioWorld.run AudioHost.faulty
      (AudioGenerator.generateSound AudioHost.faulty AudioWorld.ready
        { type := some "sawtooth", frequency := some 300, duration := some 0.1,
          volume := some 0.2, attack := some 0.001, decay := some 0.1 }
        [ { type := some "sawtooth", frequency := some 200, duration := some 0.15,
            volume := some 0.2, attack := some 0.001, decay := some 0.15 } ]).1
      [HostEvent.microtask]).log =
      [AudioEvent.newAudioContext 0,
        AudioEvent.generateSound "sawtooth" 300 0.1 0.2 0.001 0.1 0,
        AudioEvent.consoleError "Error generating sound:",
        AudioEvent.generateSound "sawtooth" 200 0.15 0.2 0.001 0.15 0] ++
        AudioGenerator.toneCalls 0 3 4 0 ⟨"sawtooth", 200, 0.15, 0.2, 0.001, 0.15, 0⟩ := by
    rfl
  rw [he, hlog]
  constructor
  · simp [toneSteps, AudioGenerator.toneCalls]
  · intro osc
    simp [AudioGenerator.toneCalls]

/-- C2, amended: on a host whose Web Audio calls return, from every generator
that is initialised or can initialise and whose waiting oscillators are older
than the next identity, whatever other tones are in flight, and under every
sequence of browser events (any oscillator ending, queued reactions, clock
advance), the tones of `error()` and of `startup()` are played one after the
other in table order: the log since the call holds, in this order and each
unbroken, the invocation of tone 1 (the entry of `generateSound` and its
thirteen host calls), the `onended` handler of tone 1, the invocation of tone
2, and so on up to the point the chain has reached; the options of the tones
not yet invoked are chained on the one waiting promise of the sounding tone or
stand in the reaction queue; no promise of an ended tone is waiting, so at most
one promise of the effect waits at any time. -/
theorem AudioGenerator.multi_tone_sequential (h : AudioHost) (w : AudioWorld)
    (hcan : w.CanInit h) (hfresh : ∀ p ∈ w.waiting, p.osc < w.nextId)
    (hn : ∀ n, h.nodeThrows n = false) :
    (∃ ctx, ∀ es, (AudioWorld.run h (AudioGenerator.error h w).1 es).Sequenced ctx
        w.log.length (effectTones "error" 0 0)) ∧
      ∃ ctx, ∀ es, (AudioWorld.run h (AudioGenerator.startup h w).1 es).Sequenced ctx
        w.log.length (effectTones "startup" 0 0) := by
  constructor
  · obtain ⟨ctx, h1, -⟩ := AudioWorld.sequenced_guarded h hn w hcan hfresh 0
      (fun _ => { type := some "sawtooth", frequency := some (jsMul 200 1.5),
                  duration := some 0.1, volume := some 0.2, attack := some 0.001,
                  decay := some 0.1 })
      [ { type := some "sawtooth", frequency := some 200, duration := some 0.15,
          volume := some 0.2, attack := some 0.001, decay := some 0.15 } ]
      (AudioGenerator.error h w) rfl (effectTones "error" 0 0)
      (by
        beta_reduce
        rw [List.map_cons, List.map_cons, List.map_nil, destructure_plain, destructure_plain,
          jsMul_200_three_halves]
        simp [effectTones])
    exact ⟨ctx, h1⟩
  · obtain ⟨ctx, h1, -⟩ := AudioWorld.sequenced_guarded h hn w hcan hfresh 0
      (fun _ => { type := some "sine", frequency := some 440, duration := some 0.15,
                  volume := some 0.2, attack := some 0.01, decay := some 0.15 })
      [ { type := some "sine", frequency := some (jsMul 440 1.5), duration := some 0.15,
          volume := some 0.2, attack := some 0.01, decay := some 0.15 },
        { type := some "sine", frequency := some (jsMul 440 2),
          duration := some (jsMul 0.15 1.5), volume := some 0.2, attack := some 0.01,
          decay := some (jsMul 0.15 1.5) } ]
      (AudioGenerator.startup h w) rfl (effectTones "startup" 0 0)
      (by
        beta_reduce
        rw [List.map_cons, List.map_cons, List.map_cons, List.map_nil, destructure_plain,
          destructure_plain, destructure_plain, jsMul_440_three_halves, jsMul_440_two,
          jsMul_duration]
        simp [effectTones]
        norm_num)
    exact ⟨ctx, h1⟩

/-- Witness of C2 (amended): `error()` called while the `enter` tone of the
submitted command is in flight. -/
theorem AudioGenerator.multi_tone_sequential_witness :
    AudioWorld.submitted.waiting.length = 1 ∧
      ∃ ctx, ∀ es, (AudioWorld.run AudioHost.browser
        (AudioGenerator.error AudioHost.browser AudioWorld.submitted).1 es).Sequenced ctx
          AudioWorld.submitted.log.length (effectTones "error" 0 0) :=
  ⟨rfl,
    (AudioGenerator.multi_tone_sequential AudioHost.browser AudioWorld.submitted
      (Or.inl ⟨rfl, 0, rfl⟩)
      (by
        intro p hp
        have hw : AudioWorld.submitted.waiting = [{ osc := 1, gain := 2, next := [] }] := rfl
        rw [hw, List.mem_singleton] at hp
        rw [hp]
        show 1 < AudioWorld.submitted.nextId
        decide)
      (fun _ => rfl)).1⟩

/-- C1 as stated fails in the arithmetic of the program. The third tone of
`startup()` gets the duration and the decay `0.15 * 1.5`, which in doubles is
`0.22499999999999998`, not the double written `0.225` of the table. With `Math.random()`
returning the largest double below 1, which lies in `[0, 1)`, the typing
frequency `600 + r * 200` is rounded to 800 and the click frequency
`800 + r * 300` to 1100, outside `[600, 800)` and `[800, 1100)`. -/
theorem SoundEffects.play_effect_table_counterexample :
    (∃ o1 o2 o3, AudioGenerator.startup AudioHost.browser AudioWorld.ready =
        AudioGenerator.generateSound AudioHost.browser AudioWorld.ready o1 [o2, o3] ∧
      o3.destructure.duration = 8106479329266892 / 36028797018963968 ∧
      o3.destructure.decay = 8106479329266892 / 36028797018963968 ∧
      o3.destructure.duration ≠ 0.225 ∧
      toDouble o3.destructure.duration ≠ toDouble 0.225 ∧
      [o1, o2, o3].map SoundOptions.destructure ≠ effectTable "startup" 0 0) ∧
    (0 ≤ AudioHost.edge.random AudioWorld.ready.draws ∧
      AudioHost.edge.random AudioWorld.ready.draws < 1 ∧
      (∃ o, AudioGenerator.typing AudioHost.edge AudioWorld.ready =
          AudioGenerator.generateSound AudioHost.edge
            { AudioWorld.ready with draws := AudioWorld.ready.draws + 2 } o [] ∧
        o.destructure.frequency = 800) ∧
      ∃ o, AudioGenerator.click AudioHost.edge AudioWorld.ready =
          AudioGenerator.generateSound AudioHost.edge
            { AudioWorld.ready with draws := AudioWorld.ready.draws + 2 } o [] ∧
        o.destructure.frequency = 1100) := by
  have hi : AudioWorld.ready.gen.initialized = true := rfl
  have hrho : (1 - 1 / 2 ^ 53 : ℚ) = 9007199254740991 / 9007199254740992 := by norm_num
  have hdur : jsMul 0.15 1.5 = 8106479329266892 / 36028797018963968 := by
    rw [jsMul_duration]
    norm_num
  refine ⟨⟨
      { type := some "sine", frequency := some 440, duration := some 0.15,
        volume := some 0.2, attack := some 0.01, decay := some 0.15 },
      { type := some "sine", frequency := some (jsMul 440 1.5), duration := some 0.15,
        volume := some 0.2, attack := some 0.01, decay := some 0.15 },
      { type := some "sine", frequency := some (jsMul 440 2),
        duration := some (jsMul 0.15 1.5), volume := some 0.2, attack := some 0.01,
        decay := some (jsMul 0.15 1.5) }, ?_, ?_, ?_, ?_, ?_, ?_⟩, ?_, ?_,
    ⟨
      { type := some "sine",
        frequency := some (jsAdd 600 (jsMul (AudioHost.edge.random AudioWorld.ready.draws) 200)),
        duration := some 0.015, volume := some 0.05, attack := some 0.001, decay := some 0.02,
        detune := some (jsSub (jsMul (AudioHost.edge.random (AudioWorld.ready.draws + 1)) 30)
          15) }, ?_, ?_⟩,
    ⟨
      { type := some "sine",
        frequency := some (jsAdd 800 (jsMul (AudioHost.edge.random AudioWorld.ready.draws) 300)),
        duration := some 0.03, volume := some 0.1, attack := some 0.001, decay := some 0.03,
        detune := some (jsSub (jsMul (AudioHost.edge.random (AudioWorld.ready.draws + 1)) 20)
          10) }, ?_, ?_⟩⟩
  · simp only [AudioGenerator.startup,
      AudioGenerator.ensureInit_of_initialized AudioHost.browser AudioWorld.ready hi]
  · rw [destructure_plain]
    exact hdur
  · rw [destructure_plain]
    exact hdur
  · rw [destructure_plain]
    show jsMul 0.15 1.5 ≠ 0.225
    rw [hdur]
    norm_num
  · rw [destructure_plain]
    show toDouble (jsMul 0.15 1.5) ≠ toDouble 0.225
    rw [jsMul, toDouble_idem, ← jsMul, hdur, show (0.225 : ℚ) = 9 / 40 by norm_num,
      toDouble_nine_fortieths]
    norm_num
  · intro heq
    rw [List.map_cons, List.map_cons, List.map_cons, List.map_nil, destructure_plain,
      destructure_plain, destructure_plain, hdur] at heq
    simp [effectTable] at heq
    norm_num at heq
  · rw [edge_random]
    norm_num
  · rw [edge_random]
    norm_num
  · simp only [AudioGenerator.typing,
      AudioGenerator.ensureInit_of_initialized AudioHost.edge AudioWorld.ready hi]
  · rw [destructure_all, edge_random]
    show jsAdd 600 (jsMul (1 - 1 / 2 ^ 53) 200) = 800
    rw [hrho, jsMul_below_one_200, jsAdd_600_below]
  · simp only [AudioGenerator.click,
      AudioGenerator.ensureInit_of_initialized AudioHost.edge AudioWorld.ready hi]
  · rw [destructure_all, edge_random]
    show jsAdd 800 (jsMul (1 - 1 / 2 ^ 53) 300) = 1100
    rw [hrho, jsMul_below_one_300, jsAdd_800_below]

/-- C1, amended: on a host whose Web Audio calls return, with the generator
initialised or able to initialise and the waiting oscillators older than the
next identity, whatever other tones are in flight, `SoundEffects.play(name)` on
an enabled and initialised manager dispatches to the `AudioGenerator` method of
that name, and the tones that method produces are those of the table
`effectTones`, in order, `r1` and `r2` being the next two values of
`Math.random()`. Under every sequence of browser events the log since the call
holds, one after the other and each unbroken, the invocation of each tone
reached so far (the entry of `generateSound` and the thirteen Web Audio calls
with the values of the table) followed by its `onended` handler, the options of
the tones still to come being those of the rest of the table; and some sequence
of events plays the whole table. The values of the table are those of doubles:
the products `200 * 1.5`, `440 * 1.5`, `440 * 2` are 300, 660, 880, and the
duration and decay of the third start-up tone are `0.22499999999999998`. For
draws in `[0, 1 - 2^-53]` the typing frequency lies in `[600, 800]` and its
detune in `[-15, 15)`, the click frequency in `[800, 1100]` and its detune in
`[-10, 10)`. In a host with a window `enable()` sets both flags that `play`
tests. -/
theorem SoundEffects.play_effect_table (h : AudioHost) (w : AudioWorld) (name : String)
    (hn : ∀ k, h.nodeThrows k = false) (hcan : w.CanInit h)
    (hfresh : ∀ p ∈ w.waiting, p.osc < w.nextId) (he : w.sfx.enabled = true)
    (hsi : w.sfx.initialized = true)
    (hname : name ∈ ["typing", "enter", "error", "startup", "click"]) :
    (∃ ctx,
      (∀ es, (AudioWorld.run h (SoundEffects.play h w name) es).Sequenced ctx w.log.length
        (effectTones name (h.random w.draws) (h.random (w.draws + 1)))) ∧
      ∃ es, (AudioWorld.run h (SoundEffects.play h w name) es).Completed ctx w.log.length
        (effectTones name (h.random w.draws) (h.random (w.draws + 1)))) ∧
    (SoundEffects.play h w "typing" = (AudioGenerator.typing h w).1 ∧
      SoundEffects.play h w "enter" = (AudioGenerator.enter h w).1 ∧
      SoundEffects.play h w "error" = (AudioGenerator.error h w).1 ∧
      SoundEffects.play h w "startup" = (AudioGenerator.startup h w).1 ∧
      SoundEffects.play h w "click" = (AudioGenerator.click h w).1) ∧
    (0 ≤ h.random w.draws → h.random w.draws ≤ 1 - 1 / 2 ^ 53 →
      0 ≤ h.random (w.draws + 1) → h.random (w.draws + 1) ≤ 1 - 1 / 2 ^ 53 →
      (∀ t ∈ effectTones "typing" (h.random w.draws) (h.random (w.draws + 1)),
        600 ≤ t.frequency ∧ t.frequency ≤ 800 ∧ -15 ≤ t.detune ∧ t.detune < 15) ∧
      (∀ t ∈ effectTones "click" (h.random w.draws) (h.random (w.draws + 1)),
        800 ≤ t.frequency ∧ t.frequency ≤ 1100 ∧ -10 ≤ t.detune ∧ t.detune < 10)) ∧
    (∀ v : AudioWorld, h.hasWindow = true →
      (SoundEffects.enable h v).sfx.enabled = true ∧
        (SoundEffects.enable h v).sfx.initialized = true) := by
  have hdisp : SoundEffects.play h w "typing" = (AudioGenerator.typing h w).1 ∧
      SoundEffects.play h w "enter" = (AudioGenerator.enter h w).1 ∧
      SoundEffects.play h w "error" = (AudioGenerator.error h w).1 ∧
      SoundEffects.play h w "startup" = (AudioGenerator.startup h w).1 ∧
      SoundEffects.play h w "click" = (AudioGenerator.click h w).1 := by
    refine ⟨?_, ?_, ?_, ?_, ?_⟩ <;> simp [SoundEffects.play, he, hsi]
  have hen : ∀ v : AudioWorld, h.hasWindow = true →
      (SoundEffects.enable h v).sfx.enabled = true ∧
        (SoundEffects.enable h v).sfx.initialized = true := by
    intro v hwin
    rcases hv : v.sfx.initialized with _ | _
    · simp only [SoundEffects.enable, SoundEffects.init, hwin, hv, AudioGenerator.init]
      split_ifs <;> simp_all
    · simp [SoundEffects.enable, SoundEffects.init, hwin, hv]
  refine ⟨?_, hdisp, ?_, hen⟩
  · simp only [List.mem_cons, List.mem_singleton, List.not_mem_nil, or_false] at hname
    rcases hname with rfl | rfl | rfl | rfl | rfl
    · rw [hdisp.1]
      refine AudioWorld.sequenced_guarded h hn w hcan hfresh 2
        (fun d => { type := some "sine", frequency := some (jsAdd 600 (jsMul (h.random d) 200)),
                    duration := some 0.015, volume := some 0.05, attack := some 0.001,
                    decay := some 0.02,
                    detune := some (jsSub (jsMul (h.random (d + 1)) 30) 15) }) []
        (AudioGenerator.typing h w) rfl _ ?_
      beta_reduce
      rw [List.map_cons, List.map_nil, destructure_all]
      simp [effectTones]
    · rw [hdisp.2.1]
      refine AudioWorld.sequenced_guarded h hn w hcan hfresh 0
        (fun _ => { type := some "triangle", frequency := some 400, duration := some 0.08,
                    volume := some 0.15, attack := some 0.001, decay := some 0.1,
                    detune := some (-10) }) []
        (AudioGenerator.enter h w) rfl _ ?_
      beta_reduce
      rw [List.map_cons, List.map_nil, destructure_all]
      simp [effectTones]
    · rw [hdisp.2.2.1]
      refine AudioWorld.sequenced_guarded h hn w hcan hfresh 0
        (fun _ => { type := some "sawtooth", frequency := some (jsMul 200 1.5),
                    duration := some 0.1, volume := some 0.2, attack := some 0.001,
                    decay := some 0.1 })
        [ { type := some "sawtooth", frequency := some 200, duration := some 0.15,
            volume := some 0.2, attack := some 0.001, decay := some 0.15 } ]
        (AudioGenerator.error h w) rfl _ ?_
      beta_reduce
      rw [List.map_cons, List.map_cons, List.map_nil, destructure_plain, destructure_plain,
        jsMul_200_three_halves]
      simp [effectTones]
    · rw [hdisp.2.2.2.1]
      refine AudioWorld.sequenced_guarded h hn w hcan hfresh 0
        (fun _ => { type := some "sine", frequency := some 440, duration := some 0.15,
                    volume := some 0.2, attack := some 0.01, decay := some 0.15 })
        [ { type := some "sine", frequency := some (jsMul 440 1.5), duration := some 0.15,
            volume := some 0.2, attack := some 0.01, decay := some 0.15 },
          { type := some "sine", frequency := some (jsMul 440 2),
            duration := some (jsMul 0.15 1.5), volume := some 0.2, attack := some 0.01,
            decay := some (jsMul 0.15 1.5) } ]
        (AudioGenerator.startup h w) rfl _ ?_
      beta_reduce
      rw [List.map_cons, List.map_cons, List.map_cons, List.map_nil, destructure_plain,
        destructure_plain, destructure_plain, jsMul_440_three_halves, jsMul_440_two,
        jsMul_duration]
      simp [effectTones]
      norm_num
    · rw [hdisp.2.2.2.2]
      refine AudioWorld.sequenced_guarded h hn w hcan hfresh 2
        (fun d => { type := some "sine", frequency := some (jsAdd 800 (jsMul (h.random d) 300)),
                    duration := some 0.03, volume := some 0.1, attack := some 0.001,
                    decay := some 0.03,
                    detune := some (jsSub (jsMul (h.random (d + 1)) 20) 10) }) []
        (AudioGenerator.click h w) rfl _ ?_
      beta_reduce
      rw [List.map_cons, List.map_nil, destructure_all]
      simp [effectTones]
  · intro h0 h1 h0' h1'
    constructor
    · intro t ht
      simp only [effectTones, if_true, List.mem_singleton] at ht
      subst ht
      obtain ⟨f1, f2⟩ := jsAdd_jsMul_bounds 600 200 800 (h.random w.draws) toDouble_600
        toDouble_200 toDouble_800 (by norm_num) (by norm_num) h0 h1
      obtain ⟨d1, d2⟩ := jsSub_jsMul_bounds 30 15 (8444249301319679 / 281474976710656)
        (4222124650659839 / 281474976710656) (h.random (w.draws + 1)) toDouble_30 toDouble_15
        (by norm_num)
        (by rw [show (9007199254740991 / 9007199254740992 * 30 : ℚ) =
            135107988821114865 / 4503599627370496 by norm_num]
            exact toDouble_below_thirty)
        (by rw [show (8444249301319679 / 281474976710656 - 15 : ℚ) =
            4222124650659839 / 281474976710656 by norm_num]
            exact toDouble_below_fifteen) h0' h1'
      refine ⟨f1, f2, d1, lt_of_le_of_lt d2 (by norm_num)⟩
    · intro t ht
      simp [effectTones] at ht
      subst ht
      obtain ⟨f1, f2⟩ := jsAdd_jsMul_bounds 800 300 1100 (h.random w.draws) toDouble_800
        toDouble_300 toDouble_1100 (by norm_num) (by norm_num) h0 h1
      obtain ⟨d1, d2⟩ := jsSub_jsMul_bounds 20 10 (5629499534213119 / 281474976710656)
        (2814749767106559 / 281474976710656) (h.random (w.draws + 1)) toDouble_20 toDouble_10
        (by norm_num)
        (by rw [show (9007199254740991 / 9007199254740992 * 20 : ℚ) =
            45035996273704955 / 2251799813685248 by norm_num]
            exact toDouble_below_twenty)
        (by rw [show (5629499534213119 / 281474976710656 - 10 : ℚ) =
            2814749767106559 / 281474976710656 by norm_num]
            exact toDouble_below_ten) h0' h1'
      refine ⟨f1, f2, d1, lt_of_le_of_lt d2 (by norm_num)⟩

/-- Witness of C1 (amended): the error sound played while the `enter` tone of
the submitted command is in flight. -/
theorem SoundEffects.play_effect_table_witness :
    AudioWorld.submitted.sfx.enabled = true ∧ AudioWorld.submitted.sfx.initialized = true ∧
      AudioWorld.submitted.waiting.length = 1 ∧
      ∃ ctx,
        (∀ es, (AudioWorld.run AudioHost.browser
          (SoundEffects.play AudioHost.browser AudioWorld.submitted "error") es).Sequenced ctx
            AudioWorld.submitted.log.length
            (effectTones "error" (AudioHost.browser.random AudioWorld.submitted.draws)
              (AudioHost.browser.random (AudioWorld.submitted.draws + 1)))) ∧
        ∃ es, (AudioWorld.run AudioHost.browser
          (SoundEffects.play AudioHost.browser AudioWorld.submitted "error") es).Completed ctx
            AudioWorld.submitted.log.length
            (effectTones "error" (AudioHost.browser.random AudioWorld.submitted.draws)
              (AudioHost.browser.random (AudioWorld.submitted.draws + 1))) :=
  ⟨rfl, rfl, rfl,
    (SoundEffects.play_effect_table AudioHost.browser AudioWorld.submitted "error"
      (fun _ => rfl) (Or.inl ⟨rfl, 0, rfl⟩)
      (by
        intro p hp
        have hw : AudioWorld.submitted.waiting = [{ osc := 1, gain := 2, next := [] }] := rfl
        rw [hw, List.mem_singleton] at hp
        rw [hp]
        show 1 < AudioWorld.submitted.nextId
        decide)
      rfl rfl (by simp)).1⟩

namespace BackgroundAnimation

/-- The loop of `initDrops` pushes one drop for every natural number below its
bound `columns * density`. -/
lemma initDropsLoop_length (o : Options) (chars : List Char) (columns : ℤ) (random : Nat → ℚ) :
    ∀ (k i draws : Nat) (drops : List Drop), ⌈jsMul columns o.density⌉.toNat - i = k →
      (initDropsLoop o chars columns random i draws drops).1.length =
        drops.length + k := by
  intro k
  induction k with
  | zero =>
    intro i draws drops hk
    rw [initDropsLoop]
    have hno : ¬ ((i : ℚ) < jsMul columns o.density) := by
      intro hlt
      have h1 : (i : ℤ) < ⌈jsMul columns o.density⌉ := by
        rw [Int.lt_ceil]
        exact_mod_cast hlt
      omega
    simp [hno]
  | succ k ih =>
    intro i draws drops hk
    rw [initDropsLoop]
    have hyes : (i : ℚ) < jsMul columns o.density := by
      have h1 : (i : ℤ) < ⌈jsMul columns o.density⌉ := by omega
      rw [Int.lt_ceil] at h1
      exact_mod_cast h1
    simp only [hyes, if_true]
    rw [ih (i + 1) _ _ (by omega)]
    simp
    omega

/-- The double product `62 * 0.7`, just below 43.4. -/
lemma jsMul_62_seven_tenths : jsMul 62 (7 / 10) = (6108006994621235 / 140737488355328) := by
  have ha : toDouble 62 = 62 := by
    rw [toDouble_eval 62 (5) (8725724278030336) (by norm_num) (by norm_num) (by norm_num)
      (roundHalfEven_down _ (8725724278030336) (by norm_num) (by norm_num))]
    norm_num
  have hb : toDouble (7 / 10) = (3152519739159347 / 4503599627370496) := by
    rw [toDouble_eval (7 / 10) (-1) (6305039478318694) (by norm_num) (by norm_num) (by norm_num)
      (roundHalfEven_down _ (6305039478318694) (by norm_num) (by norm_num))]
    norm_num
  have hx : toDouble (97728111913939757 / 2251799813685248) = (6108006994621235 / 140737488355328) := by
    rw [toDouble_eval (97728111913939757 / 2251799813685248) (5) (6108006994621235) (by norm_num) (by norm_num) (by norm_num)
      (roundHalfEven_up _ (6108006994621234) (by norm_num) (by norm_num) (by norm_num))]
    norm_num
  have hp : (62 : ℚ) * (3152519739159347 / 4503599627370496) = (97728111913939757 / 2251799813685248) := by norm_num
  rw [jsMul, ha, hb, hp, hx]

/-- The double product `100 * 0.55`, just above 55. -/
lemma jsMul_100_eleven_twentieths : jsMul 100 (11 / 20) = (7740561859543041 / 140737488355328) := by
  have ha : toDouble 100 = 100 := by
    rw [toDouble_eval 100 (6) (7036874417766400) (by norm_num) (by norm_num) (by norm_num)
      (roundHalfEven_down _ (7036874417766400) (by norm_num) (by norm_num))]
    norm_num
  have hb : toDouble (11 / 20) = (2476979795053773 / 4503599627370496) := by
    rw [toDouble_eval (11 / 20) (-1) (4953959590107546) (by norm_num) (by norm_num) (by norm_num)
      (roundHalfEven_up _ (4953959590107545) (by norm_num) (by norm_num) (by norm_num))]
    norm_num
  have hx : toDouble (61924494876344325 / 1125899906842624) = (7740561859543041 / 140737488355328) := by
    rw [toDouble_eval (61924494876344325 / 1125899906842624) (5) (7740561859543041) (by norm_num) (by norm_num) (by norm_num)
      (roundHalfEven_up _ (7740561859543040) (by norm_num) (by norm_num) (by norm_num))]
    norm_num
  have hp : (100 : ℚ) * (2476979795053773 / 4503599627370496) = (61924494876344325 / 1125899906842624) := by norm_num
  rw [jsMul, ha, hb, hp, hx]

/-- In doubles `62 * 0.7` lies between 43 and 44. -/
lemma ceil_jsMul_62 : ⌈jsMul ((62 : ℤ) : ℚ) (7 / 10)⌉ = 44 := by
  have h : jsMul ((62 : ℤ) : ℚ) (7 / 10) = 6108006994621235 / 140737488355328 := by
    rw [← jsMul_62_seven_tenths]
    norm_num
  rw [h, Int.ceil_eq_iff]
  norm_num

/-- In doubles `100 * 0.55` lies above 55. -/
lemma ceil_jsMul_100 : ⌈jsMul ((100 : ℤ) : ℚ) (11 / 20)⌉ = 56 := by
  have h : jsMul ((100 : ℤ) : ℚ) (11 / 20) = 7740561859543041 / 140737488355328 := by
    rw [← jsMul_100_eleven_twentieths]
    norm_num
  rw [h, Int.ceil_eq_iff]
  norm_num

/-- With a non-zero font size `resize()` returns, having copied the window size
to the canvas and rebuilt the drops. -/
lemma resize_ok (e : BackgroundAnimation) (b : Browser) (hf : e.options.fontSize ≠ 0) :
    ∃ e' b', resize e b = Except.ok (e', b') ∧ e'.canvas.width = b.innerWidth ∧
      e'.canvas.height = b.innerHeight ∧ e'.options = e.options ∧
      e'.drops.length =
        ⌈jsMul ((⌊b.innerWidth / e.options.fontSize⌋ : ℤ) : ℚ) e.options.density⌉.toNat := by
  refine ⟨{ e with
      canvas := { e.canvas with width := b.innerWidth, height := b.innerHeight }
      drops := (initDropsLoop e.options e.chars ⌊b.innerWidth / e.options.fontSize⌋ b.random
        0 b.draws []).1 },
    { b with
      draws := (initDropsLoop e.options e.chars ⌊b.innerWidth / e.options.fontSize⌋ b.random
        0 b.draws []).2 }, ?_, rfl, rfl, rfl, ?_⟩
  · simp only [resize, initDrops, hf, if_false]
  · simp only []
    rw [initDropsLoop_length _ _ _ _ _ 0 _ [] rfl]
    simp

end BackgroundAnimation

/-- C8 as stated fails: in the application's engine (font size 16, density 0.7)
a window 1000 wide gives 62 columns and `62 * 0.7 = 43.4`; the loop runs for
`i = 0, ..., 43`, so there are 44 drops, not `floor(43.4) = 43`, and more than
`columns * density`. With font size 10 and density 0.55 the same window gives
100 columns, the double product `100 * 0.55` is `55.00000000000001`, and there
are 56 drops. -/
theorem BackgroundAnimation.resize_drop_count_counterexample :
    (0 ≤ (Browser.desktop 0).innerWidth ∧ 0 < BackgroundAnimation.appEngine.options.fontSize ∧
      0 ≤ BackgroundAnimation.appEngine.options.density ∧
      BackgroundAnimation.appEngine.options.density ≤ 1 ∧
      ∃ e' b', BackgroundAnimation.resize BackgroundAnimation.appEngine (Browser.desktop 0) =
          Except.ok (e', b') ∧
        e'.drops.length = 44 ∧
        ⌊((⌊e'.canvas.width / e'.options.fontSize⌋ : ℤ) : ℚ) * e'.options.density⌋ = 43 ∧
        ¬ ((e'.drops.length : ℚ) ≤
          ((⌊e'.canvas.width / e'.options.fontSize⌋ : ℤ) : ℚ) * e'.options.density)) ∧
      (0 < BackgroundAnimation.denseEngine.options.fontSize ∧
        0 ≤ BackgroundAnimation.denseEngine.options.density ∧
        BackgroundAnimation.denseEngine.options.density ≤ 1 ∧
        ∃ e' b', BackgroundAnimation.resize BackgroundAnimation.denseEngine (Browser.desktop 0) =
            Except.ok (e', b') ∧
          e'.drops.length = 56 ∧
          ((⌊e'.canvas.width / e'.options.fontSize⌋ : ℤ) : ℚ) * e'.options.density = 55) := by
  have hfs : BackgroundAnimation.appEngine.options.fontSize = 16 := rfl
  have hden : BackgroundAnimation.appEngine.options.density = 7 / 10 := by
    simp [BackgroundAnimation.appEngine, BackgroundAnimation.built, Options.merge,
      BackgroundAnimation.appOptions]
    norm_num
  have hfs2 : BackgroundAnimation.denseEngine.options.fontSize = 10 := rfl
  have hden2 : BackgroundAnimation.denseEngine.options.density = 11 / 20 := by
    simp [BackgroundAnimation.denseEngine, BackgroundAnimation.built, Options.merge]
    norm_num
  have hiw : (Browser.desktop 0).innerWidth = 1000 := rfl
  have hcols : ⌊(1000 : ℚ) / 16⌋ = 62 := by
    rw [Int.floor_eq_iff]
    norm_num
  have hcols2 : ⌊(1000 : ℚ) / 10⌋ = 100 := by
    rw [Int.floor_eq_iff]
    norm_num
  obtain ⟨e', b', hr, hw, -, ho, hl⟩ := BackgroundAnimation.resize_ok
    BackgroundAnimation.appEngine (Browser.desktop 0) (by rw [hfs]; norm_num)
  rw [hfs, hden, hiw, hcols, BackgroundAnimation.ceil_jsMul_62] at hl
  replace hl : e'.drops.length = 44 := by rw [hl]; rfl
  obtain ⟨e2, b2, hr2, hw2, -, ho2, hl2⟩ := BackgroundAnimation.resize_ok
    BackgroundAnimation.denseEngine (Browser.desktop 0) (by rw [hfs2]; norm_num)
  rw [hfs2, hden2, hiw, hcols2, BackgroundAnimation.ceil_jsMul_100] at hl2
  replace hl2 : e2.drops.length = 56 := by rw [hl2]; rfl
  refine ⟨⟨by rw [hiw]; norm_num, by rw [hfs]; norm_num, by rw [hden]; norm_num,
    by rw [hden]; norm_num, e', b', hr, hl, ?_, ?_⟩,
    by rw [hfs2]; norm_num, by rw [hden2]; norm_num, by rw [hden2]; norm_num,
    e2, b2, hr2, hl2, ?_⟩
  · rw [hw, ho, hfs, hden, hiw, hcols, Int.floor_eq_iff]
    norm_num
  · rw [hw, ho, hfs, hden, hiw, hcols, hl]
    norm_num
  · rw [hw2, ho2, hfs2, hden2, hiw, hcols2]
    norm_num

/-- C8, amended: for every window width `≥ 0`, font size `> 0` and density in
`[0, 1]` that give fewer than `2^53` columns, `resize()` returns and leaves
`ceil(p)` drops, where `columns = floor(surfaceWidth / fontSize)` and `p` is
the double that the product `columns * density` of line 85 evaluates to: at
least `p`, less than `p + 1`, and at most `columns`. -/
theorem BackgroundAnimation.resize_drop_count (e : BackgroundAnimation) (b : Browser)
    (hw : 0 ≤ b.innerWidth) (hf : 0 < e.options.fontSize) (hd0 : 0 ≤ e.options.density)
    (hd1 : e.options.density ≤ 1) (hbig : b.innerWidth / e.options.fontSize < 2 ^ 53) :
    ∃ e' b', BackgroundAnimation.resize e b = Except.ok (e', b') ∧
      e'.canvas.width = b.innerWidth ∧
      (e'.drops.length : ℤ) =
        ⌈jsMul ((⌊e'.canvas.width / e.options.fontSize⌋ : ℤ) : ℚ) e.options.density⌉ ∧
      jsMul ((⌊e'.canvas.width / e.options.fontSize⌋ : ℤ) : ℚ) e.options.density ≤
        e'.drops.length ∧
      (e'.drops.length : ℚ) <
        jsMul ((⌊e'.canvas.width / e.options.fontSize⌋ : ℤ) : ℚ) e.options.density + 1 ∧
      (e'.drops.length : ℤ) ≤ ⌊e'.canvas.width / e.options.fontSize⌋ := by
  obtain ⟨e', b', hr, hwid, -, -, hl⟩ := BackgroundAnimation.resize_ok e b (ne_of_gt hf)
  have hcols : (0 : ℤ) ≤ ⌊b.innerWidth / e.options.fontSize⌋ :=
    Int.floor_nonneg.mpr (div_nonneg hw (le_of_lt hf))
  have hcq : (0 : ℚ) ≤ ((⌊b.innerWidth / e.options.fontSize⌋ : ℤ) : ℚ) := by exact_mod_cast hcols
  have hcb : ⌊b.innerWidth / e.options.fontSize⌋ ≤ 2 ^ 53 := by
    have h1 : ((⌊b.innerWidth / e.options.fontSize⌋ : ℤ) : ℚ) ≤ b.innerWidth / e.options.fontSize :=
      Int.floor_le _
    have h2 : ((⌊b.innerWidth / e.options.fontSize⌋ : ℤ) : ℚ) ≤ (((2 : ℤ) ^ 53 : ℤ) : ℚ) := by
      push_cast
      linarith
    exact_mod_cast h2
  have hexact : toDouble ((⌊b.innerWidth / e.options.fontSize⌋ : ℤ) : ℚ) =
      ((⌊b.innerWidth / e.options.fontSize⌋ : ℤ) : ℚ) :=
    toDouble_intCast _ (by rw [abs_of_nonneg hcols]; exact hcb)
  have hone : toDouble 1 = 1 := by
    have := toDouble_intCast 1 (by norm_num)
    simpa using this
  have hden0 : 0 ≤ toDouble e.options.density := toDouble_nonneg hd0
  have hden1 : toDouble e.options.density ≤ 1 := by
    rw [← hone]
    exact toDouble_mono hd1
  have hprod : (0 : ℚ) ≤ jsMul ((⌊b.innerWidth / e.options.fontSize⌋ : ℤ) : ℚ) e.options.density := by
    rw [jsMul, hexact]
    exact toDouble_nonneg (mul_nonneg hcq hden0)
  have hup : jsMul ((⌊b.innerWidth / e.options.fontSize⌋ : ℤ) : ℚ) e.options.density ≤
      ((⌊b.innerWidth / e.options.fontSize⌋ : ℤ) : ℚ) := by
    rw [jsMul, hexact]
    calc toDouble (((⌊b.innerWidth / e.options.fontSize⌋ : ℤ) : ℚ) * toDouble e.options.density)
        ≤ toDouble ((⌊b.innerWidth / e.options.fontSize⌋ : ℤ) : ℚ) := by
          apply toDouble_mono
          calc ((⌊b.innerWidth / e.options.fontSize⌋ : ℤ) : ℚ) * toDouble e.options.density
              ≤ ((⌊b.innerWidth / e.options.fontSize⌋ : ℤ) : ℚ) * 1 :=
                mul_le_mul_of_nonneg_left hden1 hcq
            _ = ((⌊b.innerWidth / e.options.fontSize⌋ : ℤ) : ℚ) := mul_one _
      _ = ((⌊b.innerWidth / e.options.fontSize⌋ : ℤ) : ℚ) := hexact
  have hceil : (0 : ℤ) ≤
      ⌈jsMul ((⌊b.innerWidth / e.options.fontSize⌋ : ℤ) : ℚ) e.options.density⌉ :=
    Int.ceil_nonneg hprod
  have hlen : (e'.drops.length : ℤ) =
      ⌈jsMul ((⌊b.innerWidth / e.options.fontSize⌋ : ℤ) : ℚ) e.options.density⌉ := by
    rw [hl, Int.toNat_of_nonneg hceil]
  have hlenq : ((e'.drops.length : ℤ) : ℚ) = (e'.drops.length : ℚ) := by norm_cast
  refine ⟨e', b', hr, hwid, ?_, ?_, ?_, ?_⟩
  · rw [hwid]
    exact hlen
  · rw [hwid, ← hlenq, hlen]
    exact Int.le_ceil _
  · rw [hwid, ← hlenq, hlen]
    exact Int.ceil_lt_add_one _
  · rw [hwid, hlen, Int.ceil_le]
    exact hup

/-- Witness of C8 (amended): the application's engine in the 1000 wide window. -/
theorem BackgroundAnimation.resize_drop_count_witness :
    0 ≤ (Browser.desktop 0).innerWidth ∧ 0 < BackgroundAnimation.appEngine.options.fontSize ∧
      ∃ e' b', BackgroundAnimation.resize BackgroundAnimation.appEngine (Browser.desktop 0) =
          Except.ok (e', b') ∧
        e'.canvas.width = (Browser.desktop 0).innerWidth ∧
        (e'.drops.length : ℤ) =
          ⌈jsMul ((⌊e'.canvas.width / BackgroundAnimation.appEngine.options.fontSize⌋ : ℤ) : ℚ)
            BackgroundAnimation.appEngine.options.density⌉ :=
  have hfs : (0 : ℚ) < BackgroundAnimation.appEngine.options.fontSize := by
    rw [show BackgroundAnimation.appEngine.options.fontSize = 16 from rfl]
    norm_num
  have hden : BackgroundAnimation.appEngine.options.density = 7 / 10 := by
    simp [BackgroundAnimation.appEngine, BackgroundAnimation.built, Options.merge,
      BackgroundAnimation.appOptions]
    norm_num
  have hiw : (0 : ℚ) ≤ (Browser.desktop 0).innerWidth := by
    rw [show (Browser.desktop 0).innerWidth = 1000 from rfl]
    norm_num
  have hbig : (Browser.desktop 0).innerWidth / BackgroundAnimation.appEngine.options.fontSize <
      2 ^ 53 := by
    rw [show (Browser.desktop 0).innerWidth = 1000 from rfl,
      show BackgroundAnimation.appEngine.options.fontSize = 16 from rfl]
    norm_num
  have hall := BackgroundAnimation.resize_drop_count BackgroundAnimation.appEngine
    (Browser.desktop 0) hiw hfs (by rw [hden]; norm_num) (by rw [hden]; norm_num) hbig
  ⟨hiw, hfs, hall.imp fun _ he => he.imp fun _ hb => ⟨hb.1, hb.2.1, hb.2.2.1⟩⟩

namespace BackgroundAnimation

lemma trailStep_random (e : BackgroundAnimation) (d : Drop) (st : List String × Browser)
    (j : Nat) : (trailStep e d st j).2.random = st.2.random := by
  unfold trailStep
  simp only [Browser.rand, getRandomChar]
  split_ifs <;> rfl

lemma trail_random (e : BackgroundAnimation) (d : Drop) (js : List Nat) :
    ∀ st : List String × Browser, (js.foldl (trailStep e d) st).2.random = st.2.random := by
  induction js with
  | nil => intro st; rfl
  | cons j js ih =>
    intro st
    rw [List.foldl_cons, ih, trailStep_random]

/-- The end of the loop body (lines 164-171) for one drop: where the drop is
put and which speed it gets. -/
lemma stepDrop_cases (e : BackgroundAnimation) (d : Drop) (b : Browser) :
    (toDouble e.canvas.height < jsSub (jsAdd d.y d.speed) (jsMul d.length e.options.fontSize) →
        ∃ k, (stepDrop e d b).1.y = jsMul (b.random k) (-100) ∧
          (stepDrop e d b).1.speed = jsAdd (jsMul (b.random (k + 1)) 2) e.options.speed) ∧
      (¬ toDouble e.canvas.height <
          jsSub (jsAdd d.y d.speed) (jsMul d.length e.options.fontSize) →
        (stepDrop e d b).1.y = jsAdd d.y d.speed ∧ (stepDrop e d b).1.speed = d.speed) ∧
      (stepDrop e d b).2.random = b.random := by
  have ht := trail_random e d (List.range d.chars.length) (d.chars, b)
  refine ⟨?_, ?_, ?_⟩
  · intro hc
    refine ⟨((List.range d.chars.length).foldl (trailStep e d) (d.chars, b)).2.draws + 1, ?_, ?_⟩
    · simp only [stepDrop, hc, if_true, Browser.rand, getRandomChar]
      rw [ht]
    · simp only [stepDrop, hc, if_true, Browser.rand, getRandomChar]
      rw [ht]
  · intro hc
    simp [stepDrop, hc]
  · unfold stepDrop
    simp only [Browser.rand, getRandomChar]
    split_ifs <;> exact ht

lemma stepDrop_recycled (e : BackgroundAnimation) (d : Drop) (b : Browser)
    (hr : ∀ n, 0 ≤ b.random n ∧ b.random n ≤ 1 - 1 / 2 ^ 53) :
    Recycled e.options e.canvas.height b.random d (stepDrop e d b).1 := by
  obtain ⟨h1, h2, -⟩ := stepDrop_cases e d b
  unfold Recycled
  split_ifs with hc
  · obtain ⟨k, hy, hs⟩ := h1 hc
    obtain ⟨ha, hb⟩ := hr k
    obtain ⟨ha', hb'⟩ := hr (k + 1)
    obtain ⟨p1, p2, p3⟩ := jsMul_neg_hundred (b.random k) ha hb
    obtain ⟨s1, s2⟩ := jsAdd_twice (b.random (k + 1)) e.options.speed ha' hb'
    refine ⟨k, hy, hs, ?_, ?_, ?_, ?_, ?_, ?_⟩
    · rw [hy]; exact p1
    · rw [hy]; exact p2
    · rw [hy]; exact p3
    · intro hpos
      rw [hy]
      rcases lt_or_eq_of_le p2 with h | h
      · exact h
      · exact absurd (p3.mp h) (ne_of_gt hpos)
    · rw [hs]; exact s1
    · rw [hs]; exact s2
  · exact h2 hc

lemma stepDrops_recycled (e : BackgroundAnimation) (ds : List Drop) :
    ∀ b : Browser, (∀ n, 0 ≤ b.random n ∧ b.random n ≤ 1 - 1 / 2 ^ 53) →
      List.Forall₂ (Recycled e.options e.canvas.height b.random) ds (stepDrops e ds b).1 := by
  induction ds with
  | nil =>
    intro b _
    exact List.Forall₂.nil
  | cons d ds ih =>
    intro b hr
    have hsame := (stepDrop_cases e d b).2.2
    have hrest := ih (stepDrop e d b).2 (by rw [hsame]; exact hr)
    rw [hsame] at hrest
    exact List.Forall₂.cons (stepDrop_recycled e d b hr) hrest

/-- On an engine that is not disabled, the drops after `animate()` are those
the loop over the drops leaves. -/
lemma animate_drops (e : BackgroundAnimation) (b : Browser) (he : e.disabled = false)
    (hc : e.ctx.isSome = true) :
    (animate e b).1.drops = (stepDrops e e.drops (paintBackground e b)).1 := by
  have hn : e.ctx.isNone = false := by
    cases hctx : e.ctx with
    | none => simp [hctx] at hc
    | some k => rfl
  unfold animate
  simp only [he, hn, Bool.or_self, Bool.false_eq_true, if_false]
  split_ifs <;> rfl

end BackgroundAnimation

namespace BackgroundAnimation

/-- The advanced position of the fallen drop. -/
lemma jsAdd_900_2 : jsAdd 900 2 = 902 := by
  have ha : toDouble 900 = 900 := by
    rw [toDouble_eval 900 (9) (7916483719987200) (by norm_num) (by norm_num) (by norm_num)
      (roundHalfEven_down _ (7916483719987200) (by norm_num) (by norm_num))]
    norm_num
  have hb : toDouble 2 = 2 := by
    rw [toDouble_eval 2 (1) (4503599627370496) (by norm_num) (by norm_num) (by norm_num)
      (roundHalfEven_down _ (4503599627370496) (by norm_num) (by norm_num))]
    norm_num
  have hx : toDouble 902 = 902 := by
    rw [toDouble_eval 902 (9) (7934075906031616) (by norm_num) (by norm_num) (by norm_num)
      (roundHalfEven_down _ (7934075906031616) (by norm_num) (by norm_num))]
    norm_num
  have hp : (900 : ℚ) + 2 = 902 := by norm_num
  rw [jsAdd, ha, hb, hp, hx]

/-- Five glyphs of 16 pixels. -/
lemma jsMul_5_16 : jsMul 5 16 = 80 := by
  have ha : toDouble 5 = 5 := by
    rw [toDouble_eval 5 (2) (5629499534213120) (by norm_num) (by norm_num) (by norm_num)
      (roundHalfEven_down _ (5629499534213120) (by norm_num) (by norm_num))]
    norm_num
  have hb : toDouble 16 = 16 := by
    rw [toDouble_eval 16 (4) (4503599627370496) (by norm_num) (by norm_num) (by norm_num)
      (roundHalfEven_down _ (4503599627370496) (by norm_num) (by norm_num))]
    norm_num
  have hx : toDouble 80 = 80 := by
    rw [toDouble_eval 80 (6) (5629499534213120) (by norm_num) (by norm_num) (by norm_num)
      (roundHalfEven_down _ (5629499534213120) (by norm_num) (by norm_num))]
    norm_num
  have hp : (5 : ℚ) * 16 = 80 := by norm_num
  rw [jsMul, ha, hb, hp, hx]

/-- Five glyphs of 14 pixels. -/
lemma jsMul_5_14 : jsMul 5 14 = 70 := by
  have ha : toDouble 5 = 5 := by
    rw [toDouble_eval 5 (2) (5629499534213120) (by norm_num) (by norm_num) (by norm_num)
      (roundHalfEven_down _ (5629499534213120) (by norm_num) (by norm_num))]
    norm_num
  have hb : toDouble 14 = 14 := by
    rw [toDouble_eval 14 (3) (7881299347898368) (by norm_num) (by norm_num) (by norm_num)
      (roundHalfEven_down _ (7881299347898368) (by norm_num) (by norm_num))]
    norm_num
  have hx : toDouble 70 = 70 := by
    rw [toDouble_eval 70 (6) (4925812092436480) (by norm_num) (by norm_num) (by norm_num)
      (roundHalfEven_down _ (4925812092436480) (by norm_num) (by norm_num))]
    norm_num
  have hp : (5 : ℚ) * 14 = 70 := by norm_num
  rw [jsMul, ha, hb, hp, hx]

/-- The tail of the fallen drop with glyphs of 16 pixels. -/
lemma jsSub_902_80 : jsSub 902 80 = 822 := by
  have ha : toDouble 902 = 902 := by
    rw [toDouble_eval 902 (9) (7934075906031616) (by norm_num) (by norm_num) (by norm_num)
      (roundHalfEven_down _ (7934075906031616) (by norm_num) (by norm_num))]
    norm_num
  have hb : toDouble 80 = 80 := by
    rw [toDouble_eval 80 (6) (5629499534213120) (by norm_num) (by norm_num) (by norm_num)
      (roundHalfEven_down _ (5629499534213120) (by norm_num) (by norm_num))]
    norm_num
  have hx : toDouble 822 = 822 := by
    rw [toDouble_eval 822 (9) (7230388464254976) (by norm_num) (by norm_num) (by norm_num)
      (roundHalfEven_down _ (7230388464254976) (by norm_num) (by norm_num))]
    norm_num
  have hp : (902 : ℚ) - 80 = 822 := by norm_num
  rw [jsSub, ha, hb, hp, hx]

/-- The tail of the fallen drop with glyphs of 14 pixels. -/
lemma jsSub_902_70 : jsSub 902 70 = 832 := by
  have ha : toDouble 902 = 902 := by
    rw [toDouble_eval 902 (9) (7934075906031616) (by norm_num) (by norm_num) (by norm_num)
      (roundHalfEven_down _ (7934075906031616) (by norm_num) (by norm_num))]
    norm_num
  have hb : toDouble 70 = 70 := by
    rw [toDouble_eval 70 (6) (4925812092436480) (by norm_num) (by norm_num) (by norm_num)
      (roundHalfEven_down _ (4925812092436480) (by norm_num) (by norm_num))]
    norm_num
  have hx : toDouble 832 = 832 := by
    rw [toDouble_eval 832 (9) (7318349394477056) (by norm_num) (by norm_num) (by norm_num)
      (roundHalfEven_down _ (7318349394477056) (by norm_num) (by norm_num))]
    norm_num
  have hp : (902 : ℚ) - 70 = 832 := by norm_num
  rw [jsSub, ha, hb, hp, hx]

/-- Twice the largest double below 1. -/
lemma jsMul_below_one_2 : jsMul (9007199254740991 / 9007199254740992) 2 = (9007199254740991 / 4503599627370496) := by
  have ha : toDouble (9007199254740991 / 9007199254740992) = (9007199254740991 / 9007199254740992) := by
    rw [toDouble_eval (9007199254740991 / 9007199254740992) (-1) (9007199254740991) (by norm_num) (by norm_num) (by norm_num)
      (roundHalfEven_down _ (9007199254740991) (by norm_num) (by norm_num))]
    norm_num
  have hb : toDouble 2 = 2 := by
    rw [toDouble_eval 2 (1) (4503599627370496) (by norm_num) (by norm_num) (by norm_num)
      (roundHalfEven_down _ (4503599627370496) (by norm_num) (by norm_num))]
    norm_num
  have hx : toDouble (9007199254740991 / 4503599627370496) = (9007199254740991 / 4503599627370496) := by
    rw [toDouble_eval (9007199254740991 / 4503599627370496) (0) (9007199254740991) (by norm_num) (by norm_num) (by norm_num)
      (roundHalfEven_down _ (9007199254740991) (by norm_num) (by norm_num))]
    norm_num
  have hp : ((9007199254740991 / 9007199254740992) : ℚ) * 2 = (9007199254740991 / 4503599627370496) := by norm_num
  rw [jsMul, ha, hb, hp, hx]

/-- The sum of `2 - 2^-52` and 1.5 is a tie, rounded to the even neighbour 3.5. -/
lemma jsAdd_below_two : jsAdd (9007199254740991 / 4503599627370496) (3 / 2) = (7 / 2) := by
  have ha : toDouble (9007199254740991 / 4503599627370496) = (9007199254740991 / 4503599627370496) := by
    rw [toDouble_eval (9007199254740991 / 4503599627370496) (0) (9007199254740991) (by norm_num) (by norm_num) (by norm_num)
      (roundHalfEven_down _ (9007199254740991) (by norm_num) (by norm_num))]
    norm_num
  have hb : toDouble (3 / 2) = (3 / 2) := by
    rw [toDouble_eval (3 / 2) (0) (6755399441055744) (by norm_num) (by norm_num) (by norm_num)
      (roundHalfEven_down _ (6755399441055744) (by norm_num) (by norm_num))]
    norm_num
  have hx : toDouble (15762598695796735 / 4503599627370496) = (7 / 2) := by
    rw [toDouble_eval (15762598695796735 / 4503599627370496) (1) (7881299347898368) (by norm_num) (by norm_num) (by norm_num)
      (roundHalfEven_tie_odd _ (7881299347898367) (by norm_num) (by decide))]
    norm_num
  have hp : ((9007199254740991 / 4503599627370496) : ℚ) + (3 / 2) = (15762598695796735 / 4503599627370496) := by norm_num
  rw [jsAdd, ha, hb, hp, hx]

end BackgroundAnimation

/-- C9 as stated fails when the draw is 0: in the application's engine on a
surface 800 high, the drop with its head at 900 (five glyphs of 16 pixels, speed
2) has left the surface, and with `Math.random()` returning 0 the frame puts it
at vertical position `0 * -100 = 0`, which is not strictly less than 0. It also
fails at the largest draw `1 - 2^-53`: with the default speed 1.5 the new speed
is the double sum of `2 - 2^-52` and 1.5, which is `3.5 = speed + 2`. -/
theorem BackgroundAnimation.animate_recycles_counterexample :
    ((∀ n, 0 ≤ (Browser.desktop 0).random n ∧ (Browser.desktop 0).random n < 1) ∧
      ∃ d d', BackgroundAnimation.fallenEngine.drops = [d] ∧
        (BackgroundAnimation.animate BackgroundAnimation.fallenEngine
          (Browser.desktop 0)).1.drops = [d'] ∧
        d.y + d.speed - d.length * BackgroundAnimation.fallenEngine.options.fontSize >
          BackgroundAnimation.fallenEngine.canvas.height ∧
        ¬ d'.y < 0) ∧
      ((∀ n, 0 ≤ (Browser.desktop (1 - 1 / 2 ^ 53)).random n ∧
          (Browser.desktop (1 - 1 / 2 ^ 53)).random n < 1) ∧
        ∃ d d', BackgroundAnimation.defaultFallenEngine.drops = [d] ∧
          (BackgroundAnimation.animate BackgroundAnimation.defaultFallenEngine
            (Browser.desktop (1 - 1 / 2 ^ 53))).1.drops = [d'] ∧
          d.y + d.speed - d.length * BackgroundAnimation.defaultFallenEngine.options.fontSize >
            BackgroundAnimation.defaultFallenEngine.canvas.height ∧
          ¬ d'.speed < BackgroundAnimation.defaultFallenEngine.options.speed + 2) := by
  have hfs : BackgroundAnimation.fallenEngine.options.fontSize = 16 := rfl
  have hfs2 : BackgroundAnimation.defaultFallenEngine.options.fontSize = 14 := rfl
  have hsp2 : BackgroundAnimation.defaultFallenEngine.options.speed = 3 / 2 := by
    simp [BackgroundAnimation.defaultFallenEngine, BackgroundAnimation.built, Options.merge,
      orNumber]
    norm_num
  have hcond : BackgroundAnimation.fallenDrop.y + BackgroundAnimation.fallenDrop.speed -
      BackgroundAnimation.fallenDrop.length * BackgroundAnimation.fallenEngine.options.fontSize >
      BackgroundAnimation.fallenEngine.canvas.height := by
    rw [hfs, show BackgroundAnimation.fallenEngine.canvas.height = 800 from rfl]
    simp only [BackgroundAnimation.fallenDrop]
    norm_num
  have hcond2 : BackgroundAnimation.fallenDrop.y + BackgroundAnimation.fallenDrop.speed -
      BackgroundAnimation.fallenDrop.length *
        BackgroundAnimation.defaultFallenEngine.options.fontSize >
      BackgroundAnimation.defaultFallenEngine.canvas.height := by
    rw [hfs2, show BackgroundAnimation.defaultFallenEngine.canvas.height = 800 from rfl]
    simp only [BackgroundAnimation.fallenDrop]
    norm_num
  have hleft : toDouble BackgroundAnimation.fallenEngine.canvas.height <
      jsSub (jsAdd BackgroundAnimation.fallenDrop.y BackgroundAnimation.fallenDrop.speed)
        (jsMul BackgroundAnimation.fallenDrop.length
          BackgroundAnimation.fallenEngine.options.fontSize) := by
    rw [hfs, show BackgroundAnimation.fallenEngine.canvas.height = 800 from rfl]
    simp only [BackgroundAnimation.fallenDrop, Int.cast_ofNat]
    rw [BackgroundAnimation.jsAdd_900_2, BackgroundAnimation.jsMul_5_16,
      BackgroundAnimation.jsSub_902_80, toDouble_800]
    norm_num
  have hleft2 : toDouble BackgroundAnimation.defaultFallenEngine.canvas.height <
      jsSub (jsAdd BackgroundAnimation.fallenDrop.y BackgroundAnimation.fallenDrop.speed)
        (jsMul BackgroundAnimation.fallenDrop.length
          BackgroundAnimation.defaultFallenEngine.options.fontSize) := by
    rw [hfs2, show BackgroundAnimation.defaultFallenEngine.canvas.height = 800 from rfl]
    simp only [BackgroundAnimation.fallenDrop, Int.cast_ofNat]
    rw [BackgroundAnimation.jsAdd_900_2, BackgroundAnimation.jsMul_5_14,
      BackgroundAnimation.jsSub_902_70, toDouble_800]
    norm_num
  refine ⟨⟨fun n => ⟨le_refl _, by simp [Browser.desktop]⟩, BackgroundAnimation.fallenDrop,
    (BackgroundAnimation.stepDrop BackgroundAnimation.fallenEngine BackgroundAnimation.fallenDrop
      (BackgroundAnimation.paintBackground BackgroundAnimation.fallenEngine
        (Browser.desktop 0))).1, rfl, ?_, hcond, ?_⟩,
    fun n => ⟨by simp only [Browser.desktop]; norm_num, by simp only [Browser.desktop]; norm_num⟩,
    BackgroundAnimation.fallenDrop,
    (BackgroundAnimation.stepDrop BackgroundAnimation.defaultFallenEngine
      BackgroundAnimation.fallenDrop
      (BackgroundAnimation.paintBackground BackgroundAnimation.defaultFallenEngine
        (Browser.desktop (1 - 1 / 2 ^ 53)))).1, rfl, ?_, hcond2, ?_⟩
  · rw [BackgroundAnimation.animate_drops BackgroundAnimation.fallenEngine (Browser.desktop 0)
      rfl rfl]
    rfl
  · obtain ⟨k, hy, -⟩ := (BackgroundAnimation.stepDrop_cases BackgroundAnimation.fallenEngine
      BackgroundAnimation.fallenDrop
      (BackgroundAnimation.paintBackground BackgroundAnimation.fallenEngine
        (Browser.desktop 0))).1 hleft
    rw [hy]
    simp [BackgroundAnimation.paintBackground, Browser.desktop, jsMul_zero_left]
  · rw [BackgroundAnimation.animate_drops BackgroundAnimation.defaultFallenEngine
      (Browser.desktop (1 - 1 / 2 ^ 53)) rfl rfl]
    rfl
  · obtain ⟨k, -, hs⟩ := (BackgroundAnimation.stepDrop_cases
      BackgroundAnimation.defaultFallenEngine BackgroundAnimation.fallenDrop
      (BackgroundAnimation.paintBackground BackgroundAnimation.defaultFallenEngine
        (Browser.desktop (1 - 1 / 2 ^ 53)))).1 hleft2
    have hrand : (BackgroundAnimation.paintBackground BackgroundAnimation.defaultFallenEngine
        (Browser.desktop (1 - 1 / 2 ^ 53))).random (k + 1) =
        9007199254740991 / 9007199254740992 := by
      simp only [BackgroundAnimation.paintBackground, Browser.desktop]
      norm_num
    rw [hs, hrand, hsp2, BackgroundAnimation.jsMul_below_one_2,
      BackgroundAnimation.jsAdd_below_two]
    norm_num

/-- C9, amended: for every engine that is not disabled and every sequence of
draws of `Math.random()`, which are doubles in `[0, 1 - 2^-53]`, one frame step
leaves each drop related to its predecessor as follows, all sums and products
being those of doubles: when the advanced position minus `length * fontSize`
exceeds the surface height, the drop is at the vertical position `r * -100` for
a draw `r` of the frame, which lies in `(-100, 0]`, is 0 exactly when `r` is 0
and is strictly less than 0 otherwise, and it has the new speed
`r' * 2 + options.speed` for the next draw `r'`, which lies between
`options.speed` and `options.speed + 2`, both ends included; otherwise the drop
keeps its advanced position and its speed. -/
theorem BackgroundAnimation.animate_recycles (e : BackgroundAnimation) (b : Browser)
    (hr : ∀ n, 0 ≤ b.random n ∧ b.random n ≤ 1 - 1 / 2 ^ 53) (he : e.disabled = false)
    (hc : e.ctx.isSome = true) :
    List.Forall₂ (BackgroundAnimation.Recycled e.options e.canvas.height b.random) e.drops
      (BackgroundAnimation.animate e b).1.drops := by
  rw [BackgroundAnimation.animate_drops e b he hc]
  exact BackgroundAnimation.stepDrops_recycled e e.drops (BackgroundAnimation.paintBackground e b)
    hr

/-- Witness of C9 (amended): the fallen drop of the application's engine, with
every draw equal to `1/2`. -/
theorem BackgroundAnimation.animate_recycles_witness :
    (∀ n, 0 ≤ (Browser.desktop (1 / 2)).random n ∧
        (Browser.desktop (1 / 2)).random n ≤ 1 - 1 / 2 ^ 53) ∧
      BackgroundAnimation.fallenEngine.disabled = false ∧
      List.Forall₂
        (BackgroundAnimation.Recycled BackgroundAnimation.fallenEngine.options
          BackgroundAnimation.fallenEngine.canvas.height (Browser.desktop (1 / 2)).random)
        BackgroundAnimation.fallenEngine.drops
        (BackgroundAnimation.animate BackgroundAnimation.fallenEngine
          (Browser.desktop (1 / 2))).1.drops :=
  have hr : ∀ n, 0 ≤ (Browser.desktop (1 / 2)).random n ∧
      (Browser.desktop (1 / 2)).random n ≤ 1 - 1 / 2 ^ 53 := fun _ => by
    simp only [Browser.desktop]
    norm_num
  ⟨hr, rfl,
    BackgroundAnimation.animate_recycles BackgroundAnimation.fallenEngine
      (Browser.desktop (1 / 2)) hr rfl rfl⟩

namespace BackgroundAnimation

/-- On a canvas that already has a WebGL or WebGL2 context the probe finds it
and leaves the canvas as it was. -/
lemma probeGL_of_bound (c : Canvas)
    (hb : c.bound = some ContextKind.webgl ∨ c.bound = some ContextKind.webgl2)
    (ht1 : c.throws ContextKind.webgl = false) (ht2 : c.throws ContextKind.webgl2 = false) :
    probeGL c = (true, c) := by
  rcases hb with hb | hb
  · simp [probeGL, Canvas.getContext, ht1, hb]
  · simp [probeGL, Canvas.getContext, ht1, ht2, hb]

end BackgroundAnimation

/-- C10: constructing the engine on a canvas that already exposes a WebGL or
WebGL2 context (and whose `getContext` returns for both kinds) succeeds and
leaves `disabled = true`, `ctx = null`, no drops, `isRunning = false`, nothing
drawn, no frame requested and no resize listener; and every later `start()`, in
whatever state the browser is, changes neither the engine nor the browser: no
drawing call, no frame scheduled, `isRunning` still `false`. -/
theorem BackgroundAnimation.construct_on_webgl (c : Canvas) (o : AnimationOptions)
    (b : Browser)
    (hb : c.bound = some ContextKind.webgl ∨ c.bound = some ContextKind.webgl2)
    (ht1 : c.throws ContextKind.webgl = false) (ht2 : c.throws ContextKind.webgl2 = false) :
    ∃ e b', BackgroundAnimation.construct (some c) o b = Except.ok (e, b') ∧
      e.disabled = true ∧ e.ctx = none ∧ e.drops = [] ∧ e.isRunning = false ∧
      b'.drawLog = b.drawLog ∧ b'.pendingFrames = b.pendingFrames ∧
      b'.resizeListeners = b.resizeListeners ∧
      ∀ b2 : Browser, BackgroundAnimation.start e b2 = (e, b2) ∧
        (BackgroundAnimation.start e b2).1.isRunning = false ∧
        (BackgroundAnimation.start e b2).2.drawLog = b2.drawLog ∧
        (BackgroundAnimation.start e b2).2.pendingFrames = b2.pendingFrames := by
  have hprobe : BackgroundAnimation.probeGL
      (if c.id = "" then { c with id := "bg-canvas" } else c) =
      (true, if c.id = "" then { c with id := "bg-canvas" } else c) := by
    apply BackgroundAnimation.probeGL_of_bound
    · split_ifs <;> exact hb
    · split_ifs <;> exact ht1
    · split_ifs <;> exact ht2
  refine ⟨BackgroundAnimation.built o (if c.id = "" then { c with id := "bg-canvas" } else c)
      none true,
    { b with warnings := b.warnings ++
        ["[BackgroundAnimation] Aborting: target canvas already has a WebGL context"] },
    ?_, rfl, rfl, rfl, rfl, rfl, rfl, rfl, ?_⟩
  · simp only [BackgroundAnimation.construct, hprobe, if_true]
  · intro b2
    have hs : BackgroundAnimation.start
        (BackgroundAnimation.built o (if c.id = "" then { c with id := "bg-canvas" } else c)
          none true) b2 =
        (BackgroundAnimation.built o (if c.id = "" then { c with id := "bg-canvas" } else c)
          none true, b2) := by
      simp [BackgroundAnimation.start, BackgroundAnimation.built]
    rw [hs]
    exact ⟨rfl, rfl, rfl, rfl⟩

/-- Witness of C10: a canvas that a 3D renderer has already bound to WebGL2. -/
theorem BackgroundAnimation.construct_on_webgl_witness :
    (Canvas.withContext (some ContextKind.webgl2)).bound = some ContextKind.webgl2 ∧
      ∃ e b', BackgroundAnimation.construct (some (Canvas.withContext (some ContextKind.webgl2)))
          BackgroundAnimation.appOptions (Browser.desktop 0) = Except.ok (e, b') ∧
        e.disabled = true ∧ e.ctx = none ∧ e.drops = [] :=
  ⟨rfl,
    (BackgroundAnimation.construct_on_webgl (Canvas.withContext (some ContextKind.webgl2))
      BackgroundAnimation.appOptions (Browser.desktop 0) (Or.inr rfl) rfl rfl).imp
      fun _ he => he.imp fun _ hb => ⟨hb.1, hb.2.1, hb.2.2.1, hb.2.2.2.1⟩⟩

namespace BackgroundAnimation

lemma painted_refl (b : Browser) : Painted b b := ⟨rfl, rfl, rfl, [], by simp⟩

lemma painted_trans {a b c : Browser} (h1 : Painted a b) (h2 : Painted b c) : Painted a c := by
  obtain ⟨p1, f1, l1, r1, d1⟩ := h1
  obtain ⟨p2, f2, l2, r2, d2⟩ := h2
  exact ⟨p2.trans p1, f2.trans f1, l2.trans l1, r1 ++ r2, by rw [d2, d1, List.append_assoc]⟩

lemma trailStep_painted (e : BackgroundAnimation) (d : Drop) (st : List String × Browser)
    (j : Nat) : Painted st.2 (trailStep e d st j).2 := by
  unfold trailStep
  simp only [Browser.rand, getRandomChar]
  split_ifs <;> refine ⟨rfl, rfl, rfl, ?_⟩ <;> simp

lemma trail_painted (e : BackgroundAnimation) (d : Drop) (js : List Nat) :
    ∀ st : List String × Browser, Painted st.2 (js.foldl (trailStep e d) st).2 := by
  induction js with
  | nil => intro st; exact painted_refl _
  | cons j js ih =>
    intro st
    rw [List.foldl_cons]
    exact painted_trans (trailStep_painted e d st j) (ih _)

lemma stepDrop_painted (e : BackgroundAnimation) (d : Drop) (b : Browser) :
    Painted b (stepDrop e d b).2 := by
  have ht := trail_painted e d (List.range d.chars.length) (d.chars, b)
  obtain ⟨p, f, l, r, hd⟩ := ht
  unfold stepDrop
  simp only [Browser.rand, getRandomChar]
  split_ifs <;> exact ⟨p, f, l, r, hd⟩

lemma stepDrops_painted (e : BackgroundAnimation) (ds : List Drop) :
    ∀ b : Browser, Painted b (stepDrops e ds b).2 := by
  induction ds with
  | nil => intro b; exact painted_refl _
  | cons d ds ih =>
    intro b
    exact painted_trans (stepDrop_painted e d b) (ih _)

lemma addGlitch_painted (e : BackgroundAnimation) (b : Browser) : Painted b (addGlitch e b) := by
  unfold addGlitch
  split_ifs
  · exact painted_refl _
  · exact ⟨rfl, rfl, rfl, _, by simp only [List.append_assoc]; rfl⟩

end BackgroundAnimation

namespace BackgroundAnimation

/-- On an enabled engine `animate()` paints the background, steps the drops,
possibly paints a glitch, and requests the next frame when the loop is
running. -/
lemma animate_enabled (e : BackgroundAnimation) (b : Browser) (he : e.disabled = false)
    (hc : e.ctx.isSome = true) :
    ∃ drops b2, Painted (paintBackground e b) b2 ∧
      animate e b =
        if e.isRunning then
          ({ e with drops := drops, animationId := some (b2.framesRequested + 1) },
            { b2 with
              framesRequested := b2.framesRequested + 1
              pendingFrames := b2.pendingFrames ++ [b2.framesRequested + 1] })
        else ({ e with drops := drops }, b2) := by
  have hn : e.ctx.isNone = false := by
    cases hctx : e.ctx with
    | none => simp [hctx] at hc
    | some k => rfl
  refine ⟨(stepDrops e e.drops (paintBackground e b)).1,
    (if (stepDrops e e.drops (paintBackground e b)).2.rand.1 < e.options.glitchFrequency then
        addGlitch { e with drops := (stepDrops e e.drops (paintBackground e b)).1 }
          (stepDrops e e.drops (paintBackground e b)).2.rand.2
      else (stepDrops e e.drops (paintBackground e b)).2.rand.2), ?_, ?_⟩
  · have h1 := stepDrops_painted e e.drops (paintBackground e b)
    have h2 : Painted (stepDrops e e.drops (paintBackground e b)).2
        (stepDrops e e.drops (paintBackground e b)).2.rand.2 :=
      ⟨rfl, rfl, rfl, [], by simp [Browser.rand]⟩
    split_ifs
    · exact painted_trans h1 (painted_trans h2 (addGlitch_painted _ _))
    · exact painted_trans h1 h2
  · unfold animate
    simp only [he, hn, Bool.or_self, Bool.false_eq_true, if_false, requestAnimationFrame]

lemma paintBackground_painted (e : BackgroundAnimation) (b : Browser) :
    (paintBackground e b).pendingFrames = b.pendingFrames ∧
      (paintBackground e b).framesRequested = b.framesRequested ∧
      (paintBackground e b).resizeListeners = b.resizeListeners ∧
      (paintBackground e b).drawLog = b.drawLog ++
        [DrawCall.fillStyle e.options.backgroundColor,
          DrawCall.fillRect 0 0 e.canvas.width e.canvas.height,
          DrawCall.font (b.numberToString e.options.fontSize ++ "px monospace")] :=
  ⟨rfl, rfl, rfl, rfl⟩

/-- What `resize()` leaves alone when it returns: everything but the canvas
size, the drops and the number of draws. -/
lemma resize_fields (e e' : BackgroundAnimation) (b b' : Browser)
    (h : resize e b = Except.ok (e', b')) :
    e'.isRunning = e.isRunning ∧ e'.animationId = e.animationId ∧ e'.disabled = e.disabled ∧
      e'.ctx = e.ctx ∧ e'.options = e.options ∧ e'.canvas.width = b.innerWidth ∧
      e'.canvas.height = b.innerHeight ∧ b'.pendingFrames = b.pendingFrames ∧
      b'.framesRequested = b.framesRequested ∧ b'.resizeListeners = b.resizeListeners ∧
      b'.drawLog = b.drawLog ∧ b'.innerWidth = b.innerWidth ∧ b'.innerHeight = b.innerHeight := by
  unfold resize initDrops at h
  split_ifs at h
  · simp only [Except.ok.injEq, Prod.mk.injEq] at h
    obtain ⟨rfl, rfl⟩ := h
    exact ⟨rfl, rfl, rfl, rfl, rfl, rfl, rfl, rfl, rfl, rfl, rfl, rfl, rfl⟩
  · simp only [Except.ok.injEq, Prod.mk.injEq] at h
    obtain ⟨rfl, rfl⟩ := h
    exact ⟨rfl, rfl, rfl, rfl, rfl, rfl, rfl, rfl, rfl, rfl, rfl, rfl, rfl⟩

/-- What the constructor leaves when it returns. -/
lemma construct_fields (c : Option Canvas) (o : AnimationOptions) (b b' : Browser)
    (e : BackgroundAnimation) (h : construct c o b = Except.ok (e, b')) :
    e.isRunning = false ∧ e.animationId = none ∧ e.options = Options.merge o ∧
      b'.pendingFrames = b.pendingFrames ∧ b'.drawLog = b.drawLog ∧
      (e.disabled = false → e.ctx.isSome = true) ∧
      (e.disabled = true → e.ctx = none ∧ e.drops = [] ∧
        b'.resizeListeners = b.resizeListeners) := by
  cases c with
  | none => simp [construct] at h
  | some c0 =>
    simp only [construct] at h
    generalize (if c0.id = "" then ({ c0 with id := "bg-canvas" } : Canvas) else c0) = c1 at h
    split_ifs at h with hp
    · simp only [Except.ok.injEq, Prod.mk.injEq] at h
      obtain ⟨rfl, rfl⟩ := h
      exact ⟨rfl, rfl, rfl, rfl, rfl, by simp [built], fun _ => ⟨rfl, rfl, rfl⟩⟩
    · split at h
      · simp at h
      · simp only [Except.ok.injEq, Prod.mk.injEq] at h
        obtain ⟨rfl, rfl⟩ := h
        exact ⟨rfl, rfl, rfl, rfl, rfl, by simp [built], fun _ => ⟨rfl, rfl, rfl⟩⟩
      · split at h
        · simp at h
        · rename_i k c2 _ e1 b1 hres
          simp only [Except.ok.injEq, Prod.mk.injEq] at h
          obtain ⟨rfl, rfl⟩ := h
          obtain ⟨h1, h2, h3, h4, h5, -, -, h8, -, -, h11, -, -⟩ := resize_fields _ _ _ _ hres
          refine ⟨h1, h2, h5, h8, h11, fun _ => by rw [h4]; rfl, fun hd => ?_⟩
          rw [h3] at hd
          simp [built] at hd

end BackgroundAnimation

namespace BackgroundAnimation

lemma start_noop (e : BackgroundAnimation) (b : Browser)
    (h : e.isRunning = true ∨ e.disabled = true) : start e b = (e, b) := by
  unfold start
  rcases h with h | h
  · split_ifs <;> simp_all
  · simp [h]

/-- On an enabled engine at rest `start()` sets the flag and renders one frame,
which leaves exactly the frame it requests pending. -/
lemma start_idle (e : BackgroundAnimation) (b : Browser) (hi : Idle (e, b))
    (he : e.disabled = false) (hc : e.ctx.isSome = true) :
    start e b = animate { e with isRunning := true } b ∧ Looping (start e b) ∧
      (start e b).1.ctx = e.ctx ∧ (start e b).2.resizeListeners = b.resizeListeners ∧
      ∃ rest, (start e b).2.drawLog = b.drawLog ++
        [DrawCall.fillStyle e.options.backgroundColor,
          DrawCall.fillRect 0 0 e.canvas.width e.canvas.height,
          DrawCall.font (b.numberToString e.options.fontSize ++ "px monospace")] ++ rest := by
  obtain ⟨hrun, hid, hpend⟩ := hi
  simp only at hrun hid hpend
  have hn : e.ctx.isNone = false := by
    cases hctx : e.ctx with
    | none => simp [hctx] at hc
    | some k => rfl
  have hs : start e b = animate { e with isRunning := true } b := by
    simp [start, he, hn, hrun]
  obtain ⟨drops, b2, ⟨hp, hf, hl, rest, hd⟩, ha⟩ :=
    animate_enabled { e with isRunning := true } b he hc
  simp only [if_true] at ha
  rw [hs, ha]
  refine ⟨rfl, ⟨rfl, he, b2.framesRequested + 1, by omega, rfl, ?_⟩, rfl, hl, rest, ?_⟩
  · show b2.pendingFrames ++ [b2.framesRequested + 1] = [b2.framesRequested + 1]
    rw [hp]
    show b.pendingFrames ++ _ = _
    rw [hpend]
    rfl
  · exact hd

/-- Method `stop()` brings every sound state to rest and paints at most the
solid clear. -/
lemma stop_sound (e : BackgroundAnimation) (b : Browser) (hs : Sound (e, b)) :
    Idle (stop e b) ∧ (stop e b).1.disabled = e.disabled ∧ (stop e b).1.ctx = e.ctx ∧
      (stop e b).2.resizeListeners = b.resizeListeners ∧
      (stop e b).2.drawLog = b.drawLog ++
        (if e.ctx.isSome then
          [DrawCall.fillStyle "black", DrawCall.fillRect 0 0 e.canvas.width e.canvas.height]
        else []) := by
  obtain ⟨-, ⟨hrun, hid, hpend⟩ | ⟨hrun, -, id, hne, hid, hpend⟩⟩ := hs
  · simp only at hrun hid hpend
    unfold stop
    simp only [hid]
    split_ifs with hc
    · exact ⟨⟨rfl, rfl, hpend⟩, rfl, rfl, rfl, rfl⟩
    · exact ⟨⟨rfl, rfl, hpend⟩, rfl, rfl, rfl, by simp⟩
  · simp only at hrun hid hpend
    unfold stop
    simp only [hid, hne, if_false]
    split_ifs with hc
    · exact ⟨⟨rfl, rfl, by simp [hpend]⟩, rfl, rfl, rfl, rfl⟩
    · exact ⟨⟨rfl, rfl, by simp [hpend]⟩, rfl, rfl, rfl, by simp⟩

lemma frame_idle (e : BackgroundAnimation) (b : Browser) (hi : Idle (e, b)) (id : Nat) :
    frame e b id = (e, b) := by
  obtain ⟨-, -, hpend⟩ := hi
  simp only at hpend
  simp [frame, hpend]

/-- A frame callback that runs while the loop is running draws one frame and
requests the next one. -/
lemma frame_looping (e : BackgroundAnimation) (b : Browser) (hl : Looping (e, b))
    (hc : e.ctx.isSome = true) (id : Nat) :
    Looping (frame e b id) ∧ (frame e b id).1.disabled = e.disabled ∧
      (frame e b id).1.ctx = e.ctx := by
  obtain ⟨hrun, he, id0, hne, hid, hpend⟩ := hl
  simp only at hrun he hid hpend
  unfold frame
  by_cases hmem : id ∈ b.pendingFrames
  · simp only [hmem, if_true]
    have hid0 : id = id0 := by simpa [hpend] using hmem
    obtain ⟨drops, b2, ⟨hp, hf, hl, rest, hd⟩, ha⟩ :=
      animate_enabled e { b with pendingFrames := b.pendingFrames.filter (fun f => f != id) } he hc
    simp only [hrun, if_true] at ha
    rw [ha]
    refine ⟨⟨rfl, he, b2.framesRequested + 1, by omega, rfl, ?_⟩, rfl, rfl⟩
    show b2.pendingFrames ++ [b2.framesRequested + 1] = [b2.framesRequested + 1]
    rw [hp]
    show List.filter (fun f => f != id) b.pendingFrames ++ _ = _
    rw [hpend, hid0]
    simp
  · rw [if_neg hmem]
    exact ⟨⟨hrun, he, id0, hne, hid, hpend⟩, rfl, rfl⟩

/-- Every action that returns keeps the invariant. -/
lemma act_sound (s t : BackgroundAnimation × Browser) (a : EngineAction) (hs : Sound s)
    (ha : act s a = Except.ok t) : Sound t := by
  obtain ⟨e, b⟩ := s
  obtain ⟨hctx, hphase⟩ := hs
  simp only at hctx
  cases a with
  | start =>
    simp only [act, Except.ok.injEq] at ha
    subst ha
    by_cases hno : e.isRunning = true ∨ e.disabled = true
    · rw [start_noop e b hno]
      exact ⟨hctx, hphase⟩
    · have hrun : e.isRunning = false := by
        cases h : e.isRunning with
        | true => exact absurd (Or.inl h) hno
        | false => rfl
      have he : e.disabled = false := by
        cases h : e.disabled with
        | true => exact absurd (Or.inr h) hno
        | false => rfl
      have hi : Idle (e, b) := by
        rcases hphase with hi | hl
        · exact hi
        · have := hl.1
          simp only at this
          rw [hrun] at this
          exact absurd this (by simp)
      obtain ⟨-, hl, hc, -, -⟩ := start_idle e b hi he (hctx he)
      exact ⟨fun _ => by rw [hc]; exact hctx he, Or.inr hl⟩
  | stop =>
    simp only [act, Except.ok.injEq] at ha
    subst ha
    obtain ⟨hi, hd, hc, -, -⟩ := stop_sound e b ⟨hctx, hphase⟩
    exact ⟨fun h => by rw [hc]; exact hctx (hd ▸ h), Or.inl hi⟩
  | resize =>
    obtain ⟨e', b'⟩ := t
    simp only [act] at ha
    obtain ⟨h1, h2, h3, h4, -, -, -, h8, -, -, -, -, -⟩ := resize_fields e e' b b' ha
    refine ⟨fun h => by rw [h4]; exact hctx (h3 ▸ h), ?_⟩
    rcases hphase with ⟨hrun, hid, hpend⟩ | ⟨hrun, he, id, hne, hid, hpend⟩
    · exact Or.inl ⟨h1.trans hrun, h2.trans hid, h8.trans hpend⟩
    · exact Or.inr ⟨h1.trans hrun, h3.trans he, id, hne, h2.trans hid, h8.trans hpend⟩
  | frame id =>
    simp only [act, Except.ok.injEq] at ha
    subst ha
    rcases hphase with hi | hl
    · rw [frame_idle e b hi id]
      exact ⟨hctx, Or.inl hi⟩
    · have he : e.disabled = false := hl.2.1
      obtain ⟨hl', hd, hc⟩ := frame_looping e b hl (hctx he) id
      exact ⟨fun _ => by rw [hc]; exact hctx he, Or.inr hl'⟩
  | window width height =>
    obtain ⟨e', b'⟩ := t
    simp only [act] at ha
    split_ifs at ha
    · simp only [Except.ok.injEq, Prod.mk.injEq] at ha
      obtain ⟨rfl, rfl⟩ := ha
      exact ⟨hctx, hphase⟩
    · obtain ⟨h1, h2, h3, h4, -, -, -, h8, -, -, -, -, -⟩ := resize_fields e e' _ b' ha
      refine ⟨fun h => by rw [h4]; exact hctx (h3 ▸ h), ?_⟩
      rcases hphase with ⟨hrun, hid, hpend⟩ | ⟨hrun, he, id, hne, hid, hpend⟩
      · exact Or.inl ⟨h1.trans hrun, h2.trans hid, h8.trans hpend⟩
      · exact Or.inr ⟨h1.trans hrun, h3.trans he, id, hne, h2.trans hid, h8.trans hpend⟩

/-- Every reachable state satisfies the invariant. -/
lemma reachable_sound (s : BackgroundAnimation × Browser) (h : Reachable s) : Sound s := by
  induction h with
  | constructed c o b s hb hc =>
    obtain ⟨e, b'⟩ := s
    obtain ⟨h1, h2, -, h4, -, h6, -⟩ := construct_fields c o b b' e hc
    exact ⟨h6, Or.inl ⟨h1, h2, h4.trans hb⟩⟩
  | acted s t a _ ha ih => exact act_sound s t a ih ha

end BackgroundAnimation

namespace BackgroundAnimation

lemma construct_refused :
    construct (some (Canvas.withContext (some ContextKind.webgl2))) appOptions
      (Browser.desktop 0) = Except.ok refused := by
  rfl

lemma reachable_refused : Reachable refused :=
  Reachable.constructed _ _ _ _ rfl construct_refused

/-- On a canvas without a context, in a browser that cannot create WebGL
contexts but can create 2D ones, the constructor attaches. -/
lemma construct_without_webgl (c : Canvas) (o : AnimationOptions) (b : Browser)
    (hb : c.bound = none) (h1 : c.supports ContextKind.webgl = false)
    (h2 : c.supports ContextKind.webgl2 = false) (h3 : c.supports ContextKind.twoD = true)
    (ht : ∀ k, c.throws k = false) (hf : (Options.merge o).fontSize ≠ 0) :
    ∃ e b', construct (some c) o b = Except.ok (e, b') ∧ e.disabled = false ∧
      e.ctx = some ContextKind.twoD ∧ e.canvas.bound = some ContextKind.twoD := by
  obtain ⟨e', b', hr, -, -, -, -⟩ := resize_ok
    (built o { (if c.id = "" then ({ c with id := "bg-canvas" } : Canvas) else c) with
      bound := some ContextKind.twoD } (some ContextKind.twoD) false) b hf
  have hfields := resize_fields _ _ _ _ hr
  refine ⟨e', { b' with resizeListeners := b'.resizeListeners + 1 }, ?_, ?_, ?_, ?_⟩
  · have hprobe : probeGL (if c.id = "" then ({ c with id := "bg-canvas" } : Canvas) else c) =
        (false, if c.id = "" then ({ c with id := "bg-canvas" } : Canvas) else c) := by
      split_ifs <;> simp [probeGL, Canvas.getContext, ht, hb, h1, h2]
    have hget : (if c.id = "" then ({ c with id := "bg-canvas" } : Canvas) else c).getContext
        ContextKind.twoD = Except.ok (some ContextKind.twoD,
          { (if c.id = "" then ({ c with id := "bg-canvas" } : Canvas) else c) with
            bound := some ContextKind.twoD }) := by
      split_ifs <;> simp [Canvas.getContext, ht, hb, h3]
    simp only [construct, hprobe, Bool.false_eq_true, if_false, hget, hr]
  · rw [hfields.2.2.1]
    rfl
  · rw [hfields.2.2.2.1]
    rfl
  · unfold resize initDrops at hr
    simp only [built] at hr hf
    rw [if_neg hf] at hr
    simp only [Except.ok.injEq, Prod.mk.injEq] at hr
    obtain ⟨rfl, -⟩ := hr
    rfl

end BackgroundAnimation

/-- C11 fails on the code: on a canvas with no context bound, in a browser that
can create 2D and WebGL contexts, the probe `getContext('webgl')` itself binds a
WebGL context under the HTML rule, so the constructor reports an existing WebGL
context and leaves `disabled = true`, `ctx = null`, the canvas bound to WebGL.
Only where the browser cannot create WebGL contexts does the engine attach. -/
theorem BackgroundAnimation.construct_fresh_canvas :
    (Canvas.withContext none).bound = none ∧
      (Canvas.withContext none).supports ContextKind.twoD = true ∧
      (∃ e b', BackgroundAnimation.construct (some (Canvas.withContext none))
          BackgroundAnimation.appOptions (Browser.desktop 0) = Except.ok (e, b') ∧
        e.disabled = true ∧ e.ctx = none ∧ e.canvas.bound = some ContextKind.webgl) ∧
      (∃ e b', BackgroundAnimation.construct (some BackgroundAnimation.plainCanvas)
          BackgroundAnimation.appOptions (Browser.desktop 0) = Except.ok (e, b') ∧
        e.disabled = false ∧ e.ctx = some ContextKind.twoD) := by
  refine ⟨rfl, rfl, ⟨_, _, rfl, rfl, rfl, rfl⟩, ?_⟩
  obtain ⟨e, b', h, hd, hc, -⟩ := BackgroundAnimation.construct_without_webgl
    BackgroundAnimation.plainCanvas BackgroundAnimation.appOptions (Browser.desktop 0) rfl rfl rfl
    rfl (fun _ => rfl) (by
      rw [show (Options.merge BackgroundAnimation.appOptions).fontSize = 16 from rfl]
      norm_num)
  exact ⟨e, b', h, hd, hc⟩

namespace BackgroundAnimation

/-- From rest, actions other than `start()` keep the loop at rest and paint
nothing but the solid clear of further `stop()` calls. -/
lemma actAll_idle (as : List EngineAction) :
    ∀ t : BackgroundAnimation × Browser, Sound t → Idle t → EngineAction.start ∉ as →
      ∀ u, actAll t as = Except.ok u →
        Idle u ∧ ∃ extra, u.2.drawLog = t.2.drawLog ++ extra ∧ ∀ c ∈ extra, IsClear c := by
  induction as with
  | nil =>
    intro t _ hi _ u hu
    simp only [actAll, Except.ok.injEq] at hu
    subst hu
    exact ⟨hi, [], by simp, by simp⟩
  | cons a as ih =>
    intro t hs hi hno u hu
    have hna : a ≠ EngineAction.start := fun h => hno (by simp [h])
    have hnas : EngineAction.start ∉ as := fun h => hno (by simp [h])
    simp only [actAll] at hu
    split at hu
    · simp at hu
    · rename_i t' hact
      have hs' : Sound t' := act_sound t t' a hs hact
      have hstep : Idle t' ∧ ∃ extra, t'.2.drawLog = t.2.drawLog ++ extra ∧
          ∀ c ∈ extra, IsClear c := by
        obtain ⟨e, b⟩ := t
        cases a with
        | start => exact absurd rfl hna
        | stop =>
          simp only [act, Except.ok.injEq] at hact
          subst hact
          obtain ⟨hi', -, -, -, hd⟩ := stop_sound e b hs
          refine ⟨hi', _, hd, ?_⟩
          intro c hc
          split_ifs at hc
          · simp only [List.mem_cons, List.mem_singleton, List.not_mem_nil, or_false] at hc
            rcases hc with rfl | rfl
            · exact Or.inl rfl
            · exact Or.inr ⟨_, _, rfl⟩
          · simp at hc
        | resize =>
          obtain ⟨e', b'⟩ := t'
          simp only [act] at hact
          obtain ⟨h1, h2, -, -, -, -, -, h8, -, -, h11, -, -⟩ := resize_fields e e' b b' hact
          exact ⟨⟨h1.trans hi.1, h2.trans hi.2.1, h8.trans hi.2.2⟩, [], by simp [h11], by simp⟩
        | frame id =>
          simp only [act, Except.ok.injEq] at hact
          subst hact
          rw [frame_idle e b hi id]
          exact ⟨hi, [], by simp, by simp⟩
        | window width height =>
          obtain ⟨e', b'⟩ := t'
          simp only [act] at hact
          split_ifs at hact
          · simp only [Except.ok.injEq, Prod.mk.injEq] at hact
            obtain ⟨rfl, rfl⟩ := hact
            exact ⟨hi, [], by simp, by simp⟩
          · obtain ⟨h1, h2, -, -, -, -, -, h8, -, -, h11, -, -⟩ := resize_fields e e' _ b' hact
            exact ⟨⟨h1.trans hi.1, h2.trans hi.2.1, h8.trans hi.2.2⟩, [], by simp [h11],
              by simp⟩
      obtain ⟨hi', extra1, hd1, hc1⟩ := hstep
      obtain ⟨hiu, extra2, hd2, hc2⟩ := ih t' hs' hi' hnas u hu
      refine ⟨hiu, extra1 ++ extra2, by rw [hd2, hd1, List.append_assoc], ?_⟩
      intro c hc
      rcases List.mem_append.mp hc with h | h
      · exact hc1 c h
      · exact hc2 c h

end BackgroundAnimation

/-- C12: in every state reachable through the constructor, `start()`, `stop()`,
`resize()`, frame callbacks and window size changes, after `stop()` has
returned `isRunning = false`, `animationId = null` and no frame callback is
pending; `stop()` itself paints only the solid clear (nothing without a 2D
context); and under any later actions other than `start()` the loop stays at
rest: every frame callback the browser might run is without effect and the
draw log grows by solid clears only. -/
theorem BackgroundAnimation.stop_halts (s : BackgroundAnimation × Browser)
    (hr : BackgroundAnimation.Reachable s) :
    (BackgroundAnimation.stop s.1 s.2).1.isRunning = false ∧
      (BackgroundAnimation.stop s.1 s.2).1.animationId = none ∧
      (BackgroundAnimation.stop s.1 s.2).2.pendingFrames = [] ∧
      (BackgroundAnimation.stop s.1 s.2).2.drawLog = s.2.drawLog ++
        (if s.1.ctx.isSome then
          [DrawCall.fillStyle "black",
            DrawCall.fillRect 0 0 s.1.canvas.width s.1.canvas.height]
        else []) ∧
      ∀ as : List EngineAction, EngineAction.start ∉ as →
        ∀ u, BackgroundAnimation.actAll (BackgroundAnimation.stop s.1 s.2) as = Except.ok u →
          u.1.isRunning = false ∧ u.2.pendingFrames = [] ∧
            (∀ id, BackgroundAnimation.frame u.1 u.2 id = u) ∧
            ∃ extra, u.2.drawLog = (BackgroundAnimation.stop s.1 s.2).2.drawLog ++ extra ∧
              ∀ c ∈ extra, BackgroundAnimation.IsClear c := by
  have hs := BackgroundAnimation.reachable_sound s hr
  obtain ⟨e, b⟩ := s
  obtain ⟨hi, -, -, -, hd⟩ := BackgroundAnimation.stop_sound e b hs
  have hs' : BackgroundAnimation.Sound (BackgroundAnimation.stop e b) :=
    BackgroundAnimation.act_sound (e, b) _ EngineAction.stop hs rfl
  refine ⟨hi.1, hi.2.1, hi.2.2, hd, ?_⟩
  intro as hno u hu
  obtain ⟨hiu, extra, hdu, hcu⟩ := BackgroundAnimation.actAll_idle as _ hs' hi hno u hu
  exact ⟨hiu.1, hiu.2.2, fun id => BackgroundAnimation.frame_idle u.1 u.2 hiu id, extra, hdu, hcu⟩

/-- C13: in every reachable state `start()` begins the loop exactly when the
engine is neither running nor disabled: it is then the frame step run with
`isRunning = true`, which paints the background first and leaves exactly one
frame callback pending; when the engine is running or disabled `start()`
changes neither the engine nor the browser; and at most one frame callback is
pending in any reachable state. -/
theorem BackgroundAnimation.start_begins (s : BackgroundAnimation × Browser)
    (hr : BackgroundAnimation.Reachable s) :
    (s.1.isRunning = false → s.1.disabled = false →
        BackgroundAnimation.start s.1 s.2 =
          BackgroundAnimation.animate { s.1 with isRunning := true } s.2 ∧
        (BackgroundAnimation.start s.1 s.2).1.isRunning = true ∧
        (BackgroundAnimation.start s.1 s.2).2.pendingFrames.length = 1 ∧
        ∃ rest, (BackgroundAnimation.start s.1 s.2).2.drawLog = s.2.drawLog ++
          [DrawCall.fillStyle s.1.options.backgroundColor,
            DrawCall.fillRect 0 0 s.1.canvas.width s.1.canvas.height,
            DrawCall.font (s.2.numberToString s.1.options.fontSize ++ "px monospace")] ++
          rest) ∧
      ((s.1.isRunning = true ∨ s.1.disabled = true) →
        BackgroundAnimation.start s.1 s.2 = s) ∧
      s.2.pendingFrames.length ≤ 1 := by
  have hs := BackgroundAnimation.reachable_sound s hr
  obtain ⟨e, b⟩ := s
  obtain ⟨hctx, hphase⟩ := hs
  refine ⟨?_, fun h => BackgroundAnimation.start_noop e b h, ?_⟩
  · intro hrun he
    have hi : BackgroundAnimation.Idle (e, b) := by
      rcases hphase with hi | hl
      · exact hi
      · have := hl.1
        simp only at this hrun
        rw [hrun] at this
        exact absurd this (by simp)
    obtain ⟨h1, ⟨h2, -, id, -, -, h3⟩, -, -, h4⟩ :=
      BackgroundAnimation.start_idle e b hi he (hctx he)
    exact ⟨h1, h2, by rw [h3]; rfl, h4⟩
  · rcases hphase with ⟨-, -, hp⟩ | ⟨-, -, id, -, -, hp⟩
    · simp only at hp
      simp [hp]
    · simp only at hp
      simp [hp]

namespace BackgroundAnimation

/-- The application's engine attaches in a browser without WebGL: a reachable
state at rest. -/
lemma exists_attached :
    ∃ s, Reachable s ∧ s.1.isRunning = false ∧ s.1.disabled = false := by
  obtain ⟨e, b', h, hd, -, -⟩ := construct_without_webgl plainCanvas appOptions
    (Browser.desktop 0) rfl rfl rfl rfl (fun _ => rfl) (by
      rw [show (Options.merge appOptions).fontSize = 16 from rfl]
      norm_num)
  exact ⟨(e, b'), Reachable.constructed _ _ _ _ rfl h, (construct_fields _ _ _ _ _ h).1, hd⟩

/-- After `start()` the attached engine is a reachable running state. -/
lemma exists_running :
    ∃ s, Reachable s ∧ s.1.isRunning = true ∧ s.1.disabled = false := by
  obtain ⟨s, hr, hrun, hd⟩ := exists_attached
  have hs := reachable_sound s hr
  have hi : Idle s := by
    rcases hs.2 with hi | hl
    · exact hi
    · have := hl.1
      rw [hrun] at this
      exact absurd this (by simp)
  obtain ⟨-, hl, -, -, -⟩ := start_idle s.1 s.2 hi hd (hs.1 hd)
  exact ⟨start s.1 s.2, Reachable.acted s _ EngineAction.start hr rfl, hl.1, hl.2.1⟩

/-- Without a context, at rest and with no frame identity, `stop()` changes
nothing. -/
lemma stop_noop (e : BackgroundAnimation) (b : Browser) (hc : e.ctx = none)
    (hr : e.isRunning = false) (ha : e.animationId = none) : stop e b = (e, b) := by
  obtain ⟨canvas, ctx, disabled, animationId, isRunning, options, chars, drops⟩ := e
  simp only at hc hr ha
  subst hc hr ha
  rfl

end BackgroundAnimation

/-- Witness of C12: the application's engine, attached and started in a browser
without WebGL. -/
theorem BackgroundAnimation.stop_halts_witness :
    ∃ s, BackgroundAnimation.Reachable s ∧ s.1.isRunning = true ∧
      (BackgroundAnimation.stop s.1 s.2).1.isRunning = false ∧
      (BackgroundAnimation.stop s.1 s.2).1.animationId = none ∧
      (BackgroundAnimation.stop s.1 s.2).2.pendingFrames = [] := by
  obtain ⟨s, hr, hrun, -⟩ := BackgroundAnimation.exists_running
  have hall := BackgroundAnimation.stop_halts s hr
  exact ⟨s, hr, hrun, hall.1, hall.2.1, hall.2.2.1⟩

/-- Witness of C13: the application's engine, attached in a browser without
WebGL and not yet started. -/
theorem BackgroundAnimation.start_begins_witness :
    ∃ s, BackgroundAnimation.Reachable s ∧ s.1.isRunning = false ∧ s.1.disabled = false ∧
      (BackgroundAnimation.start s.1 s.2).1.isRunning = true ∧
      (BackgroundAnimation.start s.1 s.2).2.pendingFrames.length = 1 := by
  obtain ⟨s, hr, hrun, hd⟩ := BackgroundAnimation.exists_attached
  have hall := (BackgroundAnimation.start_begins s hr).1 hrun hd
  exact ⟨s, hr, hrun, hd, hall.2.1, hall.2.2.1⟩

/-- C14 as stated fails for `resize()`: on the application's engine refused at
construction (canvas already bound to WebGL2), a direct call of `resize()` in
the 1000 wide window changes the surface width from 300 to 1000 and the drop set
from empty to 44 drops. -/
theorem BackgroundAnimation.disabled_methods_counterexample :
    BackgroundAnimation.construct (some (Canvas.withContext (some ContextKind.webgl2)))
        BackgroundAnimation.appOptions (Browser.desktop 0) =
        Except.ok BackgroundAnimation.refused ∧
      BackgroundAnimation.refused.1.disabled = true ∧
      BackgroundAnimation.refused.1.canvas.width = 300 ∧
      BackgroundAnimation.refused.1.drops = [] ∧
      ∃ e b, BackgroundAnimation.resize BackgroundAnimation.refused.1
          BackgroundAnimation.refused.2 = Except.ok (e, b) ∧
        e.canvas.width = 1000 ∧ e.drops.length = 44 := by
  refine ⟨BackgroundAnimation.construct_refused, rfl, rfl, rfl, ?_⟩
  have hfs : BackgroundAnimation.refused.1.options.fontSize = 16 := rfl
  have hden : BackgroundAnimation.refused.1.options.density = 7 / 10 := by
    simp [BackgroundAnimation.refused, BackgroundAnimation.built, Options.merge,
      BackgroundAnimation.appOptions]
    norm_num
  have hiw : BackgroundAnimation.refused.2.innerWidth = 1000 := rfl
  obtain ⟨e, b, hr, hw, -, -, hl⟩ := BackgroundAnimation.resize_ok
    BackgroundAnimation.refused.1 BackgroundAnimation.refused.2 (by rw [hfs]; norm_num)
  have hcols : ⌊(1000 : ℚ) / 16⌋ = 62 := by
    rw [Int.floor_eq_iff]
    norm_num
  rw [hfs, hden, hiw, hcols, BackgroundAnimation.ceil_jsMul_62] at hl
  exact ⟨e, b, hr, hw.trans hiw, by rw [hl]; rfl⟩

/-- C14, amended: if the constructor returned a disabled engine, it registered
no resize listener, painted nothing and left no drops, `ctx` is `null`, and
`start()` and `stop()` change neither the engine nor the browser, in whatever
state the browser is. A direct call of `resize()` that returns paints nothing,
requests no frame, leaves the running flag `false` and the engine disabled
(so `start()` and `stop()` stay without effect afterwards); it does copy the
window size to the surface and rebuild the drops. -/
theorem BackgroundAnimation.disabled_methods (c : Option Canvas) (o : AnimationOptions)
    (b0 b : Browser) (e : BackgroundAnimation)
    (hc : BackgroundAnimation.construct c o b0 = Except.ok (e, b)) (hd : e.disabled = true) :
    b.resizeListeners = b0.resizeListeners ∧ b.drawLog = b0.drawLog ∧ e.drops = [] ∧
      e.ctx = none ∧ e.isRunning = false ∧
      (∀ b1 : Browser, BackgroundAnimation.start e b1 = (e, b1) ∧
        BackgroundAnimation.stop e b1 = (e, b1)) ∧
      ∀ (b1 b2 : Browser) (e2 : BackgroundAnimation),
        BackgroundAnimation.resize e b1 = Except.ok (e2, b2) →
          b2.drawLog = b1.drawLog ∧ b2.pendingFrames = b1.pendingFrames ∧
            e2.isRunning = false ∧ e2.disabled = true ∧
            e2.canvas.width = b1.innerWidth ∧ e2.canvas.height = b1.innerHeight ∧
            ∀ b3 : Browser, BackgroundAnimation.start e2 b3 = (e2, b3) ∧
              BackgroundAnimation.stop e2 b3 = (e2, b3) := by
  obtain ⟨hrun, hid, -, -, hlog, -, hdis⟩ := BackgroundAnimation.construct_fields c o b0 b e hc
  obtain ⟨hctx, hdrops, hlis⟩ := hdis hd
  refine ⟨hlis, hlog, hdrops, hctx, hrun, fun b1 =>
    ⟨BackgroundAnimation.start_noop e b1 (Or.inr hd),
      BackgroundAnimation.stop_noop e b1 hctx hrun hid⟩, ?_⟩
  intro b1 b2 e2 hres
  obtain ⟨h1, h2, h3, h4, -, h6, h7, h8, -, -, h11, -, -⟩ :=
    BackgroundAnimation.resize_fields e e2 b1 b2 hres
  exact ⟨h11, h8, h1.trans hrun, h3.trans hd, h6, h7, fun b3 =>
    ⟨BackgroundAnimation.start_noop e2 b3 (Or.inr (h3.trans hd)),
      BackgroundAnimation.stop_noop e2 b3 (h4.trans hctx) (h1.trans hrun) (h2.trans hid)⟩⟩

/-- Witness of C14 (amended): the application's engine refused on a canvas bound
to WebGL2. -/
theorem BackgroundAnimation.disabled_methods_witness :
    BackgroundAnimation.construct (some (Canvas.withContext (some ContextKind.webgl2)))
        BackgroundAnimation.appOptions (Browser.desktop 0) =
        Except.ok BackgroundAnimation.refused ∧
      BackgroundAnimation.refused.1.disabled = true ∧
      ∀ b1 : Browser,
        BackgroundAnimation.start BackgroundAnimation.refused.1 b1 =
            (BackgroundAnimation.refused.1, b1) ∧
          BackgroundAnimation.stop BackgroundAnimation.refused.1 b1 =
            (BackgroundAnimation.refused.1, b1) :=
  ⟨BackgroundAnimation.construct_refused, rfl,
    (BackgroundAnimation.disabled_methods _ _ _ _ _ BackgroundAnimation.construct_refused
      rfl).2.2.2.2.2.1⟩

/-- C15: whenever the constructor returns, the engine's configuration gives
each omitted option its default (`#00FF00`, `rgba(0, 0, 0, 0.95)`, 14, 1.5, 0.8,
0.03) and each supplied option the supplied value, whatever it is; with no
option supplied the configuration is the defaults. -/
theorem BackgroundAnimation.options_defaults (c : Option Canvas) (o : AnimationOptions)
    (b b' : Browser) (e : BackgroundAnimation)
    (hc : BackgroundAnimation.construct c o b = Except.ok (e, b')) :
    e.options.color = o.color.getD "#00FF00" ∧
      e.options.backgroundColor = o.backgroundColor.getD "rgba(0, 0, 0, 0.95)" ∧
      e.options.fontSize = o.fontSize.getD 14 ∧
      e.options.speed = o.speed.getD (3 / 2) ∧
      e.options.density = o.density.getD (4 / 5) ∧
      e.options.glitchFrequency = o.glitchFrequency.getD (3 / 100) ∧
      (o = {} → e.options =
        { color := "#00FF00", backgroundColor := "rgba(0, 0, 0, 0.95)", fontSize := 14,
          speed := 3 / 2, density := 4 / 5, glitchFrequency := 3 / 100 }) := by
  obtain ⟨-, -, hopt, -, -, -, -⟩ := BackgroundAnimation.construct_fields c o b b' e hc
  rw [hopt]
  refine ⟨?_, ?_, ?_, ?_, ?_, ?_, ?_⟩
  · cases h : o.color <;> simp [Options.merge, orString, h]
  · cases h : o.backgroundColor <;> simp [Options.merge, orString, h]
  · cases h : o.fontSize <;> simp [Options.merge, orNumber, h]
  · cases h : o.speed <;> simp [Options.merge, orNumber, h]
    norm_num
  · cases h : o.density <;> simp [Options.merge, orNumber, h]
    norm_num
  · cases h : o.glitchFrequency <;> simp [Options.merge, orNumber, h]
    norm_num
  · intro ho
    subst ho
    simp [Options.merge, orString, orNumber]
    norm_num

/-- Witness of C15: the application's options on the canvas bound to WebGL2. -/
theorem BackgroundAnimation.options_defaults_witness :
    BackgroundAnimation.construct (some (Canvas.withContext (some ContextKind.webgl2)))
        BackgroundAnimation.appOptions (Browser.desktop 0) =
        Except.ok BackgroundAnimation.refused ∧
      BackgroundAnimation.refused.1.options.fontSize =
        BackgroundAnimation.appOptions.fontSize.getD 14 ∧
      BackgroundAnimation.refused.1.options.color =
        BackgroundAnimation.appOptions.color.getD "#00FF00" :=
  have hall := BackgroundAnimation.options_defaults _ _ _ _ _
    BackgroundAnimation.construct_refused
  ⟨BackgroundAnimation.construct_refused, hall.2.2.1, hall.1⟩

/-! ### Colour contrast -/

lemma hexToRgb_white : hexToRgb "#FFFFFF" = some { r := 255, g := 255, b := 255 } := by
  decide

lemma hexToRgb_black : hexToRgb "#000000" = some { r := 0, g := 0, b := 0 } := by
  decide

lemma hexToRgb_green : hexToRgb "#00FF00" = some { r := 0, g := 255, b := 0 } := by
  decide

lemma hexToRgb_invalid : hexToRgb "invalid" = none := by
  decide

lemma linearize_zero (pow : ℚ → ℚ → ℚ) : linearize pow 0 = 0 := by
  simp only [linearize]
  norm_num

lemma linearize_full (pow : ℚ → ℚ → ℚ) (hone : pow 1 2.4 = 1) : linearize pow 255 = 1 := by
  simp only [linearize]
  norm_num
  norm_num at hone
  exact hone

/-- The two-decimal rendering of a non-negative number whose nearest multiple
of `1/100` is `n / 100`. -/
lemma toFixed2_of_floor (q : ℚ) (n : Nat) (h0 : 0 ≤ q) (hn : ⌊q * 100 + 1 / 2⌋ = (n : ℤ)) :
    toFixed2 q = toString (n / 100) ++ "." ++ twoDigits (n % 100) := by
  simp only [toFixed2, not_lt.mpr h0, if_false, hn, Int.toNat_ofNat]

lemma toFixed2_21 : toFixed2 21 = "21.00" := by
  rw [toFixed2_of_floor 21 2100 (by norm_num) (by rw [Int.floor_eq_iff]; norm_num)]
  decide

lemma toFixed2_1 : toFixed2 1 = "1.00" := by
  rw [toFixed2_of_floor 1 100 (by norm_num) (by rw [Int.floor_eq_iff]; norm_num)]
  decide

lemma toFixed2_green : toFixed2 (15304 / 1000) = "15.30" := by
  rw [toFixed2_of_floor (15304 / 1000) 1530 (by norm_num) (by rw [Int.floor_eq_iff]; norm_num)]
  decide

lemma luminance_white (pow : ℚ → ℚ → ℚ) (hone : pow 1 2.4 = 1) :
    calculateLuminance pow "#FFFFFF" = 1 := by
  simp only [calculateLuminance, hexToRgb_white, linearize_full pow hone]
  norm_num

lemma luminance_black (pow : ℚ → ℚ → ℚ) : calculateLuminance pow "#000000" = 0 := by
  simp only [calculateLuminance, hexToRgb_black, linearize_zero]
  norm_num

lemma luminance_green (pow : ℚ → ℚ → ℚ) (hone : pow 1 2.4 = 1) :
    calculateLuminance pow "#00FF00" = 7152 / 10000 := by
  simp only [calculateLuminance, hexToRgb_green, linearize_full pow hone, linearize_zero]
  norm_num

lemma luminance_invalid (pow : ℚ → ℚ → ℚ) : calculateLuminance pow "invalid" = 0 := by
  simp only [calculateLuminance, hexToRgb_invalid]

/-- The result for two luminances whose smaller one is not `-0.05`. -/
lemma checkColorContrast_eq (pow : ℚ → ℚ → ℚ) (fg bg : String)
    (h : min (calculateLuminance pow fg) (calculateLuminance pow bg) + 0.05 ≠ 0) :
    checkColorContrast pow fg bg =
      { ratio := toFixed2 (contrastRatio (calculateLuminance pow fg) (calculateLuminance pow bg))
        passesAA := decide
          (contrastRatio (calculateLuminance pow fg) (calculateLuminance pow bg) ≥ 4.5)
        passesAAA := decide
          (contrastRatio (calculateLuminance pow fg) (calculateLuminance pow bg) ≥ 7) } := by
  simp only [checkColorContrast, h, if_false]

lemma checkColorContrast_invalid_white (pow : ℚ → ℚ → ℚ) (hone : pow 1 2.4 = 1) :
    checkColorContrast pow "invalid" "#FFFFFF" =
      { ratio := "21.00", passesAA := true, passesAAA := true } := by
  have hr : contrastRatio (calculateLuminance pow "invalid") (calculateLuminance pow "#FFFFFF") =
      21 := by
    rw [luminance_invalid, luminance_white pow hone]
    simp only [contrastRatio]
    norm_num
  rw [checkColorContrast_eq pow _ _ (by
    rw [luminance_invalid, luminance_white pow hone]
    norm_num), hr, toFixed2_21]
  simp
  norm_num

lemma powStandIn_one : powStandIn 1 2.4 = 1 := by
  simp [powStandIn]

lemma powStandIn_nonneg (x : ℚ) : 0 ≤ powStandIn x 2.4 := by
  simp only [powStandIn]
  exact mul_self_nonneg x

lemma calculateLuminance_valid (pow : ℚ → ℚ → ℚ) (color : String) (c : Rgb)
    (h : hexToRgb color = some c) : calculateLuminance pow color = wcagLuminance pow c := by
  simp only [calculateLuminance, h, wcagLuminance, linearize, wcagLinear]

lemma wcagLinear_nonneg (pow : ℚ → ℚ → ℚ) (hpos : ∀ x, 0 ≤ pow x 2.4) (n : Nat) :
    0 ≤ wcagLinear pow ((n : ℚ) / 255) := by
  unfold wcagLinear
  split_ifs
  · have hn : (0 : ℚ) ≤ (n : ℚ) / 255 := by positivity
    have h : (0 : ℚ) < 12.92 := by norm_num
    exact div_nonneg hn (le_of_lt h)
  · exact hpos _

lemma wcagLuminance_nonneg (pow : ℚ → ℚ → ℚ) (hpos : ∀ x, 0 ≤ pow x 2.4) (c : Rgb) :
    0 ≤ wcagLuminance pow c := by
  have hr := wcagLinear_nonneg pow hpos c.r
  have hg := wcagLinear_nonneg pow hpos c.g
  have hb := wcagLinear_nonneg pow hpos c.b
  unfold wcagLuminance
  have h1 : (0 : ℚ) ≤ 0.2126 := by norm_num
  have h2 : (0 : ℚ) ≤ 0.7152 := by norm_num
  have h3 : (0 : ℚ) ≤ 0.0722 := by norm_num
  have := mul_nonneg h1 hr
  have := mul_nonneg h2 hg
  have := mul_nonneg h3 hb
  linarith

lemma denominator_ne_zero (l1 l2 : ℚ) (h1 : 0 ≤ l1) (h2 : 0 ≤ l2) : min l1 l2 + 0.05 ≠ 0 := by
  have hm : 0 ≤ min l1 l2 := le_min h1 h2
  have h5 : (0 : ℚ) < 0.05 := by norm_num
  linarith

lemma checkColorContrast_green_black (pow : ℚ → ℚ → ℚ) (hone : pow 1 2.4 = 1) :
    contrastRatio (calculateLuminance pow "#00FF00") (calculateLuminance pow "#000000") =
        15304 / 1000 ∧
      checkColorContrast pow "#00FF00" "#000000" =
        { ratio := "15.30", passesAA := true, passesAAA := true } := by
  have hr : contrastRatio (calculateLuminance pow "#00FF00")
      (calculateLuminance pow "#000000") = 15304 / 1000 := by
    rw [luminance_green pow hone, luminance_black]
    simp only [contrastRatio]
    norm_num
  refine ⟨hr, ?_⟩
  rw [checkColorContrast_eq pow _ _ (by
    rw [luminance_green pow hone, luminance_black]
    norm_num), hr, toFixed2_green]
  simp
  norm_num

/-- C16 fails on the code: an invalid foreground gets luminance 0, so against a
valid background of luminance `L` the quotient is `(L + 0.05) / 0.05`, that is
`20 L + 1`; for `'invalid'` on `'#FFFFFF'` the result is ratio `"21.00"` with
`passesAA` and `passesAAA` both `true`, where the repository's own test expects
1, `false` and `false`. -/
theorem checkColorContrast_invalid_foreground (pow : ℚ → ℚ → ℚ) (hone : pow 1 2.4 = 1) :
    hexToRgb "invalid" = none ∧
      hexToRgb "#FFFFFF" = some { r := 255, g := 255, b := 255 } ∧
      checkColorContrast pow "invalid" "#FFFFFF" =
        { ratio := "21.00", passesAA := true, passesAAA := true } ∧
      ∀ fg bg : String, hexToRgb fg = none → 0 ≤ calculateLuminance pow bg →
        contrastRatio (calculateLuminance pow fg) (calculateLuminance pow bg) =
          20 * calculateLuminance pow bg + 1 := by
  refine ⟨hexToRgb_invalid, hexToRgb_white, checkColorContrast_invalid_white pow hone, ?_⟩
  intro fg bg hfg hbg
  have h0 : calculateLuminance pow fg = 0 := by simp only [calculateLuminance, hfg]
  rw [h0]
  simp only [contrastRatio, max_eq_right hbg, min_eq_left hbg]
  norm_num
  ring

/-- Witness of C16's evaluation, with the stand-in for `Math.pow`. -/
theorem checkColorContrast_invalid_foreground_witness :
    powStandIn 1 2.4 = 1 ∧
      checkColorContrast powStandIn "invalid" "#FFFFFF" =
        { ratio := "21.00", passesAA := true, passesAAA := true } :=
  ⟨powStandIn_one, (checkColorContrast_invalid_foreground powStandIn powStandIn_one).2.2.1⟩

/-- C17 as stated fails on the value returned: the field `ratio` is the
quotient rendered by `toFixed(2)`, so `'#00FF00'` on `'#000000'`, whose quotient
is 15.304, returns the string `"15.30"`. -/
theorem checkColorContrast_valid_counterexample :
    contrastRatio (calculateLuminance powStandIn "#00FF00")
        (calculateLuminance powStandIn "#000000") = 15304 / 1000 ∧
      (checkColorContrast powStandIn "#00FF00" "#000000").ratio = "15.30" ∧
      (checkColorContrast powStandIn "#00FF00" "#000000").ratio ≠ "15.304" := by
  obtain ⟨h1, h2⟩ := checkColorContrast_green_black powStandIn powStandIn_one
  rw [h2]
  exact ⟨h1, rfl, by decide⟩

/-- C17, amended: for every pair of valid colours (an optional `#` and six
hexadecimal digits, read as three channels), with a `Math.pow` that is never
negative and exact at base 1, `checkColorContrast` computes the WCAG quotient
`(max(L1, L2) + 0.05) / (min(L1, L2) + 0.05)` of the two relative luminances,
returns it in `ratio` rendered with two decimals, and sets `passesAA` iff the
quotient is at least 4.5 and `passesAAA` iff it is at least 7; black on white
gives `"21.00"` and passes both, a colour against itself gives `"1.00"` and
passes neither, `'#00FF00'` on `'#000000'` has quotient 15.304, gives `"15.30"`
and passes both. -/
theorem checkColorContrast_valid (pow : ℚ → ℚ → ℚ) (fg bg : String) (c1 c2 : Rgb)
    (hpos : ∀ x, 0 ≤ pow x 2.4) (hone : pow 1 2.4 = 1) (hfg : hexToRgb fg = some c1)
    (hbg : hexToRgb bg = some c2) :
    (checkColorContrast pow fg bg).ratio =
        toFixed2 (contrastRatio (wcagLuminance pow c1) (wcagLuminance pow c2)) ∧
      ((checkColorContrast pow fg bg).passesAA = true ↔
        4.5 ≤ contrastRatio (wcagLuminance pow c1) (wcagLuminance pow c2)) ∧
      ((checkColorContrast pow fg bg).passesAAA = true ↔
        7 ≤ contrastRatio (wcagLuminance pow c1) (wcagLuminance pow c2)) ∧
      checkColorContrast pow "#000000" "#FFFFFF" =
        { ratio := "21.00", passesAA := true, passesAAA := true } ∧
      checkColorContrast pow fg fg = { ratio := "1.00", passesAA := false, passesAAA := false } ∧
      contrastRatio (calculateLuminance pow "#00FF00") (calculateLuminance pow "#000000") =
        15304 / 1000 ∧
      checkColorContrast pow "#00FF00" "#000000" =
        { ratio := "15.30", passesAA := true, passesAAA := true } ∧
      ∀ (r1 r2 g1 g2 b1 b2 : Char) (r g b : Nat), parseHexPair r1 r2 = some r →
        parseHexPair g1 g2 = some g → parseHexPair b1 b2 = some b →
        hexToRgb (String.mk ['#', r1, r2, g1, g2, b1, b2]) = some { r := r, g := g, b := b } := by
  have hl1 := calculateLuminance_valid pow fg c1 hfg
  have hl2 := calculateLuminance_valid pow bg c2 hbg
  have hn1 := wcagLuminance_nonneg pow hpos c1
  have hn2 := wcagLuminance_nonneg pow hpos c2
  have heq := checkColorContrast_eq pow fg bg (by
    rw [hl1, hl2]
    exact denominator_ne_zero _ _ hn1 hn2)
  rw [hl1, hl2] at heq
  refine ⟨by rw [heq], by rw [heq]; simp, by rw [heq]; simp, ?_, ?_,
    (checkColorContrast_green_black pow hone).1, (checkColorContrast_green_black pow hone).2, ?_⟩
  · have hr : contrastRatio (calculateLuminance pow "#000000")
        (calculateLuminance pow "#FFFFFF") = 21 := by
      rw [luminance_black, luminance_white pow hone]
      simp only [contrastRatio]
      norm_num
    rw [checkColorContrast_eq pow _ _ (by
      rw [luminance_black, luminance_white pow hone]
      norm_num), hr, toFixed2_21]
    simp
    norm_num
  · have hd := denominator_ne_zero _ _ hn1 hn1
    have hr : contrastRatio (wcagLuminance pow c1) (wcagLuminance pow c1) = 1 := by
      simp only [contrastRatio, max_self, min_self]
      exact div_self (by simpa using hd)
    rw [checkColorContrast_eq pow fg fg (by rw [hl1]; exact hd), hl1, hr, toFixed2_1]
    simp
    norm_num
  · intro r1 r2 g1 g2 b1 b2 r g b hr hg hb
    simp [hexToRgb, hr, hg, hb]

/-- Witness of C17 (amended): black on white, with the stand-in for `Math.pow`. -/
theorem checkColorContrast_valid_witness :
    (∀ x, 0 ≤ powStandIn x 2.4) ∧ powStandIn 1 2.4 = 1 ∧
      hexToRgb "#000000" = some { r := 0, g := 0, b := 0 } ∧
      (checkColorContrast powStandIn "#000000" "#FFFFFF").ratio =
        toFixed2 (contrastRatio (wcagLuminance powStandIn { r := 0, g := 0, b := 0 })
          (wcagLuminance powStandIn { r := 255, g := 255, b := 255 })) :=
  ⟨powStandIn_nonneg, powStandIn_one, hexToRgb_black,
    (checkColorContrast_valid powStandIn "#000000" "#FFFFFF" _ _ powStandIn_nonneg
      powStandIn_one hexToRgb_black hexToRgb_white).1⟩

/-! ### Live region and keyboard navigation -/

/-- C18 fails on the code when the live region already exists: `aria-live` is
set only where the region is created. In an empty document an announcement with
priority `assertive` creates the region with `aria-live = assertive`; after a
first announcement with the default priority, the same call leaves
`aria-live = polite`; on a region created by the page without the attribute,
it leaves the attribute absent. The text content is the message in all
three. -/
theorem announceToScreenReader_existing_region :
    ((announceToScreenReader Document.empty "Important message"
        (some "assertive")).getElementById "screen-reader-announce").map
        (fun el => (el.getAttribute "aria-live", el.textContent)) =
        some (some "assertive", "Important message") ∧
      ((announceToScreenReader (announceToScreenReader Document.empty "Test message" none)
        "Important message" (some "assertive")).getElementById "screen-reader-announce").map
        (fun el => (el.getAttribute "aria-live", el.textContent)) =
        some (some "polite", "Important message") ∧
      ((announceToScreenReader
        { Document.empty with
          body := [{ uid := 0, tag := "div", id := "screen-reader-announce", className := "",
                     attributes := [], textContent := "" }]
          nextUid := 1 }
        "Important message" (some "assertive")).getElementById "screen-reader-announce").map
        (fun el => (el.getAttribute "aria-live", el.textContent)) =
        some (none, "Important message") := by
  refine ⟨?_, ?_, ?_⟩ <;> decide

lemma handleKeyDown_other (o : KeyOptions) (event : KeyboardEvent) (h1 : event.key ≠ "Enter")
    (h2 : event.key ≠ "Escape") (h3 : event.key ≠ "ArrowUp") (h4 : event.key ≠ "ArrowDown") :
    handleKeyDown o event = (event, []) := by
  simp [handleKeyDown, h1, h2, h3, h4]

/-- C19: with `ref.current` null the helper registers nothing and returns
`undefined`; otherwise it registers exactly one new `keydown` listener on the
element and returns a cleanup function. That listener, for each of the keys
Enter, Escape, ArrowUp and ArrowDown, prevents the default and calls the
matching handler once with the event when the handler was supplied, and does
neither when it was not; for any other key it calls nothing and prevents
nothing. The cleanup function, run while `ref.current` is still the element,
removes exactly that listener. -/
theorem addKeyboardNavigation_spec (t : EventTargets) (element : Nat)
    (options : Option KeyOptions) (event : KeyboardEvent)
    (hfresh : ∀ l ∈ t.listeners, l.uid < t.nextListener) :
    addKeyboardNavigation t none options = (t, none) ∧
      (addKeyboardNavigation t (some element) options).1.listeners =
        t.listeners ++ [{ uid := t.nextListener, element := element, type := "keydown",
                          options := options.getD {} }] ∧
      (addKeyboardNavigation t (some element) options).2 = some t.nextListener ∧
      (event.key = "Enter" → handleKeyDown (options.getD {}) event =
        if (options.getD {}).onEnter then
          ({ event with defaultPrevented := true },
            [{ handler := HandlerName.onEnter, event := { event with defaultPrevented := true } }])
        else (event, [])) ∧
      (event.key = "Escape" → handleKeyDown (options.getD {}) event =
        if (options.getD {}).onEscape then
          ({ event with defaultPrevented := true },
            [{ handler := HandlerName.onEscape,
               event := { event with defaultPrevented := true } }])
        else (event, [])) ∧
      (event.key = "ArrowUp" → handleKeyDown (options.getD {}) event =
        if (options.getD {}).onArrowUp then
          ({ event with defaultPrevented := true },
            [{ handler := HandlerName.onArrowUp,
               event := { event with defaultPrevented := true } }])
        else (event, [])) ∧
      (event.key = "ArrowDown" → handleKeyDown (options.getD {}) event =
        if (options.getD {}).onArrowDown then
          ({ event with defaultPrevented := true },
            [{ handler := HandlerName.onArrowDown,
               event := { event with defaultPrevented := true } }])
        else (event, [])) ∧
      (event.key ≠ "Enter" → event.key ≠ "Escape" → event.key ≠ "ArrowUp" →
        event.key ≠ "ArrowDown" → handleKeyDown (options.getD {}) event = (event, [])) ∧
      (runCleanup (addKeyboardNavigation t (some element) options).1 (some element)
        t.nextListener).listeners = t.listeners ∧
      (t.listeners = [] →
        dispatchKeydown (addKeyboardNavigation t (some element) options).1 element event =
          handleKeyDown (options.getD {}) event) := by
  refine ⟨rfl, rfl, rfl, ?_, ?_, ?_, ?_, handleKeyDown_other _ event, ?_, ?_⟩
  · intro h
    simp [handleKeyDown, h]
  · intro h
    simp [handleKeyDown, h]
  · intro h
    simp [handleKeyDown, h]
  · intro h
    simp [handleKeyDown, h]
  · simp only [addKeyboardNavigation, runCleanup, List.filter_append]
    have hkeep : t.listeners.filter (fun l =>
        !(l.element == element && l.type == "keydown" && l.uid == t.nextListener)) =
        t.listeners := by
      rw [List.filter_eq_self]
      intro l hl
      have hlt := hfresh l hl
      have hne : l.uid ≠ t.nextListener := by omega
      simp [hne]
    rw [hkeep]
    simp
  · intro hempty
    simp [addKeyboardNavigation, dispatchKeydown, hempty]

/-- Witness of C19: the first registration on a page without listeners. -/
theorem addKeyboardNavigation_spec_witness :
    (∀ l ∈ ({ listeners := [], nextListener := 0 } : EventTargets).listeners,
        l.uid < ({ listeners := [], nextListener := 0 } : EventTargets).nextListener) ∧
      (runCleanup
        (addKeyboardNavigation { listeners := [], nextListener := 0 } (some 7)
          (some { onEnter := true })).1 (some 7) 0).listeners = [] :=
  have hfresh : ∀ l ∈ ({ listeners := [], nextListener := 0 } : EventTargets).listeners,
      l.uid < ({ listeners := [], nextListener := 0 } : EventTargets).nextListener :=
    fun _ hl => absurd hl (List.not_mem_nil _)
  ⟨hfresh,
    (addKeyboardNavigation_spec { listeners := [], nextListener := 0 } 7
      (some { onEnter := true }) { key := "Enter", defaultPrevented := false }
      hfresh).2.2.2.2.2.2.2.2.1⟩

/-! ### Command history -/

namespace App

/-- One `ArrowUp` press with a non-empty history and the contact form inactive. -/
lemma onKeyDown_arrowUp (t : AppState) (hne : t.history ≠ [])
    (hcf : t.contactForm.active = false) :
    (onKeyDown t arrowUp).history = t.history ∧
      (onKeyDown t arrowUp).contactForm = t.contactForm ∧
      (onKeyDown t arrowUp).historyIndex =
        (if t.historyIndex < 0 then (t.history.length : ℤ) - 1
          else max 0 (t.historyIndex - 1)) ∧
      (onKeyDown t arrowUp).input =
        (if (if t.historyIndex < 0 then (t.history.length : ℤ) - 1
            else max 0 (t.historyIndex - 1)) < 0 then ""
          else t.history.getD
            (if t.historyIndex < 0 then (t.history.length : ℤ) - 1
              else max 0 (t.historyIndex - 1)).toNat "") := by
  have hlen : t.history.length ≠ 0 := fun h => hne (List.length_eq_zero.mp h)
  simp [onKeyDown, arrowUp, hcf, hlen]

/-- After `j + 1` presses from outside the history the index is `n - (j + 1)`,
cut off at 0, and the input is the command at that index. -/
lemma pressUp_succ (s : AppState) (hne : s.history ≠ []) (hidx : s.historyIndex = -1)
    (hcf : s.contactForm.active = false) :
    ∀ j : Nat,
      (pressUp (j + 1) s).history = s.history ∧
        (pressUp (j + 1) s).contactForm.active = false ∧
        (pressUp (j + 1) s).historyIndex = ((s.history.length - (j + 1) : Nat) : ℤ) ∧
        (pressUp (j + 1) s).input = s.history.getD (s.history.length - (j + 1)) "" := by
  have hlen : 0 < s.history.length := List.length_pos.mpr hne
  intro j
  induction j with
  | zero =>
    obtain ⟨h1, h2, h3, h4⟩ := onKeyDown_arrowUp s hne hcf
    have hpress : pressUp (0 + 1) s = onKeyDown s arrowUp := rfl
    rw [hpress]
    have hi : (if s.historyIndex < 0 then (s.history.length : ℤ) - 1
        else max 0 (s.historyIndex - 1)) = ((s.history.length - (0 + 1) : Nat) : ℤ) := by
      rw [hidx]
      simp only [show ((-1 : ℤ) < 0) from by norm_num, if_true]
      omega
    rw [hi] at h3 h4
    refine ⟨h1, by rw [h2]; exact hcf, h3, ?_⟩
    rw [h4]
    simp
  | succ j ih =>
    obtain ⟨ih1, ih2, ih3, -⟩ := ih
    have hpress : pressUp (j + 1 + 1) s = onKeyDown (pressUp (j + 1) s) arrowUp := by
      simp only [pressUp]
      exact Function.iterate_succ_apply' _ _ _
    obtain ⟨h1, h2, h3, h4⟩ := onKeyDown_arrowUp (pressUp (j + 1) s) (by rw [ih1]; exact hne) ih2
    rw [hpress]
    have hi : (if (pressUp (j + 1) s).historyIndex < 0
        then ((pressUp (j + 1) s).history.length : ℤ) - 1
        else max 0 ((pressUp (j + 1) s).historyIndex - 1)) =
        ((s.history.length - (j + 1 + 1) : Nat) : ℤ) := by
      rw [ih3]
      have hnn : ¬ (((s.history.length - (j + 1) : Nat) : ℤ) < 0) := by omega
      simp only [hnn, if_false]
      omega
    rw [hi] at h3 h4
    refine ⟨h1.trans ih1, by rw [h2]; exact ih2, h3, ?_⟩
    rw [h4, ih1]
    simp

end App

/-- C20: with a non-empty history of `n` commands, no navigation in progress
(`historyIndex = -1`) and the contact form inactive, the `k`-th consecutive
`ArrowUp` press, `1 ≤ k ≤ n`, sets the input to `history[n - k]`, every further
press keeps it at `history[0]`, and the history itself is untouched; and a
submitted non-blank input is appended to the history with the index reset to
`-1` and the input cleared, whatever the command did. -/
theorem App.history_arrow_up (s : AppState) (k : Nat) (hne : s.history ≠ [])
    (hidx : s.historyIndex = -1) (hcf : s.contactForm.active = false) (hk : 1 ≤ k) :
    (k ≤ s.history.length →
        s.history[s.history.length - k]? = some (App.pressUp k s).input) ∧
      (s.history.length < k → s.history[0]? = some (App.pressUp k s).input) ∧
      (App.pressUp k s).history = s.history ∧
      ∀ (handleCommand : AppState → String → AppState) (t : AppState), jsTrim t.input ≠ "" →
        (App.onSubmit handleCommand t).historyIndex = -1 ∧
          (App.onSubmit handleCommand t).input = "" ∧
          (App.onSubmit handleCommand t).history.getLast? = some t.input := by
  have hlen : 0 < s.history.length := List.length_pos.mpr hne
  obtain ⟨j, rfl⟩ : ∃ j, k = j + 1 := ⟨k - 1, by omega⟩
  obtain ⟨h1, -, -, h4⟩ := App.pressUp_succ s hne hidx hcf j
  refine ⟨?_, ?_, h1, ?_⟩
  · intro _
    rw [h4, List.getD_eq_getElem _ _ (by omega : s.history.length - (j + 1) < s.history.length)]
    exact List.getElem?_eq_getElem _
  · intro hlt
    rw [h4, show s.history.length - (j + 1) = 0 from by omega,
      List.getD_eq_getElem _ _ hlen]
    exact List.getElem?_eq_getElem _
  · intro handleCommand t ht
    simp [App.onSubmit, ht]

/-- Witness of C20: after `help` and `ls` were submitted, the first `ArrowUp`
shows `ls`. -/
theorem App.history_arrow_up_witness :
    ({ history := ["help", "ls"] } : AppState).history ≠ [] ∧
      ({ history := ["help", "ls"] } : AppState).history[
          ({ history := ["help", "ls"] } : AppState).history.length - 1]? =
        some (App.pressUp 1 { history := ["help", "ls"] }).input :=
  ⟨by decide,
    (App.history_arrow_up { history := ["help", "ls"] } 1 (by decide) rfl rfl (le_refl 1)).1
      (by decide)⟩

/-! ### Command history, downwards -/

namespace App

/-- One `ArrowDown` press with a non-empty history and the contact form inactive. -/
lemma onKeyDown_arrowDown (t : AppState) (hne : t.history ≠ [])
    (hcf : t.contactForm.active = false) :
    (onKeyDown t arrowDown).history = t.history ∧
      (onKeyDown t arrowDown).historyIndex =
        (if t.historyIndex < 0 then -1
          else min ((t.history.length : ℤ) - 1) (t.historyIndex + 1)) ∧
      (onKeyDown t arrowDown).input =
        (if (if t.historyIndex < 0 then (-1 : ℤ)
            else min ((t.history.length : ℤ) - 1) (t.historyIndex + 1)) = -1 then ""
          else if (if t.historyIndex < 0 then (-1 : ℤ)
            else min ((t.history.length : ℤ) - 1) (t.historyIndex + 1)) < 0 then ""
          else t.history.getD
            (if t.historyIndex < 0 then (-1 : ℤ)
              else min ((t.history.length : ℤ) - 1) (t.historyIndex + 1)).toNat "") := by
  have hlen : t.history.length ≠ 0 := fun h => hne (List.length_eq_zero.mp h)
  simp [onKeyDown, arrowDown, hcf, hlen]

end App

/-- C21, as the code behaves: while the command at index `i` of a history of
`n` commands is shown (contact form inactive), `ArrowDown` shows the command at
index `i + 1` when `i < n - 1`; when the newest command is shown (`i = n - 1`)
it leaves the index at `n - 1` and the input at that newest command, and does
not clear it. The history itself is untouched. -/
theorem App.history_arrow_down (s : AppState) (i : Nat) (hi : s.historyIndex = i)
    (hn : i < s.history.length) (hcf : s.contactForm.active = false) :
    (i + 1 < s.history.length →
        (App.onKeyDown s App.arrowDown).historyIndex = i + 1 ∧
          s.history[i + 1]? = some (App.onKeyDown s App.arrowDown).input) ∧
      (i + 1 = s.history.length →
        (App.onKeyDown s App.arrowDown).historyIndex = i ∧
          s.history[i]? = some (App.onKeyDown s App.arrowDown).input) ∧
      (App.onKeyDown s App.arrowDown).history = s.history := by
  have hne : s.history ≠ [] := by
    intro h
    rw [h] at hn
    exact Nat.not_lt_zero _ hn
  obtain ⟨h1, h2, h3⟩ := App.onKeyDown_arrowDown s hne hcf
  have hnn : ¬ (s.historyIndex < 0) := by rw [hi]; omega
  simp only [hnn, if_false] at h2 h3
  refine ⟨?_, ?_, h1⟩
  · intro hlt
    have hmin : min ((s.history.length : ℤ) - 1) (s.historyIndex + 1) = ((i + 1 : Nat) : ℤ) := by
      rw [hi, min_eq_right (by omega)]
      push_cast
      ring
    rw [hmin] at h2 h3
    refine ⟨by rw [h2]; push_cast; ring, ?_⟩
    have h1' : ¬ (((i + 1 : Nat) : ℤ) = -1) := by omega
    have h2' : ¬ (((i + 1 : Nat) : ℤ) < 0) := by omega
    rw [h3]
    simp only [h1', h2', if_false, Int.toNat_ofNat]
    rw [List.getD_eq_getElem _ _ hlt]
    exact List.getElem?_eq_getElem _
  · intro heq
    have hmin : min ((s.history.length : ℤ) - 1) (s.historyIndex + 1) = ((i : Nat) : ℤ) := by
      rw [hi, min_eq_left (by omega)]
      omega
    rw [hmin] at h2 h3
    refine ⟨h2, ?_⟩
    have h1' : ¬ (((i : Nat) : ℤ) = -1) := by omega
    have h2' : ¬ (((i : Nat) : ℤ) < 0) := by omega
    rw [h3]
    simp only [h1', h2', if_false, Int.toNat_ofNat]
    rw [List.getD_eq_getElem _ _ hn]
    exact List.getElem?_eq_getElem _

/-- Witness of C21: the state of the repository's test before its last key
press (`help` and `ls` submitted, `ls` shown again): `ArrowDown` leaves `ls` in
the input, where the test expects the empty string. -/
theorem App.history_arrow_down_witness :
    ({ history := ["help", "ls"], historyIndex := 1, input := "ls" } : AppState).historyIndex =
        ((1 : Nat) : ℤ) ∧
      (App.onKeyDown { history := ["help", "ls"], historyIndex := 1, input := "ls" }
          App.arrowDown).historyIndex = ((1 : Nat) : ℤ) ∧
      some "ls" = some (App.onKeyDown { history := ["help", "ls"], historyIndex := 1, input := "ls" }
          App.arrowDown).input :=
  ⟨rfl,
    (App.history_arrow_down { history := ["help", "ls"], historyIndex := 1, input := "ls" } 1
      rfl (by decide) rfl).2.1 rfl⟩

/-! ### The commands -/

namespace App

/-- A command word without a `case` of its own reaches the `default` case. -/
lemma handleCommand_fallback (random : ℚ) (render s : AppState) (raw : String)
    (hcf : render.contactForm.active = false) (hne : jsTrim raw ≠ "")
    (hb : (jsSplitWhitespace (jsTrim raw)).headD "" ∉ builtinCommands) :
    handleCommand random render s raw =
      Except.ok (fallback render (printCommand render s (jsTrim raw)) (jsTrim raw)) := by
  simp only [builtinCommands, List.mem_cons, List.mem_singleton, List.not_mem_nil, or_false,
    not_or] at hb
  obtain ⟨h1, h2, h3, h4, h5, h6, h7, h8, h9, h10, h11, h12, h13, h14, h15, h16, h17, h18⟩ := hb
  simp only [handleCommand, switchCommand, hne, hcf, h1, h2, h3, h4, h5, h6, h7, h8, h9, h10, h11, h12, h13,
    h14, h15, h16, h17, h18, if_false, Bool.false_eq_true]

/-- What the lines 552-555 leave behind. -/
lemma commandNotFound_fields (render s : AppState) (command : String) :
    (commandNotFound render s command).output = s.output ++
        [{ type := "line"
           content := OutputContent.object "error" ("Command not found: " ++ command)
           animated := some render.typewriterActive }] ∧
      (commandNotFound render s command).effects =
        s.effects ++ (if render.soundEnabled then [AppEffect.soundPlay "error"] else []) ∧
      (commandNotFound render s command).soundEnabled = s.soundEnabled ∧
      (commandNotFound render s command).typewriterActive = s.typewriterActive ∧
      (commandNotFound render s command).glitchActive = s.glitchActive ∧
      (commandNotFound render s command).cwd = s.cwd := by
  unfold commandNotFound printValues
  cases render.soundEnabled <;> simp

/-- The six settings commands of the help text fall through to the lines
552-555. -/
lemma handleCommand_documented (random : ℚ) (s : AppState) (c : String)
    (hcf : s.contactForm.active = false)
    (hc : c ∈ ["sound on", "sound off", "typewriter on", "typewriter off", "glitch on",
      "glitch off"]) :
    handleCommand random s s c = Except.ok (commandNotFound s (printCommand s s c) c) := by
  have key : jsTrim c = c ∧ c ≠ "" ∧ (jsSplitWhitespace c).headD "" ∉ builtinCommands ∧
      getProperty EASTER_EGGS c = Property.undefined := by
    simp only [List.mem_cons, List.mem_singleton, List.not_mem_nil, or_false] at hc
    rcases hc with rfl | rfl | rfl | rfl | rfl | rfl <;> decide
  obtain ⟨ht, hne, hb, he⟩ := key
  rw [handleCommand_fallback random s s c hcf (by rw [ht]; exact hne) (by rw [ht]; exact hb), ht]
  simp only [fallback, he]

end App

namespace App

/-- The three toggle commands reach their cases. -/
lemma handleCommand_toggles (random : ℚ) (s : AppState) (hcf : s.contactForm.active = false) :
    handleCommand random s s "toggle-sound" =
        Except.ok (toggleSound s (printCommand s s "toggle-sound")) ∧
      handleCommand random s s "toggle-typewriter" =
        Except.ok (toggleTypewriter s (printCommand s s "toggle-typewriter")) ∧
      handleCommand random s s "toggle-glitch" =
        Except.ok (toggleGlitch s (printCommand s s "toggle-glitch")) := by
  have t1 : jsTrim "toggle-sound" = "toggle-sound" := by decide
  have t2 : jsTrim "toggle-typewriter" = "toggle-typewriter" := by decide
  have t3 : jsTrim "toggle-glitch" = "toggle-glitch" := by decide
  have s1 : jsSplitWhitespace "toggle-sound" = ["toggle-sound"] := by decide
  have s2 : jsSplitWhitespace "toggle-typewriter" = ["toggle-typewriter"] := by decide
  have s3 : jsSplitWhitespace "toggle-glitch" = ["toggle-glitch"] := by decide
  refine ⟨?_, ?_, ?_⟩
  · simp [handleCommand, switchCommand, t1, s1, hcf]
  · simp [handleCommand, switchCommand, t2, s2, hcf]
  · simp [handleCommand, switchCommand, t3, s3, hcf]

end App

/-- C22, as the code behaves: with the contact form inactive, each of the six
settings commands that the help text documents (`sound on`, `sound off`,
`typewriter on`, `typewriter off`, `glitch on`, `glitch off`) is not recognised:
`handleCommand` echoes it and reports `Command not found`, leaves the three
flags as they were and calls neither `soundEffects.enable` nor
`soundEffects.disable`. The commands that the `switch` does recognise are
`toggle-sound`, `toggle-typewriter` and `toggle-glitch`: each inverts its flag
and prints the new state, `toggle-sound` calling `init`, `enable` and
`play('startup')`, or `disable`. -/
theorem App.settings_commands (random : ℚ) (s : AppState) (c : String)
    (hcf : s.contactForm.active = false)
    (hc : c ∈ ["sound on", "sound off", "typewriter on", "typewriter off", "glitch on",
      "glitch off"]) :
    (∃ t, App.handleCommand random s s c = Except.ok t ∧
        t.soundEnabled = s.soundEnabled ∧ t.typewriterActive = s.typewriterActive ∧
        t.glitchActive = s.glitchActive ∧
        t.effects = s.effects ++ (if s.soundEnabled then [AppEffect.soundPlay "error"] else []) ∧
        t.output = s.output ++
          [{ type := "line", content := OutputContent.text (App.prompt s.cwd ++ " " ++ c) },
            { type := "line"
              content := OutputContent.object "error" ("Command not found: " ++ c)
              animated := some s.typewriterActive }]) ∧
      (∃ t, App.handleCommand random s s "toggle-sound" = Except.ok t ∧
        t.soundEnabled = !s.soundEnabled ∧
        t.effects = s.effects ++
          (if s.soundEnabled then [AppEffect.soundDisable]
            else [AppEffect.soundInit, AppEffect.soundEnable, AppEffect.soundPlay "startup"]) ∧
        t.output.getLast? = some
          { type := "line"
            content := OutputContent.text
              (if s.soundEnabled then "Sound effects disabled." else "Sound effects enabled.")
            animated := some s.typewriterActive }) ∧
      (∃ t, App.handleCommand random s s "toggle-typewriter" = Except.ok t ∧
        t.typewriterActive = !s.typewriterActive ∧
        t.output.getLast? = some
          { type := "line"
            content := OutputContent.text
              (if s.typewriterActive then "Typewriter effect disabled."
                else "Typewriter effect enabled.")
            animated := some s.typewriterActive }) ∧
      (∃ t, App.handleCommand random s s "toggle-glitch" = Except.ok t ∧
        t.glitchActive = !s.glitchActive ∧
        t.output.getLast? = some
          { type := "line"
            content := OutputContent.text
              (if s.glitchActive then "Glitch effect disabled." else "Glitch effect enabled.")
            animated := some s.typewriterActive }) := by
  obtain ⟨h1, h2, h3⟩ := App.handleCommand_toggles random s hcf
  refine ⟨⟨_, App.handleCommand_documented random s c hcf hc, ?_⟩, ⟨_, h1, ?_⟩, ⟨_, h2, ?_⟩,
    ⟨_, h3, ?_⟩⟩
  · obtain ⟨ho, he, g1, g2, g3, -⟩ :=
      App.commandNotFound_fields s (App.printCommand s s c) c
    refine ⟨g1, g2, g3, he, ?_⟩
    rw [ho]
    simp [App.printCommand]
  · cases hs : s.soundEnabled <;> simp [App.toggleSound, App.print, App.printCommand, hs]
  · cases hs : s.typewriterActive <;>
      simp [App.toggleTypewriter, App.print, App.printCommand, hs]
  · cases hs : s.glitchActive <;>
      simp [App.toggleGlitch, App.print, App.printCommand, hs]

/-- Witness of C22: `sound on` typed into the freshly mounted terminal. -/
theorem App.settings_commands_witness :
    ∃ t, App.handleCommand 0 {} {} "sound on" = Except.ok t ∧
      t.soundEnabled = ({} : AppState).soundEnabled ∧
      t.typewriterActive = ({} : AppState).typewriterActive ∧
      t.glitchActive = ({} : AppState).glitchActive ∧
      t.effects = ({} : AppState).effects ++
        (if ({} : AppState).soundEnabled then [AppEffect.soundPlay "error"] else []) ∧
      t.output = ({} : AppState).output ++
        [{ type := "line"
           content := OutputContent.text (App.prompt ({} : AppState).cwd ++ " " ++ "sound on") },
          { type := "line"
            content := OutputContent.object "error" ("Command not found: " ++ "sound on")
            animated := some ({} : AppState).typewriterActive }] :=
  (App.settings_commands 0 {} "sound on" rfl (by decide)).1

/-- C23, as the code behaves: for every input whose first word has no `case` of
its own (contact form inactive), `handleCommand` echoes the command and then:
when the command is no property of `EASTER_EGGS`, own or inherited, it appends
one entry of type `line`, not `error`, whose content is the object
`{ type: 'error', content: 'Command not found: <command>' }`, not the message
string, announces nothing and plays the error sound when sound is enabled; when
the command names a property inherited from `Object.prototype` (such as
`constructor`), it appends that inherited value as a line. -/
theorem App.command_not_found (random : ℚ) (render s : AppState) (raw : String)
    (hcf : render.contactForm.active = false) (hne : jsTrim raw ≠ "")
    (hb : (jsSplitWhitespace (jsTrim raw)).headD "" ∉ builtinCommands) :
    (getProperty EASTER_EGGS (jsTrim raw) = Property.undefined →
        ∃ t, App.handleCommand random render s raw = Except.ok t ∧
          t.output = s.output ++
            [{ type := "line"
               content := OutputContent.text (App.prompt render.cwd ++ " " ++ jsTrim raw) },
              { type := "line"
                content := OutputContent.object "error" ("Command not found: " ++ jsTrim raw)
                animated := some render.typewriterActive }] ∧
          t.effects = s.effects ++
            (if render.soundEnabled then [AppEffect.soundPlay "error"] else [])) ∧
      (getProperty EASTER_EGGS (jsTrim raw) = Property.inherited →
        ∃ t, App.handleCommand random render s raw = Except.ok t ∧
          t.output = s.output ++
            [{ type := "line"
               content := OutputContent.text (App.prompt render.cwd ++ " " ++ jsTrim raw) },
              { type := "line"
                content := OutputContent.builtin (jsTrim raw)
                animated := some render.typewriterActive }] ∧
          t.effects = s.effects) := by
  have hf := App.handleCommand_fallback random render s raw hcf hne hb
  refine ⟨fun he => ⟨_, hf, ?_⟩, fun he => ⟨_, hf, ?_⟩⟩
  · simp only [App.fallback, he]
    obtain ⟨ho, hef, -⟩ :=
      App.commandNotFound_fields render (App.printCommand render s (jsTrim raw)) (jsTrim raw)
    refine ⟨?_, hef⟩
    rw [ho]
    simp [App.printCommand]
  · simp only [App.fallback, he]
    simp [App.printValues, App.printCommand]

/-- Witness of C23: the input of the repository's test, `invalid-command`. -/
theorem App.command_not_found_witness :
    jsTrim "invalid-command" ≠ "" ∧
      ∃ t, App.handleCommand 0 {} {} "invalid-command" = Except.ok t ∧
        t.output = ({} : AppState).output ++
          [{ type := "line"
             content := OutputContent.text
              (App.prompt ({} : AppState).cwd ++ " " ++ jsTrim "invalid-command") },
            { type := "line"
              content := OutputContent.object "error"
                ("Command not found: " ++ jsTrim "invalid-command")
              animated := some ({} : AppState).typewriterActive }] ∧
        t.effects = ({} : AppState).effects ++
          (if ({} : AppState).soundEnabled then [AppEffect.soundPlay "error"] else []) :=
  ⟨by decide,
    (App.command_not_found 0 {} {} "invalid-command" rfl (by decide) (by decide)).1
      (by decide)⟩

/-! ### Keys on the PDF modal -/

namespace App

/-- The listeners on the page once both effects have run for an open modal. -/
lemma pdfModal_listeners (s : AppState) (modal : Nat) (hopen : s.showPdfModal = true) :
    (pdfModalEffect s { listeners := [], nextListener := 0 } (some modal)).1.pdfPageNumber =
        s.pdfPageNumber ∧
      (pdfModalEffect s { listeners := [], nextListener := 0 } (some modal)).1.showPdfModal =
        true ∧
      (globalKeyboardEffect
        (pdfModalEffect s { listeners := [], nextListener := 0 } (some modal)).2.1).1.listeners =
        [{ uid := 0, element := modal, type := "keydown", options := { onEscape := true } }] := by
  have hk : readKeyOptions pdfModalOptions = { onEscape := true } := by decide
  simp [pdfModalEffect, hopen, globalKeyboardEffect, addKeyboardNavigation, hk]

end App

/-- C24, as the code behaves: while the PDF modal is open, a `keydown` of
`ArrowRight` or `ArrowLeft` on the modal calls no handler and leaves the page
number and the modal as they are, because `addKeyboardNavigation` reads only
`onEnter`, `onEscape`, `onArrowUp` and `onArrowDown` from its options; `Escape`
closes the modal. The steps to `min(numPages, page + 1)` and `max(1, page - 1)`
are taken by the two buttons only. -/
theorem App.pdf_modal_keys (s : AppState) (modal : Nat) (hopen : s.showPdfModal = true) :
    (App.pdfModalKey s modal "ArrowRight").pdfPageNumber = s.pdfPageNumber ∧
      (App.pdfModalKey s modal "ArrowRight").showPdfModal = true ∧
      (App.pdfModalKey s modal "ArrowLeft").pdfPageNumber = s.pdfPageNumber ∧
      (App.pdfModalKey s modal "ArrowLeft").showPdfModal = true ∧
      (App.pdfModalKey s modal "Escape").showPdfModal = false ∧
      (PdfHandler.run s s PdfHandler.nextPage).pdfPageNumber =
        min (orPages s.pdfNumPages) (s.pdfPageNumber + 1) ∧
      (PdfHandler.run s s PdfHandler.previousPage).pdfPageNumber =
        max 1 (s.pdfPageNumber - 1) := by
  obtain ⟨h1, h2, h3⟩ := App.pdfModal_listeners s modal hopen
  refine ⟨?_, ?_, ?_, ?_, ?_, rfl, rfl⟩
  · simp only [App.pdfModalKey, App.keydown, dispatchKeydown, h3]
    simpa [handleKeyDown] using h1
  · simp only [App.pdfModalKey, App.keydown, dispatchKeydown, h3]
    simpa [handleKeyDown] using h2
  · simp only [App.pdfModalKey, App.keydown, dispatchKeydown, h3]
    simpa [handleKeyDown] using h1
  · simp only [App.pdfModalKey, App.keydown, dispatchKeydown, h3]
    simpa [handleKeyDown] using h2
  · simp only [App.pdfModalKey, App.keydown, dispatchKeydown, h3]
    simp [handleKeyDown, App.pdfModalOptions, HandlerName.property, PdfHandler.run, List.lookup]

/-- Witness of C24: page 1 of a resume of 3 pages; `ArrowRight` leaves page 1
shown, where the claim expects page 2. -/
theorem App.pdf_modal_keys_witness :
    ({ showPdfModal := true, pdfNumPages := some 3 } : AppState).showPdfModal = true ∧
      (App.pdfModalKey { showPdfModal := true, pdfNumPages := some 3 } 0
        "ArrowRight").pdfPageNumber =
        ({ showPdfModal := true, pdfNumPages := some 3 } : AppState).pdfPageNumber ∧
      ({ showPdfModal := true, pdfNumPages := some 3 } : AppState).pdfPageNumber = 1 ∧
      min (orPages ({ showPdfModal := true, pdfNumPages := some 3 } : AppState).pdfNumPages)
        (({ showPdfModal := true, pdfNumPages := some 3 } : AppState).pdfPageNumber + 1) = 2 :=
  ⟨rfl, (App.pdf_modal_keys { showPdfModal := true, pdfNumPages := some 3 } 0 rfl).1, rfl,
    by decide⟩

/-! ### The working directory -/

namespace App

lemma handleContactInput_cwd (render s : AppState) (value : String) :
    (handleContactInput render s value).cwd = s.cwd := by
  unfold handleContactInput
  split
  · rfl
  · split_ifs <;> rfl
  · rfl
  · rfl

lemma print_cwd (render s : AppState) (lines : List String) (type : String) :
    (print render s lines type).cwd = s.cwd :=
  rfl

lemma printEach_cwd (render : AppState) (f : String → String) (l : List String) :
    ∀ s : AppState, (l.foldl (fun u x => print render u [f x] "line") s).cwd = s.cwd := by
  induction l with
  | nil => intro s; rfl
  | cons a l ih =>
    intro s
    rw [List.foldl_cons, ih]
    rfl

lemma printInteractive_cwd (l : List String) :
    ∀ s : AppState, (l.foldl printInteractive s).cwd = s.cwd := by
  induction l with
  | nil => intro s; rfl
  | cons a l ih =>
    intro s
    rw [List.foldl_cons, ih]
    rfl

lemma skills_cwd (render s : AppState) : (skills render s).cwd = s.cwd := by
  simp only [skills, printEach_cwd, print_cwd]

lemma showHistory_cwd (render s : AppState) : (showHistory render s).cwd = s.cwd := by
  unfold showHistory
  split_ifs
  · rfl
  · exact printEach_cwd render (fun h => h) _ _

/-- An own property of an object literal is one of its keys. -/
lemma getProperty_own {α : Type} (object : List (String × α)) (key : String) (value : α)
    (h : getProperty object key = Property.own value) : key ∈ object.map Prod.fst := by
  unfold getProperty at h
  cases hf : object.find? (fun p => p.1 == key) with
  | none =>
    rw [hf] at h
    split_ifs at h
  | some p =>
    have hk : p.1 = key := by simpa using List.find?_some hf
    have hm : p ∈ object := List.mem_of_find?_eq_some hf
    rw [← hk]
    exact List.mem_map_of_mem _ hm

/-- An inherited property is one of the names of `Object.prototype`. -/
lemma getProperty_inherited {α : Type} (object : List (String × α)) (key : String)
    (h : getProperty object key = Property.inherited) : key ∈ objectPrototypeKeys := by
  unfold getProperty at h
  cases hf : object.find? (fun p => p.1 == key) with
  | none =>
    rw [hf] at h
    by_contra hk
    simp [hk] at h
  | some p =>
    rw [hf] at h
    cases h

/-- The path that `cd` resolves holds a slash. -/
lemma newPath_slash (cwd target : String) :
    '/' ∈ (if jsStartsWith target "/" then target
      else (if cwd = "/" then "" else cwd) ++ "/" ++ target).toList := by
  split_ifs with h1 h2
  · unfold jsStartsWith at h1
    rw [List.isPrefixOf_iff_prefix] at h1
    obtain ⟨t, ht⟩ := h1
    have : target.toList = '/' :: t := by rw [← ht]; rfl
    rw [this]
    exact List.mem_cons_self _ _
  · simp [String.toList]
  · simp [String.toList]

/-- The case `cd` keeps the working directory among the keys of `FILE_SYSTEM`. -/
lemma cd_cwd (render s : AppState) (args : List String)
    (hs : s.cwd ∈ FILE_SYSTEM.map Prod.fst) :
    (cd render s args).cwd ∈ FILE_SYSTEM.map Prod.fst := by
  unfold cd
  split
  · exact hs
  · rename_i target _
    have hsl := newPath_slash render.cwd target
    simp only []
    generalize (if jsStartsWith target "/" then target
      else (if render.cwd = "/" then "" else render.cwd) ++ "/" ++ target) = newPath at hsl ⊢
    split_ifs with h1 h2
    · exact hs
    · show "/" ∈ FILE_SYSTEM.map Prod.fst
      decide
    · cases hp : getProperty FILE_SYSTEM newPath with
      | own value => exact getProperty_own _ _ _ hp
      | inherited =>
        exfalso
        have hk := getProperty_inherited _ _ hp
        have hno : ∀ k ∈ objectPrototypeKeys, '/' ∉ k.toList := by decide
        exact hno _ hk hsl
      | undefined => exact hs

/-- The case `ls` returns when the current directory is a key of `FILE_SYSTEM`. -/
lemma ls_cwd (render s : AppState) (hr : render.cwd ∈ FILE_SYSTEM.map Prod.fst) :
    ∃ t, ls render s = Except.ok t ∧ t.cwd = s.cwd := by
  have hni : getProperty FILE_SYSTEM render.cwd ≠ Property.inherited := by
    have hcases : render.cwd = "/" ∨ render.cwd = "/projects" ∨ render.cwd = "/skills" := by
      simpa [FILE_SYSTEM] using hr
    rcases hcases with h | h | h <;> rw [h] <;> decide
  unfold ls
  cases hp : getProperty FILE_SYSTEM render.cwd with
  | inherited => exact absurd hp hni
  | own value =>
    dsimp only
    split_ifs
    · exact ⟨_, rfl, printInteractive_cwd _ _⟩
    · exact ⟨_, rfl, rfl⟩
  | undefined =>
    dsimp only
    split_ifs
    · exact ⟨_, rfl, printInteractive_cwd _ _⟩
    · exact ⟨_, rfl, rfl⟩

lemma keepsCwd_ite (c : Prop) [Decidable c] (a b : Except Fault AppState) (ha : KeepsCwd a)
    (hb : KeepsCwd b) : KeepsCwd (if c then a else b) := by
  split_ifs
  · exact ha
  · exact hb

lemma keepsCwd_ok (t : AppState) (h : t.cwd ∈ FILE_SYSTEM.map Prod.fst) :
    KeepsCwd (Except.ok t) :=
  ⟨t, rfl, h⟩

/-- The `switch` keeps the working directory among the keys of `FILE_SYSTEM`,
and returns. -/
lemma switchCommand_cwd (random : ℚ) (render s : AppState) (command cmd : String)
    (args : List String) (hr : render.cwd ∈ FILE_SYSTEM.map Prod.fst)
    (hs : s.cwd ∈ FILE_SYSTEM.map Prod.fst) :
    KeepsCwd (switchCommand random render s command cmd args) := by
  unfold switchCommand
  refine keepsCwd_ite _ _ _ (keepsCwd_ok _ hs) ?_
  refine keepsCwd_ite _ _ _ ?_ ?_
  · obtain ⟨t, ht, hc⟩ := ls_cwd render s hr
    exact ⟨t, ht, by rw [hc]; exact hs⟩
  refine keepsCwd_ite _ _ _ (keepsCwd_ok _ (cd_cwd _ _ _ hs)) ?_
  refine keepsCwd_ite _ _ _ (keepsCwd_ok _ ?_) ?_
  · unfold cat
    split
    · exact hs
    · split_ifs <;> exact hs
  refine keepsCwd_ite _ _ _ (keepsCwd_ok _ ?_) ?_
  · simp only [openTarget]
    split_ifs <;> exact hs
  refine keepsCwd_ite _ _ _ (keepsCwd_ok _ ?_) ?_
  · simp only [video]
    split_ifs <;> exact hs
  refine keepsCwd_ite _ _ _ (keepsCwd_ok _ hs) ?_
  refine keepsCwd_ite _ _ _ (keepsCwd_ok _ ?_) ?_
  · simp only [contact]
    split_ifs <;> exact hs
  refine keepsCwd_ite _ _ _ (keepsCwd_ok _ (by rw [printInteractive_cwd]; exact hs)) ?_
  refine keepsCwd_ite _ _ _ (keepsCwd_ok _ (by rw [showHistory_cwd]; exact hs)) ?_
  refine keepsCwd_ite _ _ _ (keepsCwd_ok _ hs) ?_
  refine keepsCwd_ite _ _ _ (keepsCwd_ok _ ?_) ?_
  · simp only [toggleSound]
    split_ifs <;> exact hs
  refine keepsCwd_ite _ _ _ (keepsCwd_ok _ hs) ?_
  refine keepsCwd_ite _ _ _ (keepsCwd_ok _ hs) ?_
  refine keepsCwd_ite _ _ _ (keepsCwd_ok _ ?_) ?_
  · simp only [sudoCase]
    split_ifs <;> exact hs
  refine keepsCwd_ite _ _ _ (keepsCwd_ok _ hs) ?_
  refine keepsCwd_ite _ _ _ (keepsCwd_ok _ hs) ?_
  refine keepsCwd_ite _ _ _ (keepsCwd_ok _ (by rw [skills_cwd]; exact hs)) ?_
  refine keepsCwd_ok _ ?_
  simp only [fallback, commandNotFound]
  split
  · split_ifs <;> exact hs
  · exact hs
  · split_ifs <;> exact hs

/-- One command keeps the working directory among the keys of `FILE_SYSTEM`,
and returns. -/
lemma handleCommand_cwd (random : ℚ) (render s : AppState) (raw : String)
    (hr : render.cwd ∈ FILE_SYSTEM.map Prod.fst) (hs : s.cwd ∈ FILE_SYSTEM.map Prod.fst) :
    KeepsCwd (handleCommand random render s raw) := by
  unfold handleCommand
  refine keepsCwd_ite _ _ _ (keepsCwd_ok _ hs) ?_
  refine keepsCwd_ite _ _ _ (keepsCwd_ok _ (by rw [handleContactInput_cwd]; exact hs)) ?_
  exact switchCommand_cwd _ _ _ _ _ _ hr hs

/-- Every sequence of commands returns and keeps the working directory among
the keys of `FILE_SYSTEM`. -/
lemma runCommands_cwd (cs : List (ℚ × String)) :
    ∀ s : AppState, s.cwd ∈ FILE_SYSTEM.map Prod.fst →
      ∃ t, runCommands s cs = Except.ok t ∧ t.cwd ∈ FILE_SYSTEM.map Prod.fst := by
  induction cs with
  | nil => intro s hs; exact ⟨s, rfl, hs⟩
  | cons c cs ih =>
    intro s hs
    obtain ⟨t, ht, hc⟩ := handleCommand_cwd c.1 s s c.2 hs hs
    obtain ⟨u, hu, hcu⟩ := ih t hc
    exact ⟨u, by simp only [runCommands, ht]; exact hu, hcu⟩

/-- An input that reads `cd <target> ...` reaches the case `cd`. -/
lemma handleCommand_cd (random : ℚ) (render s : AppState) (raw target : String)
    (rest : List String) (hcf : render.contactForm.active = false)
    (hw : jsSplitWhitespace (jsTrim raw) = "cd" :: target :: rest) :
    handleCommand random render s raw =
      Except.ok (cd render (printCommand render s (jsTrim raw)) (target :: rest)) := by
  have hne : jsTrim raw ≠ "" := by
    intro h
    rw [h, show jsSplitWhitespace "" = [""] from by decide] at hw
    simp at hw
  simp [handleCommand, switchCommand, hne, hcf, hw]

end App

namespace App

/-- A path that is no key of `FILE_SYSTEM` and holds a slash is not found. -/
lemma getProperty_undefined (path : String) (hs : '/' ∈ path.toList)
    (hk : path ∉ FILE_SYSTEM.map Prod.fst) :
    getProperty FILE_SYSTEM path = Property.undefined := by
  cases hp : getProperty FILE_SYSTEM path with
  | own value => exact absurd (getProperty_own _ _ _ hp) hk
  | inherited =>
    have hno : ∀ k ∈ objectPrototypeKeys, '/' ∉ k.toList := by decide
    exact absurd hs (hno _ (getProperty_inherited _ _ hp))
  | undefined => rfl

/-- The three outcomes of the case `cd` for a non-empty target. -/
lemma cd_cases (render s : AppState) (target : String) (rest : List String) :
    (target = "/" ∨ target = "~" → cd render s (target :: rest) = { s with cwd := "/" }) ∧
      (target ≠ "" → target ≠ "/" → target ≠ "~" →
        (if jsStartsWith target "/" then target
          else (if render.cwd = "/" then "" else render.cwd) ++ "/" ++ target) ∉
            FILE_SYSTEM.map Prod.fst →
        cd render s (target :: rest) =
          print render s ["cd: no such file or directory: " ++ target] "line") ∧
      (target ≠ "" → target ≠ "/" → target ≠ "~" →
        (if jsStartsWith target "/" then target
          else (if render.cwd = "/" then "" else render.cwd) ++ "/" ++ target) ∈
            FILE_SYSTEM.map Prod.fst →
        cd render s (target :: rest) =
          { s with
            cwd := if jsStartsWith target "/" then target
              else (if render.cwd = "/" then "" else render.cwd) ++ "/" ++ target }) := by
  refine ⟨?_, ?_, ?_⟩
  · intro h
    have hne : target ≠ "" := by
      rcases h with h | h <;> rw [h] <;> decide
    simp [cd, hne, h]
  · intro h1 h2 h3 hk
    have hu := getProperty_undefined _ (newPath_slash render.cwd target) hk
    simp only [cd, List.head?, h1, h2, h3, or_self, if_false, hu]
  · intro h1 h2 h3 hk
    have hfound : getProperty FILE_SYSTEM
        (if jsStartsWith target "/" then target
          else (if render.cwd = "/" then "" else render.cwd) ++ "/" ++ target) ≠
        Property.undefined := by
      generalize (if jsStartsWith target "/" then target
        else (if render.cwd = "/" then "" else render.cwd) ++ "/" ++ target) = newPath at hk ⊢
      have hcases : newPath = "/" ∨ newPath = "/projects" ∨ newPath = "/skills" := by
        simpa [FILE_SYSTEM] using hk
      rcases hcases with h | h | h <;> rw [h] <;> decide
    simp only [cd, List.head?, h1, h2, h3, or_self, if_false]

end App

/-- C30: the own keys of `FILE_SYSTEM` are `/`, `/projects` and `/skills`;
starting from the initial state, every sequence of commands handled by
`handleCommand` (one per render) returns and leaves `cwd` among these keys, and
so does one command from any state whose `cwd` is among them. For an input
that reads `cd <target>` with the contact form inactive: `cd /` and `cd ~` set
`cwd` to `/`; a target whose resolved path (the target itself when it starts
with a slash, otherwise `cwd` joined with it) is no key leaves `cwd` unchanged
and prints `cd: no such file or directory: <target>`; a target whose resolved
path is a key sets `cwd` to it. -/
theorem App.cwd_invariant (cs : List (ℚ × String)) (random : ℚ) (s : AppState)
    (raw target : String) (rest : List String) (hcf : s.contactForm.active = false)
    (hw : jsSplitWhitespace (jsTrim raw) = "cd" :: target :: rest) :
    FILE_SYSTEM.map Prod.fst = ["/", "/projects", "/skills"] ∧
      (∃ t, App.runCommands {} cs = Except.ok t ∧ t.cwd ∈ FILE_SYSTEM.map Prod.fst) ∧
      (∀ (r : ℚ) (u : AppState) (input : String), u.cwd ∈ FILE_SYSTEM.map Prod.fst →
        ∃ t, App.handleCommand r u u input = Except.ok t ∧ t.cwd ∈ FILE_SYSTEM.map Prod.fst) ∧
      (target = "/" ∨ target = "~" →
        ∃ t, App.handleCommand random s s raw = Except.ok t ∧ t.cwd = "/") ∧
      (target ≠ "" → target ≠ "/" → target ≠ "~" →
        (if jsStartsWith target "/" then target
          else (if s.cwd = "/" then "" else s.cwd) ++ "/" ++ target) ∉
            FILE_SYSTEM.map Prod.fst →
        ∃ t, App.handleCommand random s s raw = Except.ok t ∧ t.cwd = s.cwd ∧
          t.output = s.output ++
            [{ type := "line"
               content := OutputContent.text (App.prompt s.cwd ++ " " ++ jsTrim raw) },
              { type := "line"
                content := OutputContent.text ("cd: no such file or directory: " ++ target)
                animated := some s.typewriterActive }]) ∧
      (target ≠ "" → target ≠ "/" → target ≠ "~" →
        (if jsStartsWith target "/" then target
          else (if s.cwd = "/" then "" else s.cwd) ++ "/" ++ target) ∈
            FILE_SYSTEM.map Prod.fst →
        ∃ t, App.handleCommand random s s raw = Except.ok t ∧
          t.cwd = (if jsStartsWith target "/" then target
            else (if s.cwd = "/" then "" else s.cwd) ++ "/" ++ target)) := by
  have hcd := App.handleCommand_cd random s s raw target rest hcf hw
  obtain ⟨c1, c2, c3⟩ := App.cd_cases s (App.printCommand s s (jsTrim raw)) target rest
  refine ⟨rfl, App.runCommands_cwd cs {} (by decide),
    fun r u input hu => App.handleCommand_cwd r u u input hu hu, ?_, ?_, ?_⟩
  · intro h
    exact ⟨_, hcd, by rw [c1 h]⟩
  · intro h1 h2 h3 hk
    refine ⟨_, hcd, by rw [c2 h1 h2 h3 hk]; rfl, ?_⟩
    rw [c2 h1 h2 h3 hk]
    simp [App.print, App.printCommand]
  · intro h1 h2 h3 hk
    exact ⟨_, hcd, by rw [c3 h1 h2 h3 hk]⟩

/-- Witness of C30: `cd nowhere` typed into the freshly mounted terminal. -/
theorem App.cwd_invariant_witness :
    jsSplitWhitespace (jsTrim "cd nowhere") = "cd" :: "nowhere" :: [] ∧
      (∃ t, App.runCommands {} [(0, "cd projects"), (0, "cd .."), (0, "ls")] = Except.ok t ∧
        t.cwd ∈ FILE_SYSTEM.map Prod.fst) ∧
      ∃ t, App.handleCommand 0 {} {} "cd nowhere" = Except.ok t ∧
        t.cwd = ({} : AppState).cwd ∧
        t.output = ({} : AppState).output ++
          [{ type := "line"
             content := OutputContent.text
              (App.prompt ({} : AppState).cwd ++ " " ++ jsTrim "cd nowhere") },
            { type := "line"
              content := OutputContent.text ("cd: no such file or directory: " ++ "nowhere")
              animated := some ({} : AppState).typewriterActive }] :=
  have h := App.cwd_invariant [(0, "cd projects"), (0, "cd .."), (0, "ls")] 0 {} "cd nowhere"
    "nowhere" [] rfl (by decide)
  ⟨by decide, h.2.1, h.2.2.2.2.1 (by decide) (by decide) (by decide) (by decide)⟩

/-! ### The fill style of the trail -/

namespace BackgroundAnimation

/-- A one-character pattern that first occurs after `before` is replaced there. -/
lemma replaceFirst_char (c : Char) (replacement : List Char) :
    ∀ before after : List Char, c ∉ before →
      replaceFirst [c] replacement (before ++ c :: after) = before ++ replacement ++ after := by
  intro before
  induction before with
  | nil =>
    intro after _
    simp [replaceFirst, List.isPrefixOf]
  | cons a before ih =>
    intro after hc
    have hne : ¬ (c = a) := fun h => hc (by rw [h]; exact List.mem_cons_self _ _)
    have hrest : c ∉ before := fun h => hc (List.mem_cons_of_mem _ h)
    simp [replaceFirst, List.isPrefixOf, hne, ih after hrest]

/-- A pattern whose first character does not occur in the text is not found:
the text is left as it is. -/
lemma replaceFirst_absent (c : Char) (pattern replacement : List Char) :
    ∀ text : List Char, c ∉ text → replaceFirst (c :: pattern) replacement text = text := by
  intro text
  induction text with
  | nil => intro _; simp [replaceFirst]
  | cons a text ih =>
    intro hc
    have hne : ¬ (c = a) := fun h => hc (by rw [h]; exact List.mem_cons_self _ _)
    have hrest : c ∉ text := fun h => hc (List.mem_cons_of_mem _ h)
    simp [replaceFirst, List.isPrefixOf, hne, ih hrest]

/-- The two replacements of line 147 on a colour that starts with `rgb` and
whose first closing bracket comes after `middle`. -/
lemma trailStyle_rgb (numberToString : ℚ → String) (o : ℚ) (middle rest : List Char)
    (hm : ')' ∉ middle) :
    trailStyle (String.mk ('r' :: 'g' :: 'b' :: middle ++ ')' :: rest)) numberToString (some o) =
      String.mk ('r' :: 'g' :: 'b' :: 'a' :: middle ++
        (", " ++ numberToString o ++ ")").toList ++ rest) := by
  have h1 : replaceFirst [')'] (", " ++ numberToString o ++ ")").toList
      ('r' :: 'g' :: 'b' :: middle ++ ')' :: rest) =
      'r' :: 'g' :: 'b' :: middle ++ (", " ++ numberToString o ++ ")").toList ++ rest := by
    have h := replaceFirst_char ')' (", " ++ numberToString o ++ ")").toList
      ('r' :: 'g' :: 'b' :: middle) rest (by simp [hm])
    simpa using h
  simp only [String.toList] at h1
  simp only [trailStyle, jsReplace, String.toList]
  rw [h1]
  simp [replaceFirst, List.isPrefixOf]

end BackgroundAnimation

/-- C26, as the code behaves: the two replacements of line 147 turn a colour
`rgb(<body>)` into `rgba(<body>, <o>)`, but a colour `rgba(<body>)` into
`rgbaa(<body>, <o>)`, which is no colour: the second replacement doubles the
`a`. For the application's colour `rgba(0, 255, 0, 1)` the style set is
`rgbaa(0, 255, 0, 1, <o>)`. A colour without a closing bracket, such as the
default `#00FF00`, is set unchanged, without the opacity. -/
theorem BackgroundAnimation.trail_style (numberToString : ℚ → String) (o : ℚ)
    (body : String) (hb : ')' ∉ body.toList) :
    BackgroundAnimation.trailStyle ("rgb(" ++ body ++ ")") numberToString (some o) =
        "rgba(" ++ body ++ ", " ++ numberToString o ++ ")" ∧
      BackgroundAnimation.trailStyle ("rgba(" ++ body ++ ")") numberToString (some o) =
        "rgbaa(" ++ body ++ ", " ++ numberToString o ++ ")" ∧
      BackgroundAnimation.trailStyle "rgba(0, 255, 0, 1)" numberToString (some o) =
        "rgbaa(0, 255, 0, 1, " ++ numberToString o ++ ")" ∧
      BackgroundAnimation.trailStyle "#00FF00" numberToString (some o) = "#00FF00" := by
  refine ⟨?_, ?_, ?_, ?_⟩
  · have h := BackgroundAnimation.trailStyle_rgb numberToString o ('(' :: body.toList) []
      (by simpa [String.toList] using hb)
    have hl : "rgb(" ++ body ++ ")" = String.mk ('r' :: 'g' :: 'b' :: ('(' :: body.toList) ++
        ')' :: []) := by
      apply String.ext
      simp [String.toList]
    rw [hl, h]
    apply String.ext
    simp [String.toList]
  · have h := BackgroundAnimation.trailStyle_rgb numberToString o ('a' :: '(' :: body.toList) []
      (by simpa [String.toList] using hb)
    have hl : "rgba(" ++ body ++ ")" = String.mk ('r' :: 'g' :: 'b' ::
        ('a' :: '(' :: body.toList) ++ ')' :: []) := by
      apply String.ext
      simp [String.toList]
    rw [hl, h]
    apply String.ext
    simp [String.toList]
  · have h := BackgroundAnimation.trailStyle_rgb numberToString o "a(0, 255, 0, 1".toList []
      (by decide)
    have hl : "rgba(0, 255, 0, 1)" = String.mk ('r' :: 'g' :: 'b' :: "a(0, 255, 0, 1".toList ++
        ')' :: []) := by decide
    rw [hl, h]
    apply String.ext
    simp [String.toList]
  · have h1 : BackgroundAnimation.replaceFirst [')'] (", " ++ numberToString o ++ ")").toList
        "#00FF00".toList = "#00FF00".toList :=
      BackgroundAnimation.replaceFirst_absent ')' [] _ _ (by decide)
    have h2 : BackgroundAnimation.replaceFirst "rgb".toList "rgba".toList "#00FF00".toList =
        "#00FF00".toList := by decide
    simp only [BackgroundAnimation.trailStyle, BackgroundAnimation.jsReplace]
    rw [show (")" : String).toList = [')'] from rfl, h1]
    rw [show (String.mk "#00FF00".toList).toList = "#00FF00".toList from rfl, h2]
    rfl

/-- Witness of C26: the body `0, 255, 0` and the opacity `1/2`. -/
theorem BackgroundAnimation.trail_style_witness :
    ')' ∉ "0, 255, 0".toList ∧
      BackgroundAnimation.trailStyle ("rgba(" ++ "0, 255, 0" ++ ")")
          (fun q => toString q.num ++ "/" ++ toString q.den) (some (1 / 2)) =
        "rgbaa(" ++ "0, 255, 0" ++ ", " ++ (fun q : ℚ => toString q.num ++ "/" ++ toString q.den)
          (1 / 2) ++ ")" :=
  ⟨by decide,
    (BackgroundAnimation.trail_style (fun q => toString q.num ++ "/" ++ toString q.den) (1 / 2)
      "0, 255, 0" (by decide)).2.1⟩

/-! ### The draw calls of a frame -/

namespace BackgroundAnimation

/-- The opacity of line 144 at a trail position inside a drop whose length is
the number of its glyphs. -/
lemma trailOpacity_inside (d : Drop) (j : Nat) (hlen : (d.chars.length : ℤ) = d.length)
    (hj : j < d.chars.length) :
    trailOpacity d j = some (if j = 0 then (1 : ℚ) else 1 - (j : ℚ) / (d.length : ℚ)) ∧
      (0 : ℚ) < (if j = 0 then (1 : ℚ) else 1 - (j : ℚ) / (d.length : ℚ)) ∧
      (if j = 0 then (1 : ℚ) else 1 - (j : ℚ) / (d.length : ℚ)) ≤ 1 := by
  have hpos : (0 : ℚ) < d.length := by
    have : (0 : ℤ) < d.length := by omega
    exact_mod_cast this
  have hne : d.length ≠ 0 := by
    intro h
    rw [h] at hpos
    simp at hpos
  by_cases h0 : j = 0
  · simp [trailOpacity, h0]
  · have hjl : (j : ℚ) < d.length := by
      have : (j : ℤ) < d.length := by omega
      exact_mod_cast this
    have hq : (j : ℚ) / d.length < 1 := (div_lt_one hpos).mpr hjl
    have hq0 : (0 : ℚ) ≤ (j : ℚ) / d.length := div_nonneg (Nat.cast_nonneg _) (le_of_lt hpos)
    refine ⟨by simp [trailOpacity, h0, hne], ?_, ?_⟩
    · simp only [h0, if_false]
      linarith
    · simp only [h0, if_false]
      linarith

/-- One turn of the trail loop: the calls it adds, and the glyphs it leaves
alone. -/
lemma trailStep_log (e : BackgroundAnimation) (d : Drop) (st : List String × Browser) (j : Nat) :
    (trailStep e d st j).2.drawLog = st.2.drawLog ++
        (DrawCall.fillStyle
            (trailStyle e.options.color st.2.numberToString (trailOpacity d j)) ::
          (if 0 < d.y - j * e.options.fontSize ∧ d.y - j * e.options.fontSize < e.canvas.height
            then [DrawCall.fillText (st.1.getD j "") d.x (d.y - j * e.options.fontSize)]
            else [])) ∧
      (trailStep e d st j).2.numberToString = st.2.numberToString ∧
      (trailStep e d st j).1.length = st.1.length ∧
      ∀ k, j < k → (trailStep e d st j).1.getD k "" = st.1.getD k "" := by
  unfold trailStep
  simp only [Browser.rand, getRandomChar]
  have hset : ∀ (c : String) (k : Nat), j ≠ 0 → j < k →
      (setChar st.1 j c).getD k "" = st.1.getD k "" := by
    intro c k hj hk
    have hne : ¬ (j = 0 ∧ st.1 = []) := fun h => hj h.1
    simp only [setChar, hne, if_false, List.getD_eq_getElem?_getD]
    rw [List.getElem?_set_ne (by omega)]
  have hlen : ∀ c : String, j ≠ 0 → (setChar st.1 j c).length = st.1.length := by
    intro c hj
    have hne : ¬ (j = 0 ∧ st.1 = []) := fun h => hj h.1
    simp only [setChar, hne, if_false, List.length_set]
  by_cases h0 : j = 0
  · subst h0
    simp only [if_true]
    split_ifs <;> simp
  · simp only [h0, if_false]
    split_ifs
    · exact ⟨by simp, rfl, hlen _ h0, fun k hk => hset _ k h0 hk⟩
    · exact ⟨by simp, rfl, rfl, fun _ _ => rfl⟩
    · exact ⟨by simp, rfl, hlen _ h0, fun k hk => hset _ k h0 hk⟩
    · exact ⟨by simp, rfl, rfl, fun _ _ => rfl⟩

/-- The trail loop over the first `n` positions of a drop whose length is the
number of its glyphs. -/
lemma trail_log (e : BackgroundAnimation) (d : Drop) (b : Browser)
    (hlen : (d.chars.length : ℤ) = d.length) :
    ∀ n, n ≤ d.chars.length →
      ((List.range n).foldl (trailStep e d) (d.chars, b)).2.drawLog =
          b.drawLog ++ (List.range n).flatMap (trailDraws e b.numberToString d) ∧
        ((List.range n).foldl (trailStep e d) (d.chars, b)).2.numberToString =
          b.numberToString ∧
        ((List.range n).foldl (trailStep e d) (d.chars, b)).1.length = d.chars.length ∧
        ∀ k, n ≤ k →
          ((List.range n).foldl (trailStep e d) (d.chars, b)).1.getD k "" =
            d.chars.getD k "" := by
  intro n
  induction n with
  | zero =>
    intro _
    exact ⟨by simp, rfl, rfl, fun _ _ => rfl⟩
  | succ n ih =>
    intro hn
    obtain ⟨i1, i2, i3, i4⟩ := ih (by omega)
    obtain ⟨s1, s2, s3, s4⟩ :=
      trailStep_log e d ((List.range n).foldl (trailStep e d) (d.chars, b)) n
    obtain ⟨ho, -, -⟩ := trailOpacity_inside d n hlen (by omega)
    rw [List.range_succ, List.foldl_append, List.flatMap_append]
    simp only [List.foldl_cons, List.foldl_nil, List.flatMap_cons, List.flatMap_nil,
      List.append_nil]
    refine ⟨?_, by rw [s2, i2], by rw [s3, i3], fun k hk => ?_⟩
    · rw [s1, i1, i2, i4 n (le_refl n), ho, List.append_assoc]
      rfl
    · rw [s4 k (by omega), i4 k (by omega)]

/-- The body of the loop over the drops draws what the specification
prescribes for the drop. -/
lemma stepDrop_log (e : BackgroundAnimation) (d : Drop) (b : Browser)
    (hlen : (d.chars.length : ℤ) = d.length) :
    (stepDrop e d b).2.drawLog = b.drawLog ++ dropDraws e b.numberToString d ∧
      (stepDrop e d b).2.numberToString = b.numberToString := by
  obtain ⟨h1, h2, -, -⟩ := trail_log e d b hlen d.chars.length (le_refl _)
  unfold stepDrop
  simp only [Browser.rand, getRandomChar]
  split_ifs
  · exact ⟨h1, h2⟩
  · exact ⟨h1, h2⟩

lemma stepDrops_log (e : BackgroundAnimation) (ds : List Drop) :
    ∀ b : Browser, (∀ d ∈ ds, (d.chars.length : ℤ) = d.length) →
      (stepDrops e ds b).2.drawLog = b.drawLog ++ ds.flatMap (dropDraws e b.numberToString) ∧
        (stepDrops e ds b).2.numberToString = b.numberToString := by
  induction ds with
  | nil =>
    intro b _
    simp [stepDrops]
  | cons d ds ih =>
    intro b hall
    obtain ⟨h1, h2⟩ := stepDrop_log e d b (hall d (List.mem_cons_self _ _))
    obtain ⟨i1, i2⟩ := ih (stepDrop e d b).2 (fun x hx => hall x (List.mem_cons_of_mem _ hx))
    simp only [stepDrops, List.flatMap_cons]
    refine ⟨?_, by rw [i2, h2]⟩
    rw [i1, h1, h2, List.append_assoc]

/-- The glitch paints no glyph. -/
lemma addGlitch_log (e : BackgroundAnimation) (b : Browser) :
    ∃ rest, (addGlitch e b).drawLog = b.drawLog ++ rest ∧
      ∀ c ∈ rest, IsFillText c = false := by
  unfold addGlitch
  split_ifs
  · exact ⟨[], by simp, by simp⟩
  · refine ⟨_, by simp only [List.append_assoc]; rfl, ?_⟩
    intro c hc
    simp only [List.mem_append, List.mem_cons, List.mem_singleton, List.not_mem_nil,
      or_false] at hc
    rcases hc with rfl | hc | rfl | rfl | rfl
    · rfl
    · split_ifs at hc
      · simp only [List.mem_cons, List.mem_singleton, List.not_mem_nil, or_false] at hc
        rcases hc with rfl | rfl | rfl <;> rfl
      · simp at hc
    · rfl
    · rfl
    · rfl

/-- A frame of an enabled engine: the calls of the loop over the drops, then
calls that paint no glyph. -/
lemma animate_log (e : BackgroundAnimation) (b : Browser) (he : e.disabled = false)
    (hn : e.ctx.isNone = false) :
    ∃ rest, (animate e b).2.drawLog =
        (stepDrops e e.drops (paintBackground e b)).2.drawLog ++ rest ∧
      ∀ c ∈ rest, IsFillText c = false := by
  unfold animate
  simp only [he, hn, Bool.or_self, Bool.false_eq_true, if_false, Browser.rand]
  split_ifs
  all_goals
    first
    | exact addGlitch_log _ _
    | exact ⟨[], by simp [requestAnimationFrame], by simp⟩

end BackgroundAnimation

/-- C25: on an engine that is not disabled and whose drops have as many glyphs
as their length says (as `initDrops` makes them), one frame step paints the
background, then for every drop in order and every trail position
`j = 0, ..., length - 1` sets the fill style for the opacity `1` (`j = 0`) or
`1 - j / length` (`j > 0`), which lies in `(0, 1]`, and then paints the glyph
of position `j` at `(x, y - j * fontSize)` exactly when
`0 < y - j * fontSize < surfaceHeight`, with `y` the position of the drop
before the step; whatever follows in the frame paints no glyph. -/
theorem BackgroundAnimation.trail_drawing (e : BackgroundAnimation) (b : Browser)
    (he : e.disabled = false) (hc : e.ctx.isSome = true)
    (hlen : ∀ d ∈ e.drops, (d.chars.length : ℤ) = d.length) :
    (∃ rest, (BackgroundAnimation.animate e b).2.drawLog =
        b.drawLog ++
          [DrawCall.fillStyle e.options.backgroundColor,
            DrawCall.fillRect 0 0 e.canvas.width e.canvas.height,
            DrawCall.font (b.numberToString e.options.fontSize ++ "px monospace")] ++
          e.drops.flatMap (BackgroundAnimation.dropDraws e b.numberToString) ++ rest ∧
        ∀ c ∈ rest, BackgroundAnimation.IsFillText c = false) ∧
      ∀ d ∈ e.drops, ∀ j, j < d.chars.length →
        BackgroundAnimation.trailOpacity d j =
            some (if j = 0 then (1 : ℚ) else 1 - (j : ℚ) / (d.length : ℚ)) ∧
          (0 : ℚ) < (if j = 0 then (1 : ℚ) else 1 - (j : ℚ) / (d.length : ℚ)) ∧
          (if j = 0 then (1 : ℚ) else 1 - (j : ℚ) / (d.length : ℚ)) ≤ 1 ∧
          (DrawCall.fillText (d.chars.getD j "") d.x (d.y - j * e.options.fontSize) ∈
              BackgroundAnimation.trailDraws e b.numberToString d j ↔
            0 < d.y - j * e.options.fontSize ∧ d.y - j * e.options.fontSize < e.canvas.height) := by
  have hn : e.ctx.isNone = false := by
    cases hctx : e.ctx with
    | none => simp [hctx] at hc
    | some k => rfl
  refine ⟨?_, ?_⟩
  · obtain ⟨h1, h2⟩ := BackgroundAnimation.stepDrops_log e e.drops
      (BackgroundAnimation.paintBackground e b) hlen
    have hbg : (BackgroundAnimation.paintBackground e b).drawLog = b.drawLog ++
        [DrawCall.fillStyle e.options.backgroundColor,
          DrawCall.fillRect 0 0 e.canvas.width e.canvas.height,
          DrawCall.font (b.numberToString e.options.fontSize ++ "px monospace")] := rfl
    have hnts : (BackgroundAnimation.paintBackground e b).numberToString = b.numberToString :=
      rfl
    rw [hbg, hnts] at h1
    obtain ⟨rest, hr1, hr2⟩ := BackgroundAnimation.animate_log e b he hn
    refine ⟨rest, ?_, hr2⟩
    rw [hr1, h1]
  · intro d hd j hj
    obtain ⟨o1, o2, o3⟩ := BackgroundAnimation.trailOpacity_inside d j (hlen d hd) hj
    refine ⟨o1, o2, o3, ?_⟩
    simp only [BackgroundAnimation.trailDraws, List.mem_cons]
    constructor
    · intro h
      rcases h with h | h
      · cases h
      · split_ifs at h with hv
        · exact hv
        · simp at h
    · intro hv
      right
      simp [hv]

/-- Witness of C25: the application's engine with one drop of five glyphs whose
head is at 40; at trail position 2 the opacity is `1 - 2/5` and the glyph is
painted exactly when `0 < 40 - 2 * 16 < 800`. -/
theorem BackgroundAnimation.trail_drawing_witness :
    BackgroundAnimation.topEngine.disabled = false ∧
      BackgroundAnimation.topEngine.ctx.isSome = true ∧
      (∀ d ∈ BackgroundAnimation.topEngine.drops, (d.chars.length : ℤ) = d.length) ∧
      BackgroundAnimation.trailOpacity BackgroundAnimation.headDrop 2 =
        some (if 2 = 0 then (1 : ℚ) else 1 - ((2 : Nat) : ℚ) /
          (BackgroundAnimation.headDrop.length : ℚ)) :=
  have hlen : ∀ d ∈ BackgroundAnimation.topEngine.drops, (d.chars.length : ℤ) = d.length := by
    intro d hd
    have : d = BackgroundAnimation.headDrop := by
      simpa [BackgroundAnimation.topEngine] using hd
    rw [this]
    rfl
  ⟨rfl, rfl, hlen,
    ((BackgroundAnimation.trail_drawing BackgroundAnimation.topEngine (Browser.desktop (1 / 2))
      rfl rfl hlen).2 BackgroundAnimation.headDrop
        (by simp [BackgroundAnimation.topEngine]) 2 (by decide)).1⟩

/-! ### Drops are recycled, never created or destroyed -/

namespace BackgroundAnimation

lemma randomChars_length (chars : List Char) (random : Nat → ℚ) :
    ∀ count draws, (randomChars chars random count draws).length = count := by
  intro count
  induction count with
  | zero => intro draws; rfl
  | succ n ih =>
    intro draws
    simp [randomChars, ih]

/-- A drop pushed by `initDrops` on a surface with at least one column has the
shape the specification gives it. -/
lemma newDrop_shaped (o : Options) (chars : List Char) (columns : ℤ) (random : Nat → ℚ)
    (draws : Nat) (hr : ∀ n, 0 ≤ random n ∧ random n < 1) (hcol : 0 < columns) :
    Shaped o columns (newDrop o chars columns random draws) := by
  obtain ⟨a0, a1⟩ := hr (draws + 3)
  obtain ⟨c0, c1⟩ := hr draws
  have hcq : (0 : ℚ) < (columns : ℚ) := by exact_mod_cast hcol
  have hl0 : (0 : ℤ) ≤ ⌊random (draws + 3) * 15⌋ := Int.floor_nonneg.mpr (by positivity)
  have hl1 : ⌊random (draws + 3) * 15⌋ < 15 := by
    rw [Int.floor_lt]
    push_cast
    linarith
  refine ⟨?_, ?_, ?_, ⌊random draws * columns⌋, ?_, ?_, rfl⟩
  · show (5 : ℤ) ≤ ⌊random (draws + 3) * 15⌋ + 5
    omega
  · show ⌊random (draws + 3) * 15⌋ + 5 ≤ 19
    omega
  · show ((randomChars chars random (⌊random (draws + 3) * 15⌋ + 5).toNat (draws + 5)).length : ℤ) =
      ⌊random (draws + 3) * 15⌋ + 5
    rw [randomChars_length]
    omega
  · exact Int.floor_nonneg.mpr (mul_nonneg c0 (le_of_lt hcq))
  · rw [Int.floor_lt]
    calc random draws * (columns : ℚ) < 1 * (columns : ℚ) := mul_lt_mul_of_pos_right c1 hcq
      _ = (columns : ℚ) := one_mul _

/-- Every drop that the loop of `initDrops` pushes has that shape. -/
lemma initDropsLoop_shaped (o : Options) (chars : List Char) (columns : ℤ) (random : Nat → ℚ)
    (hr : ∀ n, 0 ≤ random n ∧ random n < 1) (hcol : 0 ≤ columns) :
    ∀ (k i draws : Nat) (drops : List Drop), ⌈jsMul columns o.density⌉.toNat - i = k →
      (∀ d ∈ drops, Shaped o columns d) →
      ∀ d ∈ (initDropsLoop o chars columns random i draws drops).1, Shaped o columns d := by
  intro k
  induction k with
  | zero =>
    intro i draws drops hk hall
    rw [initDropsLoop]
    have hno : ¬ ((i : ℚ) < jsMul columns o.density) := by
      intro hlt
      have h1 : (i : ℤ) < ⌈jsMul columns o.density⌉ := by
        rw [Int.lt_ceil]
        exact_mod_cast hlt
      omega
    simp only [hno, if_false]
    exact hall
  | succ k ih =>
    intro i draws drops hk hall
    rw [initDropsLoop]
    have hyes : (i : ℚ) < jsMul columns o.density := by
      have h1 : (i : ℤ) < ⌈jsMul columns o.density⌉ := by omega
      rw [Int.lt_ceil] at h1
      exact_mod_cast h1
    have hpos : 0 < columns := by
      rcases lt_or_eq_of_le hcol with h | h
      · exact h
      · exfalso
        rw [← h] at hyes
        simp only [Int.cast_zero, jsMul, toDouble_zero, zero_mul] at hyes
        have : (0 : ℚ) ≤ (i : ℚ) := Nat.cast_nonneg _
        linarith
    simp only [hyes, if_true]
    refine ih (i + 1) _ _ (by omega) ?_
    intro d hd
    rcases List.mem_append.mp hd with h | h
    · exact hall d h
    · rw [List.mem_singleton] at h
      rw [h]
      exact newDrop_shaped o chars columns random draws hr hpos

/-- The body of the loop over the drops keeps the column, the length, the
opacity base and the number of glyphs of a drop that has glyphs. -/
lemma stepDrop_kept (e : BackgroundAnimation) (d : Drop) (b : Browser)
    (hlen : (d.chars.length : ℤ) = d.length) (hpos : 0 < d.length) :
    Kept d (stepDrop e d b).1 := by
  obtain ⟨-, -, h3, -⟩ := trail_log e d b hlen d.chars.length (le_refl _)
  have hne : ((List.range d.chars.length).foldl (trailStep e d) (d.chars, b)).1 ≠ [] := by
    intro h
    rw [h] at h3
    simp only [List.length_nil] at h3
    omega
  have hset : ∀ c : String,
      (setChar ((List.range d.chars.length).foldl (trailStep e d) (d.chars, b)).1 0 c).length =
        d.chars.length := by
    intro c
    simp only [setChar, hne, and_false, if_false, List.length_set]
    exact h3
  unfold stepDrop Kept
  simp only [Browser.rand, getRandomChar]
  split_ifs
  · exact ⟨rfl, rfl, rfl, hset _⟩
  · exact ⟨rfl, rfl, rfl, hset _⟩

lemma shaped_of_kept (o : Options) (columns : ℤ) (d d' : Drop) (hs : Shaped o columns d)
    (hk : Kept d d') : Shaped o columns d' := by
  obtain ⟨h1, h2, h3, k, h4, h5, h6⟩ := hs
  obtain ⟨k1, k2, -, k4⟩ := hk
  exact ⟨by rw [k2]; exact h1, by rw [k2]; exact h2, by rw [k4, k2]; exact h3, k, h4, h5,
    by rw [k1]; exact h6⟩

lemma stepDrops_kept (e : BackgroundAnimation) (columns : ℤ) (ds : List Drop) :
    ∀ b : Browser, (∀ d ∈ ds, Shaped e.options columns d) →
      List.Forall₂ Kept ds (stepDrops e ds b).1 := by
  induction ds with
  | nil =>
    intro b _
    exact List.Forall₂.nil
  | cons d ds ih =>
    intro b hall
    obtain ⟨h1, -, h3, -⟩ := hall d (List.mem_cons_self _ _)
    exact List.Forall₂.cons (stepDrop_kept e d b h3 (by omega))
      (ih _ (fun x hx => hall x (List.mem_cons_of_mem _ hx)))

/-- Related lists of drops: the shape passes from each drop to its successor. -/
lemma shaped_of_forall₂ (o : Options) (columns : ℤ) :
    ∀ ds ds' : List Drop, List.Forall₂ Kept ds ds' → (∀ d ∈ ds, Shaped o columns d) →
      ∀ d ∈ ds', Shaped o columns d := by
  intro ds ds' h
  induction h with
  | nil => intro _ d hd; cases hd
  | cons hk _ ih =>
    intro hall d hd
    rcases List.mem_cons.mp hd with h | h
    · rw [h]
      exact shaped_of_kept o columns _ _ (hall _ (List.mem_cons_self _ _)) hk
    · exact ih (fun x hx => hall x (List.mem_cons_of_mem _ hx)) d h

/-- A frame changes neither the options nor the canvas of the engine. -/
lemma animate_options (e : BackgroundAnimation) (b : Browser) :
    (animate e b).1.options = e.options ∧ (animate e b).1.canvas = e.canvas := by
  unfold animate
  simp only [Browser.rand]
  split_ifs <;> exact ⟨rfl, rfl⟩

/-- A frame relates every drop to its successor. -/
lemma animate_kept (e : BackgroundAnimation) (b : Browser) (columns : ℤ)
    (hall : ∀ d ∈ e.drops, Shaped e.options columns d) :
    List.Forall₂ Kept e.drops (animate e b).1.drops := by
  by_cases hoff : (e.disabled || e.ctx.isNone) = true
  · have : animate e b = (e, b) := by simp [animate, hoff]
    rw [this]
    exact List.forall₂_same.mpr (fun _ _ => ⟨rfl, rfl, rfl, rfl⟩)
  · have hd : e.disabled = false := by
      cases h : e.disabled
      · rfl
      · simp [h] at hoff
    have hc : e.ctx.isSome = true := by
      cases h : e.ctx with
      | none => simp [h] at hoff
      | some k => rfl
    rw [animate_drops e b hd hc]
    exact stepDrops_kept e columns e.drops _ hall

end BackgroundAnimation

/-- C27: with a positive font size, a surface of width `≥ 0` and draws in
`[0, 1)`, `initDrops()` returns, and every drop it leaves has a length between
5 and 19, as many glyphs as its length, and a horizontal position `k * fontSize`
with `0 ≤ k < columns`, `columns = floor(width / fontSize)`. For every engine
whose drops have that shape, one frame step leaves the number of drops
unchanged, relates each drop to a successor with the same horizontal position,
length, opacity base and number of glyphs, so that the successors have the
shape again, and changes neither the options nor the surface. -/
theorem BackgroundAnimation.frame_keeps_drops (e : BackgroundAnimation) (b : Browser)
    (hr : ∀ n, 0 ≤ b.random n ∧ b.random n < 1) (hf : 0 < e.options.fontSize)
    (hw : 0 ≤ e.canvas.width) :
    ∃ e1 b1, BackgroundAnimation.initDrops e b = Except.ok (e1, b1) ∧
      e1.options = e.options ∧ e1.canvas = e.canvas ∧
      (∀ d ∈ e1.drops, BackgroundAnimation.Shaped e.options
        ⌊e.canvas.width / e.options.fontSize⌋ d) ∧
      ∀ (e2 : BackgroundAnimation) (b2 : Browser) (columns : ℤ),
        (∀ d ∈ e2.drops, BackgroundAnimation.Shaped e2.options columns d) →
          List.Forall₂ BackgroundAnimation.Kept e2.drops
              (BackgroundAnimation.animate e2 b2).1.drops ∧
            (BackgroundAnimation.animate e2 b2).1.drops.length = e2.drops.length ∧
            (∀ d ∈ (BackgroundAnimation.animate e2 b2).1.drops,
              BackgroundAnimation.Shaped e2.options columns d) ∧
            (BackgroundAnimation.animate e2 b2).1.options = e2.options ∧
            (BackgroundAnimation.animate e2 b2).1.canvas = e2.canvas := by
  have hne : e.options.fontSize ≠ 0 := ne_of_gt hf
  have hcol : (0 : ℤ) ≤ ⌊e.canvas.width / e.options.fontSize⌋ :=
    Int.floor_nonneg.mpr (div_nonneg hw (le_of_lt hf))
  refine ⟨{ e with
      drops := (BackgroundAnimation.initDropsLoop e.options e.chars
        ⌊e.canvas.width / e.options.fontSize⌋ b.random 0 b.draws []).1 },
    { b with
      draws := (BackgroundAnimation.initDropsLoop e.options e.chars
        ⌊e.canvas.width / e.options.fontSize⌋ b.random 0 b.draws []).2 }, ?_, rfl, rfl, ?_, ?_⟩
  · simp only [BackgroundAnimation.initDrops, hne, if_false]
  · exact BackgroundAnimation.initDropsLoop_shaped e.options e.chars _ b.random hr hcol _ 0
      b.draws [] rfl (fun d hd => by cases hd)
  · intro e2 b2 columns hall
    have hk := BackgroundAnimation.animate_kept e2 b2 columns hall
    exact ⟨hk, hk.length_eq.symm,
      BackgroundAnimation.shaped_of_forall₂ e2.options columns _ _ hk hall,
      (BackgroundAnimation.animate_options e2 b2).1, (BackgroundAnimation.animate_options e2 b2).2⟩

/-- Witness of C27: the application's engine on its canvas 300 wide, with every
draw equal to `1/2`. -/
theorem BackgroundAnimation.frame_keeps_drops_witness :
    (∀ n, 0 ≤ (Browser.desktop (1 / 2)).random n ∧ (Browser.desktop (1 / 2)).random n < 1) ∧
      0 < BackgroundAnimation.appEngine.options.fontSize ∧
      0 ≤ BackgroundAnimation.appEngine.canvas.width ∧
      ∃ e1 b1, BackgroundAnimation.initDrops BackgroundAnimation.appEngine
          (Browser.desktop (1 / 2)) = Except.ok (e1, b1) ∧
        e1.options = BackgroundAnimation.appEngine.options ∧
        e1.canvas = BackgroundAnimation.appEngine.canvas ∧
        ∀ d ∈ e1.drops, BackgroundAnimation.Shaped BackgroundAnimation.appEngine.options
          ⌊BackgroundAnimation.appEngine.canvas.width /
            BackgroundAnimation.appEngine.options.fontSize⌋ d :=
  have hr : ∀ n, 0 ≤ (Browser.desktop (1 / 2)).random n ∧
      (Browser.desktop (1 / 2)).random n < 1 := fun _ => by
    simp only [Browser.desktop]
    norm_num
  have hfs : (0 : ℚ) < BackgroundAnimation.appEngine.options.fontSize := by
    rw [show BackgroundAnimation.appEngine.options.fontSize = 16 from rfl]
    norm_num
  have hw : (0 : ℚ) ≤ BackgroundAnimation.appEngine.canvas.width := by
    rw [show BackgroundAnimation.appEngine.canvas.width = 300 from rfl]
    norm_num
  have hall := BackgroundAnimation.frame_keeps_drops BackgroundAnimation.appEngine
    (Browser.desktop (1 / 2)) hr hfs hw
  ⟨hr, hfs, hw, hall.imp fun _ he => he.imp fun _ hb => ⟨hb.1, hb.2.1, hb.2.2.1, hb.2.2.2.1⟩⟩

/-! ### One audio context -/

namespace AudioWorld

lemma grows_refl (w : AudioWorld) : Grows w w :=
  ⟨rfl, Or.inl ⟨rfl, rfl⟩⟩

lemma grows_trans {a b c : AudioWorld} (h1 : Grows a b) (h2 : Grows b c) : Grows a c := by
  obtain ⟨s1, g1⟩ := h1
  obtain ⟨s2, g2⟩ := h2
  refine ⟨s2.trans s1, ?_⟩
  rcases g1 with ⟨e1, c1⟩ | ⟨i1, j1, k1, c1⟩
  · rcases g2 with ⟨e2, c2⟩ | ⟨i2, j2, k2, c2⟩
    · exact Or.inl ⟨e2.trans e1, c2.trans c1⟩
    · exact Or.inr ⟨by rw [← e1]; exact i2, j2, k2, by rw [c2, c1]⟩
  · rcases g2 with ⟨e2, c2⟩ | ⟨i2, j2, k2, c2⟩
    · exact Or.inr ⟨i1, by rw [e2]; exact j1, by rw [e2]; exact k1, by rw [c2, c1]⟩
    · rw [j1] at i2
      cases i2

/-- The host calls of a tone create no context, however far they get. -/
lemma attempt_contexts (throws : Nat → Bool) :
    ∀ (es log : List AudioEvent), contextsCreated es = 0 →
      contextsCreated (AudioGenerator.attempt throws log es).1 = contextsCreated log := by
  intro es
  induction es with
  | nil => intro log _; rfl
  | cons e es ih =>
    intro log hes
    have hsplit : contextsCreated ([e] ++ es) = 0 := hes
    rw [contextsCreated_append] at hsplit
    have h1 : contextsCreated [e] = 0 := by omega
    have h2 : contextsCreated es = 0 := by omega
    simp only [AudioGenerator.attempt]
    split_ifs
    · rfl
    · rw [ih (log ++ [e]) h2, contextsCreated_append, h1]
      rfl

lemma toneCalls_contexts (ctx osc gain : Nat) (now : ℚ) (t : ToneSpec) :
    contextsCreated (AudioGenerator.toneCalls ctx osc gain now t) = 0 := by
  simp [AudioGenerator.toneCalls, contextsCreated]

lemma resolveNow_grows (w : AudioWorld) (next : List SoundOptions) :
    Grows w (AudioGenerator.resolveNow w next).1 := by
  unfold AudioGenerator.resolveNow
  split_ifs
  · exact grows_refl w
  · exact ⟨rfl, Or.inl ⟨rfl, rfl⟩⟩

/-- The guard of the effect methods creates a context only on a generator that
is not initialised, and then exactly one. -/
lemma ensureInit_grows (h : AudioHost) (w : AudioWorld) :
    Grows w (AudioGenerator.ensureInit h w).1 := by
  unfold AudioGenerator.ensureInit
  cases hi : w.gen.initialized
  · simp only [Bool.false_eq_true, if_false]
    unfold AudioGenerator.init
    split_ifs
    · exact grows_refl w
    · exact grows_refl w
    · exact ⟨rfl, Or.inl ⟨rfl, by simp [contextsCreated_append, contextsCreated]⟩⟩
    · exact ⟨rfl, Or.inr ⟨hi, rfl, rfl, by simp [contextsCreated_append, contextsCreated]⟩⟩
  · simp only [if_true]
    exact grows_refl w

lemma schedule_grows (h : AudioHost) (w : AudioWorld) (t : ToneSpec)
    (next : List SoundOptions) : Grows w (AudioGenerator.schedule h w t next).1 := by
  have hcaught : ∀ log : List AudioEvent, contextsCreated log = contextsCreated w.log →
      Grows w (AudioGenerator.resolveNow
        { w with
          nextId := w.nextId + 2
          log := log ++ [AudioEvent.consoleError "Error generating sound:"] } next).1 := by
    intro log hlog
    have h1 : Grows w
        { w with
          nextId := w.nextId + 2
          log := log ++ [AudioEvent.consoleError "Error generating sound:"] } :=
      ⟨rfl, Or.inl ⟨rfl, by simp [contextsCreated_append, contextsCreated, hlog]⟩⟩
    exact grows_trans h1 (resolveNow_grows _ next)
  have hentered : contextsCreated (w.log ++
      [AudioEvent.generateSound t.type t.frequency t.duration t.volume t.attack t.decay
        t.detune]) = contextsCreated w.log := by
    simp [contextsCreated_append, contextsCreated]
  unfold AudioGenerator.schedule
  cases hctx : w.gen.context with
  | none => exact hcaught _ hentered
  | some ctx =>
    have hlog := attempt_contexts h.nodeThrows
      (AudioGenerator.toneCalls ctx w.nextId (w.nextId + 1) w.currentTime t)
      (w.log ++ [AudioEvent.generateSound t.type t.frequency t.duration t.volume t.attack
        t.decay t.detune]) (toneCalls_contexts _ _ _ _ _)
    rw [hentered] at hlog
    simp only []
    rcases hat : AudioGenerator.attempt h.nodeThrows
      (w.log ++ [AudioEvent.generateSound t.type t.frequency t.duration t.volume t.attack
        t.decay t.detune])
      (AudioGenerator.toneCalls ctx w.nextId (w.nextId + 1) w.currentTime t) with ⟨log, ok⟩
    rw [hat] at hlog
    cases ok
    · exact hcaught log hlog
    · exact ⟨rfl, Or.inl ⟨rfl, hlog⟩⟩

lemma generateSound_grows (h : AudioHost) (w : AudioWorld) (o : SoundOptions)
    (next : List SoundOptions) : Grows w (AudioGenerator.generateSound h w o next).1 := by
  unfold AudioGenerator.generateSound
  rcases he : AudioGenerator.ensureInit h w with ⟨w1, ok⟩
  have hg : Grows w w1 := by
    have := ensureInit_grows h w
    rw [he] at this
    exact this
  cases ok
  · exact grows_trans hg (resolveNow_grows _ _)
  · exact grows_trans hg (schedule_grows _ _ _ _)

/-- An effect method: its guard, random draws, then `generateSound`. -/
lemma guarded_grows (h : AudioHost) (w : AudioWorld) (draws : Nat)
    (o : AudioWorld → SoundOptions) (next : List SoundOptions) :
    Grows w (match AudioGenerator.ensureInit h w with
      | (w1, false) => (w1, PromiseState.fulfilled)
      | (w1, true) =>
        AudioGenerator.generateSound h { w1 with draws := w1.draws + draws } (o w1) next).1 := by
  rcases he : AudioGenerator.ensureInit h w with ⟨w1, ok⟩
  have hg : Grows w w1 := by
    have := ensureInit_grows h w
    rw [he] at this
    exact this
  cases ok
  · exact hg
  · have hd : Grows w1 { w1 with draws := w1.draws + draws } := ⟨rfl, Or.inl ⟨rfl, rfl⟩⟩
    exact grows_trans hg (grows_trans hd (generateSound_grows _ _ _ _))

lemma typing_grows (h : AudioHost) (w : AudioWorld) : Grows w (AudioGenerator.typing h w).1 :=
  guarded_grows h w 2 _ _

lemma click_grows (h : AudioHost) (w : AudioWorld) : Grows w (AudioGenerator.click h w).1 :=
  guarded_grows h w 2 _ _

lemma enter_grows (h : AudioHost) (w : AudioWorld) : Grows w (AudioGenerator.enter h w).1 :=
  guarded_grows h w 0 _ _

lemma error_grows (h : AudioHost) (w : AudioWorld) : Grows w (AudioGenerator.error h w).1 :=
  guarded_grows h w 0 _ _

lemma startup_grows (h : AudioHost) (w : AudioWorld) : Grows w (AudioGenerator.startup h w).1 :=
  guarded_grows h w 0 _ _

end AudioWorld

namespace AudioWorld

/-- Code of the generator that runs once the sound manager is initialised
keeps the invariant. -/
lemma oneContext_of_grows (w w' : AudioWorld) (hw : OneContext w)
    (hs : w.sfx.initialized = true) (hg : Grows w w') : OneContext w' := by
  obtain ⟨-, h2, h3⟩ := hw
  obtain ⟨hsfx, hgen⟩ := hg
  refine ⟨fun h => ?_, ?_, ?_⟩
  · rw [hsfx, hs] at h
    cases h
  · intro hi
    rcases hgen with ⟨e, c⟩ | ⟨-, j, -, -⟩
    · rw [c]
      exact h2 (by rw [← e]; exact hi)
    · rw [j] at hi
      cases hi
  · intro hi
    rcases hgen with ⟨e, c⟩ | ⟨i, -, k, c⟩
    · rw [c, e]
      exact h3 (by rw [← e]; exact hi)
    · exact ⟨by rw [c, h2 i], k⟩

/-- The flag `enabled` plays no part in the invariant. -/
lemma oneContext_enabled (w : AudioWorld) (flag : Bool) (hw : OneContext w) :
    OneContext { w with sfx := { w.sfx with enabled := flag } } :=
  hw

lemma init_oneContext (h : AudioHost) (w : AudioWorld) (hw : OneContext w) :
    OneContext (SoundEffects.init h w) := by
  unfold SoundEffects.init
  split_ifs with hc
  · exact hw
  · have hs : w.sfx.initialized = false := by
      cases hi : w.sfx.initialized
      · rfl
      · simp [hi] at hc
    obtain ⟨h1, h2, h3⟩ := hw
    obtain ⟨g1, -, -⟩ := h1 hs
    have hw' : OneContext { w with sfx := { w.sfx with initialized := true } } :=
      ⟨fun h => (by cases h), h2, h3⟩
    have hgrow := ensureInit_grows h { w with sfx := { w.sfx with initialized := true } }
    have he : AudioGenerator.ensureInit h { w with sfx := { w.sfx with initialized := true } } =
        AudioGenerator.init h { w with sfx := { w.sfx with initialized := true } } := by
      simp [AudioGenerator.ensureInit, g1]
    rw [he] at hgrow
    exact oneContext_of_grows _ _ hw' rfl hgrow

lemma play_oneContext (h : AudioHost) (w : AudioWorld) (name : String) (hw : OneContext w) :
    OneContext (SoundEffects.play h w name) := by
  unfold SoundEffects.play
  by_cases hc : (!w.sfx.enabled || !w.sfx.initialized) = true
  · rw [if_pos hc]
    exact hw
  · rw [if_neg hc]
    have hs : w.sfx.initialized = true := by
      cases hi : w.sfx.initialized
      · simp [hi] at hc
      · rfl
    have hwarn : Grows w
        { w with log := w.log ++ [AudioEvent.consoleWarn ("Sound '" ++ name ++ "' not found")] } :=
      ⟨rfl, Or.inl ⟨rfl, by simp [contextsCreated_append, contextsCreated]⟩⟩
    split_ifs
    · exact oneContext_of_grows _ _ hw hs (typing_grows h w)
    · exact oneContext_of_grows _ _ hw hs (enter_grows h w)
    · exact oneContext_of_grows _ _ hw hs (error_grows h w)
    · exact oneContext_of_grows _ _ hw hs (startup_grows h w)
    · exact oneContext_of_grows _ _ hw hs (click_grows h w)
    · exact oneContext_of_grows _ _ hw hs hwarn

lemma onended_oneContext (w : AudioWorld) (osc : Nat) (hw : OneContext w) :
    OneContext (w.onended osc) := by
  unfold onended
  cases hf : w.waiting.find? (fun p => p.osc == osc) with
  | none => exact hw
  | some p =>
    have hs : w.sfx.initialized = true := by
      cases hi : w.sfx.initialized
      · obtain ⟨-, hwait, -⟩ := hw.1 hi
        rw [hwait] at hf
        cases hf
      · rfl
    have h1 : Grows w
        { w with
          log := w.log ++ [AudioEvent.onended osc, AudioEvent.disconnectOscillator osc,
            AudioEvent.disconnectGain p.gain]
          waiting := w.waiting.filter (fun q => q.osc != osc) } :=
      ⟨rfl, Or.inl ⟨rfl, by simp [contextsCreated_append, contextsCreated]⟩⟩
    exact oneContext_of_grows _ _ hw hs (grows_trans h1 (resolveNow_grows _ _))

lemma runMicrotask_oneContext (h : AudioHost) (w : AudioWorld) (hw : OneContext w) :
    OneContext (w.runMicrotask h) := by
  have hs : w.microtasks ≠ [] → w.sfx.initialized = true := by
    intro hne
    cases hi : w.sfx.initialized
    · exact absurd (hw.1 hi).2.2 hne
    · rfl
  unfold runMicrotask
  split
  · exact hw
  · rename_i later hm
    exact oneContext_of_grows _ _ hw (hs (by rw [hm]; simp)) ⟨rfl, Or.inl ⟨rfl, rfl⟩⟩
  · rename_i o next later hm
    have h1 : Grows w { w with microtasks := later } := ⟨rfl, Or.inl ⟨rfl, rfl⟩⟩
    exact oneContext_of_grows _ _ hw (hs (by rw [hm]; simp))
      (grows_trans h1 (generateSound_grows _ _ _ _))

/-- Every call and every event keeps the invariant. -/
lemma call_oneContext (w : AudioWorld) (c : AudioHost × SoundCall) (hw : OneContext w) :
    OneContext (w.call c) := by
  obtain ⟨h, op⟩ := c
  cases op with
  | init => exact init_oneContext h w hw
  | enable => exact init_oneContext h _ (oneContext_enabled w true hw)
  | disable => exact oneContext_enabled w false hw
  | toggle =>
    simp only [call, SoundEffects.toggle]
    split_ifs
    · exact init_oneContext h _ (oneContext_enabled w _ hw)
    · exact oneContext_enabled w _ hw
  | play name => exact play_oneContext h w name hw
  | host event =>
    cases event with
    | ended osc => exact onended_oneContext w osc hw
    | microtask => exact runMicrotask_oneContext h w hw
    | advance dt => exact hw

lemma calls_oneContext (cs : List (AudioHost × SoundCall)) :
    ∀ w : AudioWorld, OneContext w → OneContext (w.calls cs) := by
  induction cs with
  | nil => intro w hw; exact hw
  | cons c cs ih =>
    intro w hw
    exact ih _ (call_oneContext w c hw)

/-- A call or event never takes back what is initialised. -/
lemma call_keeps (w : AudioWorld) (c : AudioHost × SoundCall) (hw : OneContext w) :
    (w.sfx.initialized = true → (w.call c).sfx.initialized = true) ∧
      (w.gen.initialized = true → (w.call c).gen = w.gen) := by
  have hgrow : ∀ w' : AudioWorld, Grows w w' →
      (w.sfx.initialized = true → w'.sfx.initialized = true) ∧
        (w.gen.initialized = true → w'.gen = w.gen) := by
    intro w' hg
    obtain ⟨hsfx, hgen⟩ := hg
    refine ⟨fun h => by rw [hsfx]; exact h, fun h => ?_⟩
    rcases hgen with ⟨e, -⟩ | ⟨i, -, -, -⟩
    · exact e
    · rw [h] at i
      cases i
  have hinit : ∀ (h : AudioHost) (v : AudioWorld), v.gen = w.gen →
      v.sfx.initialized = w.sfx.initialized →
      (w.sfx.initialized = true → (SoundEffects.init h v).sfx.initialized = true) ∧
        (w.gen.initialized = true → (SoundEffects.init h v).gen = w.gen) := by
    intro h v hg hs
    unfold SoundEffects.init
    split_ifs with hc
    · exact ⟨fun hi => by rw [hs]; exact hi, fun _ => hg⟩
    · have hsf : w.sfx.initialized = false := by
        cases hi : w.sfx.initialized
        · rfl
        · rw [← hs] at hi
          simp [hi] at hc
      have hgf : w.gen.initialized = false := (hw.1 hsf).1
      refine ⟨fun hi => ?_, fun hi => ?_⟩
      · rw [hsf] at hi
        cases hi
      · rw [hgf] at hi
        cases hi
  obtain ⟨h, op⟩ := c
  cases op with
  | init => exact hinit h w rfl rfl
  | enable => exact hinit h _ rfl rfl
  | disable => exact ⟨fun hi => hi, fun _ => rfl⟩
  | toggle =>
    simp only [call, SoundEffects.toggle]
    split_ifs
    · exact hinit h _ rfl rfl
    · exact ⟨fun hi => hi, fun _ => rfl⟩
  | play name =>
    simp only [call, SoundEffects.play]
    split_ifs
    · exact ⟨fun hi => hi, fun _ => rfl⟩
    · exact hgrow _ (typing_grows h w)
    · exact hgrow _ (enter_grows h w)
    · exact hgrow _ (error_grows h w)
    · exact hgrow _ (startup_grows h w)
    · exact hgrow _ (click_grows h w)
    · exact ⟨fun hi => hi, fun _ => rfl⟩
  | host event =>
    cases event with
    | ended osc =>
      simp only [call, deliver, onended]
      cases hf : w.waiting.find? (fun p => p.osc == osc) with
      | none => exact ⟨fun hi => hi, fun _ => rfl⟩
      | some p =>
        have h1 : Grows w
            { w with
              log := w.log ++ [AudioEvent.onended osc, AudioEvent.disconnectOscillator osc,
                AudioEvent.disconnectGain p.gain]
              waiting := w.waiting.filter (fun q => q.osc != osc) } :=
          ⟨rfl, Or.inl ⟨rfl, by simp [contextsCreated_append, contextsCreated]⟩⟩
        exact hgrow _ (grows_trans h1 (resolveNow_grows _ _))
    | microtask =>
      simp only [call, deliver, runMicrotask]
      split
      · exact ⟨fun hi => hi, fun _ => rfl⟩
      · exact ⟨fun hi => hi, fun _ => rfl⟩
      · rename_i o next later hm
        have h1 : Grows w { w with microtasks := later } := ⟨rfl, Or.inl ⟨rfl, rfl⟩⟩
        exact hgrow _ (grows_trans h1 (generateSound_grows _ _ _ _))
    | advance dt => exact ⟨fun hi => hi, fun _ => rfl⟩

end AudioWorld

/-- C28: over every sequence of `SoundEffects` calls (`init`, `enable`,
`disable`, `toggle`, `play` with any name) and browser events, on hosts that
may differ from call to call, starting from the freshly loaded module: at most
one audio context is created, and it is created exactly when the generator
becomes initialised; `SoundEffects.init()` does nothing once its flag is set, so
it calls `audioGenerator.init()` at most once; the guard of the effect methods
calls `init()` only while the generator is not initialised; and no call or
event, `disable()` and `toggle()` included, clears a flag that is set or
changes the context that an initialised generator holds. -/
theorem SoundEffects.one_context (cs : List (AudioHost × SoundCall)) :
    contextsCreated (AudioWorld.initial.calls cs).log ≤ 1 ∧
      ((AudioWorld.initial.calls cs).gen.initialized = true →
        contextsCreated (AudioWorld.initial.calls cs).log = 1 ∧
          (AudioWorld.initial.calls cs).gen.context.isSome = true) ∧
      ((AudioWorld.initial.calls cs).gen.initialized = false →
        contextsCreated (AudioWorld.initial.calls cs).log = 0) ∧
      (∀ (h : AudioHost) (w : AudioWorld), w.sfx.initialized = true →
        SoundEffects.init h w = w) ∧
      (∀ (h : AudioHost) (w : AudioWorld), w.gen.initialized = true →
        AudioGenerator.ensureInit h w = (w, true)) ∧
      ∀ c : AudioHost × SoundCall,
        ((AudioWorld.initial.calls cs).sfx.initialized = true →
          ((AudioWorld.initial.calls cs).call c).sfx.initialized = true) ∧
        ((AudioWorld.initial.calls cs).gen.initialized = true →
          ((AudioWorld.initial.calls cs).call c).gen = (AudioWorld.initial.calls cs).gen) := by
  have h0 : AudioWorld.OneContext AudioWorld.initial :=
    ⟨fun _ => ⟨rfl, rfl, rfl⟩, fun _ => rfl, fun h => by cases h⟩
  have hinv := AudioWorld.calls_oneContext cs AudioWorld.initial h0
  refine ⟨?_, hinv.2.2, hinv.2.1, ?_, ?_, fun c => AudioWorld.call_keeps _ c hinv⟩
  · cases hi : (AudioWorld.initial.calls cs).gen.initialized
    · rw [hinv.2.1 hi]
      exact Nat.zero_le 1
    · rw [(hinv.2.2 hi).1]
  · intro h w hs
    simp [SoundEffects.init, hs]
  · intro h w hi
    exact AudioGenerator.ensureInit_of_initialized h w hi

/-- Witness of C28: in a desktop browser, the manager is enabled, plays the
startup sound, is initialised again, toggled twice and plays the error sound:
one context. -/
theorem SoundEffects.one_context_witness :
    contextsCreated (AudioWorld.initial.calls
        [(AudioHost.browser, SoundCall.enable), (AudioHost.browser, SoundCall.play "startup"),
          (AudioHost.browser, SoundCall.init), (AudioHost.browser, SoundCall.toggle),
          (AudioHost.browser, SoundCall.toggle),
          (AudioHost.browser, SoundCall.play "error")]).log ≤ 1 ∧
      (AudioWorld.initial.calls
        [(AudioHost.browser, SoundCall.enable), (AudioHost.browser, SoundCall.play "startup"),
          (AudioHost.browser, SoundCall.init), (AudioHost.browser, SoundCall.toggle),
          (AudioHost.browser, SoundCall.toggle),
          (AudioHost.browser, SoundCall.play "error")]).gen.initialized = true :=
  ⟨(SoundEffects.one_context
      [(AudioHost.browser, SoundCall.enable), (AudioHost.browser, SoundCall.play "startup"),
        (AudioHost.browser, SoundCall.init), (AudioHost.browser, SoundCall.toggle),
        (AudioHost.browser, SoundCall.toggle),
        (AudioHost.browser, SoundCall.play "error")]).1, rfl⟩

/-! ### Symmetry of the contrast check -/

lemma contrastRatio_comm (l1 l2 : ℚ) : contrastRatio l1 l2 = contrastRatio l2 l1 := by
  unfold contrastRatio
  rw [max_comm, min_comm]

lemma calculateLuminance_nonneg (pow : ℚ → ℚ → ℚ) (hpos : ∀ x, 0 ≤ pow x 2.4)
    (color : String) : 0 ≤ calculateLuminance pow color := by
  cases h : hexToRgb color with
  | none => simp [calculateLuminance, h]
  | some c =>
    rw [calculateLuminance_valid pow color c h]
    exact wcagLuminance_nonneg pow hpos c

/-- C29: for all strings `a` and `b`, valid colours or not,
`checkColorContrast(a, b)` and `checkColorContrast(b, a)` return the same
object, and `passesAAA` implies `passesAA`; when `Math.pow` never returns a
negative number for the exponent 2.4, the quotient of line 126 is at least 1
and `ratio` is that quotient printed with two decimals. -/
theorem checkColorContrast_symmetric (pow : ℚ → ℚ → ℚ) (a b : String)
    (hpos : ∀ x, 0 ≤ pow x 2.4) :
    checkColorContrast pow a b = checkColorContrast pow b a ∧
      ((checkColorContrast pow a b).passesAAA = true →
        (checkColorContrast pow a b).passesAA = true) ∧
      1 ≤ contrastRatio (calculateLuminance pow a) (calculateLuminance pow b) ∧
      (checkColorContrast pow a b).ratio =
        toFixed2 (contrastRatio (calculateLuminance pow a) (calculateLuminance pow b)) := by
  have ha := calculateLuminance_nonneg pow hpos a
  have hb := calculateLuminance_nonneg pow hpos b
  have hden := denominator_ne_zero _ _ ha hb
  have hdpos : 0 < min (calculateLuminance pow a) (calculateLuminance pow b) + 0.05 := by
    have hm : 0 ≤ min (calculateLuminance pow a) (calculateLuminance pow b) := le_min ha hb
    have h5 : (0 : ℚ) < 0.05 := by norm_num
    linarith
  refine ⟨?_, ?_, ?_, ?_⟩
  · simp only [checkColorContrast]
    rw [min_comm (calculateLuminance pow a), max_comm (calculateLuminance pow a),
      contrastRatio_comm (calculateLuminance pow a)]
  · simp only [checkColorContrast, hden, if_false, decide_eq_true_eq]
    intro h7
    have : (4.5 : ℚ) ≤ 7 := by norm_num
    exact le_trans this h7
  · unfold contrastRatio
    rw [one_le_div hdpos]
    have : min (calculateLuminance pow a) (calculateLuminance pow b) ≤
        max (calculateLuminance pow a) (calculateLuminance pow b) := min_le_max
    linarith
  · simp only [checkColorContrast, hden, if_false]

/-- Witness of C29: green and black, with the squaring stand-in for `Math.pow`. -/
theorem checkColorContrast_symmetric_witness :
    (∀ x, 0 ≤ powStandIn x 2.4) ∧
      checkColorContrast powStandIn "#00FF00" "#000000" =
        checkColorContrast powStandIn "#000000" "#00FF00" ∧
      1 ≤ contrastRatio (calculateLuminance powStandIn "#00FF00")
        (calculateLuminance powStandIn "#000000") :=
  ⟨powStandIn_nonneg,
    (checkColorContrast_symmetric powStandIn "#00FF00" "#000000" powStandIn_nonneg).1,
    (checkColorContrast_symmetric powStandIn "#00FF00" "#000000" powStandIn_nonneg).2.2.1⟩
